import Mathlib

/-!
Verification of the procedural map-generation subsystem of a tile-based
roguelike.  The Python source (package `roguelike.mapgen`) is shallowly
embedded: the mutable terrain grid becomes an immutable `Grid` value that
operations return updated, and every call to the process-global random
source is replaced by a draw from an explicit oracle (`Oracle`), so each
generator becomes a pure function of its oracle.  `random.random() < p`
with `0 < p < 1` becomes a Bool draw, `random.randint(a, b)` becomes
`a + n % (b - a + 1)` for an oracle-supplied `n` (every value in `[a, b]`
is realizable), and `random.choice` on a list becomes indexing by an
oracle-supplied index modulo the length.
-/

namespace Roguelike

/-- Terrain grid: `terrain_grid` is a row-major list of rows of tile-kind
strings, together with the generator's `width`/`height` fields
(`MapGenerator.__init__` in `mapgen/base.py`). -/
structure Grid where
  width : Nat
  height : Nat
  cells : List (List String)
deriving Repr, DecidableEq

/-- `MapGenerator.__init__`: grid of the given size filled with "floor". -/
def Grid.init (width height : Nat) : Grid :=
  ⟨width, height, List.replicate height (List.replicate width "floor")⟩

/-- Bounds test `0 <= x < self.width and 0 <= y < self.height` used by
`set_tile` and `get_tile`.  Coordinates are `Int` because the Python code
freely passes negative coordinates (e.g. neighbours in `flood_fill`). -/
def Grid.inBounds (g : Grid) (x y : Int) : Prop :=
  0 ≤ x ∧ x < g.width ∧ 0 ≤ y ∧ y < g.height

instance (g : Grid) (x y : Int) : Decidable (g.inBounds x y) := by
  unfold Grid.inBounds; infer_instance

/-- `MapGenerator.set_tile`: writes the cell when in bounds, otherwise a
no-op. -/
def Grid.setTile (g : Grid) (x y : Int) (t : String) : Grid :=
  if g.inBounds x y then
    { g with cells := g.cells.set y.toNat ((g.cells.getD y.toNat []).set x.toNat t) }
  else g

/-- `MapGenerator.get_tile`: reads the cell when in bounds, otherwise
returns the sentinel "wall". -/
def Grid.getTile (g : Grid) (x y : Int) : String :=
  if g.inBounds x y then (g.cells.getD y.toNat []).getD x.toNat "wall"
  else "wall"

/-- `MapGenerator.is_blocked`: the tile kind is one of wall/water/trees. -/
def Grid.isBlocked (g : Grid) (x y : Int) : Prop :=
  g.getTile x y ∈ ["wall", "water", "trees"]

instance (g : Grid) (x y : Int) : Decidable (g.isBlocked x y) := by
  unfold Grid.isBlocked; infer_instance

/-- Boolean form of `is_blocked`, used inside executable definitions. -/
def Grid.isBlockedB (g : Grid) (x y : Int) : Bool :=
  decide (g.isBlocked x y)

/-- Well-formedness of the cell buffer: `height` rows of `width` cells.
Python's list-of-lists grid has this shape by construction. -/
def Grid.WF (g : Grid) : Prop :=
  g.cells.length = g.height ∧ ∀ row ∈ g.cells, row.length = g.width

/-- Python's `range(a, b)` as a list of `Int`. -/
def intRange (a b : Int) : List Int :=
  (List.range (b - a).toNat).map (fun (i : Nat) => a + (i : Int))

theorem mem_intRange {a b x : Int} : x ∈ intRange a b ↔ a ≤ x ∧ x < b := by
  unfold intRange
  rw [List.mem_map]
  constructor
  · rintro ⟨i, hi, rfl⟩
    rw [List.mem_range] at hi
    omega
  · rintro ⟨h1, h2⟩
    refine ⟨(x - a).toNat, ?_, by omega⟩
    rw [List.mem_range]
    omega

theorem getD_mem_of_lt {α : Type} (l : List α) (i : Nat) (d : α) (h : i < l.length) :
    l.getD i d ∈ l := by
  induction l generalizing i with
  | nil => simp at h
  | cons x xs ih =>
    cases i with
    | zero => exact List.mem_cons_self _ _
    | succ n => exact List.mem_cons_of_mem _ (ih n (by simpa using h))

theorem getD_set_eq {α : Type} (l : List α) (i : Nat) (a d : α) (h : i < l.length) :
    (l.set i a).getD i d = a := by
  induction l generalizing i with
  | nil => simp at h
  | cons x xs ih =>
    cases i with
    | zero => rfl
    | succ n => simpa using ih n (by simpa using h)

theorem getD_set_ne {α : Type} (l : List α) {i j : Nat} (a : α) (d : α) (h : i ≠ j) :
    (l.set i a).getD j d = l.getD j d := by
  induction l generalizing i j with
  | nil => simp [List.set]
  | cons x xs ih =>
    cases i with
    | zero =>
      cases j with
      | zero => exact absurd rfl h
      | succ m => rfl
    | succ n =>
      cases j with
      | zero => rfl
      | succ m => simpa using ih (by omega : n ≠ m)

namespace Grid

theorem width_setTile (g : Grid) (x y : Int) (t : String) : (g.setTile x y t).width = g.width := by
  unfold setTile; split <;> rfl

theorem height_setTile (g : Grid) (x y : Int) (t : String) :
    (g.setTile x y t).height = g.height := by
  unfold setTile; split <;> rfl

theorem inBounds_setTile {g : Grid} {a b x y : Int} (t : String) :
    (g.setTile a b t).inBounds x y ↔ g.inBounds x y := by
  unfold setTile inBounds
  split <;> rfl

theorem WF_setTile {g : Grid} (wf : g.WF) (x y : Int) (t : String) : (g.setTile x y t).WF := by
  unfold setTile
  split
  · rename_i hin
    obtain ⟨hlen, hrow⟩ := wf
    refine ⟨by simpa using hlen, ?_⟩
    intro row hr
    rcases List.mem_or_eq_of_mem_set hr with hmem | heq
    · exact hrow row hmem
    · subst heq
      rw [List.length_set]
      have hy : y.toNat < g.cells.length := by
        obtain ⟨-, -, hy0, hyh⟩ := hin
        omega
      exact hrow _ (getD_mem_of_lt _ _ _ hy)
  · exact wf

theorem WF.rowLen {g : Grid} (wf : g.WF) {y : Int} (hy0 : 0 ≤ y) (hyh : y < g.height) :
    (g.cells.getD y.toNat []).length = g.width := by
  obtain ⟨hlen, hrow⟩ := wf
  exact hrow _ (getD_mem_of_lt _ _ _ (by omega))

theorem getTile_out {g : Grid} {x y : Int} (h : ¬ g.inBounds x y) : g.getTile x y = "wall" := by
  unfold getTile
  simp [h]

theorem setTile_out {g : Grid} {x y : Int} (h : ¬ g.inBounds x y) (t : String) :
    g.setTile x y t = g := by
  unfold setTile
  simp [h]

theorem getTile_setTile_self {g : Grid} (wf : g.WF) {x y : Int} (hin : g.inBounds x y)
    (t : String) : (g.setTile x y t).getTile x y = t := by
  obtain ⟨hx0, hxw, hy0, hyh⟩ := hin
  have hy : y.toNat < g.cells.length := by
    obtain ⟨hlen, -⟩ := wf; omega
  have hrowlen : (g.cells.getD y.toNat []).length = g.width := wf.rowLen hy0 hyh
  have hin' : g.inBounds x y := ⟨hx0, hxw, hy0, hyh⟩
  unfold setTile getTile
  simp only [hin', if_true]
  have hin2 : Grid.inBounds { g with cells := g.cells.set y.toNat ((g.cells.getD y.toNat []).set x.toNat t) } x y := hin'
  simp only [hin2, if_true]
  rw [getD_set_eq _ _ _ _ hy, getD_set_eq]
  rw [hrowlen]; omega

theorem getTile_setTile_ne {g : Grid} (wf : g.WF) {a b x y : Int} (h : ¬ (a = x ∧ b = y))
    (t : String) : (g.setTile a b t).getTile x y = g.getTile x y := by
  by_cases hab : g.inBounds a b
  · by_cases hxy : g.inBounds x y
    · have hxy2 : Grid.inBounds { g with cells := g.cells.set b.toNat ((g.cells.getD b.toNat []).set a.toNat t) } x y := hxy
      unfold setTile getTile
      simp only [hab, if_true, hxy, hxy2, if_true]
      obtain ⟨ha0, haw, hb0, hbh⟩ := hab
      obtain ⟨hx0, hxw, hy0, hyh⟩ := hxy
      by_cases hrowc : b.toNat = y.toNat
      · have hby : b = y := by omega
        have hax : a ≠ x := fun hax => h ⟨hax, hby⟩
        have hy : y.toNat < g.cells.length := by
          obtain ⟨hlen, -⟩ := wf; omega
        rw [hrowc, getD_set_eq _ _ _ _ hy,
          getD_set_ne _ _ _ (by omega : a.toNat ≠ x.toNat)]
      · rw [getD_set_ne _ _ _ hrowc]
    · have hxy2 : ¬ (g.setTile a b t).inBounds x y := by
        rw [inBounds_setTile]; exact hxy
      rw [getTile_out hxy2, getTile_out hxy]
  · rw [setTile_out hab]

/-- Full characterization of `get_tile` after `set_tile`. -/
theorem getTile_setTile {g : Grid} (wf : g.WF) (a b : Int) (t : String) (x y : Int) :
    (g.setTile a b t).getTile x y =
      if a = x ∧ b = y ∧ g.inBounds x y then t else g.getTile x y := by
  split
  · rename_i hc
    obtain ⟨rfl, rfl, hin⟩ := hc
    exact getTile_setTile_self wf hin t
  · rename_i hc
    by_cases hin : g.inBounds x y
    · exact getTile_setTile_ne wf (fun hx => hc ⟨hx.1, hx.2, hin⟩) t
    · have hxy2 : ¬ (g.setTile a b t).inBounds x y := by
        rw [inBounds_setTile]; exact hin
      rw [getTile_out hxy2, getTile_out hin]

end Grid

/-- A predicate preserved by every step of a fold is preserved by the fold. -/
theorem foldl_preserves {α : Type} (P : Grid → Prop) (f : Grid → α → Grid)
    (hf : ∀ gr a, P gr → P (f gr a)) (l : List α) (g : Grid) (hg : P g) :
    P (l.foldl f g) := by
  induction l generalizing g with
  | nil => exact hg
  | cons a l ih => exact ih _ (hf _ _ hg)

/-- The dimensions-and-well-formedness invariant carried through every
generator loop. -/
def Grid.Inv (w h : Nat) (g : Grid) : Prop :=
  g.WF ∧ g.width = w ∧ g.height = h

theorem Grid.Inv.setTile {w h : Nat} {g : Grid} (hg : g.Inv w h) (x y : Int) (t : String) :
    (g.setTile x y t).Inv w h :=
  ⟨Grid.WF_setTile hg.1 x y t, by rw [Grid.width_setTile]; exact hg.2.1,
    by rw [Grid.height_setTile]; exact hg.2.2⟩

namespace Grid

/-- `MapGenerator.add_border_walls`: two passes of `set_tile` forcing the
outer ring to "wall". -/
def addBorderWalls (g : Grid) : Grid :=
  let g1 := (intRange 0 g.width).foldl
    (fun gr x => (gr.setTile x 0 "wall").setTile x ((g.height : Int) - 1) "wall") g
  (intRange 0 g.height).foldl
    (fun gr y => (gr.setTile 0 y "wall").setTile ((g.width : Int) - 1) y "wall") g1

theorem getTile_borderRowsLoop (w h : Nat) (xs : List Int) (g : Grid)
    (hg : g.Inv w h) (x y : Int) :
    ((xs.foldl (fun gr x => (gr.setTile x 0 "wall").setTile x ((h : Int) - 1) "wall") g).getTile x y
      = if x ∈ xs ∧ (y = 0 ∨ y = (h : Int) - 1) ∧ g.inBounds x y then "wall" else g.getTile x y)
    ∧ (xs.foldl (fun gr x => (gr.setTile x 0 "wall").setTile x ((h : Int) - 1) "wall") g).Inv w h := by
  induction xs generalizing g with
  | nil => exact ⟨by simp, hg⟩
  | cons a l ih =>
    simp only [List.foldl_cons]
    have hstep : ((g.setTile a 0 "wall").setTile a ((h : Int) - 1) "wall").Inv w h :=
      (hg.setTile a 0 "wall").setTile a ((h : Int) - 1) "wall"
    obtain ⟨ih1, ih2⟩ := ih _ hstep
    refine ⟨?_, ih2⟩
    rw [ih1]
    have hget : ((g.setTile a 0 "wall").setTile a ((h : Int) - 1) "wall").getTile x y
        = if a = x ∧ ((h : Int) - 1 = y ∨ 0 = y) ∧ g.inBounds x y then "wall"
          else g.getTile x y := by
      rw [getTile_setTile (WF_setTile hg.1 _ _ _), getTile_setTile hg.1]
      simp only [inBounds_setTile]
      split_ifs <;> tauto
    simp only [inBounds_setTile, hget, List.mem_cons]
    split_ifs <;> tauto

theorem getTile_borderColsLoop (w h : Nat) (ys : List Int) (g : Grid)
    (hg : g.Inv w h) (x y : Int) :
    ((ys.foldl (fun gr y => (gr.setTile 0 y "wall").setTile ((w : Int) - 1) y "wall") g).getTile x y
      = if y ∈ ys ∧ (x = 0 ∨ x = (w : Int) - 1) ∧ g.inBounds x y then "wall" else g.getTile x y)
    ∧ (ys.foldl (fun gr y => (gr.setTile 0 y "wall").setTile ((w : Int) - 1) y "wall") g).Inv w h := by
  induction ys generalizing g with
  | nil => exact ⟨by simp, hg⟩
  | cons a l ih =>
    simp only [List.foldl_cons]
    have hstep : ((g.setTile 0 a "wall").setTile ((w : Int) - 1) a "wall").Inv w h :=
      (hg.setTile 0 a "wall").setTile ((w : Int) - 1) a "wall"
    obtain ⟨ih1, ih2⟩ := ih _ hstep
    refine ⟨?_, ih2⟩
    rw [ih1]
    have hget : ((g.setTile 0 a "wall").setTile ((w : Int) - 1) a "wall").getTile x y
        = if a = y ∧ ((w : Int) - 1 = x ∨ 0 = x) ∧ g.inBounds x y then "wall"
          else g.getTile x y := by
      rw [getTile_setTile (WF_setTile hg.1 _ _ _), getTile_setTile hg.1]
      simp only [inBounds_setTile]
      split_ifs <;> tauto
    simp only [inBounds_setTile, hget, List.mem_cons]
    split_ifs <;> tauto

/-- Full characterization of the grid after `add_border_walls`: ring cells
are "wall", all others unchanged. -/
theorem getTile_addBorderWalls {g : Grid} (wf : g.WF) (x y : Int) :
    g.addBorderWalls.getTile x y =
      if g.inBounds x y ∧ (x = 0 ∨ x = (g.width : Int) - 1 ∨ y = 0 ∨ y = (g.height : Int) - 1)
      then "wall" else g.getTile x y := by
  unfold addBorderWalls
  have hg : g.Inv g.width g.height := ⟨wf, rfl, rfl⟩
  obtain ⟨h1get, h1inv⟩ := getTile_borderRowsLoop g.width g.height (intRange 0 g.width) g hg x y
  obtain ⟨h2get, h2inv⟩ := getTile_borderColsLoop g.width g.height (intRange 0 g.height) _ h1inv x y
  rw [h2get]
  have hb : (((intRange 0 (g.width : Int)).foldl
      (fun gr x => (gr.setTile x 0 "wall").setTile x ((g.height : Int) - 1) "wall") g)).inBounds x y
      ↔ g.inBounds x y := by
    unfold Grid.inBounds
    rw [h1inv.2.1, h1inv.2.2]
  simp only [hb]
  simp only [h1get]
  simp only [mem_intRange]
  simp only [Grid.inBounds]
  split_ifs <;> first | rfl | (exfalso; omega)

theorem Inv_addBorderWalls {w h : Nat} {g : Grid} (hg : g.Inv w h) :
    g.addBorderWalls.Inv w h := by
  unfold addBorderWalls
  obtain ⟨-, h1inv⟩ := getTile_borderRowsLoop w h (intRange 0 g.width) g hg 0 0
  obtain ⟨-, h2inv⟩ := getTile_borderColsLoop w h (intRange 0 g.height) _ h1inv 0 0
  have : (g.height : Int) = (h : Int) := by rw [hg.2.2]
  rw [hg.2.1, hg.2.2] at h2inv ⊢
  exact h2inv

end Grid

/-- `g'` differs from `g` only by cells rewritten to "floor". -/
def OnlyFloorWrites (g g' : Grid) : Prop :=
  ∀ x y, g'.getTile x y = "floor" ∨ g'.getTile x y = g.getTile x y

theorem OnlyFloorWrites.refl (g : Grid) : OnlyFloorWrites g g :=
  fun _ _ => Or.inr (Eq.refl _)

theorem OnlyFloorWrites.comp {g1 g2 g3 : Grid} (h12 : OnlyFloorWrites g1 g2)
    (h23 : OnlyFloorWrites g2 g3) : OnlyFloorWrites g1 g3 := by
  intro x y
  rcases h23 x y with h | h
  · exact Or.inl h
  · rw [h]; exact h12 x y

theorem OnlyFloorWrites.setFloor {g : Grid} (wf : g.WF) (a b : Int) :
    OnlyFloorWrites g (g.setTile a b "floor") := by
  intro x y
  rw [Grid.getTile_setTile wf]
  split
  · exact Or.inl (Eq.refl _)
  · exact Or.inr (Eq.refl _)

theorem OnlyFloorWrites.persist {g g' : Grid} (hof : OnlyFloorWrites g g') {x y : Int}
    (hfl : g.getTile x y = "floor") : g'.getTile x y = "floor" := by
  rcases hof x y with h | h
  · exact h
  · rw [h]; exact hfl

theorem OnlyFloorWrites.foldl {α : Type} {w h : Nat} {f : Grid → α → Grid}
    (hinv : ∀ gr a, gr.Inv w h → (f gr a).Inv w h)
    (hof : ∀ gr a, gr.Inv w h → OnlyFloorWrites gr (f gr a))
    (l : List α) (g : Grid) (hg : g.Inv w h) : OnlyFloorWrites g (l.foldl f g) := by
  induction l generalizing g with
  | nil => exact OnlyFloorWrites.refl g
  | cons a t ih =>
    exact OnlyFloorWrites.comp (hof g a hg) (ih _ (hinv g a hg))

/-- If some element of the fold list writes "floor" at the target cell and
every step writes nothing but "floor", the fold result holds "floor" there. -/
theorem foldl_floor_establish {α : Type} {w h : Nat} {f : Grid → α → Grid}
    (hinv : ∀ gr a, gr.Inv w h → (f gr a).Inv w h)
    (hof : ∀ gr a, gr.Inv w h → OnlyFloorWrites gr (f gr a))
    {tx ty : Int} {a : α} (ha : ∀ gr, gr.Inv w h → (f gr a).getTile tx ty = "floor")
    {l : List α} (hl : a ∈ l) (g : Grid) (hg : g.Inv w h) :
    (l.foldl f g).getTile tx ty = "floor" := by
  induction l generalizing g with
  | nil => simp at hl
  | cons b t ih =>
    rcases List.mem_cons.mp hl with rfl | hmem
    · simp only [List.foldl_cons]
      exact OnlyFloorWrites.persist
        (OnlyFloorWrites.foldl hinv hof t _ (hinv g a hg)) (ha g hg)
    · exact ih hmem _ (hinv g b hg)

namespace Grid

/-- `MapGenerator.carve_corridor`: the `random.random() < 0.5` coin is the
explicit argument `horizFirst`. -/
def carveCorridor (g : Grid) (x1 y1 x2 y2 : Int) (cwidth : Nat) (horizFirst : Bool) : Grid :=
  if horizFirst then
    let g1 := (intRange (min x1 x2) (max x1 x2 + 1)).foldl
      (fun gr x => (intRange 0 cwidth).foldl
        (fun gr2 w => gr2.setTile x (y1 + w) "floor") gr) g
    (intRange (min y1 y2) (max y1 y2 + 1)).foldl
      (fun gr y => (intRange 0 cwidth).foldl
        (fun gr2 w => gr2.setTile (x2 + w) y "floor") gr) g1
  else
    let g1 := (intRange (min y1 y2) (max y1 y2 + 1)).foldl
      (fun gr y => (intRange 0 cwidth).foldl
        (fun gr2 w => gr2.setTile (x1 + w) y "floor") gr) g
    (intRange (min x1 x2) (max x1 x2 + 1)).foldl
      (fun gr x => (intRange 0 cwidth).foldl
        (fun gr2 w => gr2.setTile x (y2 + w) "floor") gr) g1

theorem Inv_carveCorridor {w h : Nat} {g : Grid} (hg : g.Inv w h) (x1 y1 x2 y2 : Int)
    (cwidth : Nat) (horizFirst : Bool) :
    (g.carveCorridor x1 y1 x2 y2 cwidth horizFirst).Inv w h := by
  unfold carveCorridor
  split <;>
  · apply foldl_preserves (Grid.Inv w h)
    · intro gr a hgr
      exact foldl_preserves (Grid.Inv w h) _ (fun gr2 b hgr2 => hgr2.setTile _ _ _) _ _ hgr
    · apply foldl_preserves (Grid.Inv w h)
      · intro gr a hgr
        exact foldl_preserves (Grid.Inv w h) _ (fun gr2 b hgr2 => hgr2.setTile _ _ _) _ _ hgr
      · exact hg

theorem onlyFloorWrites_carveCorridor {w h : Nat} {g : Grid} (hg : g.Inv w h)
    (x1 y1 x2 y2 : Int) (cwidth : Nat) (horizFirst : Bool) :
    OnlyFloorWrites g (g.carveCorridor x1 y1 x2 y2 cwidth horizFirst) := by
  unfold carveCorridor
  have step : ∀ (mk : Int → Int → Int × Int) (gr : Grid) (a : Int), gr.Inv w h →
      OnlyFloorWrites gr ((intRange 0 cwidth).foldl
        (fun gr2 w' => gr2.setTile (mk a w').1 (mk a w').2 "floor") gr) := by
    intro mk gr a hgr
    exact OnlyFloorWrites.foldl (fun gr2 b hgr2 => hgr2.setTile _ _ _)
      (fun gr2 b hgr2 => OnlyFloorWrites.setFloor hgr2.1 _ _) _ _ hgr
  have stepInv : ∀ (mk : Int → Int → Int × Int) (gr : Grid) (a : Int), gr.Inv w h →
      ((intRange 0 cwidth).foldl
        (fun gr2 w' => gr2.setTile (mk a w').1 (mk a w').2 "floor") gr).Inv w h := by
    intro mk gr a hgr
    exact foldl_preserves (Grid.Inv w h) _ (fun gr2 b hgr2 => hgr2.setTile _ _ _) _ _ hgr
  split
  · exact OnlyFloorWrites.comp
      (OnlyFloorWrites.foldl (stepInv (fun x w' => (x, y1 + w')))
        (step (fun x w' => (x, y1 + w'))) _ _ hg)
      (OnlyFloorWrites.foldl (stepInv (fun y w' => (x2 + w', y)))
        (step (fun y w' => (x2 + w', y))) _ _
        (foldl_preserves (Grid.Inv w h) _ (stepInv (fun x w' => (x, y1 + w')) · ·) _ _ hg))
  · exact OnlyFloorWrites.comp
      (OnlyFloorWrites.foldl (stepInv (fun y w' => (x1 + w', y)))
        (step (fun y w' => (x1 + w', y))) _ _ hg)
      (OnlyFloorWrites.foldl (stepInv (fun x w' => (x, y2 + w')))
        (step (fun x w' => (x, y2 + w'))) _ _
        (foldl_preserves (Grid.Inv w h) _ (stepInv (fun y w' => (x1 + w', y)) · ·) _ _ hg))

end Grid

theorem filter_imp_length_le {α : Type} (l : List α) (p q : α → Bool)
    (himp : ∀ a, q a = true → p a = true) :
    (l.filter q).length ≤ (l.filter p).length := by
  induction l with
  | nil => simp
  | cons a t ih =>
    by_cases hq : q a = true
    · simp [List.filter_cons, hq, himp a hq]
      omega
    · simp only [List.filter_cons]
      rw [if_neg (by simpa using hq)]
      split
      · simp only [List.length_cons]; omega
      · omega

theorem filter_imp_length_lt {α : Type} (l : List α) (p q : α → Bool)
    (himp : ∀ a, q a = true → p a = true) (c : α) (hc : c ∈ l)
    (hp : p c = true) (hq : ¬ q c = true) :
    (l.filter q).length < (l.filter p).length := by
  induction l with
  | nil => simp at hc
  | cons a t ih =>
    rcases List.mem_cons.mp hc with rfl | hmem
    · simp only [List.filter_cons]
      rw [if_pos hp, if_neg (by simpa using hq)]
      have := filter_imp_length_le t p q himp
      simp only [List.length_cons]
      omega
    · simp only [List.filter_cons]
      have ht := ih hmem
      by_cases hqa : q a = true
      · rw [if_pos hqa, if_pos (himp a hqa)]
        simpa using ht
      · rw [if_neg (by simpa using hqa)]
        split
        · simp only [List.length_cons]; omega
        · omega

/-- The 4 cardinal neighbours, in the order the `dx, dy` loop of
`flood_fill` pushes them. -/
def neighbors4 (c : Int × Int) : List (Int × Int) :=
  [(c.1 - 1, c.2), (c.1 + 1, c.2), (c.1, c.2 - 1), (c.1, c.2 + 1)]

namespace Grid

theorem inBounds_of_not_blocked {g : Grid} {x y : Int} (h : ¬ g.isBlocked x y) :
    g.inBounds x y := by
  by_contra hin
  exact h (by simp [isBlocked, getTile_out hin])

/-- All in-bounds coordinates, used only as the termination measure of
`floodFillAux`. -/
def allCells (g : Grid) : List (Int × Int) :=
  ((intRange 0 g.width).map (fun x => (intRange 0 g.height).map (fun y => (x, y)))).flatten

theorem mem_allCells {g : Grid} {c : Int × Int} : c ∈ g.allCells ↔ g.inBounds c.1 c.2 := by
  unfold allCells Grid.inBounds
  rw [List.mem_flatten]
  constructor
  · rintro ⟨l, hl, hc⟩
    rw [List.mem_map] at hl
    obtain ⟨x, hx, rfl⟩ := hl
    rw [List.mem_map] at hc
    obtain ⟨y, hy, rfl⟩ := hc
    rw [mem_intRange] at hx hy
    exact ⟨hx.1, hx.2, hy.1, hy.2⟩
  · rintro ⟨h1, h2, h3, h4⟩
    refine ⟨(intRange 0 g.height).map (fun y => (c.1, y)), ?_, ?_⟩
    · rw [List.mem_map]
      exact ⟨c.1, mem_intRange.mpr ⟨h1, h2⟩, rfl⟩
    · rw [List.mem_map]
      exact ⟨c.2, mem_intRange.mpr ⟨h3, h4⟩, rfl⟩

/-- Termination measure for `flood_fill`: unvisited in-bounds cells weigh 5,
stack entries weigh 1. -/
def ffMeasure (g : Grid) (stack vis : List (Int × Int)) : Nat :=
  5 * ((g.allCells.filter (fun c => decide (c ∉ vis))).length) + stack.length

/-- The body of `MapGenerator.flood_fill`: an explicit stack, a visited
set (modelled as a list used for membership only), popping from the top.
The three `continue` guards and the neighbour pushes mirror the source;
`list.pop()` takes the most recently appended entry, so the four
neighbours are pushed with the last one on top. -/
def floodFillAux (g : Grid) (stack vis : List (Int × Int)) : List (Int × Int) :=
  match stack with
  | [] => vis
  | c :: rest =>
    if hv : c ∈ vis then g.floodFillAux rest vis
    else if hb : g.isBlocked c.1 c.2 then g.floodFillAux rest vis
    else if hi : ¬ g.inBounds c.1 c.2 then g.floodFillAux rest vis
    else
      g.floodFillAux
        (((neighbors4 c).filter (fun n => decide (n ∉ c :: vis))).reverse ++ rest)
        (c :: vis)
  termination_by ffMeasure g stack vis
  decreasing_by
  · unfold ffMeasure
    simp only [List.length_cons]
    omega
  · unfold ffMeasure
    simp only [List.length_cons]
    omega
  · unfold ffMeasure
    simp only [List.length_cons]
    omega
  · unfold ffMeasure
    have hin : g.inBounds c.1 c.2 := not_not.mp hi
    have hdrop : ((g.allCells.filter (fun x => decide (x ∉ c :: vis))).length) <
        ((g.allCells.filter (fun x => decide (x ∉ vis))).length) := by
      refine filter_imp_length_lt _ _ _ ?_ c (mem_allCells.mpr hin) ?_ ?_
      · intro a ha
        simp only [decide_eq_true_eq] at ha ⊢
        intro hmem
        exact ha (List.mem_cons_of_mem _ hmem)
      · simpa using hv
      · simp
    have hpush : (((neighbors4 c).filter (fun n => decide (n ∉ c :: vis))).reverse).length ≤ 4 := by
      rw [List.length_reverse]
      have := List.length_filter_le (fun n => decide (n ∉ c :: vis)) (neighbors4 c)
      simpa [neighbors4] using this
    simp only [List.length_append, List.length_cons]
    omega

/-- `MapGenerator.flood_fill`. -/
def floodFill (g : Grid) (startX startY : Int) : List (Int × Int) :=
  g.floodFillAux [(startX, startY)] []

/-- One step of 4-directional movement onto a non-blocked cell. -/
def Step (g : Grid) (a b : Int × Int) : Prop :=
  b ∈ neighbors4 a ∧ ¬ g.isBlocked b.1 b.2

/-- Reachability through non-blocked cells (the target of `flood_fill`). -/
def Reaches (g : Grid) (a b : Int × Int) : Prop :=
  Relation.ReflTransGen (g.Step) a b

/-- Invariant-carrying correctness lemma for the `flood_fill` loop. -/
theorem floodFillAux_spec (g : Grid) (s : Int × Int) (stack vis : List (Int × Int))
    (h1 : ∀ c ∈ vis, ¬ g.isBlocked c.1 c.2 ∧ g.Reaches s c)
    (h2 : ∀ c ∈ stack, ¬ g.isBlocked c.1 c.2 → g.Reaches s c)
    (h3 : ∀ d ∈ vis, ∀ n ∈ neighbors4 d, ¬ g.isBlocked n.1 n.2 → n ∈ vis ∨ n ∈ stack) :
    (∀ c ∈ vis, c ∈ g.floodFillAux stack vis) ∧
    (∀ c, ¬ g.isBlocked c.1 c.2 → c ∈ stack → c ∈ g.floodFillAux stack vis) ∧
    (∀ c ∈ g.floodFillAux stack vis, ¬ g.isBlocked c.1 c.2 ∧ g.Reaches s c) ∧
    (∀ d ∈ g.floodFillAux stack vis, ∀ n ∈ neighbors4 d, ¬ g.isBlocked n.1 n.2 →
      n ∈ g.floodFillAux stack vis) := by
  induction stack, vis using Grid.floodFillAux.induct g with
  | case1 vis =>
    rw [Grid.floodFillAux]
    refine ⟨fun c hc => hc, fun c _ hc => absurd hc (List.not_mem_nil c), h1, ?_⟩
    intro d hd n hn hnb
    rcases h3 d hd n hn hnb with h | h
    · exact h
    · exact absurd h (List.not_mem_nil n)
  | case2 vis c rest hv ih =>
    rw [Grid.floodFillAux, dif_pos hv]
    have h3' : ∀ d ∈ vis, ∀ n ∈ neighbors4 d, ¬ g.isBlocked n.1 n.2 → n ∈ vis ∨ n ∈ rest := by
      intro d hd n hn hnb
      rcases h3 d hd n hn hnb with h | h
      · exact Or.inl h
      · rcases List.mem_cons.mp h with rfl | h
        · exact Or.inl hv
        · exact Or.inr h
    obtain ⟨i1, i2, i3, i4⟩ := ih h1 (fun c hc hnb => h2 c (List.mem_cons_of_mem _ hc) hnb) h3'
    refine ⟨i1, ?_, i3, i4⟩
    intro x hnb hx
    rcases List.mem_cons.mp hx with rfl | hx
    · exact i1 x hv
    · exact i2 x hnb hx
  | case3 vis c rest hv hb ih =>
    rw [Grid.floodFillAux, dif_neg hv, dif_pos hb]
    have h3' : ∀ d ∈ vis, ∀ n ∈ neighbors4 d, ¬ g.isBlocked n.1 n.2 → n ∈ vis ∨ n ∈ rest := by
      intro d hd n hn hnb
      rcases h3 d hd n hn hnb with h | h
      · exact Or.inl h
      · rcases List.mem_cons.mp h with rfl | h
        · exact absurd hb hnb
        · exact Or.inr h
    obtain ⟨i1, i2, i3, i4⟩ := ih h1 (fun c hc hnb => h2 c (List.mem_cons_of_mem _ hc) hnb) h3'
    refine ⟨i1, ?_, i3, i4⟩
    intro x hnb hx
    rcases List.mem_cons.mp hx with rfl | hx
    · exact absurd hb hnb
    · exact i2 x hnb hx
  | case4 vis c rest hv hb hi ih =>
    exact absurd (Grid.inBounds_of_not_blocked hb) hi
  | case5 vis c rest hv hb hi ih =>
    rw [Grid.floodFillAux, dif_neg hv, dif_neg hb, dif_neg hi]
    have hreachc : g.Reaches s c := h2 c (List.mem_cons_self _ _) hb
    have h1' : ∀ x ∈ c :: vis, ¬ g.isBlocked x.1 x.2 ∧ g.Reaches s x := by
      intro x hx
      rcases List.mem_cons.mp hx with rfl | hx
      · exact ⟨hb, hreachc⟩
      · exact h1 x hx
    have h2' : ∀ x ∈ ((neighbors4 c).filter (fun n => decide (n ∉ c :: vis))).reverse ++ rest,
        ¬ g.isBlocked x.1 x.2 → g.Reaches s x := by
      intro x hx hnb
      rcases List.mem_append.mp hx with hx | hx
      · rw [List.mem_reverse] at hx
        have hxn : x ∈ neighbors4 c := (List.mem_filter.mp hx).1
        exact Relation.ReflTransGen.tail hreachc ⟨hxn, hnb⟩
      · exact h2 x (List.mem_cons_of_mem _ hx) hnb
    have h3' : ∀ d ∈ c :: vis, ∀ n ∈ neighbors4 d, ¬ g.isBlocked n.1 n.2 →
        n ∈ c :: vis ∨ n ∈ ((neighbors4 c).filter (fun n => decide (n ∉ c :: vis))).reverse ++ rest := by
      intro d hd n hn hnb
      by_cases hnv : n ∈ c :: vis
      · exact Or.inl hnv
      rcases List.mem_cons.mp hd with heq | hd
      · refine Or.inr (List.mem_append.mpr (Or.inl ?_))
        rw [List.mem_reverse]
        rw [heq] at hn
        exact List.mem_filter.mpr ⟨hn, by simpa using hnv⟩
      · rcases h3 d hd n hn hnb with h | h
        · exact Or.inl (List.mem_cons_of_mem _ h)
        · rcases List.mem_cons.mp h with heq2 | h
          · rw [heq2]
            exact Or.inl (List.mem_cons_self _ _)
          · exact Or.inr (List.mem_append.mpr (Or.inr h))
    obtain ⟨i1, i2, i3, i4⟩ := ih h1' h2' h3'
    refine ⟨fun x hx => i1 x (List.mem_cons_of_mem _ hx), ?_, i3, i4⟩
    intro x hnb hx
    rcases List.mem_cons.mp hx with rfl | hx
    · exact i1 x (List.mem_cons_self _ _)
    · exact i2 x hnb (List.mem_append.mpr (Or.inr hx))

/-- `flood_fill` from a non-blocked start returns exactly the cells
reachable through non-blocked cells by 4-directional steps. -/
theorem floodFill_mem_iff (g : Grid) (sx sy : Int) (hs : ¬ g.isBlocked sx sy) (c : Int × Int) :
    c ∈ g.floodFill sx sy ↔ g.Reaches (sx, sy) c := by
  obtain ⟨i1, i2, i3, i4⟩ := floodFillAux_spec g (sx, sy) [(sx, sy)] []
    (fun c hc => absurd hc (List.not_mem_nil c))
    (by
      intro c hc hnb
      rcases List.mem_cons.mp hc with rfl | hc
      · exact Relation.ReflTransGen.refl
      · exact absurd hc (List.not_mem_nil c))
    (fun d hd => absurd hd (List.not_mem_nil d))
  constructor
  · intro hc
    exact (i3 c hc).2
  · intro hr
    unfold Grid.floodFill
    induction hr with
    | refl => exact i2 (sx, sy) hs (List.mem_cons_self _ _)
    | tail hab hbc ihr =>
      rename_i b c'
      exact i4 b ihr c' hbc.1 hbc.2

/-- `flood_fill` and membership of its result are blocked-start aware:
a blocked start yields the empty set. -/
theorem floodFill_blocked (g : Grid) (sx sy : Int) (hs : g.isBlocked sx sy) :
    g.floodFill sx sy = [] := by
  unfold Grid.floodFill
  rw [Grid.floodFillAux, dif_neg (List.not_mem_nil _), dif_pos hs, Grid.floodFillAux]

/-- A fold writing "floor" at a list of cells, fully characterized. -/
theorem getTile_foldl_setFloorCells {w h : Nat} (l : List (Int × Int)) (gr : Grid)
    (hg : gr.Inv w h) (x y : Int) :
    ((l.foldl (fun g2 c => g2.setTile c.1 c.2 "floor") gr).getTile x y
      = if (x, y) ∈ l ∧ gr.inBounds x y then "floor" else gr.getTile x y)
    ∧ (l.foldl (fun g2 c => g2.setTile c.1 c.2 "floor") gr).Inv w h := by
  induction l generalizing gr with
  | nil => exact ⟨by simp, hg⟩
  | cons a t ih =>
    simp only [List.foldl_cons]
    obtain ⟨ih1, ih2⟩ := ih (gr.setTile a.1 a.2 "floor") (hg.setTile a.1 a.2 "floor")
    refine ⟨?_, ih2⟩
    rw [ih1]
    have hget : (gr.setTile a.1 a.2 "floor").getTile x y
        = if a.1 = x ∧ a.2 = y ∧ gr.inBounds x y then "floor" else gr.getTile x y :=
      getTile_setTile hg.1 a.1 a.2 "floor" x y
    have ha : (x, y) = a ↔ a.1 = x ∧ a.2 = y := by
      constructor
      · rintro rfl; exact ⟨rfl, rfl⟩
      · rintro ⟨h1, h2⟩
        rw [← h1, ← h2]
    simp only [inBounds_setTile, hget, List.mem_cons, ha]
    split_ifs <;> tauto

end Grid

/-- The set of cells written by the horizontal leg of `carve_corridor`
(row `yv`, inflated downwards by the corridor width). -/
def legH (xa xb yv : Int) (cw : Nat) (c : Int × Int) : Prop :=
  min xa xb ≤ c.1 ∧ c.1 ≤ max xa xb ∧ yv ≤ c.2 ∧ c.2 < yv + cw

/-- The set of cells written by the vertical leg of `carve_corridor`
(column `xv`, inflated rightwards by the corridor width). -/
def legV (ya yb xv : Int) (cw : Nat) (c : Int × Int) : Prop :=
  xv ≤ c.1 ∧ c.1 < xv + cw ∧ min ya yb ≤ c.2 ∧ c.2 ≤ max ya yb

instance (xa xb yv : Int) (cw : Nat) (c : Int × Int) : Decidable (legH xa xb yv cw c) := by
  unfold legH; infer_instance

instance (ya yb xv : Int) (cw : Nat) (c : Int × Int) : Decidable (legV ya yb xv cw c) := by
  unfold legV; infer_instance

/-- All cells written by `carve_corridor` for a given leg-order coin. -/
def carveSet (x1 y1 x2 y2 : Int) (cw : Nat) (horizFirst : Bool) (c : Int × Int) : Prop :=
  if horizFirst then legH x1 x2 y1 cw c ∨ legV y1 y2 x2 cw c
  else legV y1 y2 x1 cw c ∨ legH x1 x2 y2 cw c

instance (x1 y1 x2 y2 : Int) (cw : Nat) (b : Bool) (c : Int × Int) :
    Decidable (carveSet x1 y1 x2 y2 cw b c) := by
  unfold carveSet; infer_instance

/-- The nested loops of each `carve_corridor` leg, re-expressed as a fold
over the explicit list of written cells. -/
theorem carve_leg_as_cells {α : Type} (outer : List α) (inner : List Int)
    (mk : α → Int → Int × Int) (g0 : Grid) :
    outer.foldl (fun gr a => inner.foldl (fun g2 w => g2.setTile (mk a w).1 (mk a w).2 "floor") gr) g0
      = (outer.flatMap (fun a => inner.map (mk a))).foldl
          (fun g2 c => g2.setTile c.1 c.2 "floor") g0 := by
  induction outer generalizing g0 with
  | nil => rfl
  | cons a t ih =>
    simp only [List.foldl_cons, List.flatMap_cons, List.foldl_append]
    rw [ih]
    congr 1
    rw [List.foldl_map]

theorem mem_carveCellsH {xa xb yv : Int} {cw : Nat} {c : Int × Int} :
    c ∈ (intRange (min xa xb) (max xa xb + 1)).flatMap
        (fun x => (intRange 0 cw).map (fun w => (x, yv + w))) ↔ legH xa xb yv cw c := by
  rw [List.mem_flatMap]
  unfold legH
  constructor
  · rintro ⟨x, hx, hc⟩
    rw [List.mem_map] at hc
    obtain ⟨wv, hw, rfl⟩ := hc
    rw [mem_intRange] at hx hw
    simp only
    omega
  · rintro ⟨h1, h2, h3, h4⟩
    refine ⟨c.1, mem_intRange.mpr ⟨h1, by omega⟩, ?_⟩
    rw [List.mem_map]
    refine ⟨c.2 - yv, mem_intRange.mpr ⟨by omega, by omega⟩, ?_⟩
    have : yv + (c.2 - yv) = c.2 := by omega
    rw [this]

theorem mem_carveCellsV {ya yb xv : Int} {cw : Nat} {c : Int × Int} :
    c ∈ (intRange (min ya yb) (max ya yb + 1)).flatMap
        (fun y => (intRange 0 cw).map (fun w => (xv + w, y))) ↔ legV ya yb xv cw c := by
  rw [List.mem_flatMap]
  unfold legV
  constructor
  · rintro ⟨y, hy, hc⟩
    rw [List.mem_map] at hc
    obtain ⟨wv, hw, rfl⟩ := hc
    rw [mem_intRange] at hy hw
    simp only
    omega
  · rintro ⟨h1, h2, h3, h4⟩
    refine ⟨c.2, mem_intRange.mpr ⟨h3, by omega⟩, ?_⟩
    rw [List.mem_map]
    refine ⟨c.1 - xv, mem_intRange.mpr ⟨by omega, by omega⟩, ?_⟩
    have : xv + (c.1 - xv) = c.1 := by omega
    rw [this]

/-- Full characterization of the grid after `carve_corridor`. -/
theorem Grid.getTile_carveCorridor {w h : Nat} {g : Grid} (hg : g.Inv w h)
    (x1 y1 x2 y2 : Int) (cw : Nat) (b : Bool) (x y : Int) :
    (g.carveCorridor x1 y1 x2 y2 cw b).getTile x y =
      if carveSet x1 y1 x2 y2 cw b (x, y) ∧ g.inBounds x y then "floor" else g.getTile x y := by
  unfold Grid.carveCorridor
  cases b with
  | true =>
    simp only [reduceIte]
    rw [carve_leg_as_cells (intRange (min x1 x2) (max x1 x2 + 1)) (intRange 0 cw)
        (fun a w => (a, y1 + w)),
      carve_leg_as_cells (intRange (min y1 y2) (max y1 y2 + 1)) (intRange 0 cw)
        (fun a w => (x2 + w, a))]
    obtain ⟨h1get, h1inv⟩ := Grid.getTile_foldl_setFloorCells
      ((intRange (min x1 x2) (max x1 x2 + 1)).flatMap
        (fun a => (intRange 0 cw).map (fun w => (a, y1 + w)))) g hg x y
    obtain ⟨h2get, h2inv⟩ := Grid.getTile_foldl_setFloorCells
      ((intRange (min y1 y2) (max y1 y2 + 1)).flatMap
        (fun a => (intRange 0 cw).map (fun w => (x2 + w, a)))) _ h1inv x y
    rw [h2get]
    have hb : (((intRange (min x1 x2) (max x1 x2 + 1)).flatMap
        (fun a => (intRange 0 cw).map (fun w => (a, y1 + w)))).foldl
          (fun g2 c => g2.setTile c.1 c.2 "floor") g).inBounds x y ↔ g.inBounds x y := by
      unfold Grid.inBounds
      rw [h1inv.2.1, h1inv.2.2, hg.2.1, hg.2.2]
    simp only [hb, h1get, mem_carveCellsH, mem_carveCellsV]
    unfold carveSet
    simp only [reduceIte]
    split_ifs <;> tauto
  | false =>
    simp only [reduceIte]
    rw [carve_leg_as_cells (intRange (min y1 y2) (max y1 y2 + 1)) (intRange 0 cw)
        (fun a w => (x1 + w, a)),
      carve_leg_as_cells (intRange (min x1 x2) (max x1 x2 + 1)) (intRange 0 cw)
        (fun a w => (a, y2 + w))]
    rw [if_neg (by decide : ¬ (false = true))]
    obtain ⟨h1get, h1inv⟩ := Grid.getTile_foldl_setFloorCells
      ((intRange (min y1 y2) (max y1 y2 + 1)).flatMap
        (fun a => (intRange 0 cw).map (fun w => (x1 + w, a)))) g hg x y
    obtain ⟨h2get, h2inv⟩ := Grid.getTile_foldl_setFloorCells
      ((intRange (min x1 x2) (max x1 x2 + 1)).flatMap
        (fun a => (intRange 0 cw).map (fun w => (a, y2 + w)))) _ h1inv x y
    rw [h2get]
    have hb : (((intRange (min y1 y2) (max y1 y2 + 1)).flatMap
        (fun a => (intRange 0 cw).map (fun w => (x1 + w, a)))).foldl
          (fun g2 c => g2.setTile c.1 c.2 "floor") g).inBounds x y ↔ g.inBounds x y := by
      unfold Grid.inBounds
      rw [h1inv.2.1, h1inv.2.2, hg.2.1, hg.2.2]
    simp only [hb, h1get, mem_carveCellsH, mem_carveCellsV]
    unfold carveSet
    simp only [if_neg (by decide : ¬ (false = true))]
    split_ifs <;> tauto

/-- A strictly interior cell: at least one cell away from the border ring. -/
def Interior (w h : Nat) (c : Int × Int) : Prop :=
  1 ≤ c.1 ∧ c.1 ≤ (w : Int) - 2 ∧ 1 ≤ c.2 ∧ c.2 ≤ (h : Int) - 2

instance (w h : Nat) (c : Int × Int) : Decidable (Interior w h c) := by
  unfold Interior; infer_instance

theorem Interior.inBounds {w h : Nat} {g : Grid} (hw : g.width = w) (hh : g.height = h)
    {c : Int × Int} (hc : Interior w h c) : g.inBounds c.1 c.2 := by
  obtain ⟨h1, h2, h3, h4⟩ := hc
  exact ⟨by omega, by rw [hw]; omega, by omega, by rw [hh]; omega⟩

theorem mem_neighbors4_iff {c d : Int × Int} :
    c ∈ neighbors4 d ↔ (c.1 - d.1).natAbs + (c.2 - d.2).natAbs = 1 := by
  obtain ⟨cx, cy⟩ := c
  obtain ⟨dx, dy⟩ := d
  unfold neighbors4
  simp only [List.mem_cons, List.mem_singleton, Prod.mk.injEq, List.not_mem_nil, or_false]
  constructor
  · rintro (⟨h1, h2⟩ | ⟨h1, h2⟩ | ⟨h1, h2⟩ | ⟨h1, h2⟩) <;> subst h1 <;> subst h2 <;> omega
  · intro h
    omega

theorem neighbors4_symm {c d : Int × Int} (h : c ∈ neighbors4 d) : d ∈ neighbors4 c := by
  rw [mem_neighbors4_iff] at h ⊢
  omega

namespace Grid

/-- One interior step: 4-adjacent, non-blocked, strictly interior target. -/
def StepI (g : Grid) (w h : Nat) (a b : Int × Int) : Prop :=
  b ∈ neighbors4 a ∧ ¬ g.isBlocked b.1 b.2 ∧ Interior w h b

/-- Reachability through non-blocked strictly interior cells. -/
def ReachesI (g : Grid) (w h : Nat) (a b : Int × Int) : Prop :=
  Relation.ReflTransGen (g.StepI w h) a b

theorem ReachesI.trans {g : Grid} {w h : Nat} {a b c : Int × Int}
    (h1 : g.ReachesI w h a b) (h2 : g.ReachesI w h b c) : g.ReachesI w h a c :=
  Relation.ReflTransGen.trans h1 h2

theorem reachesI_endpoint {g : Grid} {w h : Nat} {a b : Int × Int}
    (hr : g.ReachesI w h a b) : b = a ∨ (¬ g.isBlocked b.1 b.2 ∧ Interior w h b) := by
  induction hr with
  | refl => exact Or.inl rfl
  | tail hab hbc ih => exact Or.inr ⟨hbc.2.1, hbc.2.2⟩

theorem reachesI_symm {g : Grid} {w h : Nat} {a b : Int × Int}
    (ha : ¬ g.isBlocked a.1 a.2) (hia : Interior w h a) (hr : g.ReachesI w h a b) :
    g.ReachesI w h b a := by
  induction hr with
  | refl => exact Relation.ReflTransGen.refl
  | tail hab hbc ih =>
    rename_i x y
    have hx : ¬ g.isBlocked x.1 x.2 ∧ Interior w h x := by
      rcases reachesI_endpoint hab with rfl | hx
      · exact ⟨ha, hia⟩
      · exact hx
    exact Relation.ReflTransGen.head ⟨neighbors4_symm hbc.1, hx.1, hx.2⟩ ih

theorem reachesI_mono {g g' : Grid} {w h : Nat}
    (hof : ∀ x y, ¬ g.isBlocked x y → ¬ g'.isBlocked x y) {a b : Int × Int}
    (hr : g.ReachesI w h a b) : g'.ReachesI w h a b := by
  induction hr with
  | refl => exact Relation.ReflTransGen.refl
  | tail hab hbc ih =>
    exact Relation.ReflTransGen.tail ih ⟨hbc.1, hof _ _ hbc.2.1, hbc.2.2⟩

theorem not_blocked_of_onlyFloorWrites {g g' : Grid} (hof : OnlyFloorWrites g g')
    (x y : Int) (hb : ¬ g.isBlocked x y) : ¬ g'.isBlocked x y := by
  rcases hof x y with hfl | heq
  · intro hbl
    unfold Grid.isBlocked at hbl
    rw [hfl] at hbl
    simp at hbl
  · intro hbl
    unfold Grid.isBlocked at hbl hb
    rw [heq] at hbl
    exact hb hbl

theorem not_blocked_of_floor {g : Grid} {x y : Int} (hfl : g.getTile x y = "floor") :
    ¬ g.isBlocked x y := by
  intro hbl
  unfold Grid.isBlocked at hbl
  rw [hfl] at hbl
  simp at hbl

/-- Walking along a row of non-blocked interior cells. -/
theorem reachesI_row (g : Grid) (w h : Nat) (y : Int) (xa xb : Int)
    (hcells : ∀ x, min xa xb ≤ x → x ≤ max xa xb →
      ¬ g.isBlocked x y ∧ Interior w h (x, y)) :
    g.ReachesI w h (xa, y) (xb, y) := by
  rcases le_total xa xb with hle | hle
  · obtain ⟨n, hn⟩ : ∃ n : Nat, xb = xa + n := ⟨(xb - xa).toNat, by omega⟩
    subst hn
    clear hle
    induction n with
    | zero => simpa using Relation.ReflTransGen.refl
    | succ m ih =>
      refine Relation.ReflTransGen.tail (ih ?_) ?_
      · intro x h1 h2
        exact hcells x (by omega) (by omega)
      · refine ⟨?_, ?_, ?_⟩
        · rw [mem_neighbors4_iff]
          simp only
          omega
        · exact (hcells (xa + (m + 1 : Nat)) (by omega) (by omega)).1
        · exact (hcells (xa + (m + 1 : Nat)) (by omega) (by omega)).2
  · obtain ⟨n, hn⟩ : ∃ n : Nat, xa = xb + n := ⟨(xa - xb).toNat, by omega⟩
    subst hn
    clear hle
    induction n with
    | zero => simpa using Relation.ReflTransGen.refl
    | succ m ih =>
      refine Relation.ReflTransGen.head ?_ (ih ?_)
      · refine ⟨?_, ?_, ?_⟩
        · rw [mem_neighbors4_iff]
          simp only
          omega
        · exact (hcells (xb + (m : Nat)) (by omega) (by omega)).1
        · exact (hcells (xb + (m : Nat)) (by omega) (by omega)).2
      · intro x h1 h2
        exact hcells x (by omega) (by omega)

/-- Walking along a column of non-blocked interior cells. -/
theorem reachesI_col (g : Grid) (w h : Nat) (x : Int) (ya yb : Int)
    (hcells : ∀ y, min ya yb ≤ y → y ≤ max ya yb →
      ¬ g.isBlocked x y ∧ Interior w h (x, y)) :
    g.ReachesI w h (x, ya) (x, yb) := by
  rcases le_total ya yb with hle | hle
  · obtain ⟨n, hn⟩ : ∃ n : Nat, yb = ya + n := ⟨(yb - ya).toNat, by omega⟩
    subst hn
    clear hle
    induction n with
    | zero => simpa using Relation.ReflTransGen.refl
    | succ m ih =>
      refine Relation.ReflTransGen.tail (ih ?_) ?_
      · intro y h1 h2
        exact hcells y (by omega) (by omega)
      · refine ⟨?_, ?_, ?_⟩
        · rw [mem_neighbors4_iff]
          simp only
          omega
        · exact (hcells (ya + (m + 1 : Nat)) (by omega) (by omega)).1
        · exact (hcells (ya + (m + 1 : Nat)) (by omega) (by omega)).2
  · obtain ⟨n, hn⟩ : ∃ n : Nat, ya = yb + n := ⟨(ya - yb).toNat, by omega⟩
    subst hn
    clear hle
    induction n with
    | zero => simpa using Relation.ReflTransGen.refl
    | succ m ih =>
      refine Relation.ReflTransGen.head ?_ (ih ?_)
      · refine ⟨?_, ?_, ?_⟩
        · rw [mem_neighbors4_iff]
          simp only
          omega
        · exact (hcells (yb + (m : Nat)) (by omega) (by omega)).1
        · exact (hcells (yb + (m : Nat)) (by omega) (by omega)).2
      · intro y h1 h2
        exact hcells y (by omega) (by omega)

/-- `carve_corridor` with positive width connects its two interior
endpoints through interior cells, whichever leg order was drawn. -/
theorem reachesI_carveCorridor {w h : Nat} {g : Grid} (hg : g.Inv w h)
    {p1 p2 : Int × Int} {cw : Nat} (hcw : 1 ≤ cw) (b : Bool)
    (hi1 : Interior w h p1) (hi2 : Interior w h p2) :
    (g.carveCorridor p1.1 p1.2 p2.1 p2.2 cw b).ReachesI w h p1 p2 := by
  set g' := g.carveCorridor p1.1 p1.2 p2.1 p2.2 cw b with hg'
  have hchar := fun x y => Grid.getTile_carveCorridor hg p1.1 p1.2 p2.1 p2.2 cw b x y
  have hfloor : ∀ x y, carveSet p1.1 p1.2 p2.1 p2.2 cw b (x, y) → Interior w h (x, y) →
      ¬ g'.isBlocked x y := by
    intro x y hcs hint
    apply not_blocked_of_floor
    rw [hg', hchar x y, if_pos ⟨hcs, hint.inBounds hg.2.1 hg.2.2⟩]
  cases b with
  | true =>
    have hrow : g'.ReachesI w h (p1.1, p1.2) (p2.1, p1.2) := by
      apply reachesI_row
      intro x h1 h2
      have hint : Interior w h (x, p1.2) := by
        obtain ⟨a1, a2, a3, a4⟩ := hi1
        obtain ⟨b1, b2, b3, b4⟩ := hi2
        exact ⟨by simp only; omega, by simp only; omega, a3, a4⟩
      refine ⟨hfloor x p1.2 ?_ hint, hint⟩
      unfold carveSet
      rw [if_pos rfl]
      left
      exact ⟨h1, h2, by omega, by omega⟩
    have hcol : g'.ReachesI w h (p2.1, p1.2) (p2.1, p2.2) := by
      apply reachesI_col
      intro y h1 h2
      have hint : Interior w h (p2.1, y) := by
        obtain ⟨a1, a2, a3, a4⟩ := hi1
        obtain ⟨b1, b2, b3, b4⟩ := hi2
        exact ⟨b1, b2, by simp only; omega, by simp only; omega⟩
      refine ⟨hfloor p2.1 y ?_ hint, hint⟩
      unfold carveSet
      rw [if_pos rfl]
      right
      exact ⟨by omega, by omega, h1, h2⟩
    have := hrow.trans hcol
    simpa using this
  | false =>
    have hcol : g'.ReachesI w h (p1.1, p1.2) (p1.1, p2.2) := by
      apply reachesI_col
      intro y h1 h2
      have hint : Interior w h (p1.1, y) := by
        obtain ⟨a1, a2, a3, a4⟩ := hi1
        obtain ⟨b1, b2, b3, b4⟩ := hi2
        exact ⟨a1, a2, by simp only; omega, by simp only; omega⟩
      refine ⟨hfloor p1.1 y ?_ hint, hint⟩
      unfold carveSet
      rw [if_neg (by decide : ¬ (false = true))]
      left
      exact ⟨by omega, by omega, h1, h2⟩
    have hrow : g'.ReachesI w h (p1.1, p2.2) (p2.1, p2.2) := by
      apply reachesI_row
      intro x h1 h2
      have hint : Interior w h (x, p2.2) := by
        obtain ⟨a1, a2, a3, a4⟩ := hi1
        obtain ⟨b1, b2, b3, b4⟩ := hi2
        exact ⟨by simp only; omega, by simp only; omega, b3, b4⟩
      refine ⟨hfloor x p2.2 ?_ hint, hint⟩
      unfold carveSet
      rw [if_neg (by decide : ¬ (false = true))]
      right
      exact ⟨h1, h2, by omega, by omega⟩
    have := hcol.trans hrow
    simpa using this

end Grid

/-- Manhattan distance (`abs(dx) + abs(dy)` in the source). -/
def manhattan (a b : Int × Int) : Nat :=
  (a.1 - b.1).natAbs + (a.2 - b.2).natAbs

namespace Grid

/-- The `floor_positions` list comprehension of `ensure_connectivity`:
row-major scan collecting non-blocked cells. -/
def floorPositions (g : Grid) : List (Int × Int) :=
  ((intRange 0 g.height).map (fun y =>
    ((intRange 0 g.width).map (fun x => (x, y))).filter
      (fun c => ! g.isBlockedB c.1 c.2))).flatten

theorem mem_floorPositions {g : Grid} {c : Int × Int} :
    c ∈ g.floorPositions ↔ ¬ g.isBlocked c.1 c.2 := by
  unfold floorPositions
  rw [List.mem_flatten]
  constructor
  · rintro ⟨l, hl, hc⟩
    rw [List.mem_map] at hl
    obtain ⟨y, hy, rfl⟩ := hl
    rw [List.mem_filter] at hc
    have := hc.2
    unfold Grid.isBlockedB at this
    simpa using this
  · intro hnb
    have hin := inBounds_of_not_blocked hnb
    obtain ⟨h1, h2, h3, h4⟩ := hin
    refine ⟨((intRange 0 g.width).map (fun x => (x, c.2))).filter
      (fun c => ! g.isBlockedB c.1 c.2), ?_, ?_⟩
    · rw [List.mem_map]
      exact ⟨c.2, mem_intRange.mpr ⟨h3, h4⟩, rfl⟩
    · rw [List.mem_filter]
      refine ⟨?_, by simpa [Grid.isBlockedB] using hnb⟩
      rw [List.mem_map]
      exact ⟨c.1, mem_intRange.mpr ⟨h1, h2⟩, rfl⟩

/-- The region-discovery loop of `ensure_connectivity`: flood fill from
every not-yet-visited floor position, collecting the regions in order. -/
def findRegionsAux (g : Grid) :
    List (Int × Int) → List (Int × Int) → List (List (Int × Int)) → List (List (Int × Int))
  | [], _, regions => regions
  | pos :: rest, visited, regions =>
    if pos ∈ visited then g.findRegionsAux rest visited regions
    else g.findRegionsAux rest (visited ++ g.floodFill pos.1 pos.2)
      (regions ++ [g.floodFill pos.1 pos.2])

def findRegions (g : Grid) : List (List (Int × Int)) :=
  g.findRegionsAux g.floorPositions [] []

theorem findRegionsAux_mono (g : Grid) (l : List (Int × Int)) (visited : List (Int × Int))
    (regions : List (List (Int × Int))) :
    ∀ r ∈ regions, r ∈ g.findRegionsAux l visited regions := by
  induction l generalizing visited regions with
  | nil => intro r hr; exact hr
  | cons pos rest ih =>
    intro r hr
    unfold findRegionsAux
    split
    · exact ih _ _ r hr
    · exact ih _ _ r (List.mem_append.mpr (Or.inl hr))

theorem findRegionsAux_cover (g : Grid) (l : List (Int × Int)) (visited : List (Int × Int))
    (regions : List (List (Int × Int)))
    (hvis : ∀ p ∈ visited, ∃ r ∈ regions, p ∈ r) :
    ∀ c ∈ l, ¬ g.isBlocked c.1 c.2 → ∃ r ∈ g.findRegionsAux l visited regions, c ∈ r := by
  induction l generalizing visited regions with
  | nil => intro c hc; exact absurd hc (List.not_mem_nil c)
  | cons pos rest ih =>
    intro c hc hnb
    unfold findRegionsAux
    split
    · rename_i hmem
      rcases List.mem_cons.mp hc with rfl | hc
      · obtain ⟨r, hr, hcr⟩ := hvis c hmem
        exact ⟨r, findRegionsAux_mono g rest visited regions r hr, hcr⟩
      · exact ih _ _ hvis c hc hnb
    · rename_i hmem
      have hvis' : ∀ p ∈ visited ++ g.floodFill pos.1 pos.2,
          ∃ r ∈ regions ++ [g.floodFill pos.1 pos.2], p ∈ r := by
        intro p hp
        rcases List.mem_append.mp hp with hp | hp
        · obtain ⟨r, hr, hpr⟩ := hvis p hp
          exact ⟨r, List.mem_append.mpr (Or.inl hr), hpr⟩
        · exact ⟨g.floodFill pos.1 pos.2,
            List.mem_append.mpr (Or.inr (List.mem_singleton.mpr rfl)), hp⟩
      rcases List.mem_cons.mp hc with rfl | hc
      · refine ⟨g.floodFill c.1 c.2, ?_, ?_⟩
        · exact findRegionsAux_mono g rest _ _ _
            (List.mem_append.mpr (Or.inr (List.mem_singleton.mpr rfl)))
        · rw [floodFill_mem_iff g c.1 c.2 hnb]
          exact Relation.ReflTransGen.refl
      · exact ih _ _ hvis' c hc hnb

theorem findRegionsAux_shape (g : Grid) (l : List (Int × Int)) (visited : List (Int × Int))
    (regions : List (List (Int × Int)))
    (hl : ∀ c ∈ l, ¬ g.isBlocked c.1 c.2)
    (hreg : ∀ r ∈ regions, ∃ p : Int × Int, ¬ g.isBlocked p.1 p.2 ∧ r = g.floodFill p.1 p.2) :
    ∀ r ∈ g.findRegionsAux l visited regions,
      ∃ p : Int × Int, ¬ g.isBlocked p.1 p.2 ∧ r = g.floodFill p.1 p.2 := by
  induction l generalizing visited regions with
  | nil => exact hreg
  | cons pos rest ih =>
    unfold findRegionsAux
    split
    · exact ih _ _ (fun c hc => hl c (List.mem_cons_of_mem _ hc)) hreg
    · refine ih _ _ (fun c hc => hl c (List.mem_cons_of_mem _ hc)) ?_
      intro r hr
      rcases List.mem_append.mp hr with hr | hr
      · exact hreg r hr
      · rw [List.mem_singleton] at hr
        exact ⟨pos, hl pos (List.mem_cons_self _ _), hr⟩

theorem findRegions_cover (g : Grid) {c : Int × Int} (hnb : ¬ g.isBlocked c.1 c.2) :
    ∃ r ∈ g.findRegions, c ∈ r :=
  findRegionsAux_cover g g.floorPositions [] []
    (fun p hp => absurd hp (List.not_mem_nil p)) c (mem_floorPositions.mpr hnb) hnb

theorem findRegions_shape (g : Grid) :
    ∀ r ∈ g.findRegions, ∃ p : Int × Int, ¬ g.isBlocked p.1 p.2 ∧ r = g.floodFill p.1 p.2 :=
  findRegionsAux_shape g g.floorPositions [] []
    (fun c hc => mem_floorPositions.mp hc)
    (fun r hr => absurd hr (List.not_mem_nil r))

end Grid

/-- One inner pass of the closest-pair scan of `ensure_connectivity`:
fold over the main region for a fixed `pos1`, tracking the best pair and
its distance (`best_dist` starts at infinity, modelled by `none`). -/
def bestPairFold (main : List (Int × Int))
    (acc : Option ((Int × Int) × (Int × Int) × Nat)) (p1 : Int × Int) :
    Option ((Int × Int) × (Int × Int) × Nat) :=
  main.foldl (fun acc2 p2 =>
    match acc2 with
    | none => some (p1, p2, manhattan p1 p2)
    | some (q1, q2, bd) =>
      if manhattan p1 p2 < bd then some (p1, p2, manhattan p1 p2) else some (q1, q2, bd)) acc

/-- The full closest-pair scan (`best_pair` of `ensure_connectivity`). -/
def bestPair (region main : List (Int × Int)) : Option ((Int × Int) × (Int × Int)) :=
  (region.foldl (bestPairFold main) none).map (fun t => (t.1, t.2.1))

theorem bestPairFold_sound (main : List (Int × Int)) (P1 P2 : (Int × Int) → Prop)
    (p1 : Int × Int) (hp1 : P1 p1) (hmain : ∀ m ∈ main, P2 m) :
    ∀ acc, (∀ t, acc = some t → P1 t.1 ∧ P2 t.2.1) →
    ∀ t, bestPairFold main acc p1 = some t → P1 t.1 ∧ P2 t.2.1 := by
  unfold bestPairFold
  induction main with
  | nil => intro acc hacc t ht; exact hacc t ht
  | cons m rest ih =>
    intro acc hacc t ht
    rw [List.foldl_cons] at ht
    refine ih (fun m hm => hmain m (List.mem_cons_of_mem _ hm)) _ ?_ t ht
    intro u hu
    match acc, hu with
    | none, hu =>
      simp only [Option.some.injEq] at hu
      rw [← hu]
      exact ⟨hp1, hmain m (List.mem_cons_self _ _)⟩
    | some (q1, q2, bd), hu =>
      simp only at hu
      split at hu <;> simp only [Option.some.injEq] at hu <;> rw [← hu]
      · exact ⟨hp1, hmain m (List.mem_cons_self _ _)⟩
      · exact hacc (q1, q2, bd) rfl

theorem bestPairFold_isSome (main : List (Int × Int)) (p1 : Int × Int)
    (acc : Option ((Int × Int) × (Int × Int) × Nat)) (h : acc.isSome ∨ main ≠ []) :
    (bestPairFold main acc p1).isSome := by
  unfold bestPairFold
  induction main generalizing acc with
  | nil =>
    rcases h with h | h
    · exact h
    · exact absurd rfl h
  | cons m rest ih =>
    rw [List.foldl_cons]
    by_cases hrest : rest = []
    · subst hrest
      simp only [List.foldl_nil]
      match acc with
      | none => rfl
      | some (q1, q2, bd) =>
        by_cases hlt : manhattan p1 m < bd <;> simp [hlt]
    · refine ih _ (Or.inr hrest)


theorem bestPairAll_sound (main : List (Int × Int)) (P1 P2 : (Int × Int) → Prop)
    (hmain : ∀ m ∈ main, P2 m) :
    ∀ (l : List (Int × Int)), (∀ p ∈ l, P1 p) →
    ∀ acc, (∀ t, acc = some t → P1 t.1 ∧ P2 t.2.1) →
    ∀ t, l.foldl (bestPairFold main) acc = some t → P1 t.1 ∧ P2 t.2.1 := by
  intro l
  induction l with
  | nil => intro _ acc hacc t ht; exact hacc t ht
  | cons p rest ih =>
    intro hl acc hacc t ht
    rw [List.foldl_cons] at ht
    exact ih (fun q hq => hl q (List.mem_cons_of_mem _ hq)) _
      (bestPairFold_sound main P1 P2 p (hl p (List.mem_cons_self _ _)) hmain acc hacc) t ht

theorem foldl_bestPairFold_someMono (main : List (Int × Int)) :
    ∀ (l : List (Int × Int)) (acc), acc.isSome → (l.foldl (bestPairFold main) acc).isSome := by
  intro l
  induction l with
  | nil => intro acc h; exact h
  | cons p rest ih =>
    intro acc h
    rw [List.foldl_cons]
    exact ih _ (bestPairFold_isSome main p acc (Or.inl h))

theorem bestPair_spec (region main : List (Int × Int)) (hr : region ≠ []) (hm : main ≠ []) :
    ∃ p : (Int × Int) × (Int × Int),
      bestPair region main = some p ∧ p.1 ∈ region ∧ p.2 ∈ main := by
  have hsome : (region.foldl (bestPairFold main) none).isSome := by
    match region, hr with
    | p :: rest, _ =>
      rw [List.foldl_cons]
      exact foldl_bestPairFold_someMono main rest _ (bestPairFold_isSome main p none (Or.inr hm))
  obtain ⟨t, ht⟩ := Option.isSome_iff_exists.mp hsome
  have hmem := bestPairAll_sound main (· ∈ region) (· ∈ main) (fun m hm => hm) region
    (fun p hp => hp) none (fun t ht => absurd ht (by simp)) t ht
  refine ⟨(t.1, t.2.1), ?_, hmem.1, hmem.2⟩
  unfold bestPair
  rw [ht]
  rfl

namespace Grid

/-- The body of the region-connection loop of `ensure_connectivity`: if a
closest pair was found, carve a width-2 corridor along it. -/
def carveStep (main : List (Int × Int)) (legOrder : Nat → Bool)
    (st : Grid × Nat) (region : List (Int × Int)) : Grid × Nat :=
  match bestPair region main with
  | none => (st.1, st.2 + 1)
  | some p =>
    (st.1.carveCorridor p.1.1 p.1.2 p.2.1 p.2.2 2 (legOrder st.2), st.2 + 1)

/-- `ensure_connectivity` (CellularAutomataGenerator): find all regions,
sort them by size (largest first, Python's stable sort), and carve a
width-2 corridor from each smaller region's closest pair to the main
region (`regions[0]` after sorting).  `legOrder` supplies the corridor
coin draws; the counter in the fold indexes them. -/
def ensureConnectivity (g : Grid) (legOrder : Nat → Bool) : Grid :=
  if g.floorPositions = [] then g
  else if g.findRegions.length ≤ 1 then g
  else
    (((List.insertionSort (fun r1 r2 : List (Int × Int) => r2.length ≤ r1.length)
        g.findRegions).drop 1).foldl
      (carveStep ((List.insertionSort (fun r1 r2 : List (Int × Int) => r2.length ≤ r1.length)
        g.findRegions).headD []) legOrder) (g, 0)).1

theorem floodFill_sound (g : Grid) (sx sy : Int) :
    ∀ c ∈ g.floodFill sx sy, ¬ g.isBlocked c.1 c.2 ∧ g.Reaches (sx, sy) c := by
  obtain ⟨-, -, i3, -⟩ := floodFillAux_spec g (sx, sy) [(sx, sy)] []
    (fun c hc => absurd hc (List.not_mem_nil c))
    (by
      intro c hc hnb
      rcases List.mem_cons.mp hc with rfl | hc
      · exact Relation.ReflTransGen.refl
      · exact absurd hc (List.not_mem_nil c))
    (fun d hd => absurd hd (List.not_mem_nil d))
  exact i3

/-- Reachability through non-blocked cells is interior reachability when
every non-blocked cell is interior. -/
theorem reaches_to_reachesI {g : Grid} {w h : Nat}
    (hint : ∀ x y, ¬ g.isBlocked x y → Interior w h (x, y)) {a b : Int × Int}
    (hr : g.Reaches a b) : g.ReachesI w h a b := by
  induction hr with
  | refl => exact Relation.ReflTransGen.refl
  | tail hab hbc ih =>
    exact Relation.ReflTransGen.tail ih ⟨hbc.1, hbc.2, hint _ _ hbc.2⟩

theorem reachesI_to_reaches {g : Grid} {w h : Nat} {a b : Int × Int}
    (hr : g.ReachesI w h a b) : g.Reaches a b := by
  induction hr with
  | refl => exact Relation.ReflTransGen.refl
  | tail hab hbc ih => exact Relation.ReflTransGen.tail ih ⟨hbc.1, hbc.2.1⟩

theorem getTile_addBorderWalls_interior {w h : Nat} {g : Grid} (hg : g.Inv w h)
    {c : Int × Int} (hc : Interior w h c) :
    g.addBorderWalls.getTile c.1 c.2 = g.getTile c.1 c.2 := by
  rw [getTile_addBorderWalls hg.1]
  rw [if_neg]
  rintro ⟨-, hring⟩
  obtain ⟨h1, h2, h3, h4⟩ := hc
  rw [hg.2.1, hg.2.2] at hring
  rcases hring with hr | hr | hr | hr <;> omega

theorem reachesI_addBorderWalls {w h : Nat} {g : Grid} (hg : g.Inv w h) {a b : Int × Int}
    (hr : g.ReachesI w h a b) : g.addBorderWalls.ReachesI w h a b := by
  induction hr with
  | refl => exact Relation.ReflTransGen.refl
  | tail hab hbc ih =>
    refine Relation.ReflTransGen.tail ih ⟨hbc.1, ?_, hbc.2.2⟩
    intro hbl
    apply hbc.2.1
    unfold Grid.isBlocked at hbl ⊢
    rwa [getTile_addBorderWalls_interior hg hbc.2.2] at hbl

/-- Non-blocked cells of a bordered grid are interior and were already
non-blocked before the border pass. -/
theorem addBorderWalls_nonblocked {w h : Nat} {g : Grid} (hg : g.Inv w h) {x y : Int}
    (hnb : ¬ g.addBorderWalls.isBlocked x y) :
    Interior w h (x, y) ∧ ¬ g.isBlocked x y := by
  have hin : g.addBorderWalls.inBounds x y := inBounds_of_not_blocked hnb
  have hin' : g.inBounds x y := by
    have h1 := (Inv_addBorderWalls hg).2.1
    have h2 := (Inv_addBorderWalls hg).2.2
    unfold Grid.inBounds at hin ⊢
    rw [h1, h2] at hin
    rw [hg.2.1, hg.2.2]
    exact hin
  have hchar := getTile_addBorderWalls hg.1 x y
  have hring : ¬ (x = 0 ∨ x = (g.width : Int) - 1 ∨ y = 0 ∨ y = (g.height : Int) - 1) := by
    intro hr
    apply hnb
    unfold Grid.isBlocked
    rw [hchar, if_pos ⟨hin', hr⟩]
    simp
  have hint : Interior w h (x, y) := by
    obtain ⟨h1, h2, h3, h4⟩ := hin'
    rw [hg.2.1] at h2
    rw [hg.2.2] at h4
    push_neg at hring
    obtain ⟨r1, r2, r3, r4⟩ := hring
    rw [hg.2.1] at r2
    rw [hg.2.2] at r4
    exact ⟨by omega, by simp only; omega, by omega, by simp only; omega⟩
  refine ⟨hint, ?_⟩
  intro hbl
  apply hnb
  unfold Grid.isBlocked at hbl ⊢
  rwa [getTile_addBorderWalls_interior hg hint]

/-- Mutual interior reachability inside one flood-fill region. -/
theorem region_connectI {w h : Nat} {g : Grid}
    (hint : ∀ x y, ¬ g.isBlocked x y → Interior w h (x, y))
    {seed : Int × Int} (hseed : ¬ g.isBlocked seed.1 seed.2) :
    ∀ c1 ∈ g.floodFill seed.1 seed.2, ∀ c2 ∈ g.floodFill seed.1 seed.2,
      g.ReachesI w h c1 c2 := by
  intro c1 hc1 c2 hc2
  have h1 : g.Reaches (seed.1, seed.2) c1 := (g.floodFill_sound seed.1 seed.2 c1 hc1).2
  have h2 : g.Reaches (seed.1, seed.2) c2 := (g.floodFill_sound seed.1 seed.2 c2 hc2).2
  have h1i : g.ReachesI w h (seed.1, seed.2) c1 := reaches_to_reachesI hint h1
  have h2i : g.ReachesI w h (seed.1, seed.2) c2 := reaches_to_reachesI hint h2
  have hseed' : ¬ g.isBlocked (seed.1, seed.2).1 (seed.1, seed.2).2 := hseed
  have hsymm := reachesI_symm hseed' (hint seed.1 seed.2 hseed) h1i
  exact hsymm.trans h2i

end Grid

namespace Grid

/-- Every interior cell written by `carve_corridor` (width 2) is connected,
inside the carved grid, to the corridor's first endpoint through interior
cells. -/
theorem carveSet_connects {w h : Nat} {gr : Grid} (hg : gr.Inv w h)
    {q1 q2 : Int × Int} (hi1 : Interior w h q1) (hi2 : Interior w h q2) (b : Bool)
    {c : Int × Int} (hic : Interior w h c)
    (hcs : carveSet q1.1 q1.2 q2.1 q2.2 2 b c) :
    (gr.carveCorridor q1.1 q1.2 q2.1 q2.2 2 b).ReachesI w h c q1 := by
  obtain ⟨x1, y1⟩ := q1
  obtain ⟨x2, y2⟩ := q2
  obtain ⟨cx, cy⟩ := c
  obtain ⟨i1a, i1b, i1c, i1d⟩ := hi1
  obtain ⟨i2a, i2b, i2c, i2d⟩ := hi2
  obtain ⟨ica, icb, icc, icd⟩ := hic
  simp only at i1a i1b i1c i1d i2a i2b i2c i2d ica icb icc icd
  set g' := gr.carveCorridor x1 y1 x2 y2 2 b with hg'
  have hfloor : ∀ x y, carveSet x1 y1 x2 y2 2 b (x, y) → Interior w h (x, y) →
      ¬ g'.isBlocked x y := by
    intro x y hcsx hintx
    apply not_blocked_of_floor
    rw [hg', Grid.getTile_carveCorridor hg, if_pos ⟨hcsx, hintx.inBounds hg.2.1 hg.2.2⟩]
  cases b with
  | true =>
    unfold carveSet at hcs
    rw [if_pos rfl] at hcs
    rcases hcs with ⟨ha, hb', hy1, hy2⟩ | ⟨ha, hb', hyl, hyh⟩
    · simp only at ha hb' hy1 hy2
      have hrow : g'.ReachesI w h (cx, y1) (x1, y1) := by
        apply reachesI_row
        intro x hx1 hx2
        have hintx : Interior w h (x, y1) :=
          ⟨by simp only; omega, by simp only; omega, i1c, i1d⟩
        refine ⟨hfloor x y1 ?_ hintx, hintx⟩
        unfold carveSet
        rw [if_pos rfl]
        exact Or.inl ⟨by omega, by omega, by omega, by omega⟩
      rcases (by omega : cy = y1 ∨ cy = y1 + 1) with rfl | rfl
      · exact hrow
      · refine Relation.ReflTransGen.head ?_ hrow
        have hintx : Interior w h (cx, y1) := ⟨ica, icb, i1c, i1d⟩
        refine ⟨?_, hfloor cx y1 ?_ hintx, hintx⟩
        · rw [mem_neighbors4_iff]
          simp only
          omega
        · unfold carveSet
          rw [if_pos rfl]
          exact Or.inl ⟨by omega, by omega, by omega, by omega⟩
    · simp only at ha hb' hyl hyh
      have hcol : g'.ReachesI w h (x2, cy) (x2, y1) := by
        apply reachesI_col
        intro y hya hyb
        have hintx : Interior w h (x2, y) :=
          ⟨i2a, i2b, by simp only; omega, by simp only; omega⟩
        refine ⟨hfloor x2 y ?_ hintx, hintx⟩
        unfold carveSet
        rw [if_pos rfl]
        exact Or.inr ⟨by omega, by omega, by omega, by omega⟩
      have hrow : g'.ReachesI w h (x2, y1) (x1, y1) := by
        apply reachesI_row
        intro x hx1 hx2
        have hintx : Interior w h (x, y1) :=
          ⟨by simp only; omega, by simp only; omega, i1c, i1d⟩
        refine ⟨hfloor x y1 ?_ hintx, hintx⟩
        unfold carveSet
        rw [if_pos rfl]
        exact Or.inl ⟨by omega, by omega, by omega, by omega⟩
      have htail := hcol.trans hrow
      rcases (by omega : cx = x2 ∨ cx = x2 + 1) with rfl | rfl
      · exact htail
      · refine Relation.ReflTransGen.head ?_ htail
        have hintx : Interior w h (x2, cy) := ⟨i2a, i2b, icc, icd⟩
        refine ⟨?_, hfloor x2 cy ?_ hintx, hintx⟩
        · rw [mem_neighbors4_iff]
          simp only
          omega
        · unfold carveSet
          rw [if_pos rfl]
          exact Or.inr ⟨by omega, by omega, by omega, by omega⟩
  | false =>
    unfold carveSet at hcs
    rw [if_neg (by decide : ¬ (false = true))] at hcs
    rcases hcs with ⟨ha, hb', hyl, hyh⟩ | ⟨ha, hb', hy1, hy2⟩
    · simp only at ha hb' hyl hyh
      have hcol : g'.ReachesI w h (x1, cy) (x1, y1) := by
        apply reachesI_col
        intro y hya hyb
        have hintx : Interior w h (x1, y) :=
          ⟨i1a, i1b, by simp only; omega, by simp only; omega⟩
        refine ⟨hfloor x1 y ?_ hintx, hintx⟩
        unfold carveSet
        rw [if_neg (by decide : ¬ (false = true))]
        exact Or.inl ⟨by omega, by omega, by omega, by omega⟩
      rcases (by omega : cx = x1 ∨ cx = x1 + 1) with rfl | rfl
      · exact hcol
      · refine Relation.ReflTransGen.head ?_ hcol
        have hintx : Interior w h (x1, cy) := ⟨i1a, i1b, icc, icd⟩
        refine ⟨?_, hfloor x1 cy ?_ hintx, hintx⟩
        · rw [mem_neighbors4_iff]
          simp only
          omega
        · unfold carveSet
          rw [if_neg (by decide : ¬ (false = true))]
          exact Or.inl ⟨by omega, by omega, by omega, by omega⟩
    · simp only at ha hb' hy1 hy2
      have hrow : g'.ReachesI w h (cx, y2) (x1, y2) := by
        apply reachesI_row
        intro x hx1 hx2
        have hintx : Interior w h (x, y2) :=
          ⟨by simp only; omega, by simp only; omega, i2c, i2d⟩
        refine ⟨hfloor x y2 ?_ hintx, hintx⟩
        unfold carveSet
        rw [if_neg (by decide : ¬ (false = true))]
        exact Or.inr ⟨by omega, by omega, by omega, by omega⟩
      have hcol : g'.ReachesI w h (x1, y2) (x1, y1) := by
        apply reachesI_col
        intro y hya hyb
        have hintx : Interior w h (x1, y) :=
          ⟨i1a, i1b, by simp only; omega, by simp only; omega⟩
        refine ⟨hfloor x1 y ?_ hintx, hintx⟩
        unfold carveSet
        rw [if_neg (by decide : ¬ (false = true))]
        exact Or.inl ⟨by omega, by omega, by omega, by omega⟩
      have htail := hrow.trans hcol
      rcases (by omega : cy = y2 ∨ cy = y2 + 1) with rfl | rfl
      · exact htail
      · refine Relation.ReflTransGen.head ?_ htail
        have hintx : Interior w h (cx, y2) := ⟨ica, icb, i2c, i2d⟩
        refine ⟨?_, hfloor cx y2 ?_ hintx, hintx⟩
        · rw [mem_neighbors4_iff]
          simp only
          omega
        · unfold carveSet
          rw [if_neg (by decide : ¬ (false = true))]
          exact Or.inr ⟨by omega, by omega, by omega, by omega⟩

end Grid

theorem length_le_one_mem_eq {α : Type} {l : List α} (h : l.length ≤ 1) :
    ∀ x ∈ l, ∀ y ∈ l, x = y := by
  match l, h with
  | [], _ => intro x hx; exact absurd hx (List.not_mem_nil x)
  | [a], _ =>
    intro x hx y hy
    rw [List.mem_singleton] at hx hy
    rw [hx, hy]

namespace Grid

/-- Invariants carried through the corridor-carving fold of
`ensure_connectivity`: the grid stays well-formed, non-blocked cells never
become blocked, and every interior non-blocked cell either already reaches
the main anchor `m0` or lies in a not-yet-processed region. -/
theorem carveFold_spec {w h : Nat} (g : Grid)
    (hint : ∀ x y, ¬ g.isBlocked x y → Interior w h (x, y))
    (main : List (Int × Int)) (m0 : Int × Int)
    (hmainNB : ∀ c ∈ main, ¬ g.isBlocked c.1 c.2)
    (hmainConn : ∀ c ∈ main, g.ReachesI w h c m0)
    (hmainNE : main ≠ [])
    (legOrder : Nat → Bool) :
    ∀ (L : List (List (Int × Int))) (st : Grid × Nat),
      st.1.Inv w h →
      (∀ x y, ¬ g.isBlocked x y → ¬ st.1.isBlocked x y) →
      (∀ c : Int × Int, Interior w h c → ¬ st.1.isBlocked c.1 c.2 →
        st.1.ReachesI w h c m0 ∨ ∃ r ∈ L, c ∈ r) →
      (∀ r ∈ L, ∃ p : Int × Int, ¬ g.isBlocked p.1 p.2 ∧ r = g.floodFill p.1 p.2) →
      (L.foldl (carveStep main legOrder) st).1.Inv w h ∧
      (∀ x y, ¬ g.isBlocked x y → ¬ (L.foldl (carveStep main legOrder) st).1.isBlocked x y) ∧
      (∀ c : Int × Int, Interior w h c →
        ¬ (L.foldl (carveStep main legOrder) st).1.isBlocked c.1 c.2 →
        (L.foldl (carveStep main legOrder) st).1.ReachesI w h c m0) := by
  intro L
  induction L with
  | nil =>
    intro st h1 h2 h3 h4
    refine ⟨h1, h2, ?_⟩
    intro c hic hnb
    rcases h3 c hic hnb with hr | ⟨r, hr, -⟩
    · exact hr
    · exact absurd hr (List.not_mem_nil r)
  | cons r L' ih =>
    intro st hstInv hstMono hstConn hL
    obtain ⟨seed, hseedNB, hreq⟩ := hL r (List.mem_cons_self _ _)
    have hseedMem : seed ∈ r := by
      rw [hreq]
      rw [floodFill_mem_iff g seed.1 seed.2 hseedNB]
      exact Relation.ReflTransGen.refl
    have hrne : r ≠ [] := List.ne_nil_of_mem hseedMem
    obtain ⟨p, hbp, hp1, hp2⟩ := bestPair_spec r main hrne hmainNE
    have hstep : carveStep main legOrder st r =
        (st.1.carveCorridor p.1.1 p.1.2 p.2.1 p.2.2 2 (legOrder st.2), st.2 + 1) := by
      unfold carveStep
      rw [hbp]
    have hp1NBg : ¬ g.isBlocked p.1.1 p.1.2 := by
      have := (g.floodFill_sound seed.1 seed.2 p.1 (hreq ▸ hp1)).1
      exact this
    have hp2NBg : ¬ g.isBlocked p.2.1 p.2.2 := hmainNB p.2 hp2
    have hip1 : Interior w h p.1 := by
      have := hint p.1.1 p.1.2 hp1NBg
      simpa using this
    have hip2 : Interior w h p.2 := by
      have := hint p.2.1 p.2.2 hp2NBg
      simpa using this
    set g2 := st.1.carveCorridor p.1.1 p.1.2 p.2.1 p.2.2 2 (legOrder st.2) with hg2
    have hg2Inv : g2.Inv w h := Inv_carveCorridor hstInv _ _ _ _ _ _
    have hg2OFW : OnlyFloorWrites st.1 g2 :=
      onlyFloorWrites_carveCorridor hstInv _ _ _ _ _ _
    have hg2Mono : ∀ x y, ¬ g.isBlocked x y → ¬ g2.isBlocked x y := fun x y hnb =>
      not_blocked_of_onlyFloorWrites hg2OFW x y (hstMono x y hnb)
    have hg2MonoSt : ∀ x y, ¬ st.1.isBlocked x y → ¬ g2.isBlocked x y := fun x y hnb =>
      not_blocked_of_onlyFloorWrites hg2OFW x y hnb
    have hlinkP : g2.ReachesI w h p.1 m0 := by
      have hcarve : g2.ReachesI w h p.1 p.2 :=
        reachesI_carveCorridor hstInv (by omega) (legOrder st.2) hip1 hip2
      have hmain2 : g2.ReachesI w h p.2 m0 :=
        reachesI_mono hg2Mono (hmainConn p.2 hp2)
      exact hcarve.trans hmain2
    have hg2Conn : ∀ c : Int × Int, Interior w h c → ¬ g2.isBlocked c.1 c.2 →
        g2.ReachesI w h c m0 ∨ ∃ r' ∈ L', c ∈ r' := by
      intro c hic hnb
      by_cases hold : st.1.isBlocked c.1 c.2
      · -- the cell was carved by this corridor
        have hchar := Grid.getTile_carveCorridor hstInv p.1.1 p.1.2 p.2.1 p.2.2 2
          (legOrder st.2) c.1 c.2
        have hcs : carveSet p.1.1 p.1.2 p.2.1 p.2.2 2 (legOrder st.2) (c.1, c.2) := by
          by_contra hncs
          apply hnb
          unfold Grid.isBlocked at hold ⊢
          rw [hg2, hchar, if_neg (fun hx => hncs hx.1)]
          exact hold
        left
        have hconn : g2.ReachesI w h c p.1 :=
          carveSet_connects hstInv hip1 hip2 (legOrder st.2) hic (by simpa using hcs)
        exact hconn.trans hlinkP
      · rcases hstConn c hic hold with hreach | ⟨r', hr', hcr'⟩
        · exact Or.inl (reachesI_mono hg2MonoSt hreach)
        · rcases List.mem_cons.mp hr' with rfl | hr'
          · left
            have hcp1 : g.ReachesI w h c p.1 := by
              rw [hreq] at hcr'
              exact region_connectI hint hseedNB c hcr' p.1 (hreq ▸ hp1)
            have := reachesI_mono hg2Mono hcp1
            exact this.trans hlinkP
          · exact Or.inr ⟨r', hr', hcr'⟩
    have := ih (carveStep main legOrder st r)
      (by rw [hstep]; exact hg2Inv)
      (by rw [hstep]; exact hg2Mono)
      (by rw [hstep]; exact hg2Conn)
      (fun r' hr' => hL r' (List.mem_cons_of_mem _ hr'))
    simpa only [List.foldl_cons] using this

end Grid

namespace Grid

/-- After `ensure_connectivity`, any two interior non-blocked cells are
mutually reachable through interior cells; dimensions are preserved and
non-blocked cells are never blocked by it. -/
theorem ensureConnectivity_spec {w h : Nat} {g : Grid} (hg : g.Inv w h)
    (hint : ∀ x y, ¬ g.isBlocked x y → Interior w h (x, y)) (legOrder : Nat → Bool) :
    (g.ensureConnectivity legOrder).Inv w h ∧
    (∀ x y, ¬ g.isBlocked x y → ¬ (g.ensureConnectivity legOrder).isBlocked x y) ∧
    (∀ c : Int × Int, Interior w h c → ¬ (g.ensureConnectivity legOrder).isBlocked c.1 c.2 →
      ∀ d : Int × Int, Interior w h d → ¬ (g.ensureConnectivity legOrder).isBlocked d.1 d.2 →
      (g.ensureConnectivity legOrder).ReachesI w h c d) := by
  unfold ensureConnectivity
  by_cases hfp : g.floorPositions = []
  · rw [if_pos hfp]
    refine ⟨hg, fun x y hnb => hnb, ?_⟩
    intro c hic hnb
    exfalso
    have := mem_floorPositions.mpr hnb
    rw [hfp] at this
    exact List.not_mem_nil c this
  rw [if_neg hfp]
  by_cases hlen : g.findRegions.length ≤ 1
  · rw [if_pos hlen]
    refine ⟨hg, fun x y hnb => hnb, ?_⟩
    intro c hic hnbc d hid hnbd
    obtain ⟨r1, hr1, hcr1⟩ := g.findRegions_cover hnbc
    obtain ⟨r2, hr2, hdr2⟩ := g.findRegions_cover hnbd
    have hr12 : r1 = r2 := length_le_one_mem_eq hlen r1 hr1 r2 hr2
    obtain ⟨seed, hseedNB, hreq⟩ := g.findRegions_shape r1 hr1
    rw [hreq] at hcr1
    rw [hr12] at hreq
    rw [hreq] at hdr2
    exact region_connectI hint hseedNB c hcr1 d hdr2
  rw [if_neg hlen]
  have hperm := List.perm_insertionSort
    (fun r1 r2 : List (Int × Int) => r2.length ≤ r1.length) g.findRegions
  cases hs : List.insertionSort
      (fun r1 r2 : List (Int × Int) => r2.length ≤ r1.length) g.findRegions with
  | nil =>
    exfalso
    rw [hs] at hperm
    have := hperm.length_eq
    simp at this
    rw [← this] at hlen
    simp at hlen
  | cons mreg tailregs =>
    have hmregMem : mreg ∈ g.findRegions := by
      rw [← hperm.mem_iff, hs]
      exact List.mem_cons_self _ _
    obtain ⟨seedM, hseedM, hmeq⟩ := g.findRegions_shape mreg hmregMem
    have hmainNB : ∀ c ∈ mreg, ¬ g.isBlocked c.1 c.2 := by
      intro c hc
      rw [hmeq] at hc
      exact (g.floodFill_sound seedM.1 seedM.2 c hc).1
    have hseedMemM : seedM ∈ mreg := by
      rw [hmeq, floodFill_mem_iff g seedM.1 seedM.2 hseedM]
      exact Relation.ReflTransGen.refl
    have hmainConn : ∀ c ∈ mreg, g.ReachesI w h c seedM := by
      intro c hc
      rw [hmeq] at hc
      exact region_connectI hint hseedM c hc seedM (hmeq ▸ hseedMemM)
    have hmainNE : mreg ≠ [] := List.ne_nil_of_mem hseedMemM
    have hL : ∀ r ∈ tailregs, ∃ p : Int × Int,
        ¬ g.isBlocked p.1 p.2 ∧ r = g.floodFill p.1 p.2 := by
      intro r hr
      apply g.findRegions_shape
      rw [← hperm.mem_iff, hs]
      exact List.mem_cons_of_mem _ hr
    have hstConn : ∀ c : Int × Int, Interior w h c → ¬ (g, 0).1.isBlocked c.1 c.2 →
        (g, 0).1.ReachesI w h c seedM ∨ ∃ r ∈ tailregs, c ∈ r := by
      intro c hic hnb
      obtain ⟨r, hr, hcr⟩ := g.findRegions_cover hnb
      have hrs : r ∈ mreg :: tailregs := by
        rw [← hs, hperm.mem_iff]
        exact hr
      rcases List.mem_cons.mp hrs with rfl | hrt
      · exact Or.inl (hmainConn c hcr)
      · exact Or.inr ⟨r, hrt, hcr⟩
    obtain ⟨hresInv, hresMono, hresConn⟩ := carveFold_spec g hint mreg seedM hmainNB
      hmainConn hmainNE legOrder tailregs (g, 0) hg (fun x y hnb => hnb) hstConn hL
    simp only [List.headD_cons, List.drop_succ_cons, List.drop_zero]
    refine ⟨hresInv, hresMono, ?_⟩
    intro c hic hnbc d hid hnbd
    have hc0 := hresConn c hic hnbc
    have hd0 := hresConn d hid hnbd
    have hd0s := reachesI_symm hnbd hid hd0
    exact hc0.trans hd0s

/-- The grand connectivity statement: after `ensure_connectivity` followed
by `add_border_walls`, any two non-blocked cells of the result are mutually
reachable by 4-directional movement through non-blocked cells. -/
theorem ensureConnectivity_connected {w h : Nat} {g : Grid} (hg : g.Inv w h)
    (hint : ∀ x y, ¬ g.isBlocked x y → Interior w h (x, y)) (legOrder : Nat → Bool) :
    ∀ a b : Int × Int,
      ¬ ((g.ensureConnectivity legOrder).addBorderWalls).isBlocked a.1 a.2 →
      ¬ ((g.ensureConnectivity legOrder).addBorderWalls).isBlocked b.1 b.2 →
      ((g.ensureConnectivity legOrder).addBorderWalls).Reaches a b := by
  obtain ⟨hEInv, hEMono, hEConn⟩ := ensureConnectivity_spec hg hint legOrder
  intro a b hnba hnbb
  obtain ⟨hia, hnba'⟩ := addBorderWalls_nonblocked hEInv hnba
  obtain ⟨hib, hnbb'⟩ := addBorderWalls_nonblocked hEInv hnbb
  have hpath : (g.ensureConnectivity legOrder).ReachesI w h a b := by
    have := hEConn a (by simpa using hia) hnba' b (by simpa using hib) hnbb'
    exact this
  exact reachesI_to_reaches (reachesI_addBorderWalls hEInv hpath)

end Grid

/-- A fold writing `f c` at each cell `c` of a list, fully characterized
(the written value depends only on the cell, so duplicate writes agree). -/
theorem getTile_foldl_setByFun {w h : Nat} (f : Int × Int → String)
    (l : List (Int × Int)) (gr : Grid) (hg : gr.Inv w h) (x y : Int) :
    ((l.foldl (fun g2 c => g2.setTile c.1 c.2 (f c)) gr).getTile x y
      = if (x, y) ∈ l ∧ gr.inBounds x y then f (x, y) else gr.getTile x y)
    ∧ (l.foldl (fun g2 c => g2.setTile c.1 c.2 (f c)) gr).Inv w h := by
  induction l generalizing gr with
  | nil => exact ⟨by simp, hg⟩
  | cons a t ih =>
    simp only [List.foldl_cons]
    obtain ⟨ih1, ih2⟩ := ih (gr.setTile a.1 a.2 (f a)) (hg.setTile a.1 a.2 (f a))
    refine ⟨?_, ih2⟩
    rw [ih1]
    have hget : (gr.setTile a.1 a.2 (f a)).getTile x y
        = if a.1 = x ∧ a.2 = y ∧ gr.inBounds x y then f a else gr.getTile x y :=
      Grid.getTile_setTile hg.1 a.1 a.2 (f a) x y
    have ha : (x, y) = a ↔ a.1 = x ∧ a.2 = y := by
      constructor
      · rintro rfl; exact ⟨rfl, rfl⟩
      · rintro ⟨h1, h2⟩
        rw [← h1, ← h2]
    have hfa : (a.1 = x ∧ a.2 = y) → f a = f (x, y) := by
      rintro ⟨h1, h2⟩
      rw [← h1, ← h2]
    simp only [Grid.inBounds_setTile, hget, List.mem_cons, ha]
    split_ifs with h1 h2 h3 h4 <;> first
      | rfl
      | (exact hfa h1.1)
      | (exact hfa ⟨h2.1, h2.2.1⟩)
      | tauto

/-- A doubly nested write loop re-expressed as a fold over the explicit
list of written cells. -/
theorem nested_fold_as_cells {α : Type} (f : Int × Int → String) (outer : List α)
    (inner : List Int) (mk : α → Int → Int × Int) (g0 : Grid) :
    outer.foldl (fun gr a => inner.foldl
      (fun g2 i => g2.setTile (mk a i).1 (mk a i).2 (f (mk a i))) gr) g0
      = (outer.flatMap (fun a => inner.map (mk a))).foldl
          (fun g2 c => g2.setTile c.1 c.2 (f c)) g0 := by
  induction outer generalizing g0 with
  | nil => rfl
  | cons a t ih =>
    simp only [List.foldl_cons, List.flatMap_cons, List.foldl_append]
    rw [ih]
    congr 1
    rw [List.foldl_map]

namespace Grid

/-- The 3×3 wall count of `ca_iteration` (including the cell itself),
read from the grid as it stood before the iteration. -/
def wallCount (g : Grid) (x y : Int) : Nat :=
  (([-1, 0, 1] : List Int).flatMap (fun dy => ([-1, 0, 1] : List Int).map (fun dx =>
    g.getTile (x + dx) (y + dy)))).count "wall"

/-- `CellularAutomataGenerator.ca_iteration`: a synchronous update.  The
accumulator plays the role of `new_grid` (initially a copy of the grid);
every neighbour count reads the captured pre-iteration grid `g`. -/
def caIteration (g : Grid) : Grid :=
  (intRange 1 ((g.height : Int) - 1)).foldl (fun gNew y =>
    (intRange 1 ((g.width : Int) - 1)).foldl (fun gNew2 x =>
      gNew2.setTile x y (if g.wallCount x y ≥ 5 then "wall" else "floor")) gNew) g

/-- Full characterization of `ca_iteration`: interior cells obey the 4-5
rule computed on the pre-iteration grid, all other cells are unchanged. -/
theorem getTile_caIteration {w h : Nat} {g : Grid} (hg : g.Inv w h) (x y : Int) :
    (g.caIteration).getTile x y =
      if 1 ≤ x ∧ x ≤ (w : Int) - 2 ∧ 1 ≤ y ∧ y ≤ (h : Int) - 2 then
        (if g.wallCount x y ≥ 5 then "wall" else "floor")
      else g.getTile x y := by
  unfold caIteration
  rw [nested_fold_as_cells (fun c => if g.wallCount c.1 c.2 ≥ 5 then "wall" else "floor")
    (intRange 1 ((g.height : Int) - 1)) (intRange 1 ((g.width : Int) - 1))
    (fun y x => (x, y)) g]
  obtain ⟨hget, -⟩ := getTile_foldl_setByFun
    (fun c => if g.wallCount c.1 c.2 ≥ 5 then "wall" else "floor")
    ((intRange 1 ((g.height : Int) - 1)).flatMap
      (fun a => (intRange 1 ((g.width : Int) - 1)).map (fun x => (x, a)))) g hg x y
  rw [hget]
  have hmem : (x, y) ∈ (intRange 1 ((g.height : Int) - 1)).flatMap
      (fun a => (intRange 1 ((g.width : Int) - 1)).map (fun x => (x, a))) ↔
      (1 ≤ x ∧ x ≤ (w : Int) - 2 ∧ 1 ≤ y ∧ y ≤ (h : Int) - 2) := by
    rw [List.mem_flatMap]
    constructor
    · rintro ⟨yv, hyv, hc⟩
      rw [List.mem_map] at hc
      obtain ⟨xv, hxv, heq⟩ := hc
      rw [mem_intRange] at hyv hxv
      obtain ⟨rfl, rfl⟩ := Prod.mk.injEq .. ▸ heq
      rw [hg.2.1] at hxv
      rw [hg.2.2] at hyv
      omega
    · rintro ⟨h1, h2, h3, h4⟩
      refine ⟨y, mem_intRange.mpr ⟨h3, by rw [hg.2.2]; omega⟩, ?_⟩
      rw [List.mem_map]
      exact ⟨x, mem_intRange.mpr ⟨h1, by rw [hg.2.1]; omega⟩, rfl⟩
  have hinb : (1 ≤ x ∧ x ≤ (w : Int) - 2 ∧ 1 ≤ y ∧ y ≤ (h : Int) - 2) → g.inBounds x y := by
    rintro ⟨h1, h2, h3, h4⟩
    refine ⟨by omega, ?_, by omega, ?_⟩
    · rw [hg.2.1]; omega
    · rw [hg.2.2]; omega
  by_cases hc : 1 ≤ x ∧ x ≤ (w : Int) - 2 ∧ 1 ≤ y ∧ y ≤ (h : Int) - 2
  · rw [if_pos ⟨hmem.mpr hc, hinb hc⟩, if_pos hc]
  · rw [if_neg (fun hx => hc (hmem.mp hx.1)), if_neg hc]

theorem Inv_caIteration {w h : Nat} {g : Grid} (hg : g.Inv w h) : g.caIteration.Inv w h := by
  unfold caIteration
  apply foldl_preserves (Grid.Inv w h)
  · intro gr a hgr
    exact foldl_preserves (Grid.Inv w h) _ (fun g2 b hg2 => hg2.setTile _ _ _) _ _ hgr
  · exact hg

/-- `CellularAutomataGenerator.initialize_random`: the per-cell
`random.random() < wall_probability` draws are supplied by `wallBit`. -/
def initializeRandom (g : Grid) (wallBit : Int → Int → Bool) : Grid :=
  (intRange 1 ((g.height : Int) - 1)).foldl (fun gr y =>
    (intRange 1 ((g.width : Int) - 1)).foldl (fun gr2 x =>
      gr2.setTile x y (if wallBit x y then "wall" else "floor")) gr) g

theorem getTile_initializeRandom {w h : Nat} {g : Grid} (hg : g.Inv w h)
    (wallBit : Int → Int → Bool) (x y : Int) :
    (g.initializeRandom wallBit).getTile x y =
      if 1 ≤ x ∧ x ≤ (w : Int) - 2 ∧ 1 ≤ y ∧ y ≤ (h : Int) - 2 then
        (if wallBit x y then "wall" else "floor")
      else g.getTile x y := by
  unfold initializeRandom
  rw [nested_fold_as_cells (fun c => if wallBit c.1 c.2 then "wall" else "floor")
    (intRange 1 ((g.height : Int) - 1)) (intRange 1 ((g.width : Int) - 1))
    (fun y x => (x, y)) g]
  obtain ⟨hget, -⟩ := getTile_foldl_setByFun
    (fun c => if wallBit c.1 c.2 then "wall" else "floor")
    ((intRange 1 ((g.height : Int) - 1)).flatMap
      (fun a => (intRange 1 ((g.width : Int) - 1)).map (fun x => (x, a)))) g hg x y
  rw [hget]
  have hmem : (x, y) ∈ (intRange 1 ((g.height : Int) - 1)).flatMap
      (fun a => (intRange 1 ((g.width : Int) - 1)).map (fun x => (x, a))) ↔
      (1 ≤ x ∧ x ≤ (w : Int) - 2 ∧ 1 ≤ y ∧ y ≤ (h : Int) - 2) := by
    rw [List.mem_flatMap]
    constructor
    · rintro ⟨yv, hyv, hc⟩
      rw [List.mem_map] at hc
      obtain ⟨xv, hxv, heq⟩ := hc
      rw [mem_intRange] at hyv hxv
      obtain ⟨rfl, rfl⟩ := Prod.mk.injEq .. ▸ heq
      rw [hg.2.1] at hxv
      rw [hg.2.2] at hyv
      omega
    · rintro ⟨h1, h2, h3, h4⟩
      refine ⟨y, mem_intRange.mpr ⟨h3, by rw [hg.2.2]; omega⟩, ?_⟩
      rw [List.mem_map]
      exact ⟨x, mem_intRange.mpr ⟨h1, by rw [hg.2.1]; omega⟩, rfl⟩
  have hinb : (1 ≤ x ∧ x ≤ (w : Int) - 2 ∧ 1 ≤ y ∧ y ≤ (h : Int) - 2) → g.inBounds x y := by
    rintro ⟨h1, h2, h3, h4⟩
    refine ⟨by omega, ?_, by omega, ?_⟩
    · rw [hg.2.1]; omega
    · rw [hg.2.2]; omega
  by_cases hc : 1 ≤ x ∧ x ≤ (w : Int) - 2 ∧ 1 ≤ y ∧ y ≤ (h : Int) - 2
  · rw [if_pos ⟨hmem.mpr hc, hinb hc⟩, if_pos hc]
  · rw [if_neg (fun hx => hc (hmem.mp hx.1)), if_neg hc]

theorem Inv_initializeRandom {w h : Nat} {g : Grid} (hg : g.Inv w h)
    (wallBit : Int → Int → Bool) : (g.initializeRandom wallBit).Inv w h := by
  unfold initializeRandom
  apply foldl_preserves (Grid.Inv w h)
  · intro gr a hgr
    exact foldl_preserves (Grid.Inv w h) _ (fun g2 b hg2 => hg2.setTile _ _ _) _ _ hgr
  · exact hg

/-- The "fill with walls initially" loop shared by all three dungeon
algorithms in `generate_dungeon`. -/
def fillWalls (g : Grid) : Grid :=
  (intRange 0 g.height).foldl (fun gr y =>
    (intRange 0 g.width).foldl (fun gr2 x => gr2.setTile x y "wall") gr) g

theorem getTile_fillWalls {w h : Nat} {g : Grid} (hg : g.Inv w h) (x y : Int) :
    g.fillWalls.getTile x y = "wall" := by
  unfold fillWalls
  rw [nested_fold_as_cells (fun _ => "wall") (intRange 0 ((g.height : Int)))
    (intRange 0 ((g.width : Int))) (fun y x => (x, y)) g]
  obtain ⟨hget, -⟩ := getTile_foldl_setByFun (fun _ => "wall")
    ((intRange 0 ((g.height : Int))).flatMap
      (fun a => (intRange 0 ((g.width : Int))).map (fun x => (x, a)))) g hg x y
  rw [hget]
  by_cases hin : g.inBounds x y
  · have hmem : (x, y) ∈ (intRange 0 ((g.height : Int))).flatMap
        (fun a => (intRange 0 ((g.width : Int))).map (fun x => (x, a))) := by
      obtain ⟨h1, h2, h3, h4⟩ := hin
      rw [List.mem_flatMap]
      refine ⟨y, mem_intRange.mpr ⟨h3, h4⟩, ?_⟩
      rw [List.mem_map]
      exact ⟨x, mem_intRange.mpr ⟨h1, h2⟩, rfl⟩
    rw [if_pos ⟨hmem, hin⟩]
  · rw [if_neg (fun hx => hin hx.2)]
    exact getTile_out hin

theorem Inv_fillWalls {w h : Nat} {g : Grid} (hg : g.Inv w h) : g.fillWalls.Inv w h := by
  unfold fillWalls
  apply foldl_preserves (Grid.Inv w h)
  · intro gr a hgr
    exact foldl_preserves (Grid.Inv w h) _ (fun g2 b hg2 => hg2.setTile _ _ _) _ _ hgr
  · exact hg

end Grid

namespace Grid

theorem Inv_init (w h : Nat) : (Grid.init w h).Inv w h := by
  refine ⟨⟨by simp [Grid.init], ?_⟩, rfl, rfl⟩
  intro row hrow
  unfold Grid.init at hrow
  simp only at hrow
  rw [List.eq_of_mem_replicate hrow]
  exact List.length_replicate w _

end Grid

/-- Oracle for the cellular-automata dungeon pipeline: the per-cell wall
seeds, the `randint(4, 5)` iteration-count draw (`4 + iterDraw % 2`), and
the corridor leg-order coins of `ensure_connectivity`. -/
structure CellularOracle where
  wallBit : Int → Int → Bool
  iterDraw : Nat
  legOrder : Nat → Bool

/-- The terrain-grid part of `generate_dungeon(..., algorithm="cellular")`:
fill with walls, seed random interior walls, run 4–5 CA iterations,
connect the regions, and force border walls.  `create_entities` then bakes
exactly this grid, and `place_stairs_and_player` does not touch it. -/
def generateCellularGrid (w h : Nat) (o : CellularOracle) : Grid :=
  ((((List.range (4 + o.iterDraw % 2)).foldl (fun gr _ => gr.caIteration)
      (((Grid.init w h).fillWalls).initializeRandom o.wallBit)).ensureConnectivity
      o.legOrder)).addBorderWalls

/-- The grid reaching `ensure_connectivity` in the cellular pipeline is
well-formed and has "wall" everywhere outside the strict interior. -/
theorem cellularPre_spec (w h : Nat) (o : CellularOracle) :
    ((List.range (4 + o.iterDraw % 2)).foldl (fun gr _ => gr.caIteration)
      (((Grid.init w h).fillWalls).initializeRandom o.wallBit)).Inv w h ∧
    (∀ x y : Int, ¬ (1 ≤ x ∧ x ≤ (w : Int) - 2 ∧ 1 ≤ y ∧ y ≤ (h : Int) - 2) →
      ((List.range (4 + o.iterDraw % 2)).foldl (fun gr _ => gr.caIteration)
        (((Grid.init w h).fillWalls).initializeRandom o.wallBit)).getTile x y = "wall") := by
  have hbase : (((Grid.init w h).fillWalls).initializeRandom o.wallBit).Inv w h ∧
      (∀ x y : Int, ¬ (1 ≤ x ∧ x ≤ (w : Int) - 2 ∧ 1 ≤ y ∧ y ≤ (h : Int) - 2) →
        (((Grid.init w h).fillWalls).initializeRandom o.wallBit).getTile x y = "wall") := by
    have h1 : ((Grid.init w h).fillWalls).Inv w h := Grid.Inv_fillWalls (Grid.Inv_init w h)
    refine ⟨Grid.Inv_initializeRandom h1 o.wallBit, ?_⟩
    intro x y hni
    rw [Grid.getTile_initializeRandom h1 o.wallBit x y, if_neg hni]
    exact Grid.getTile_fillWalls (Grid.Inv_init w h) x y
  have := foldl_preserves (fun gr => gr.Inv w h ∧
      (∀ x y : Int, ¬ (1 ≤ x ∧ x ≤ (w : Int) - 2 ∧ 1 ≤ y ∧ y ≤ (h : Int) - 2) →
        gr.getTile x y = "wall"))
    (fun gr _ => gr.caIteration) ?_ (List.range (4 + o.iterDraw % 2)) _ hbase
  · exact this
  · intro gr a hgr
    refine ⟨Grid.Inv_caIteration hgr.1, ?_⟩
    intro x y hni
    rw [Grid.getTile_caIteration hgr.1 x y, if_neg hni]
    exact hgr.2 x y hni

theorem cellularPre_interior (w h : Nat) (o : CellularOracle) :
    ∀ x y : Int, ¬ ((List.range (4 + o.iterDraw % 2)).foldl (fun gr _ => gr.caIteration)
      (((Grid.init w h).fillWalls).initializeRandom o.wallBit)).isBlocked x y →
      Interior w h (x, y) := by
  obtain ⟨hinv, hwall⟩ := cellularPre_spec w h o
  intro x y hnb
  by_contra hni
  apply hnb
  unfold Grid.isBlocked
  rw [hwall x y (by
    intro hc
    exact hni ⟨hc.1, hc.2.1, hc.2.2.1, hc.2.2.2⟩)]
  simp

/-- Any two non-blocked cells of a generated cellular dungeon grid are
mutually reachable through non-blocked cells. -/
theorem generateCellular_connected (w h : Nat) (o : CellularOracle) :
    ∀ a b : Int × Int,
      ¬ (generateCellularGrid w h o).isBlocked a.1 a.2 →
      ¬ (generateCellularGrid w h o).isBlocked b.1 b.2 →
      (generateCellularGrid w h o).Reaches a b := by
  obtain ⟨hinv, -⟩ := cellularPre_spec w h o
  exact Grid.ensureConnectivity_connected hinv (cellularPre_interior w h o) o.legOrder

namespace Grid

/-- The `valid_positions` comprehension of `place_stairs_and_player`:
strictly interior, non-blocked cells in row-major order. -/
def validPositions (g : Grid) : List (Int × Int) :=
  ((intRange 1 ((g.height : Int) - 1)).map (fun y =>
    ((intRange 1 ((g.width : Int) - 1)).map (fun x => (x, y))).filter
      (fun c => ! g.isBlockedB c.1 c.2))).flatten

theorem mem_validPositions {g : Grid} {c : Int × Int} :
    c ∈ g.validPositions ↔
      (1 ≤ c.1 ∧ c.1 ≤ (g.width : Int) - 2 ∧ 1 ≤ c.2 ∧ c.2 ≤ (g.height : Int) - 2) ∧
      ¬ g.isBlocked c.1 c.2 := by
  unfold validPositions
  rw [List.mem_flatten]
  constructor
  · rintro ⟨l, hl, hc⟩
    rw [List.mem_map] at hl
    obtain ⟨y, hy, rfl⟩ := hl
    rw [List.mem_filter] at hc
    obtain ⟨hcm, hcb⟩ := hc
    rw [List.mem_map] at hcm
    obtain ⟨x, hx, rfl⟩ := hcm
    rw [mem_intRange] at hx hy
    unfold Grid.isBlockedB at hcb
    simp only [Bool.not_eq_eq_eq_not, Bool.not_true, decide_eq_false_iff_not] at hcb
    exact ⟨⟨hx.1, by omega, hy.1, by omega⟩, hcb⟩
  · rintro ⟨⟨h1, h2, h3, h4⟩, hnb⟩
    refine ⟨((intRange 1 ((g.width : Int) - 1)).map (fun x => (x, c.2))).filter
      (fun c => ! g.isBlockedB c.1 c.2), ?_, ?_⟩
    · rw [List.mem_map]
      exact ⟨c.2, mem_intRange.mpr ⟨h3, by omega⟩, rfl⟩
    · rw [List.mem_filter]
      refine ⟨?_, by simpa [Grid.isBlockedB] using hnb⟩
      rw [List.mem_map]
      exact ⟨c.1, mem_intRange.mpr ⟨h1, by omega⟩, rfl⟩

theorem intRange_nodup (a b : Int) : (intRange a b).Nodup := by
  unfold intRange
  refine List.Nodup.map ?_ (List.nodup_range _)
  intro i j hij
  have hij2 : a + (i : Int) = a + (j : Int) := hij
  omega

theorem validPositions_nodup (g : Grid) : g.validPositions.Nodup := by
  unfold validPositions
  rw [List.nodup_flatten]
  constructor
  · intro s hs
    rw [List.mem_map] at hs
    obtain ⟨y, hy, rfl⟩ := hs
    apply List.Nodup.filter
    refine List.Nodup.map ?_ (intRange_nodup _ _)
    intro a b hab
    exact congrArg Prod.fst hab
  · rw [List.pairwise_map]
    have hnd : (intRange 1 ((g.height : Int) - 1)).Nodup := intRange_nodup _ _
    refine List.Pairwise.imp ?_ hnd
    intro y1 y2 hne c hc1 hc2
    rw [List.mem_filter] at hc1 hc2
    obtain ⟨x1, -, he1⟩ := List.mem_map.mp hc1.1
    obtain ⟨x2, -, he2⟩ := List.mem_map.mp hc2.1
    apply hne
    have h1 : c.2 = y1 := by rw [← he1]
    have h2 : c.2 = y2 := by rw [← he2]
    omega

end Grid

/-- Oracle for `place_stairs_and_player`: indices for the three
`random.choice` calls (upstairs, downstairs fallback, player fallbacks). -/
structure PlaceOracle where
  upIdx : Nat
  downIdx : Nat
  playerIdx : Nat
  playerIdx2 : Nat

/-- The entity-creation requests and reserved cells produced by
`place_stairs_and_player` on its success path. -/
structure PlaceResult where
  created : List (String × Int × Int)
  reserved : List (Int × Int)
deriving Repr, DecidableEq

/-- The downstairs selection of `place_stairs_and_player`: unreserved
candidates, sorted by descending Manhattan distance from the upstairs
(`list(reserved)[0]`) when one was reserved, first taken; falls back to a
random valid cell when every valid cell is reserved. -/
def downChoice (valid reserved : List (Int × Int)) (downIdx : Nat) : Int × Int :=
  let candidates := valid.filter (fun p => decide (p ∉ reserved))
  if candidates ≠ [] then
    if reserved ≠ [] then
      (List.insertionSort (fun p q : Int × Int =>
        manhattan q (reserved.headD (0, 0)) ≤ manhattan p (reserved.headD (0, 0)))
        candidates).headD (0, 0)
    else candidates.headD (0, 0)
  else valid.getD (downIdx % valid.length) (0, 0)

/-- The player selection of `place_stairs_and_player`: the preferred cell
when unblocked and unreserved, else a random unreserved valid cell, else
any random valid cell. -/
def playerChoice (g : Grid) (playerX playerY : Int) (valid reserved : List (Int × Int))
    (i1 i2 : Nat) : Int × Int :=
  if ¬ g.isBlocked playerX playerY ∧ (playerX, playerY) ∉ reserved then (playerX, playerY)
  else
    let candidates := valid.filter (fun p => decide (p ∉ reserved))
    if candidates ≠ [] then candidates.getD (i1 % candidates.length) (0, 0)
    else valid.getD (i2 % valid.length) (0, 0)

/-- `place_stairs_and_player` (mapgen/base.py).  Entity creation becomes an
effect log in the result; raising `ValueError` becomes `Except.error`. -/
def placeStairsAndPlayer (g : Grid) (playerX playerY : Int)
    (hasUp hasDown createPlayer : Bool) (o : PlaceOracle) : Except String PlaceResult :=
  let valid := g.validPositions
  if valid = [] then Except.error "No valid floor positions for stair/player placement"
  else
    let st1 : List (Int × Int) × List (String × Int × Int) :=
      if hasUp then
        let up := valid.getD (o.upIdx % valid.length) (0, 0)
        ([up], [("upstairs", up.1, up.2)])
      else ([], [])
    let st2 : List (Int × Int) × List (String × Int × Int) :=
      if hasDown then
        let down := downChoice valid st1.1 o.downIdx
        (st1.1 ++ [down], st1.2 ++ [("downstairs", down.1, down.2)])
      else st1
    let st3 : List (Int × Int) × List (String × Int × Int) :=
      if createPlayer then
        let pp := playerChoice g playerX playerY valid st2.1 o.playerIdx o.playerIdx2
        (st2.1 ++ [pp], st2.2 ++ [("player", pp.1, pp.2)])
      else st2
    Except.ok ⟨st3.2, st3.1⟩

/-- On the empty-valid-set error path, no entity is created. -/
theorem placeStairsAndPlayer_error (g : Grid) (playerX playerY : Int)
    (hasUp hasDown createPlayer : Bool) (o : PlaceOracle)
    (hempty : g.validPositions = []) :
    placeStairsAndPlayer g playerX playerY hasUp hasDown createPlayer o =
      Except.error "No valid floor positions for stair/player placement" := by
  unfold placeStairsAndPlayer
  rw [if_pos hempty]

theorem exists_not_mem_of_lt_length {α : Type} [DecidableEq α] {l : List α} (hn : l.Nodup)
    (r : List α) (hlen : r.length < l.length) : ∃ c ∈ l, c ∉ r := by
  by_contra hall
  push_neg at hall
  have hsub : l.toFinset ⊆ r.toFinset := by
    intro a ha
    rw [List.mem_toFinset] at ha ⊢
    exact hall a ha
  have h1 : l.toFinset.card = l.length := List.toFinset_card_of_nodup hn
  have h2 := Finset.card_le_card hsub
  have h3 := List.toFinset_card_le r
  omega

/-- The downstairs pick, when an upstairs was reserved and an unreserved
candidate exists, is an unreserved valid cell of maximal Manhattan
distance from the upstairs. -/
theorem downChoice_mem_max (valid : List (Int × Int)) (up : Int × Int) (downIdx : Nat)
    (hcand : valid.filter (fun p => decide (p ∉ [up])) ≠ []) :
    downChoice valid [up] downIdx ∈ valid.filter (fun p => decide (p ∉ [up])) ∧
    ∀ c ∈ valid.filter (fun p => decide (p ∉ [up])),
      manhattan c up ≤ manhattan (downChoice valid [up] downIdx) up := by
  unfold downChoice
  simp only
  rw [if_pos hcand, if_pos (by simp : ([up] : List (Int × Int)) ≠ [])]
  simp only [List.headD_cons]
  set r := fun p q : Int × Int => manhattan q up ≤ manhattan p up with hr
  haveI : IsTotal (Int × Int) r := ⟨fun p q => Nat.le_total (manhattan q up) (manhattan p up)⟩
  haveI : IsTrans (Int × Int) r := ⟨fun p q s h1 h2 => Nat.le_trans h2 h1⟩
  have hperm := List.perm_insertionSort r (valid.filter (fun p => decide (p ∉ [up])))
  have hsorted := List.sorted_insertionSort r (valid.filter (fun p => decide (p ∉ [up])))
  cases hs : List.insertionSort r (valid.filter (fun p => decide (p ∉ [up]))) with
  | nil =>
    exfalso
    rw [hs] at hperm
    exact hcand hperm.symm.eq_nil
  | cons d rest =>
    rw [hs] at hperm hsorted
    simp only [List.headD_cons]
    constructor
    · exact hperm.subset (List.mem_cons_self _ _)
    · intro c hc
      have hcs : c ∈ d :: rest := hperm.mem_iff.mpr hc
      rcases List.mem_cons.mp hcs with rfl | hcr
      · exact Nat.le_refl _
      · exact List.rel_of_sorted_cons hsorted c hcr

theorem mem_validPositions_interior {w h : Nat} {g : Grid} (hg : g.Inv w h) {c : Int × Int}
    (hc : c ∈ g.validPositions) : Interior w h c ∧ ¬ g.isBlocked c.1 c.2 := by
  obtain ⟨⟨h1, h2, h3, h4⟩, hnb⟩ := Grid.mem_validPositions.mp hc
  rw [hg.2.1] at h2
  rw [hg.2.2] at h4
  exact ⟨⟨h1, h2, h3, h4⟩, hnb⟩

/-- Success-path characterization of `place_stairs_and_player` with all
three placements requested: with at least three valid cells and an
interior-or-rejected preferred player cell, the three placed positions
are pairwise distinct, non-blocked and strictly interior. -/
theorem placeStairs_distinct {w h : Nat} {g : Grid} (hg : g.Inv w h)
    (playerX playerY : Int) (o : PlaceOracle)
    (hcard : 3 ≤ g.validPositions.length)
    (hpref : ¬ g.isBlocked playerX playerY → Interior w h (playerX, playerY)) :
    ∃ up down pp : Int × Int,
      placeStairsAndPlayer g playerX playerY true true true o =
        Except.ok ⟨[("upstairs", up.1, up.2), ("downstairs", down.1, down.2),
          ("player", pp.1, pp.2)], [up, down, pp]⟩ ∧
      up ≠ down ∧ up ≠ pp ∧ down ≠ pp ∧
      ¬ g.isBlocked up.1 up.2 ∧ ¬ g.isBlocked down.1 down.2 ∧ ¬ g.isBlocked pp.1 pp.2 ∧
      Interior w h up ∧ Interior w h down ∧ Interior w h pp := by
  have hne : g.validPositions ≠ [] := by
    intro hnil
    rw [hnil] at hcard
    simp at hcard
  have hlenpos : 0 < g.validPositions.length := List.length_pos.mpr hne
  set valid := g.validPositions with hvalid
  set up := valid.getD (o.upIdx % valid.length) (0, 0) with hupdef
  set down := downChoice valid [up] o.downIdx with hdowndef
  set pp := playerChoice g playerX playerY valid [up, down] o.playerIdx o.playerIdx2 with hppdef
  have hupmem : up ∈ valid := getD_mem_of_lt _ _ _ (Nat.mod_lt _ hlenpos)
  obtain ⟨hupint, hupnb⟩ := mem_validPositions_interior hg hupmem
  have hcand1 : valid.filter (fun p => decide (p ∉ [up])) ≠ [] := by
    obtain ⟨c, hc, hcnot⟩ := exists_not_mem_of_lt_length (Grid.validPositions_nodup g) [up]
      (by simp only [List.length_cons, List.length_nil]; rw [← hvalid]; omega)
    exact List.ne_nil_of_mem (List.mem_filter.mpr ⟨hc, by simpa using hcnot⟩)
  obtain ⟨hdmem, -⟩ := downChoice_mem_max valid up o.downIdx hcand1
  rw [← hdowndef] at hdmem
  have hdvalid : down ∈ valid := (List.mem_filter.mp hdmem).1
  have hdnotup : down ≠ up := by
    have := (List.mem_filter.mp hdmem).2
    simpa using this
  obtain ⟨hdint, hdnb⟩ := mem_validPositions_interior hg hdvalid
  have hppfacts : pp ≠ up ∧ pp ≠ down ∧ ¬ g.isBlocked pp.1 pp.2 ∧ Interior w h pp := by
    rw [hppdef]
    unfold playerChoice
    by_cases hpc : ¬ g.isBlocked playerX playerY ∧ ((playerX, playerY) : Int × Int) ∉ [up, down]
    · rw [if_pos hpc]
      have hnm := hpc.2
      simp only [List.mem_cons, List.mem_singleton, not_or] at hnm
      exact ⟨hnm.1, hnm.2.1, hpc.1, hpref hpc.1⟩
    · rw [if_neg hpc]
      have hcand2 : valid.filter (fun p => decide (p ∉ [up, down])) ≠ [] := by
        obtain ⟨c, hc, hcnot⟩ := exists_not_mem_of_lt_length (Grid.validPositions_nodup g)
          [up, down] (by simp only [List.length_cons, List.length_nil]; rw [← hvalid]; omega)
        exact List.ne_nil_of_mem (List.mem_filter.mpr ⟨hc, by simpa using hcnot⟩)
      rw [if_pos hcand2]
      have hlen2 : 0 < (valid.filter (fun p => decide (p ∉ [up, down]))).length :=
        List.length_pos.mpr hcand2
      set q := (valid.filter (fun p => decide (p ∉ [up, down]))).getD
        (o.playerIdx % (valid.filter (fun p => decide (p ∉ [up, down]))).length) (0, 0) with hq
      have hmem2 : q ∈ valid.filter (fun p => decide (p ∉ [up, down])) := by
        rw [hq]
        exact getD_mem_of_lt _ _ _ (Nat.mod_lt _ hlen2)
      have hv2 := (List.mem_filter.mp hmem2).1
      have hnm2 := of_decide_eq_true (List.mem_filter.mp hmem2).2
      have hne1 : q ≠ up := fun hx => hnm2 (by rw [hx]; exact List.mem_cons_self _ _)
      have hne2 : q ≠ down := fun hx => hnm2
        (by rw [hx]; exact List.mem_cons_of_mem _ (List.mem_singleton.mpr rfl))
      obtain ⟨hint2, hnb2⟩ := mem_validPositions_interior hg hv2
      exact ⟨hne1, hne2, hnb2, hint2⟩
  refine ⟨up, down, pp, ?_, fun hx => hdnotup hx.symm, fun hx => hppfacts.1 hx.symm,
    fun hx => hppfacts.2.1 hx.symm, hupnb, hdnb, hppfacts.2.2.1, hupint, hdint,
    hppfacts.2.2.2⟩
  unfold placeStairsAndPlayer
  rw [if_neg hne]
  rfl

/-- `random.randint(a, b)` drawn from an oracle value `n`: every value of
`[a, b]` is realizable.  (Python raises on `b < a`; generation parameters
in scope keep every call site within range.) -/
def randint (a b : Int) (n : Nat) : Int :=
  a + ((n % (b - a + 1).toNat : Nat) : Int)

theorem randint_mem {a b : Int} (hab : a ≤ b) (n : Nat) :
    a ≤ randint a b n ∧ randint a b n ≤ b := by
  unfold randint
  have h1 : (b - a + 1).toNat = (b - a + 1) := Int.toNat_of_nonneg (by omega)
  have h2 : n % (b - a + 1).toNat < (b - a + 1).toNat :=
    Nat.mod_lt _ (by omega)
  omega

/-- `Room` (mapgen/dungeon.py). -/
structure Room where
  x : Int
  y : Int
  width : Int
  height : Int
deriving Repr, DecidableEq

instance : Inhabited Room := ⟨⟨0, 0, 0, 0⟩⟩

/-- `Room.center` (integer floor division; room dimensions are positive at
every call site, where Lean and Python division agree). -/
def Room.center (r : Room) : Int × Int :=
  (r.x + r.width / 2, r.y + r.height / 2)

/-- `Room.intersects` with its buffer. -/
def Room.intersects (a b : Room) (buffer : Int) : Prop :=
  ¬ (a.x + a.width + buffer ≤ b.x ∨ b.x + b.width + buffer ≤ a.x ∨
     a.y + a.height + buffer ≤ b.y ∨ b.y + b.height + buffer ≤ a.y)

instance (a b : Room) (buffer : Int) : Decidable (a.intersects b buffer) := by
  unfold Room.intersects
  infer_instance

namespace Grid

/-- `RoomsCorridorsGenerator.create_room`: fill the room area with floor
(`set_tile` already performs the bounds check the source repeats). -/
def createRoom (g : Grid) (r : Room) : Grid :=
  (intRange r.y (r.y + r.height)).foldl (fun gr y =>
    (intRange r.x (r.x + r.width)).foldl (fun gr2 x => gr2.setTile x y "floor") gr) g

theorem Inv_createRoom {w h : Nat} {g : Grid} (hg : g.Inv w h) (r : Room) :
    (g.createRoom r).Inv w h := by
  unfold createRoom
  apply foldl_preserves (Grid.Inv w h)
  · intro gr a hgr
    exact foldl_preserves (Grid.Inv w h) _ (fun g2 b hg2 => hg2.setTile _ _ _) _ _ hgr
  · exact hg

/-- `RoomsCorridorsGenerator.connect_rooms`. -/
def connectRooms (g : Grid) (r1 r2 : Room) (legOrderBit : Bool) : Grid :=
  g.carveCorridor r1.center.1 r1.center.2 r2.center.1 r2.center.2 1 legOrderBit

theorem Inv_connectRooms {w h : Nat} {g : Grid} (hg : g.Inv w h) (r1 r2 : Room)
    (b : Bool) : (g.connectRooms r1 r2 b).Inv w h := by
  unfold connectRooms
  exact Inv_carveCorridor hg _ _ _ _ _ _

end Grid

/-- Oracle for the rooms-and-corridors pipeline. -/
structure RoomsOracle where
  targetDraw : Nat
  sizeW : Nat → Nat
  sizeH : Nat → Nat
  posX : Nat → Nat
  posY : Nat → Nat
  legOrder : Nat → Bool
  loopI : Nat → Nat
  loopJ : Nat → Nat

/-- `RoomsCorridorsGenerator.try_place_room` for attempt number `k`. -/
def tryPlaceRoom (g : Grid) (rooms : List Room) (k : Nat) (o : RoomsOracle) :
    Grid × List Room :=
  let rw' := randint 4 12 (o.sizeW k)
  let rh' := randint 4 (12 - 2) (o.sizeH k)
  let rx := randint 1 ((g.width : Int) - rw' - 2) (o.posX k)
  let ry := randint 1 ((g.height : Int) - rh' - 2) (o.posY k)
  let newRoom : Room := ⟨rx, ry, rw', rh'⟩
  if rooms.any (fun r => decide (newRoom.intersects r 1)) then (g, rooms)
  else (g.createRoom newRoom, rooms ++ [newRoom])

/-- The closest connected-unconnected pair scan of
`build_minimum_spanning_tree` (Prim's step). -/
def mstScan (rooms : List Room) (connected : List Nat) : Option (Nat × Nat) :=
  (connected.foldl (fun acc i =>
    (List.range rooms.length).foldl (fun acc2 j =>
      if j ∈ connected then acc2
      else
        let d := manhattan (rooms.getD i default).center (rooms.getD j default).center
        match acc2 with
        | none => some (i, j, d)
        | some (i0, j0, bd) => if d < bd then some (i, j, d) else some (i0, j0, bd)) acc)
    none).map (fun t => (t.1, t.2.1))

/-- `build_minimum_spanning_tree`: the `while` loop adds one room per
successful round, so `rooms.length` rounds always suffice. -/
def buildMST (rooms : List Room) : List (Nat × Nat) :=
  if rooms.length < 2 then []
  else
    ((List.range rooms.length).foldl (fun (st : List Nat × List (Nat × Nat)) _ =>
      if st.1.length < rooms.length then
        match mstScan rooms st.1 with
        | none => st
        | some (i, j) => (st.1 ++ [j], st.2 ++ [(i, j)])
      else st) ([0], [])).2

/-- `num_extra = max(1, len(connections) // 5)` in `generate_dungeon`. -/
def numExtraLoops (connections : List (Nat × Nat)) : Nat :=
  max 1 (connections.length / 5)

/-- The extra-loop phase of `generate_dungeon`: `numExtra` attempts, each
drawing two uniform room indices and carving only when they differ. -/
def extraLoopPairs (nRooms : Nat) (numExtra : Nat) (oI oJ : Nat → Nat) :
    List (Nat × Nat) :=
  (List.range numExtra).filterMap (fun k =>
    let i := (oI k) % nRooms
    let j := (oJ k) % nRooms
    if i ≠ j then some (i, j) else none)

/-- The terrain-grid part of `generate_dungeon(...,
algorithm="rooms_corridors")`. -/
def generateRoomsGrid (w h : Nat) (o : RoomsOracle) : Grid :=
  let target := 15 + o.targetDraw % 11
  let g0 := (Grid.init w h).fillWalls
  let st1 := (List.range (3 * target)).foldl (fun (st : Grid × List Room) k =>
      if st.2.length < target then tryPlaceRoom st.1 st.2 k o else st) (g0, [])
  let g2 :=
    if 2 ≤ st1.2.length then
      let connections := buildMST st1.2
      let st2 := connections.foldl (fun (st : Grid × Nat) c =>
          (st.1.connectRooms (st1.2.getD c.1 default) (st1.2.getD c.2 default)
            (o.legOrder st.2), st.2 + 1)) (st1.1, 0)
      (((extraLoopPairs st1.2.length (numExtraLoops connections) o.loopI o.loopJ).foldl
          (fun (st : Grid × Nat) c =>
            (st.1.connectRooms (st1.2.getD c.1 default) (st1.2.getD c.2 default)
              (o.legOrder st.2), st.2 + 1)) st2)).1
    else st1.1
  g2.addBorderWalls

/-- The extra-loop phase carves at most `numExtra` corridors, each between
two distinct room indices. -/
theorem extraLoopPairs_spec (nRooms numExtra : Nat) (oI oJ : Nat → Nat) :
    (extraLoopPairs nRooms numExtra oI oJ).length ≤ numExtra ∧
    ∀ p ∈ extraLoopPairs nRooms numExtra oI oJ, p.1 ≠ p.2 := by
  constructor
  · calc (extraLoopPairs nRooms numExtra oI oJ).length
        ≤ (List.range numExtra).length := List.length_filterMap_le _ _
      _ = numExtra := List.length_range numExtra
  · intro p hp
    unfold extraLoopPairs at hp
    rw [List.mem_filterMap] at hp
    obtain ⟨k, hk, heq⟩ := hp
    simp only at heq
    split at heq
    · rename_i hij
      rw [Option.some_inj] at heq
      rw [← heq]
      exact hij
    · exact absurd heq (by simp)

theorem foldl_preserves' {σ α : Type} (P : σ → Prop) (f : σ → α → σ)
    (hf : ∀ s a, P s → P (f s a)) (l : List α) (s : σ) (hs : P s) : P (l.foldl f s) := by
  induction l generalizing s with
  | nil => exact hs
  | cons a t ih => exact ih _ (hf s a hs)

theorem Inv_tryPlaceRoom {w h : Nat} {g : Grid} (hg : g.Inv w h) (rooms : List Room)
    (k : Nat) (o : RoomsOracle) : (tryPlaceRoom g rooms k o).1.Inv w h := by
  unfold tryPlaceRoom
  dsimp only
  split
  · exact hg
  · exact Grid.Inv_createRoom hg _

/-- The rooms-and-corridors pipeline is `add_border_walls` applied to a
well-formed grid of the requested dimensions. -/
theorem generateRoomsGrid_pre (w h : Nat) (o : RoomsOracle) :
    ∃ gpre : Grid, generateRoomsGrid w h o = gpre.addBorderWalls ∧ gpre.Inv w h := by
  refine ⟨_, rfl, ?_⟩
  have hst1 : ((List.range (3 * (15 + o.targetDraw % 11))).foldl
      (fun (st : Grid × List Room) k =>
        if st.2.length < (15 + o.targetDraw % 11) then tryPlaceRoom st.1 st.2 k o else st)
      ((Grid.init w h).fillWalls, [])).1.Inv w h := by
    apply foldl_preserves' (fun st : Grid × List Room => st.1.Inv w h)
    · intro st a hst
      split
      · exact Inv_tryPlaceRoom hst _ _ _
      · exact hst
    · exact Grid.Inv_fillWalls (Grid.Inv_init w h)
  split
  · apply foldl_preserves' (fun st : Grid × Nat => st.1.Inv w h)
    · intro st a hst
      exact Grid.Inv_connectRooms hst _ _ _
    · apply foldl_preserves' (fun st : Grid × Nat => st.1.Inv w h)
      · intro st a hst
        exact Grid.Inv_connectRooms hst _ _ _
      · exact hst1
  · exact hst1

/-- Oracle for the BSP pipeline, keyed by the node's path in the tree
(`false` = left child, `true` = right child). -/
structure BSPOracle where
  dirChoice : List Bool → Bool
  splitDraw : List Bool → Nat
  roomW : List Bool → Nat
  roomH : List Bool → Nat
  corrW : List Bool → Nat
  legOrder : List Bool → Bool

/-- `BSPGenerator.split_node`: `None` when the node is too small to split,
otherwise the two child rectangles. -/
def splitNode (x y wd ht minSize : Int) (path : List Bool) (o : BSPOracle) :
    Option ((Int × Int × Int × Int) × (Int × Int × Int × Int)) :=
  if wd < minSize * 2 ∧ ht < minSize * 2 then none
  else
    let splitHoriz :=
      if wd < minSize * 2 then true
      else if ht < minSize * 2 then false
      else o.dirChoice path
    if splitHoriz then
      let pos := randint minSize (ht - minSize) (o.splitDraw path)
      some ((x, y, wd, pos), (x, y + pos, wd, ht - pos))
    else
      let pos := randint minSize (wd - minSize) (o.splitDraw path)
      some ((x, y, pos, ht), (x + pos, y, wd - pos, ht))

/-- The BSP node tree (`BSPNode`): either unsplit (a leaf) or split into
two children. -/
inductive BSPTree where
  | leaf (x y width height : Int)
  | node (x y width height : Int) (left right : BSPTree)
deriving Repr, DecidableEq

/-- `BSPGenerator.split_tree`: recursion bounded by `max_depth - depth`,
carried here as explicit fuel. -/
def splitTree (fuel : Nat) (x y wd ht minSize : Int) (path : List Bool)
    (o : BSPOracle) : BSPTree :=
  match fuel with
  | 0 => .leaf x y wd ht
  | fuel + 1 =>
    match splitNode x y wd ht minSize path o with
    | none => .leaf x y wd ht
    | some ((x1, y1, w1, h1), (x2, y2, w2, h2)) =>
      .node x y wd ht (splitTree fuel x1 y1 w1 h1 minSize (path ++ [false]) o)
                      (splitTree fuel x2 y2 w2 h2 minSize (path ++ [true]) o)

def BSPTree.depth : BSPTree → Nat
  | .leaf _ _ _ _ => 0
  | .node _ _ _ _ l r => 1 + max l.depth r.depth

def BSPTree.leaves : BSPTree → List (Int × Int × Int × Int)
  | .leaf x y wd ht => [(x, y, wd, ht)]
  | .node _ _ _ _ l r => l.leaves ++ r.leaves

def BSPTree.isSplit : BSPTree → Prop
  | .leaf _ _ _ _ => False
  | .node _ _ _ _ _ _ => True

instance : (t : BSPTree) → Decidable t.isSplit
  | .leaf _ _ _ _ => isFalse (fun hx => hx)
  | .node _ _ _ _ _ _ => isTrue trivial

/-- The depth of the tree built by `split_tree` never exceeds the fuel
(`max_depth - depth`). -/
theorem splitTree_depth_le (fuel : Nat) :
    ∀ (x y wd ht minSize : Int) (path : List Bool) (o : BSPOracle),
      (splitTree fuel x y wd ht minSize path o).depth ≤ fuel := by
  induction fuel with
  | zero => intro x y wd ht m p o; exact Nat.le_refl 0
  | succ n ih =>
    intro x y wd ht m p o
    unfold splitTree
    match hs : splitNode x y wd ht m p o with
    | none => exact Nat.zero_le _
    | some ((x1, y1, w1, h1), (x2, y2, w2, h2)) =>
      unfold BSPTree.depth
      have h1 := ih x1 y1 w1 h1 m (p ++ [false]) o
      have h2 := ih x2 y2 w2 h2 m (p ++ [true]) o
      omega

/-- Every leaf of a `split_tree` result keeps each dimension at least
`min(min_size, root dimension)`: a split dimension is always ≥ `min_size`
by the `randint(min_size, span - min_size)` bounds, and an inherited
dimension is unchanged. -/
theorem splitTree_leaf_dims (fuel : Nat) :
    ∀ (x y wd ht minSize : Int) (path : List Bool) (o : BSPOracle),
      ∀ c ∈ (splitTree fuel x y wd ht minSize path o).leaves,
        min minSize wd ≤ c.2.2.1 ∧ min minSize ht ≤ c.2.2.2 := by
  induction fuel with
  | zero =>
    intro x y wd ht m p o c hc
    unfold splitTree BSPTree.leaves at hc
    rw [List.mem_singleton] at hc
    rw [hc]
    exact ⟨min_le_right _ _, min_le_right _ _⟩
  | succ n ih =>
    intro x y wd ht m p o c hc
    unfold splitTree at hc
    rcases hguard : decide (wd < m * 2 ∧ ht < m * 2) with hd | hd
    all_goals rw [splitNode] at hc
    · rw [if_neg (of_decide_eq_false hguard)] at hc
      have hnand := of_decide_eq_false hguard
      by_cases hdir : (if wd < m * 2 then true
          else if ht < m * 2 then false else o.dirChoice p) = true
      · rw [if_pos hdir] at hc
        have hh2m : m * 2 ≤ ht := by
          by_cases hw2 : wd < m * 2
          · omega
          · by_cases hh2 : ht < m * 2
            · rw [if_neg hw2, if_pos hh2] at hdir
              exact absurd hdir (by simp)
            · omega
        have hpos := randint_mem (show m ≤ ht - m by omega) (o.splitDraw p)
        unfold BSPTree.leaves at hc
        rcases List.mem_append.mp hc with hcl | hcr
        · obtain ⟨ha, hb⟩ := ih x y wd (randint m (ht - m) (o.splitDraw p)) m (p ++ [false]) o c hcl
          refine ⟨ha, ?_⟩
          have : min m (randint m (ht - m) (o.splitDraw p)) = m := by omega
          omega
        · obtain ⟨ha, hb⟩ := ih x (y + randint m (ht - m) (o.splitDraw p)) wd
            (ht - randint m (ht - m) (o.splitDraw p)) m (p ++ [true]) o c hcr
          refine ⟨ha, ?_⟩
          have : min m (ht - randint m (ht - m) (o.splitDraw p)) = m := by omega
          omega
      · rw [if_neg hdir] at hc
        have hw2m : m * 2 ≤ wd := by
          by_cases hw2 : wd < m * 2
          · rw [if_pos hw2] at hdir
            exact absurd rfl hdir
          · omega
        have hpos := randint_mem (show m ≤ wd - m by omega) (o.splitDraw p)
        unfold BSPTree.leaves at hc
        rcases List.mem_append.mp hc with hcl | hcr
        · obtain ⟨ha, hb⟩ := ih x y (randint m (wd - m) (o.splitDraw p)) ht m (p ++ [false]) o c hcl
          refine ⟨?_, hb⟩
          have : min m (randint m (wd - m) (o.splitDraw p)) = m := by omega
          omega
        · obtain ⟨ha, hb⟩ := ih (x + randint m (wd - m) (o.splitDraw p)) y
            (wd - randint m (wd - m) (o.splitDraw p)) ht m (p ++ [true]) o c hcr
          refine ⟨?_, hb⟩
          have : min m (wd - randint m (wd - m) (o.splitDraw p)) = m := by omega
          omega
    · rw [if_pos (of_decide_eq_true hguard)] at hc
      unfold BSPTree.leaves at hc
      rw [List.mem_singleton] at hc
      rw [hc]
      exact ⟨min_le_right _ _, min_le_right _ _⟩

/-- `int(n * 0.6)` from `create_rooms_in_leaves`, in exact integer
arithmetic (`Int` division truncates toward zero like Python's `int()`;
the source's binary-float product can differ by one on a few inputs, which
no verified property depends on). -/
def int06 (n : Int) : Int := n * 6 / 10

/-- `int(n * 0.9)` from `create_rooms_in_leaves` (same convention as
`int06`). -/
def int09 (n : Int) : Int := n * 9 / 10

/-- The room created for a leaf by `create_rooms_in_leaves`: dimensions
are `randint(int(dim * 0.6), int(dim * 0.9))` and the room is centered in
the leaf. -/
def leafRoom (x y wd ht : Int) (path : List Bool) (o : BSPOracle) : Room :=
  let rw' := randint (int06 wd) (int09 wd) (o.roomW path)
  let rh' := randint (int06 ht) (int09 ht) (o.roomH path)
  ⟨x + Int.fdiv (wd - rw') 2, y + Int.fdiv (ht - rh') 2, rw', rh'⟩

/-- `BSPGenerator.create_rooms_in_leaves`: internal nodes recurse left
then right; a leaf carves its room (with the source's per-cell bounds
check against the generator's fixed dimensions `w`/`h`). -/
def createRoomsInLeaves (w h : Nat) (g : Grid) (t : BSPTree) (path : List Bool)
    (o : BSPOracle) : Grid :=
  match t with
  | .node _ _ _ _ l r =>
    createRoomsInLeaves w h (createRoomsInLeaves w h g l (path ++ [false]) o) r
      (path ++ [true]) o
  | .leaf x y wd ht =>
    let rm := leafRoom x y wd ht path o
    (intRange rm.y (rm.y + rm.height)).foldl (fun gr yy =>
      (intRange rm.x (rm.x + rm.width)).foldl (fun g2 xx =>
        if 0 ≤ xx ∧ xx < (w : Int) ∧ 0 ≤ yy ∧ yy < (h : Int)
        then g2.setTile xx yy "floor" else g2) gr) g

/-- `BSPGenerator.get_room_from_tree`: internal nodes carry no room and
always have a left child, so the result is the leftmost leaf's room
(recomputed; the oracle keys room draws by leaf path, so this agrees with
what `create_rooms_in_leaves` stored). -/
def getRoomFromTree (t : BSPTree) (path : List Bool) (o : BSPOracle) : Room :=
  match t with
  | .leaf x y wd ht => leafRoom x y wd ht path o
  | .node _ _ _ _ l _ => getRoomFromTree l (path ++ [false]) o

/-- `BSPGenerator.connect_siblings`: at every split node, carve an
L-corridor of width `randint(1, 2)` between the two subtree rooms'
centers, then recurse into the left and right children. -/
def connectSiblings (g : Grid) (t : BSPTree) (path : List Bool) (o : BSPOracle) : Grid :=
  match t with
  | .leaf _ _ _ _ => g
  | .node _ _ _ _ l r =>
    let lr := getRoomFromTree l (path ++ [false]) o
    let rr := getRoomFromTree r (path ++ [true]) o
    let g1 := g.carveCorridor lr.center.1 lr.center.2 rr.center.1 rr.center.2
        (randint 1 2 (o.corrW path)).toNat (o.legOrder path)
    connectSiblings (connectSiblings g1 l (path ++ [false]) o) r (path ++ [true]) o

/-- `generate_dungeon` with `algorithm="bsp"`, up to the terrain grid:
fill walls, split the root `(1, 1, width-2, height-2)` with
`max_depth = 4` and `min_size = 8`, carve leaf rooms, connect siblings,
add border walls. -/
def generateBSPGrid (w h : Nat) (o : BSPOracle) : Grid :=
  let g0 := (Grid.init w h).fillWalls
  let t := splitTree 4 1 1 ((w : Int) - 2) ((h : Int) - 2) 8 [] o
  let g1 := createRoomsInLeaves w h g0 t [] o
  let g2 := connectSiblings g1 t [] o
  g2.addBorderWalls

theorem Inv_createRoomsInLeaves {w h : Nat} (t : BSPTree) :
    ∀ (g : Grid), g.Inv w h → ∀ (path : List Bool) (o : BSPOracle),
      (createRoomsInLeaves w h g t path o).Inv w h := by
  induction t with
  | leaf x y wd ht =>
    intro g hg path o
    unfold createRoomsInLeaves
    apply foldl_preserves (Grid.Inv w h)
    · intro gr a hgr
      apply foldl_preserves (Grid.Inv w h)
      · intro g2 b hg2
        split
        · exact hg2.setTile _ _ _
        · exact hg2
      · exact hgr
    · exact hg
  | node x y wd ht l r ihl ihr =>
    intro g hg path o
    unfold createRoomsInLeaves
    exact ihr _ (ihl _ hg _ o) _ o

theorem Inv_connectSiblings {w h : Nat} (t : BSPTree) :
    ∀ (g : Grid), g.Inv w h → ∀ (path : List Bool) (o : BSPOracle),
      (connectSiblings g t path o).Inv w h := by
  induction t with
  | leaf x y wd ht => intro g hg path o; exact hg
  | node x y wd ht l r ihl ihr =>
    intro g hg path o
    unfold connectSiblings
    exact ihr _ (ihl _ (Grid.Inv_carveCorridor hg _ _ _ _ _ _) _ o) _ o

/-- The BSP pipeline's grid is `add_border_walls` applied to a grid of the
requested dimensions. -/
theorem generateBSPGrid_pre (w h : Nat) (o : BSPOracle) :
    ∃ gpre : Grid, generateBSPGrid w h o = gpre.addBorderWalls ∧ gpre.Inv w h := by
  refine ⟨_, rfl, ?_⟩
  exact Inv_connectSiblings _ _
    (Inv_createRoomsInLeaves _ _ (Grid.Inv_fillWalls (Grid.Inv_init w h)) _ o) _ o

/-- The eight neighbour offsets of `generate_tree_cluster`, in the
source's `dx`-outer, `dy`-inner iteration order with `(0, 0)` skipped. -/
def eightDirs : List (Int × Int) :=
  [(-1, -1), (-1, 0), (-1, 1), (0, -1), (0, 1), (1, -1), (1, 0), (1, 1)]

/-- One expansion iteration of `generate_tree_cluster`: for every current
tree cell and neighbour offset, a fresh cell inside the interior is added
when the oracle's 60%-draw fires.  `new_trees` is a set built while
`trees` stays fixed, then unioned in; lists with membership tests model
both sets. -/
def clusterIteration (w h : Nat) (trees : List (Int × Int))
    (bit : Int × Int → Int × Int → Bool) : List (Int × Int) :=
  let newTrees := trees.foldl (fun acc t =>
    eightDirs.foldl (fun acc2 d =>
      let nb := (t.1 + d.1, t.2 + d.2)
      if nb ∉ trees ∧ bit t d = true ∧
          (1 ≤ nb.1 ∧ nb.1 < (w : Int) - 1 ∧ 1 ≤ nb.2 ∧ nb.2 < (h : Int) - 1) then
        (if nb ∈ acc2 then acc2 else acc2 ++ [nb])
      else acc2) acc) []
  trees ++ newTrees

/-- The set of cells grown by `generate_tree_cluster` from a seed over the
given number of iterations (`bit it src d` is the 60%-draw for expanding
from `src` by offset `d` in iteration `it`). -/
def growCluster (w h : Nat) (seed : Int × Int) (iters : Nat)
    (bit : Nat → Int × Int → Int × Int → Bool) : List (Int × Int) :=
  (List.range iters).foldl (fun trees it => clusterIteration w h trees (bit it)) [seed]

/-- The placement pass of `generate_tree_cluster`: each grown cell becomes
"trees" when its 70%-density draw fires. -/
def placeCluster (g : Grid) (trees : List (Int × Int))
    (placeBit : Int × Int → Bool) : Grid :=
  trees.foldl (fun gr t => if placeBit t then gr.setTile t.1 t.2 "trees" else gr) g

/-- `ForestGenerator.generate_pond`.  The source compares the real
distance `sqrt(dx^2 + dy^2)` against `radius + uniform(-0.5, 0.5)`; with
`v` the (rational) variation draw, `dist <= radius + v` is encoded exactly
as `dx^2 + dy^2 <= (radius + v)^2 ∧ 0 <= radius + v`.  The oracle's draw
is clamped into `[-1/2, 1/2]`, the range of `random.uniform(-0.5, 0.5)`. -/
def generatePond (g : Grid) (cx cy radius : Int) (varDraw : Int × Int → ℚ) : Grid :=
  (intRange (cy - radius) (cy + radius + 1)).foldl (fun gr y =>
    (intRange (cx - radius) (cx + radius + 1)).foldl (fun g2 x =>
      let v := max (-(1 : ℚ)/2) (min ((1 : ℚ)/2) (varDraw (x, y)))
      if (((x - cx)^2 + (y - cy)^2 : Int) : ℚ) ≤ ((radius : ℚ) + v)^2 ∧
          0 ≤ (radius : ℚ) + v then
        (if 1 ≤ x ∧ x < (g.width : Int) - 1 ∧ 1 ≤ y ∧ y < (g.height : Int) - 1
         then g2.setTile x y "water" else g2)
      else g2) gr) g

/-- `ForestGenerator.create_clearing`: `dist <= radius` with no variation
is exactly `dx^2 + dy^2 <= radius^2` on integers. -/
def createClearing (g : Grid) (cx cy radius : Int) : Grid :=
  (intRange (cy - radius) (cy + radius + 1)).foldl (fun gr y =>
    (intRange (cx - radius) (cx + radius + 1)).foldl (fun g2 x =>
      if (x - cx)^2 + (y - cy)^2 ≤ radius^2 then
        (if 1 ≤ x ∧ x < (g.width : Int) - 1 ∧ 1 ≤ y ∧ y < (g.height : Int) - 1 then
          (if g2.getTile x y ≠ "water" then g2.setTile x y "floor" else g2)
         else g2)
      else g2) gr) g

theorem Inv_placeCluster {w h : Nat} {g : Grid} (hg : g.Inv w h)
    (trees : List (Int × Int)) (placeBit : Int × Int → Bool) :
    (placeCluster g trees placeBit).Inv w h := by
  unfold placeCluster
  apply foldl_preserves (Grid.Inv w h)
  · intro gr a hgr
    split
    · exact hgr.setTile _ _ _
    · exact hgr
  · exact hg

theorem Inv_generatePond {w h : Nat} {g : Grid} (hg : g.Inv w h)
    (cx cy radius : Int) (varDraw : Int × Int → ℚ) :
    (generatePond g cx cy radius varDraw).Inv w h := by
  unfold generatePond
  apply foldl_preserves (Grid.Inv w h)
  · intro gr a hgr
    apply foldl_preserves (Grid.Inv w h)
    · intro g2 b hg2
      dsimp only
      split
      all_goals try split
      all_goals first
        | exact hg2.setTile _ _ _
        | exact hg2
    · exact hgr
  · exact hg

theorem Inv_createClearing {w h : Nat} {g : Grid} (hg : g.Inv w h)
    (cx cy radius : Int) : (createClearing g cx cy radius).Inv w h := by
  unfold createClearing
  apply foldl_preserves (Grid.Inv w h)
  · intro gr a hgr
    apply foldl_preserves (Grid.Inv w h)
    · intro g2 b hg2
      split
      · split
        · split
          · exact hg2.setTile _ _ _
          · exact hg2
        · exact hg2
      · exact hg2
    · exact hgr
  · exact hg

/-- The four cardinal offsets used when widening streams
(`generate_stream`) and spreading vegetation (`add_vegetation`). -/
def fourDirs : List (Int × Int) := [(1, 0), (0, 1), (-1, 0), (0, -1)]

/-- One step of the drunk walk in `generate_stream`: with the 70%-draw
move one tile toward the destination (the 50%-draw picking the axis when
both differ), otherwise move by an independent uniform choice from
`[-1, 0, 1]` on each axis; then clamp into `[1, dim - 2]`. -/
def streamStep (w h : Nat) (ex ey x y : Int) (biasBit axisBit : Bool)
    (rx ry : Nat) : Int × Int :=
  let dx : Int := if x < ex then 1 else if ex < x then -1 else 0
  let dy : Int := if y < ey then 1 else if ey < y then -1 else 0
  let p : Int × Int :=
    if biasBit then
      if dx ≠ 0 ∧ dy ≠ 0 then (if axisBit then (x + dx, y) else (x, y + dy))
      else if dx ≠ 0 then (x + dx, y)
      else if dy ≠ 0 then (x, y + dy)
      else (x, y)
    else (x + ((rx % 3 : Nat) : Int) - 1, y + ((ry % 3 : Nat) : Int) - 1)
  (max 1 (min p.1 ((w : Int) - 2)), max 1 (min p.2 ((h : Int) - 2)))

/-- The position list built by `generate_stream`.  Every loop iteration
appends exactly one position and the loop stops once the length reaches
`max_steps = 2 * width` (or on arrival, or one step from the target), so
folding the loop body over `2 * width` slots with a done flag simulates
the while loop exactly. -/
def streamWalk (w h : Nat) (sx sy ex ey : Int) (biasBit axisBit : Nat → Bool)
    (rxD ryD : Nat → Nat) : List (Int × Int) :=
  ((List.range (2 * w)).foldl
    (fun (st : (Int × Int) × List (Int × Int) × Bool) k =>
      if st.2.2 then st
      else if st.1 = (ex, ey) ∨ 2 * w ≤ st.2.1.length then (st.1, st.2.1, true)
      else
        let c := streamStep w h ex ey st.1.1 st.1.2 (biasBit k) (axisBit k)
          (rxD k) (ryD k)
        (c, st.2.1 ++ [c],
          decide ((c.1 - ex).natAbs ≤ 1 ∧ (c.2 - ey).natAbs ≤ 1)))
    ((sx, sy), [(sx, sy)], false)).2.1

/-- The drawing pass of `generate_stream`: each position becomes "water";
with the 30%-draw each cardinal neighbour also becomes "water" on its own
50%-draw.  Draws are keyed by position index (positions may repeat). -/
def drawStream (g : Grid) (positions : List (Int × Int)) (wbit : Nat → Bool)
    (dbit : Nat → Nat → Bool) : Grid :=
  (positions.foldl (fun (st : Grid × Nat) c =>
    let g1 := st.1.setTile c.1 c.2 "water"
    let g2 := if wbit st.2 then
        fourDirs.enum.foldl (fun g3 d =>
          if dbit st.2 d.1 then g3.setTile (c.1 + d.2.1) (c.2 + d.2.2) "water"
          else g3) g1
      else g1
    (g2, st.2 + 1)) (g, 0)).1

/-- `ForestGenerator.add_grass_patches`: floor cells in the interior turn
to "grass" with probability 0.2 when any "trees" tile lies within
Chebyshev distance 5 (on the current, partially updated grid), else with
probability 0.05. -/
def addGrassPatches (g : Grid) (treeBit openBit : Int × Int → Bool) : Grid :=
  (intRange 1 ((g.height : Int) - 1)).foldl (fun gr y =>
    (intRange 1 ((g.width : Int) - 1)).foldl (fun g2 x =>
      if g2.getTile x y = "floor" then
        (if 0 < ((intRange (-5) 6).flatMap (fun dx =>
            (intRange (-5) 6).map (fun dy => (dx, dy)))).countP
              (fun d => g2.getTile (x + d.1) (y + d.2) == "trees") then
          (if treeBit (x, y) then g2.setTile x y "grass" else g2)
        else
          (if openBit (x, y) then g2.setTile x y "grass" else g2))
      else g2) gr) g

/-- Oracle for the forest pipeline.  Count draws (`...D`) feed `randint`;
`spreadBit k it src d` is the 60% expansion draw of cluster `k` at
iteration `it` from cell `src` by offset `d`; stream draws are keyed by
step index. -/
structure ForestOracle where
  numClustersD : Nat
  clusterSeedX : Nat → Nat
  clusterSeedY : Nat → Nat
  clusterItersD : Nat → Nat
  spreadBit : Nat → Nat → Int × Int → Int × Int → Bool
  placeBit : Nat → Int × Int → Bool
  numPondsD : Nat
  pondCX : Nat → Nat
  pondCY : Nat → Nat
  pondR : Nat → Nat
  pondVar : Nat → Int × Int → ℚ
  streamBit : Bool
  streamHoriz : Bool
  streamD1 : Nat
  streamD2 : Nat
  streamD3 : Nat
  streamD4 : Nat
  streamBias : Nat → Bool
  streamAxis : Nat → Bool
  streamRX : Nat → Nat
  streamRY : Nat → Nat
  streamWiden : Nat → Bool
  streamWidenDir : Nat → Nat → Bool
  numClearingsD : Nat
  clearCX : Nat → Nat
  clearCY : Nat → Nat
  clearR : Nat → Nat
  grassTreeBit : Int × Int → Bool
  grassOpenBit : Int × Int → Bool

/-- `generate_forest` up to the terrain grid: the grid starts all "floor"
(no wall fill), then tree clusters, ponds, an optional stream, clearings,
grass, and border walls. -/
def generateForestGrid (w h : Nat) (o : ForestOracle) : Grid :=
  let g0 := Grid.init w h
  let g1 := (List.range (randint 8 15 o.numClustersD).toNat).foldl (fun gr k =>
    placeCluster gr
      (growCluster w h (randint 5 ((w : Int) - 5) (o.clusterSeedX k),
        randint 5 ((h : Int) - 5) (o.clusterSeedY k))
        (randint 3 6 (o.clusterItersD k)).toNat (o.spreadBit k))
      (o.placeBit k)) g0
  let g2 := (List.range (randint 2 4 o.numPondsD).toNat).foldl (fun gr k =>
    generatePond gr (randint 10 ((w : Int) - 10) (o.pondCX k))
      (randint 10 ((h : Int) - 10) (o.pondCY k)) (randint 2 4 (o.pondR k))
      (o.pondVar k)) g1
  let g3 := if o.streamBit then
      (if o.streamHoriz then
        drawStream g2 (streamWalk w h (randint 1 5 o.streamD1)
          (randint ((h : Int) / 4) (3 * (h : Int) / 4) o.streamD2)
          (randint ((w : Int) - 5) ((w : Int) - 2) o.streamD3)
          (randint ((h : Int) / 4) (3 * (h : Int) / 4) o.streamD4)
          o.streamBias o.streamAxis o.streamRX o.streamRY)
          o.streamWiden o.streamWidenDir
      else
        drawStream g2 (streamWalk w h
          (randint ((w : Int) / 4) (3 * (w : Int) / 4) o.streamD1)
          (randint 1 5 o.streamD2)
          (randint ((w : Int) / 4) (3 * (w : Int) / 4) o.streamD3)
          (randint ((h : Int) - 5) ((h : Int) - 2) o.streamD4)
          o.streamBias o.streamAxis o.streamRX o.streamRY)
          o.streamWiden o.streamWidenDir)
    else g2
  let g4 := (List.range (randint 2 3 o.numClearingsD).toNat).foldl (fun gr k =>
    createClearing gr (randint 15 ((w : Int) - 15) (o.clearCX k))
      (randint 15 ((h : Int) - 15) (o.clearCY k)) (randint 5 8 (o.clearR k))) g3
  let g5 := addGrassPatches g4 o.grassTreeBit o.grassOpenBit
  g5.addBorderWalls

theorem Inv_drawStream {w h : Nat} {g : Grid} (hg : g.Inv w h)
    (positions : List (Int × Int)) (wbit : Nat → Bool) (dbit : Nat → Nat → Bool) :
    (drawStream g positions wbit dbit).Inv w h := by
  unfold drawStream
  have := foldl_preserves' (fun (st : Grid × Nat) => st.1.Inv w h)
    (fun st c =>
      let g1 := st.1.setTile c.1 c.2 "water"
      let g2 := if wbit st.2 then
          fourDirs.enum.foldl (fun g3 d =>
            if dbit st.2 d.1 then g3.setTile (c.1 + d.2.1) (c.2 + d.2.2) "water"
            else g3) g1
        else g1
      (g2, st.2 + 1))
    (fun st c hst => by
      dsimp only
      split
      · apply foldl_preserves (Grid.Inv w h)
        · intro g3 d hg3
          split
          · exact hg3.setTile _ _ _
          · exact hg3
        · exact hst.setTile _ _ _
      · exact hst.setTile _ _ _)
    positions (g, 0) hg
  exact this

theorem Inv_addGrassPatches {w h : Nat} {g : Grid} (hg : g.Inv w h)
    (treeBit openBit : Int × Int → Bool) :
    (addGrassPatches g treeBit openBit).Inv w h := by
  unfold addGrassPatches
  apply foldl_preserves (Grid.Inv w h)
  · intro gr a hgr
    apply foldl_preserves (Grid.Inv w h)
    · intro g2 b hg2
      dsimp only
      split
      all_goals try split
      all_goals try split
      all_goals first
        | exact hg2.setTile _ _ _
        | exact hg2
    · exact hgr
  · exact hg

/-- The forest pipeline's grid is `add_border_walls` applied to a grid of
the requested dimensions. -/
theorem generateForestGrid_pre (w h : Nat) (o : ForestOracle) :
    ∃ gpre : Grid, generateForestGrid w h o = gpre.addBorderWalls ∧ gpre.Inv w h := by
  refine ⟨_, rfl, ?_⟩
  apply Inv_addGrassPatches
  apply foldl_preserves (Grid.Inv w h)
  · intro gr k hgr
    exact Inv_createClearing hgr _ _ _
  · have hg2 : ((List.range (randint 2 4 o.numPondsD).toNat).foldl (fun gr k =>
        generatePond gr (randint 10 ((w : Int) - 10) (o.pondCX k))
          (randint 10 ((h : Int) - 10) (o.pondCY k)) (randint 2 4 (o.pondR k))
          (o.pondVar k))
        ((List.range (randint 8 15 o.numClustersD).toNat).foldl (fun gr k =>
          placeCluster gr
            (growCluster w h (randint 5 ((w : Int) - 5) (o.clusterSeedX k),
              randint 5 ((h : Int) - 5) (o.clusterSeedY k))
              (randint 3 6 (o.clusterItersD k)).toNat (o.spreadBit k))
            (o.placeBit k)) (Grid.init w h))).Inv w h := by
      apply foldl_preserves (Grid.Inv w h)
      · intro gr k hgr
        exact Inv_generatePond hgr _ _ _ _
      · apply foldl_preserves (Grid.Inv w h)
        · intro gr k hgr
          exact Inv_placeCluster hgr _ _
        · exact Grid.Inv_init w h
    split
    · split
      · exact Inv_drawStream hg2 _ _ _
      · exact Inv_drawStream hg2 _ _ _
    · exact hg2

/-- `VillageGenerator.create_road`: a straight horizontal or vertical
strip of "dirt" of the given width, with the source's per-cell bounds
check against the generator's fixed dimensions. -/
def createRoad (w h : Nat) (g : Grid) (x1 y1 x2 y2 : Int) (rwidth : Nat)
    (vertical : Bool) : Grid :=
  if vertical then
    (intRange (min y1 y2) (max y1 y2 + 1)).foldl (fun gr y =>
      (intRange 0 rwidth).foldl (fun g2 wv =>
        if 0 ≤ x1 + wv ∧ x1 + wv < (w : Int) ∧ 0 ≤ y ∧ y < (h : Int) then
          g2.setTile (x1 + wv) y "dirt"
        else g2) gr) g
  else
    (intRange (min x1 x2) (max x1 x2 + 1)).foldl (fun gr x =>
      (intRange 0 rwidth).foldl (fun g2 wv =>
        if 0 ≤ x ∧ x < (w : Int) ∧ 0 ≤ y1 + wv ∧ y1 + wv < (h : Int) then
          g2.setTile x (y1 + wv) "dirt"
        else g2) gr) g

/-- `VillageGenerator.create_building`: perimeter walls (top/bottom, then
left/right), "floor" interior, and — when the 80%-draw fires and both
dimensions exceed 2 — one "floor" door in the middle of a chosen side
(`doorSideIdx % 4`: top, bottom, left, right). -/
def createBuilding (w h : Nat) (g : Grid) (x y bw bh : Int) (doorBit : Bool)
    (doorSideIdx : Nat) : Grid :=
  let g1 := (intRange x (x + bw)).foldl (fun gr bx =>
    let gra := if 0 ≤ bx ∧ bx < (w : Int) ∧ 0 ≤ y ∧ y < (h : Int) then
        gr.setTile bx y "wall" else gr
    if 0 ≤ bx ∧ bx < (w : Int) ∧ 0 ≤ y + bh - 1 ∧ y + bh - 1 < (h : Int) then
      gra.setTile bx (y + bh - 1) "wall"
    else gra) g
  let g2 := (intRange y (y + bh)).foldl (fun gr yy =>
    let gra := if 0 ≤ x ∧ x < (w : Int) ∧ 0 ≤ yy ∧ yy < (h : Int) then
        gr.setTile x yy "wall" else gr
    if 0 ≤ x + bw - 1 ∧ x + bw - 1 < (w : Int) ∧ 0 ≤ yy ∧ yy < (h : Int) then
      gra.setTile (x + bw - 1) yy "wall"
    else gra) g1
  let g3 := (intRange (y + 1) (y + bh - 1)).foldl (fun gr yy =>
    (intRange (x + 1) (x + bw - 1)).foldl (fun gi bx =>
      if 0 ≤ bx ∧ bx < (w : Int) ∧ 0 ≤ yy ∧ yy < (h : Int) then
        gi.setTile bx yy "floor"
      else gi) gr) g2
  if doorBit ∧ 2 < bw ∧ 2 < bh then
    let side := doorSideIdx % 4
    let d : Int × Int :=
      if side = 0 then (x + bw / 2, y)
      else if side = 1 then (x + bw / 2, y + bh - 1)
      else if side = 2 then (x, y + bh / 2)
      else (x + bw - 1, y + bh / 2)
    if 0 ≤ d.1 ∧ d.1 < (w : Int) ∧ 0 ≤ d.2 ∧ d.2 < (h : Int) then
      g3.setTile d.1 d.2 "floor"
    else g3
  else g3

/-- The town-square pass of `generate_village`: interior cells of the
square become "floor" unless they already hold "dirt" (roads). -/
def createTownSquare (w h : Nat) (g : Grid) (sqx sqy sqsize : Int) : Grid :=
  (intRange sqy (sqy + sqsize)).foldl (fun gr y =>
    (intRange sqx (sqx + sqsize)).foldl (fun g2 x =>
      if 1 ≤ x ∧ x < (w : Int) - 1 ∧ 1 ≤ y ∧ y < (h : Int) - 1 then
        (if g2.getTile x y ≠ "dirt" then g2.setTile x y "floor" else g2)
      else g2) gr) g

/-- The clear-area check of the building placement loop: the candidate
footprint plus a one-tile buffer must be wholly in bounds, off roads
("dirt"), and outside the town square.  The source's early-exit loops
compute exactly this conjunction (no state changes during the scan). -/
def buildingAreaClear (w h : Nat) (g : Grid) (bx byy bw bh sqx sqy sqsize : Int) : Bool :=
  (intRange (byy - 1) (byy + bh + 1)).all (fun yy =>
    (intRange (bx - 1) (bx + bw + 1)).all (fun xx =>
      decide (0 ≤ xx ∧ xx < (w : Int) ∧ 0 ≤ yy ∧ yy < (h : Int)) &&
      !(g.getTile xx yy == "dirt") &&
      !(decide (sqx ≤ xx ∧ xx < sqx + sqsize ∧ sqy ≤ yy ∧ yy < sqy + sqsize))))

/-- Oracle for the village pipeline, keyed by loop index where a loop
draws repeatedly. -/
structure VillageOracle where
  mainHoriz : Bool
  numCrossD : Nat
  crossPos : Nat → Nat
  squareSizeD : Nat
  numBuildingsD : Nat
  buildW : Nat → Nat
  buildH : Nat → Nat
  buildX : Nat → Nat
  buildY : Nat → Nat
  doorBit : Nat → Bool
  doorSide : Nat → Nat
  vegSeedBit : Int × Int → Bool
  vegSpreadBit : Int × Int → Nat → Bool
  vegGrassBit : Int × Int → Bool

/-- The building placement loop of `generate_village`: at most
`max_attempts = 5 * target` attempts, stopping once `target` buildings
are placed; each attempt draws a size and position and builds only when
the buffered footprint is clear. -/
def villageBuildLoop (w h : Nat) (g : Grid) (target : Nat)
    (sqx sqy sqsize : Int) (o : VillageOracle) : Grid :=
  ((List.range (5 * target)).foldl (fun (st : Grid × Nat) k =>
    if st.2 < target then
      let bw := randint 5 12 (o.buildW k)
      let bh := randint 5 10 (o.buildH k)
      let bx := randint 5 ((w : Int) - bw - 5) (o.buildX k)
      let byy := randint 5 ((h : Int) - bh - 5) (o.buildY k)
      if buildingAreaClear w h st.1 bx byy bw bh sqx sqy sqsize then
        (createBuilding w h st.1 bx byy bw bh (o.doorBit k) (o.doorSide k), st.2 + 1)
      else st
    else st) (g, 0)).1

/-- `VillageGenerator.add_vegetation`: an interior "floor" cell becomes
"trees" on a 2%-draw (each cardinal neighbour also turning on its own
40%-draw when still "floor"), otherwise "grass" on a 15%-draw. -/
def addVegetation (g : Grid) (seedBit : Int × Int → Bool)
    (spreadBit : Int × Int → Nat → Bool) (grassBit : Int × Int → Bool) : Grid :=
  (intRange 1 ((g.height : Int) - 1)).foldl (fun gr y =>
    (intRange 1 ((g.width : Int) - 1)).foldl (fun g2 x =>
      if g2.getTile x y = "floor" then
        (if seedBit (x, y) then
          fourDirs.enum.foldl (fun g3 d =>
            if spreadBit (x, y) d.1 then
              (if g3.getTile (x + d.2.1) (y + d.2.2) = "floor" then
                g3.setTile (x + d.2.1) (y + d.2.2) "trees"
              else g3)
            else g3) (g2.setTile x y "trees")
        else if grassBit (x, y) then g2.setTile x y "grass"
        else g2)
      else g2) gr) g

/-- `generate_village` up to the terrain grid: all-floor start, main road,
cross roads, town square (`(dim - size) // 2` is Python floor division,
hence `Int.fdiv`), buildings, vegetation, border walls. -/
def generateVillageGrid (w h : Nat) (o : VillageOracle) : Grid :=
  let g0 := Grid.init w h
  let g1 := if o.mainHoriz then
      createRoad w h g0 1 ((h : Int) / 2) ((w : Int) - 2) ((h : Int) / 2) 3 false
    else createRoad w h g0 ((w : Int) / 2) 1 ((w : Int) / 2) ((h : Int) - 2) 3 true
  let g2 := (List.range (randint 2 3 o.numCrossD).toNat).foldl (fun gr k =>
    if o.mainHoriz then
      createRoad w h gr (randint ((w : Int) / 4) (3 * (w : Int) / 4) (o.crossPos k)) 1
        (randint ((w : Int) / 4) (3 * (w : Int) / 4) (o.crossPos k)) ((h : Int) - 2) 2 true
    else
      createRoad w h gr 1 (randint ((h : Int) / 4) (3 * (h : Int) / 4) (o.crossPos k))
        ((w : Int) - 2) (randint ((h : Int) / 4) (3 * (h : Int) / 4) (o.crossPos k)) 2 false) g1
  let sqsize := randint 12 18 o.squareSizeD
  let sqx := Int.fdiv ((w : Int) - sqsize) 2
  let sqy := Int.fdiv ((h : Int) - sqsize) 2
  let g3 := createTownSquare w h g2 sqx sqy sqsize
  let g4 := villageBuildLoop w h g3 (randint 8 12 o.numBuildingsD).toNat
    sqx sqy sqsize o
  let g5 := addVegetation g4 o.vegSeedBit o.vegSpreadBit o.vegGrassBit
  g5.addBorderWalls

theorem Inv_createRoad {w h : Nat} {g : Grid} (hg : g.Inv w h)
    (x1 y1 x2 y2 : Int) (rwidth : Nat) (vertical : Bool) :
    (createRoad w h g x1 y1 x2 y2 rwidth vertical).Inv w h := by
  unfold createRoad
  split <;>
  · apply foldl_preserves (Grid.Inv w h)
    · intro gr a hgr
      apply foldl_preserves (Grid.Inv w h)
      · intro g2 b hg2
        split
        · exact hg2.setTile _ _ _
        · exact hg2
      · exact hgr
    · exact hg

theorem Inv_createBuilding {w h : Nat} {g : Grid} (hg : g.Inv w h)
    (x y bw bh : Int) (doorBit : Bool) (doorSideIdx : Nat) :
    (createBuilding w h g x y bw bh doorBit doorSideIdx).Inv w h := by
  unfold createBuilding
  dsimp only
  have h1 : ∀ g' : Grid, g'.Inv w h →
      ((intRange x (x + bw)).foldl (fun gr bx =>
        let gra := if 0 ≤ bx ∧ bx < (w : Int) ∧ 0 ≤ y ∧ y < (h : Int) then
            gr.setTile bx y "wall" else gr
        if 0 ≤ bx ∧ bx < (w : Int) ∧ 0 ≤ y + bh - 1 ∧ y + bh - 1 < (h : Int) then
          gra.setTile bx (y + bh - 1) "wall"
        else gra) g').Inv w h := by
    intro g' hg'
    apply foldl_preserves (Grid.Inv w h)
    · intro gr a hgr
      dsimp only
      split
      all_goals split
      all_goals first
        | exact (hgr.setTile _ _ _).setTile _ _ _
        | exact hgr.setTile _ _ _
        | exact hgr
    · exact hg'
  have h2 : ∀ g' : Grid, g'.Inv w h →
      ((intRange y (y + bh)).foldl (fun gr yy =>
        let gra := if 0 ≤ x ∧ x < (w : Int) ∧ 0 ≤ yy ∧ yy < (h : Int) then
            gr.setTile x yy "wall" else gr
        if 0 ≤ x + bw - 1 ∧ x + bw - 1 < (w : Int) ∧ 0 ≤ yy ∧ yy < (h : Int) then
          gra.setTile (x + bw - 1) yy "wall"
        else gra) g').Inv w h := by
    intro g' hg'
    apply foldl_preserves (Grid.Inv w h)
    · intro gr a hgr
      dsimp only
      split
      all_goals split
      all_goals first
        | exact (hgr.setTile _ _ _).setTile _ _ _
        | exact hgr.setTile _ _ _
        | exact hgr
    · exact hg'
  have h3 : ∀ g' : Grid, g'.Inv w h →
      ((intRange (y + 1) (y + bh - 1)).foldl (fun gr yy =>
        (intRange (x + 1) (x + bw - 1)).foldl (fun gi bx =>
          if 0 ≤ bx ∧ bx < (w : Int) ∧ 0 ≤ yy ∧ yy < (h : Int) then
            gi.setTile bx yy "floor"
          else gi) gr) g').Inv w h := by
    intro g' hg'
    apply foldl_preserves (Grid.Inv w h)
    · intro gr a hgr
      apply foldl_preserves (Grid.Inv w h)
      · intro gi b hgi
        split
        · exact hgi.setTile _ _ _
        · exact hgi
      · exact hgr
    · exact hg'
  have hbase := h3 _ (h2 _ (h1 _ hg))
  split
  · repeat' split
    all_goals first
      | exact hbase.setTile _ _ _
      | exact hbase
  · exact hbase

theorem Inv_createTownSquare {w h : Nat} {g : Grid} (hg : g.Inv w h)
    (sqx sqy sqsize : Int) : (createTownSquare w h g sqx sqy sqsize).Inv w h := by
  unfold createTownSquare
  apply foldl_preserves (Grid.Inv w h)
  · intro gr a hgr
    apply foldl_preserves (Grid.Inv w h)
    · intro g2 b hg2
      split
      · split
        · exact hg2.setTile _ _ _
        · exact hg2
      · exact hg2
    · exact hgr
  · exact hg

theorem Inv_villageBuildLoop {w h : Nat} {g : Grid} (hg : g.Inv w h)
    (target : Nat) (sqx sqy sqsize : Int) (o : VillageOracle) :
    (villageBuildLoop w h g target sqx sqy sqsize o).Inv w h := by
  unfold villageBuildLoop
  have := foldl_preserves' (fun (st : Grid × Nat) => st.1.Inv w h)
    (fun st k =>
      if st.2 < target then
        let bw := randint 5 12 (o.buildW k)
        let bh := randint 5 10 (o.buildH k)
        let bx := randint 5 ((w : Int) - bw - 5) (o.buildX k)
        let byy := randint 5 ((h : Int) - bh - 5) (o.buildY k)
        if buildingAreaClear w h st.1 bx byy bw bh sqx sqy sqsize then
          (createBuilding w h st.1 bx byy bw bh (o.doorBit k) (o.doorSide k), st.2 + 1)
        else st
      else st)
    (fun st k hst => by
      dsimp only
      split
      · split
        · exact Inv_createBuilding hst _ _ _ _ _ _
        · exact hst
      · exact hst)
    (List.range (5 * target)) (g, 0) hg
  exact this

theorem Inv_addVegetation {w h : Nat} {g : Grid} (hg : g.Inv w h)
    (seedBit : Int × Int → Bool) (spreadBit : Int × Int → Nat → Bool)
    (grassBit : Int × Int → Bool) :
    (addVegetation g seedBit spreadBit grassBit).Inv w h := by
  unfold addVegetation
  apply foldl_preserves (Grid.Inv w h)
  · intro gr a hgr
    apply foldl_preserves (Grid.Inv w h)
    · intro g2 b hg2
      split
      · split
        · apply foldl_preserves (Grid.Inv w h)
          · intro g3 d hg3
            split
            · split
              · exact hg3.setTile _ _ _
              · exact hg3
            · exact hg3
          · exact hg2.setTile _ _ _
        · split
          · exact hg2.setTile _ _ _
          · exact hg2
      · exact hg2
    · exact hgr
  · exact hg

/-- The village pipeline's grid is `add_border_walls` applied to a grid
of the requested dimensions. -/
theorem generateVillageGrid_pre (w h : Nat) (o : VillageOracle) :
    ∃ gpre : Grid, generateVillageGrid w h o = gpre.addBorderWalls ∧ gpre.Inv w h := by
  refine ⟨_, rfl, ?_⟩
  apply Inv_addVegetation
  apply Inv_villageBuildLoop
  apply Inv_createTownSquare
  apply foldl_preserves (Grid.Inv w h)
  · intro gr k hgr
    split
    · exact Inv_createRoad hgr _ _ _ _ _ _
    · exact Inv_createRoad hgr _ _ _ _ _ _
  · split
    · exact Inv_createRoad (Grid.Inv_init w h) _ _ _ _ _ _
    · exact Inv_createRoad (Grid.Inv_init w h) _ _ _ _ _ _

/-- The grid after `ensure_connectivity` in the cellular pipeline, before
border walls. -/
theorem generateCellularGrid_pre (w h : Nat) (o : CellularOracle) :
    ∃ gpre : Grid, generateCellularGrid w h o = gpre.addBorderWalls ∧ gpre.Inv w h := by
  refine ⟨_, rfl, ?_⟩
  obtain ⟨hinv, -⟩ := cellularPre_spec w h o
  exact (Grid.ensureConnectivity_spec hinv (cellularPre_interior w h o) o.legOrder).1

/-- A set of cells closed under non-blocked 4-steps separates its members
from every cell outside it. -/
theorem not_reaches_of_closed (g : Grid) (S : List (Int × Int)) (a b : Int × Int)
    (ha : a ∈ S) (hb : b ∉ S)
    (hclosed : ∀ c ∈ S, ∀ n ∈ neighbors4 c, ¬ g.isBlocked n.1 n.2 → n ∈ S) :
    ¬ g.Reaches a b := by
  intro hr
  have key : ∀ x : Int × Int, g.Reaches a x → x ∈ S := by
    intro x hx
    induction hx with
    | refl => exact ha
    | tail hab hbc ih => exact hclosed _ ih _ hbc.1 hbc.2
  exact hb (key b hr)

theorem foldl_fixed {α β : Type} (f : β → α → β) (l : List α) (b : β)
    (hf : ∀ x a, f x a = x) : l.foldl f b = b := by
  induction l generalizing b with
  | nil => rfl
  | cons a t ih => rw [List.foldl_cons, hf]; exact ih b

/-- With every vegetation draw failing, `add_vegetation` leaves the grid
unchanged. -/
theorem addVegetation_noop (g : Grid) (sb : Int × Int → Nat → Bool) :
    addVegetation g (fun _ => false) sb (fun _ => false) = g := by
  unfold addVegetation
  apply foldl_fixed
  intro gr y
  apply foldl_fixed
  intro g2 x
  dsimp only
  split
  · rfl
  · rfl


/-- Oracle draws realizing the village counterexample run: horizontal main
road, two cross roads at column 8, town square of size 12, one accepted
5x5 building at (24, 5) whose 80% door draw fails, every later building
attempt overlapping a road, and no vegetation. -/
def villageCExOracle : VillageOracle where
  mainHoriz := true
  numCrossD := 0
  crossPos := fun _ => 0
  squareSizeD := 0
  numBuildingsD := 0
  buildW := fun _ => 0
  buildH := fun _ => 0
  buildX := fun k => if k = 0 then 19 else 3
  buildY := fun _ => 0
  doorBit := fun _ => false
  doorSide := fun _ => 0
  vegSeedBit := fun _ => false
  vegSpreadBit := fun _ _ => false
  vegGrassBit := fun _ => false

/-- Village counterexample, stage 1: main road drawn -/
def vgLit1 : Grid :=
  ⟨34, 22, [
    ["floor", "floor", "floor", "floor", "floor", "floor", "floor", "floor", "floor", "floor", "floor", "floor", "floor", "floor", "floor", "floor", "floor", "floor", "floor", "floor", "floor", "floor", "floor", "floor", "floor", "floor", "floor", "floor", "floor", "floor", "floor", "floor", "floor", "floor"],
    ["floor", "floor", "floor", "floor", "floor", "floor", "floor", "floor", "floor", "floor", "floor", "floor", "floor", "floor", "floor", "floor", "floor", "floor", "floor", "floor", "floor", "floor", "floor", "floor", "floor", "floor", "floor", "floor", "floor", "floor", "floor", "floor", "floor", "floor"],
    ["floor", "floor", "floor", "floor", "floor", "floor", "floor", "floor", "floor", "floor", "floor", "floor", "floor", "floor", "floor", "floor", "floor", "floor", "floor", "floor", "floor", "floor", "floor", "floor", "floor", "floor", "floor", "floor", "floor", "floor", "floor", "floor", "floor", "floor"],
    ["floor", "floor", "floor", "floor", "floor", "floor", "floor", "floor", "floor", "floor", "floor", "floor", "floor", "floor", "floor", "floor", "floor", "floor", "floor", "floor", "floor", "floor", "floor", "floor", "floor", "floor", "floor", "floor", "floor", "floor", "floor", "floor", "floor", "floor"],
    ["floor", "floor", "floor", "floor", "floor", "floor", "floor", "floor", "floor", "floor", "floor", "floor", "floor", "floor", "floor", "floor", "floor", "floor", "floor", "floor", "floor", "floor", "floor", "floor", "floor", "floor", "floor", "floor", "floor", "floor", "floor", "floor", "floor", "floor"],
    ["floor", "floor", "floor", "floor", "floor", "floor", "floor", "floor", "floor", "floor", "floor", "floor", "floor", "floor", "floor", "floor", "floor", "floor", "floor", "floor", "floor", "floor", "floor", "floor", "floor", "floor", "floor", "floor", "floor", "floor", "floor", "floor", "floor", "floor"],
    ["floor", "floor", "floor", "floor", "floor", "floor", "floor", "floor", "floor", "floor", "floor", "floor", "floor", "floor", "floor", "floor", "floor", "floor", "floor", "floor", "floor", "floor", "floor", "floor", "floor", "floor", "floor", "floor", "floor", "floor", "floor", "floor", "floor", "floor"],
    ["floor", "floor", "floor", "floor", "floor", "floor", "floor", "floor", "floor", "floor", "floor", "floor", "floor", "floor", "floor", "floor", "floor", "floor", "floor", "floor", "floor", "floor", "floor", "floor", "floor", "floor", "floor", "floor", "floor", "floor", "floor", "floor", "floor", "floor"],
    ["floor", "floor", "floor", "floor", "floor", "floor", "floor", "floor", "floor", "floor", "floor", "floor", "floor", "floor", "floor", "floor", "floor", "floor", "floor", "floor", "floor", "floor", "floor", "floor", "floor", "floor", "floor", "floor", "floor", "floor", "floor", "floor", "floor", "floor"],
    ["floor", "floor", "floor", "floor", "floor", "floor", "floor", "floor", "floor", "floor", "floor", "floor", "floor", "floor", "floor", "floor", "floor", "floor", "floor", "floor", "floor", "floor", "floor", "floor", "floor", "floor", "floor", "floor", "floor", "floor", "floor", "floor", "floor", "floor"],
    ["floor", "floor", "floor", "floor", "floor", "floor", "floor", "floor", "floor", "floor", "floor", "floor", "floor", "floor", "floor", "floor", "floor", "floor", "floor", "floor", "floor", "floor", "floor", "floor", "floor", "floor", "floor", "floor", "floor", "floor", "floor", "floor", "floor", "floor"],
    ["floor", "dirt", "dirt", "dirt", "dirt", "dirt", "dirt", "dirt", "dirt", "dirt", "dirt", "dirt", "dirt", "dirt", "dirt", "dirt", "dirt", "dirt", "dirt", "dirt", "dirt", "dirt", "dirt", "dirt", "dirt", "dirt", "dirt", "dirt", "dirt", "dirt", "dirt", "dirt", "dirt", "floor"],
    ["floor", "dirt", "dirt", "dirt", "dirt", "dirt", "dirt", "dirt", "dirt", "dirt", "dirt", "dirt", "dirt", "dirt", "dirt", "dirt", "dirt", "dirt", "dirt", "dirt", "dirt", "dirt", "dirt", "dirt", "dirt", "dirt", "dirt", "dirt", "dirt", "dirt", "dirt", "dirt", "dirt", "floor"],
    ["floor", "dirt", "dirt", "dirt", "dirt", "dirt", "dirt", "dirt", "dirt", "dirt", "dirt", "dirt", "dirt", "dirt", "dirt", "dirt", "dirt", "dirt", "dirt", "dirt", "dirt", "dirt", "dirt", "dirt", "dirt", "dirt", "dirt", "dirt", "dirt", "dirt", "dirt", "dirt", "dirt", "floor"],
    ["floor", "floor", "floor", "floor", "floor", "floor", "floor", "floor", "floor", "floor", "floor", "floor", "floor", "floor", "floor", "floor", "floor", "floor", "floor", "floor", "floor", "floor", "floor", "floor", "floor", "floor", "floor", "floor", "floor", "floor", "floor", "floor", "floor", "floor"],
    ["floor", "floor", "floor", "floor", "floor", "floor", "floor", "floor", "floor", "floor", "floor", "floor", "floor", "floor", "floor", "floor", "floor", "floor", "floor", "floor", "floor", "floor", "floor", "floor", "floor", "floor", "floor", "floor", "floor", "floor", "floor", "floor", "floor", "floor"],
    ["floor", "floor", "floor", "floor", "floor", "floor", "floor", "floor", "floor", "floor", "floor", "floor", "floor", "floor", "floor", "floor", "floor", "floor", "floor", "floor", "floor", "floor", "floor", "floor", "floor", "floor", "floor", "floor", "floor", "floor", "floor", "floor", "floor", "floor"],
    ["floor", "floor", "floor", "floor", "floor", "floor", "floor", "floor", "floor", "floor", "floor", "floor", "floor", "floor", "floor", "floor", "floor", "floor", "floor", "floor", "floor", "floor", "floor", "floor", "floor", "floor", "floor", "floor", "floor", "floor", "floor", "floor", "floor", "floor"],
    ["floor", "floor", "floor", "floor", "floor", "floor", "floor", "floor", "floor", "floor", "floor", "floor", "floor", "floor", "floor", "floor", "floor", "floor", "floor", "floor", "floor", "floor", "floor", "floor", "floor", "floor", "floor", "floor", "floor", "floor", "floor", "floor", "floor", "floor"],
    ["floor", "floor", "floor", "floor", "floor", "floor", "floor", "floor", "floor", "floor", "floor", "floor", "floor", "floor", "floor", "floor", "floor", "floor", "floor", "floor", "floor", "floor", "floor", "floor", "floor", "floor", "floor", "floor", "floor", "floor", "floor", "floor", "floor", "floor"],
    ["floor", "floor", "floor", "floor", "floor", "floor", "floor", "floor", "floor", "floor", "floor", "floor", "floor", "floor", "floor", "floor", "floor", "floor", "floor", "floor", "floor", "floor", "floor", "floor", "floor", "floor", "floor", "floor", "floor", "floor", "floor", "floor", "floor", "floor"],
    ["floor", "floor", "floor", "floor", "floor", "floor", "floor", "floor", "floor", "floor", "floor", "floor", "floor", "floor", "floor", "floor", "floor", "floor", "floor", "floor", "floor", "floor", "floor", "floor", "floor", "floor", "floor", "floor", "floor", "floor", "floor", "floor", "floor", "floor"]]⟩

/-- Stage 2: cross roads drawn -/
def vgLit2 : Grid :=
  ⟨34, 22, [
    ["floor", "floor", "floor", "floor", "floor", "floor", "floor", "floor", "floor", "floor", "floor", "floor", "floor", "floor", "floor", "floor", "floor", "floor", "floor", "floor", "floor", "floor", "floor", "floor", "floor", "floor", "floor", "floor", "floor", "floor", "floor", "floor", "floor", "floor"],
    ["floor", "floor", "floor", "floor", "floor", "floor", "floor", "floor", "dirt", "dirt", "floor", "floor", "floor", "floor", "floor", "floor", "floor", "floor", "floor", "floor", "floor", "floor", "floor", "floor", "floor", "floor", "floor", "floor", "floor", "floor", "floor", "floor", "floor", "floor"],
    ["floor", "floor", "floor", "floor", "floor", "floor", "floor", "floor", "dirt", "dirt", "floor", "floor", "floor", "floor", "floor", "floor", "floor", "floor", "floor", "floor", "floor", "floor", "floor", "floor", "floor", "floor", "floor", "floor", "floor", "floor", "floor", "floor", "floor", "floor"],
    ["floor", "floor", "floor", "floor", "floor", "floor", "floor", "floor", "dirt", "dirt", "floor", "floor", "floor", "floor", "floor", "floor", "floor", "floor", "floor", "floor", "floor", "floor", "floor", "floor", "floor", "floor", "floor", "floor", "floor", "floor", "floor", "floor", "floor", "floor"],
    ["floor", "floor", "floor", "floor", "floor", "floor", "floor", "floor", "dirt", "dirt", "floor", "floor", "floor", "floor", "floor", "floor", "floor", "floor", "floor", "floor", "floor", "floor", "floor", "floor", "floor", "floor", "floor", "floor", "floor", "floor", "floor", "floor", "floor", "floor"],
    ["floor", "floor", "floor", "floor", "floor", "floor", "floor", "floor", "dirt", "dirt", "floor", "floor", "floor", "floor", "floor", "floor", "floor", "floor", "floor", "floor", "floor", "floor", "floor", "floor", "floor", "floor", "floor", "floor", "floor", "floor", "floor", "floor", "floor", "floor"],
    ["floor", "floor", "floor", "floor", "floor", "floor", "floor", "floor", "dirt", "dirt", "floor", "floor", "floor", "floor", "floor", "floor", "floor", "floor", "floor", "floor", "floor", "floor", "floor", "floor", "floor", "floor", "floor", "floor", "floor", "floor", "floor", "floor", "floor", "floor"],
    ["floor", "floor", "floor", "floor", "floor", "floor", "floor", "floor", "dirt", "dirt", "floor", "floor", "floor", "floor", "floor", "floor", "floor", "floor", "floor", "floor", "floor", "floor", "floor", "floor", "floor", "floor", "floor", "floor", "floor", "floor", "floor", "floor", "floor", "floor"],
    ["floor", "floor", "floor", "floor", "floor", "floor", "floor", "floor", "dirt", "dirt", "floor", "floor", "floor", "floor", "floor", "floor", "floor", "floor", "floor", "floor", "floor", "floor", "floor", "floor", "floor", "floor", "floor", "floor", "floor", "floor", "floor", "floor", "floor", "floor"],
    ["floor", "floor", "floor", "floor", "floor", "floor", "floor", "floor", "dirt", "dirt", "floor", "floor", "floor", "floor", "floor", "floor", "floor", "floor", "floor", "floor", "floor", "floor", "floor", "floor", "floor", "floor", "floor", "floor", "floor", "floor", "floor", "floor", "floor", "floor"],
    ["floor", "floor", "floor", "floor", "floor", "floor", "floor", "floor", "dirt", "dirt", "floor", "floor", "floor", "floor", "floor", "floor", "floor", "floor", "floor", "floor", "floor", "floor", "floor", "floor", "floor", "floor", "floor", "floor", "floor", "floor", "floor", "floor", "floor", "floor"],
    ["floor", "dirt", "dirt", "dirt", "dirt", "dirt", "dirt", "dirt", "dirt", "dirt", "dirt", "dirt", "dirt", "dirt", "dirt", "dirt", "dirt", "dirt", "dirt", "dirt", "dirt", "dirt", "dirt", "dirt", "dirt", "dirt", "dirt", "dirt", "dirt", "dirt", "dirt", "dirt", "dirt", "floor"],
    ["floor", "dirt", "dirt", "dirt", "dirt", "dirt", "dirt", "dirt", "dirt", "dirt", "dirt", "dirt", "dirt", "dirt", "dirt", "dirt", "dirt", "dirt", "dirt", "dirt", "dirt", "dirt", "dirt", "dirt", "dirt", "dirt", "dirt", "dirt", "dirt", "dirt", "dirt", "dirt", "dirt", "floor"],
    ["floor", "dirt", "dirt", "dirt", "dirt", "dirt", "dirt", "dirt", "dirt", "dirt", "dirt", "dirt", "dirt", "dirt", "dirt", "dirt", "dirt", "dirt", "dirt", "dirt", "dirt", "dirt", "dirt", "dirt", "dirt", "dirt", "dirt", "dirt", "dirt", "dirt", "dirt", "dirt", "dirt", "floor"],
    ["floor", "floor", "floor", "floor", "floor", "floor", "floor", "floor", "dirt", "dirt", "floor", "floor", "floor", "floor", "floor", "floor", "floor", "floor", "floor", "floor", "floor", "floor", "floor", "floor", "floor", "floor", "floor", "floor", "floor", "floor", "floor", "floor", "floor", "floor"],
    ["floor", "floor", "floor", "floor", "floor", "floor", "floor", "floor", "dirt", "dirt", "floor", "floor", "floor", "floor", "floor", "floor", "floor", "floor", "floor", "floor", "floor", "floor", "floor", "floor", "floor", "floor", "floor", "floor", "floor", "floor", "floor", "floor", "floor", "floor"],
    ["floor", "floor", "floor", "floor", "floor", "floor", "floor", "floor", "dirt", "dirt", "floor", "floor", "floor", "floor", "floor", "floor", "floor", "floor", "floor", "floor", "floor", "floor", "floor", "floor", "floor", "floor", "floor", "floor", "floor", "floor", "floor", "floor", "floor", "floor"],
    ["floor", "floor", "floor", "floor", "floor", "floor", "floor", "floor", "dirt", "dirt", "floor", "floor", "floor", "floor", "floor", "floor", "floor", "floor", "floor", "floor", "floor", "floor", "floor", "floor", "floor", "floor", "floor", "floor", "floor", "floor", "floor", "floor", "floor", "floor"],
    ["floor", "floor", "floor", "floor", "floor", "floor", "floor", "floor", "dirt", "dirt", "floor", "floor", "floor", "floor", "floor", "floor", "floor", "floor", "floor", "floor", "floor", "floor", "floor", "floor", "floor", "floor", "floor", "floor", "floor", "floor", "floor", "floor", "floor", "floor"],
    ["floor", "floor", "floor", "floor", "floor", "floor", "floor", "floor", "dirt", "dirt", "floor", "floor", "floor", "floor", "floor", "floor", "floor", "floor", "floor", "floor", "floor", "floor", "floor", "floor", "floor", "floor", "floor", "floor", "floor", "floor", "floor", "floor", "floor", "floor"],
    ["floor", "floor", "floor", "floor", "floor", "floor", "floor", "floor", "dirt", "dirt", "floor", "floor", "floor", "floor", "floor", "floor", "floor", "floor", "floor", "floor", "floor", "floor", "floor", "floor", "floor", "floor", "floor", "floor", "floor", "floor", "floor", "floor", "floor", "floor"],
    ["floor", "floor", "floor", "floor", "floor", "floor", "floor", "floor", "floor", "floor", "floor", "floor", "floor", "floor", "floor", "floor", "floor", "floor", "floor", "floor", "floor", "floor", "floor", "floor", "floor", "floor", "floor", "floor", "floor", "floor", "floor", "floor", "floor", "floor"]]⟩

/-- Stage 3a: town-square rows 5-10 -/
def vgLit3a : Grid :=
  ⟨34, 22, [
    ["floor", "floor", "floor", "floor", "floor", "floor", "floor", "floor", "floor", "floor", "floor", "floor", "floor", "floor", "floor", "floor", "floor", "floor", "floor", "floor", "floor", "floor", "floor", "floor", "floor", "floor", "floor", "floor", "floor", "floor", "floor", "floor", "floor", "floor"],
    ["floor", "floor", "floor", "floor", "floor", "floor", "floor", "floor", "dirt", "dirt", "floor", "floor", "floor", "floor", "floor", "floor", "floor", "floor", "floor", "floor", "floor", "floor", "floor", "floor", "floor", "floor", "floor", "floor", "floor", "floor", "floor", "floor", "floor", "floor"],
    ["floor", "floor", "floor", "floor", "floor", "floor", "floor", "floor", "dirt", "dirt", "floor", "floor", "floor", "floor", "floor", "floor", "floor", "floor", "floor", "floor", "floor", "floor", "floor", "floor", "floor", "floor", "floor", "floor", "floor", "floor", "floor", "floor", "floor", "floor"],
    ["floor", "floor", "floor", "floor", "floor", "floor", "floor", "floor", "dirt", "dirt", "floor", "floor", "floor", "floor", "floor", "floor", "floor", "floor", "floor", "floor", "floor", "floor", "floor", "floor", "floor", "floor", "floor", "floor", "floor", "floor", "floor", "floor", "floor", "floor"],
    ["floor", "floor", "floor", "floor", "floor", "floor", "floor", "floor", "dirt", "dirt", "floor", "floor", "floor", "floor", "floor", "floor", "floor", "floor", "floor", "floor", "floor", "floor", "floor", "floor", "floor", "floor", "floor", "floor", "floor", "floor", "floor", "floor", "floor", "floor"],
    ["floor", "floor", "floor", "floor", "floor", "floor", "floor", "floor", "dirt", "dirt", "floor", "floor", "floor", "floor", "floor", "floor", "floor", "floor", "floor", "floor", "floor", "floor", "floor", "floor", "floor", "floor", "floor", "floor", "floor", "floor", "floor", "floor", "floor", "floor"],
    ["floor", "floor", "floor", "floor", "floor", "floor", "floor", "floor", "dirt", "dirt", "floor", "floor", "floor", "floor", "floor", "floor", "floor", "floor", "floor", "floor", "floor", "floor", "floor", "floor", "floor", "floor", "floor", "floor", "floor", "floor", "floor", "floor", "floor", "floor"],
    ["floor", "floor", "floor", "floor", "floor", "floor", "floor", "floor", "dirt", "dirt", "floor", "floor", "floor", "floor", "floor", "floor", "floor", "floor", "floor", "floor", "floor", "floor", "floor", "floor", "floor", "floor", "floor", "floor", "floor", "floor", "floor", "floor", "floor", "floor"],
    ["floor", "floor", "floor", "floor", "floor", "floor", "floor", "floor", "dirt", "dirt", "floor", "floor", "floor", "floor", "floor", "floor", "floor", "floor", "floor", "floor", "floor", "floor", "floor", "floor", "floor", "floor", "floor", "floor", "floor", "floor", "floor", "floor", "floor", "floor"],
    ["floor", "floor", "floor", "floor", "floor", "floor", "floor", "floor", "dirt", "dirt", "floor", "floor", "floor", "floor", "floor", "floor", "floor", "floor", "floor", "floor", "floor", "floor", "floor", "floor", "floor", "floor", "floor", "floor", "floor", "floor", "floor", "floor", "floor", "floor"],
    ["floor", "floor", "floor", "floor", "floor", "floor", "floor", "floor", "dirt", "dirt", "floor", "floor", "floor", "floor", "floor", "floor", "floor", "floor", "floor", "floor", "floor", "floor", "floor", "floor", "floor", "floor", "floor", "floor", "floor", "floor", "floor", "floor", "floor", "floor"],
    ["floor", "dirt", "dirt", "dirt", "dirt", "dirt", "dirt", "dirt", "dirt", "dirt", "dirt", "dirt", "dirt", "dirt", "dirt", "dirt", "dirt", "dirt", "dirt", "dirt", "dirt", "dirt", "dirt", "dirt", "dirt", "dirt", "dirt", "dirt", "dirt", "dirt", "dirt", "dirt", "dirt", "floor"],
    ["floor", "dirt", "dirt", "dirt", "dirt", "dirt", "dirt", "dirt", "dirt", "dirt", "dirt", "dirt", "dirt", "dirt", "dirt", "dirt", "dirt", "dirt", "dirt", "dirt", "dirt", "dirt", "dirt", "dirt", "dirt", "dirt", "dirt", "dirt", "dirt", "dirt", "dirt", "dirt", "dirt", "floor"],
    ["floor", "dirt", "dirt", "dirt", "dirt", "dirt", "dirt", "dirt", "dirt", "dirt", "dirt", "dirt", "dirt", "dirt", "dirt", "dirt", "dirt", "dirt", "dirt", "dirt", "dirt", "dirt", "dirt", "dirt", "dirt", "dirt", "dirt", "dirt", "dirt", "dirt", "dirt", "dirt", "dirt", "floor"],
    ["floor", "floor", "floor", "floor", "floor", "floor", "floor", "floor", "dirt", "dirt", "floor", "floor", "floor", "floor", "floor", "floor", "floor", "floor", "floor", "floor", "floor", "floor", "floor", "floor", "floor", "floor", "floor", "floor", "floor", "floor", "floor", "floor", "floor", "floor"],
    ["floor", "floor", "floor", "floor", "floor", "floor", "floor", "floor", "dirt", "dirt", "floor", "floor", "floor", "floor", "floor", "floor", "floor", "floor", "floor", "floor", "floor", "floor", "floor", "floor", "floor", "floor", "floor", "floor", "floor", "floor", "floor", "floor", "floor", "floor"],
    ["floor", "floor", "floor", "floor", "floor", "floor", "floor", "floor", "dirt", "dirt", "floor", "floor", "floor", "floor", "floor", "floor", "floor", "floor", "floor", "floor", "floor", "floor", "floor", "floor", "floor", "floor", "floor", "floor", "floor", "floor", "floor", "floor", "floor", "floor"],
    ["floor", "floor", "floor", "floor", "floor", "floor", "floor", "floor", "dirt", "dirt", "floor", "floor", "floor", "floor", "floor", "floor", "floor", "floor", "floor", "floor", "floor", "floor", "floor", "floor", "floor", "floor", "floor", "floor", "floor", "floor", "floor", "floor", "floor", "floor"],
    ["floor", "floor", "floor", "floor", "floor", "floor", "floor", "floor", "dirt", "dirt", "floor", "floor", "floor", "floor", "floor", "floor", "floor", "floor", "floor", "floor", "floor", "floor", "floor", "floor", "floor", "floor", "floor", "floor", "floor", "floor", "floor", "floor", "floor", "floor"],
    ["floor", "floor", "floor", "floor", "floor", "floor", "floor", "floor", "dirt", "dirt", "floor", "floor", "floor", "floor", "floor", "floor", "floor", "floor", "floor", "floor", "floor", "floor", "floor", "floor", "floor", "floor", "floor", "floor", "floor", "floor", "floor", "floor", "floor", "floor"],
    ["floor", "floor", "floor", "floor", "floor", "floor", "floor", "floor", "dirt", "dirt", "floor", "floor", "floor", "floor", "floor", "floor", "floor", "floor", "floor", "floor", "floor", "floor", "floor", "floor", "floor", "floor", "floor", "floor", "floor", "floor", "floor", "floor", "floor", "floor"],
    ["floor", "floor", "floor", "floor", "floor", "floor", "floor", "floor", "floor", "floor", "floor", "floor", "floor", "floor", "floor", "floor", "floor", "floor", "floor", "floor", "floor", "floor", "floor", "floor", "floor", "floor", "floor", "floor", "floor", "floor", "floor", "floor", "floor", "floor"]]⟩

/-- Stage 3: full town square -/
def vgLit3 : Grid :=
  ⟨34, 22, [
    ["floor", "floor", "floor", "floor", "floor", "floor", "floor", "floor", "floor", "floor", "floor", "floor", "floor", "floor", "floor", "floor", "floor", "floor", "floor", "floor", "floor", "floor", "floor", "floor", "floor", "floor", "floor", "floor", "floor", "floor", "floor", "floor", "floor", "floor"],
    ["floor", "floor", "floor", "floor", "floor", "floor", "floor", "floor", "dirt", "dirt", "floor", "floor", "floor", "floor", "floor", "floor", "floor", "floor", "floor", "floor", "floor", "floor", "floor", "floor", "floor", "floor", "floor", "floor", "floor", "floor", "floor", "floor", "floor", "floor"],
    ["floor", "floor", "floor", "floor", "floor", "floor", "floor", "floor", "dirt", "dirt", "floor", "floor", "floor", "floor", "floor", "floor", "floor", "floor", "floor", "floor", "floor", "floor", "floor", "floor", "floor", "floor", "floor", "floor", "floor", "floor", "floor", "floor", "floor", "floor"],
    ["floor", "floor", "floor", "floor", "floor", "floor", "floor", "floor", "dirt", "dirt", "floor", "floor", "floor", "floor", "floor", "floor", "floor", "floor", "floor", "floor", "floor", "floor", "floor", "floor", "floor", "floor", "floor", "floor", "floor", "floor", "floor", "floor", "floor", "floor"],
    ["floor", "floor", "floor", "floor", "floor", "floor", "floor", "floor", "dirt", "dirt", "floor", "floor", "floor", "floor", "floor", "floor", "floor", "floor", "floor", "floor", "floor", "floor", "floor", "floor", "floor", "floor", "floor", "floor", "floor", "floor", "floor", "floor", "floor", "floor"],
    ["floor", "floor", "floor", "floor", "floor", "floor", "floor", "floor", "dirt", "dirt", "floor", "floor", "floor", "floor", "floor", "floor", "floor", "floor", "floor", "floor", "floor", "floor", "floor", "floor", "floor", "floor", "floor", "floor", "floor", "floor", "floor", "floor", "floor", "floor"],
    ["floor", "floor", "floor", "floor", "floor", "floor", "floor", "floor", "dirt", "dirt", "floor", "floor", "floor", "floor", "floor", "floor", "floor", "floor", "floor", "floor", "floor", "floor", "floor", "floor", "floor", "floor", "floor", "floor", "floor", "floor", "floor", "floor", "floor", "floor"],
    ["floor", "floor", "floor", "floor", "floor", "floor", "floor", "floor", "dirt", "dirt", "floor", "floor", "floor", "floor", "floor", "floor", "floor", "floor", "floor", "floor", "floor", "floor", "floor", "floor", "floor", "floor", "floor", "floor", "floor", "floor", "floor", "floor", "floor", "floor"],
    ["floor", "floor", "floor", "floor", "floor", "floor", "floor", "floor", "dirt", "dirt", "floor", "floor", "floor", "floor", "floor", "floor", "floor", "floor", "floor", "floor", "floor", "floor", "floor", "floor", "floor", "floor", "floor", "floor", "floor", "floor", "floor", "floor", "floor", "floor"],
    ["floor", "floor", "floor", "floor", "floor", "floor", "floor", "floor", "dirt", "dirt", "floor", "floor", "floor", "floor", "floor", "floor", "floor", "floor", "floor", "floor", "floor", "floor", "floor", "floor", "floor", "floor", "floor", "floor", "floor", "floor", "floor", "floor", "floor", "floor"],
    ["floor", "floor", "floor", "floor", "floor", "floor", "floor", "floor", "dirt", "dirt", "floor", "floor", "floor", "floor", "floor", "floor", "floor", "floor", "floor", "floor", "floor", "floor", "floor", "floor", "floor", "floor", "floor", "floor", "floor", "floor", "floor", "floor", "floor", "floor"],
    ["floor", "dirt", "dirt", "dirt", "dirt", "dirt", "dirt", "dirt", "dirt", "dirt", "dirt", "dirt", "dirt", "dirt", "dirt", "dirt", "dirt", "dirt", "dirt", "dirt", "dirt", "dirt", "dirt", "dirt", "dirt", "dirt", "dirt", "dirt", "dirt", "dirt", "dirt", "dirt", "dirt", "floor"],
    ["floor", "dirt", "dirt", "dirt", "dirt", "dirt", "dirt", "dirt", "dirt", "dirt", "dirt", "dirt", "dirt", "dirt", "dirt", "dirt", "dirt", "dirt", "dirt", "dirt", "dirt", "dirt", "dirt", "dirt", "dirt", "dirt", "dirt", "dirt", "dirt", "dirt", "dirt", "dirt", "dirt", "floor"],
    ["floor", "dirt", "dirt", "dirt", "dirt", "dirt", "dirt", "dirt", "dirt", "dirt", "dirt", "dirt", "dirt", "dirt", "dirt", "dirt", "dirt", "dirt", "dirt", "dirt", "dirt", "dirt", "dirt", "dirt", "dirt", "dirt", "dirt", "dirt", "dirt", "dirt", "dirt", "dirt", "dirt", "floor"],
    ["floor", "floor", "floor", "floor", "floor", "floor", "floor", "floor", "dirt", "dirt", "floor", "floor", "floor", "floor", "floor", "floor", "floor", "floor", "floor", "floor", "floor", "floor", "floor", "floor", "floor", "floor", "floor", "floor", "floor", "floor", "floor", "floor", "floor", "floor"],
    ["floor", "floor", "floor", "floor", "floor", "floor", "floor", "floor", "dirt", "dirt", "floor", "floor", "floor", "floor", "floor", "floor", "floor", "floor", "floor", "floor", "floor", "floor", "floor", "floor", "floor", "floor", "floor", "floor", "floor", "floor", "floor", "floor", "floor", "floor"],
    ["floor", "floor", "floor", "floor", "floor", "floor", "floor", "floor", "dirt", "dirt", "floor", "floor", "floor", "floor", "floor", "floor", "floor", "floor", "floor", "floor", "floor", "floor", "floor", "floor", "floor", "floor", "floor", "floor", "floor", "floor", "floor", "floor", "floor", "floor"],
    ["floor", "floor", "floor", "floor", "floor", "floor", "floor", "floor", "dirt", "dirt", "floor", "floor", "floor", "floor", "floor", "floor", "floor", "floor", "floor", "floor", "floor", "floor", "floor", "floor", "floor", "floor", "floor", "floor", "floor", "floor", "floor", "floor", "floor", "floor"],
    ["floor", "floor", "floor", "floor", "floor", "floor", "floor", "floor", "dirt", "dirt", "floor", "floor", "floor", "floor", "floor", "floor", "floor", "floor", "floor", "floor", "floor", "floor", "floor", "floor", "floor", "floor", "floor", "floor", "floor", "floor", "floor", "floor", "floor", "floor"],
    ["floor", "floor", "floor", "floor", "floor", "floor", "floor", "floor", "dirt", "dirt", "floor", "floor", "floor", "floor", "floor", "floor", "floor", "floor", "floor", "floor", "floor", "floor", "floor", "floor", "floor", "floor", "floor", "floor", "floor", "floor", "floor", "floor", "floor", "floor"],
    ["floor", "floor", "floor", "floor", "floor", "floor", "floor", "floor", "dirt", "dirt", "floor", "floor", "floor", "floor", "floor", "floor", "floor", "floor", "floor", "floor", "floor", "floor", "floor", "floor", "floor", "floor", "floor", "floor", "floor", "floor", "floor", "floor", "floor", "floor"],
    ["floor", "floor", "floor", "floor", "floor", "floor", "floor", "floor", "floor", "floor", "floor", "floor", "floor", "floor", "floor", "floor", "floor", "floor", "floor", "floor", "floor", "floor", "floor", "floor", "floor", "floor", "floor", "floor", "floor", "floor", "floor", "floor", "floor", "floor"]]⟩

/-- Stage 4: building loop done (one doorless building) -/
def vgLit4 : Grid :=
  ⟨34, 22, [
    ["floor", "floor", "floor", "floor", "floor", "floor", "floor", "floor", "floor", "floor", "floor", "floor", "floor", "floor", "floor", "floor", "floor", "floor", "floor", "floor", "floor", "floor", "floor", "floor", "floor", "floor", "floor", "floor", "floor", "floor", "floor", "floor", "floor", "floor"],
    ["floor", "floor", "floor", "floor", "floor", "floor", "floor", "floor", "dirt", "dirt", "floor", "floor", "floor", "floor", "floor", "floor", "floor", "floor", "floor", "floor", "floor", "floor", "floor", "floor", "floor", "floor", "floor", "floor", "floor", "floor", "floor", "floor", "floor", "floor"],
    ["floor", "floor", "floor", "floor", "floor", "floor", "floor", "floor", "dirt", "dirt", "floor", "floor", "floor", "floor", "floor", "floor", "floor", "floor", "floor", "floor", "floor", "floor", "floor", "floor", "floor", "floor", "floor", "floor", "floor", "floor", "floor", "floor", "floor", "floor"],
    ["floor", "floor", "floor", "floor", "floor", "floor", "floor", "floor", "dirt", "dirt", "floor", "floor", "floor", "floor", "floor", "floor", "floor", "floor", "floor", "floor", "floor", "floor", "floor", "floor", "floor", "floor", "floor", "floor", "floor", "floor", "floor", "floor", "floor", "floor"],
    ["floor", "floor", "floor", "floor", "floor", "floor", "floor", "floor", "dirt", "dirt", "floor", "floor", "floor", "floor", "floor", "floor", "floor", "floor", "floor", "floor", "floor", "floor", "floor", "floor", "floor", "floor", "floor", "floor", "floor", "floor", "floor", "floor", "floor", "floor"],
    ["floor", "floor", "floor", "floor", "floor", "floor", "floor", "floor", "dirt", "dirt", "floor", "floor", "floor", "floor", "floor", "floor", "floor", "floor", "floor", "floor", "floor", "floor", "floor", "floor", "wall", "wall", "wall", "wall", "wall", "floor", "floor", "floor", "floor", "floor"],
    ["floor", "floor", "floor", "floor", "floor", "floor", "floor", "floor", "dirt", "dirt", "floor", "floor", "floor", "floor", "floor", "floor", "floor", "floor", "floor", "floor", "floor", "floor", "floor", "floor", "wall", "floor", "floor", "floor", "wall", "floor", "floor", "floor", "floor", "floor"],
    ["floor", "floor", "floor", "floor", "floor", "floor", "floor", "floor", "dirt", "dirt", "floor", "floor", "floor", "floor", "floor", "floor", "floor", "floor", "floor", "floor", "floor", "floor", "floor", "floor", "wall", "floor", "floor", "floor", "wall", "floor", "floor", "floor", "floor", "floor"],
    ["floor", "floor", "floor", "floor", "floor", "floor", "floor", "floor", "dirt", "dirt", "floor", "floor", "floor", "floor", "floor", "floor", "floor", "floor", "floor", "floor", "floor", "floor", "floor", "floor", "wall", "floor", "floor", "floor", "wall", "floor", "floor", "floor", "floor", "floor"],
    ["floor", "floor", "floor", "floor", "floor", "floor", "floor", "floor", "dirt", "dirt", "floor", "floor", "floor", "floor", "floor", "floor", "floor", "floor", "floor", "floor", "floor", "floor", "floor", "floor", "wall", "wall", "wall", "wall", "wall", "floor", "floor", "floor", "floor", "floor"],
    ["floor", "floor", "floor", "floor", "floor", "floor", "floor", "floor", "dirt", "dirt", "floor", "floor", "floor", "floor", "floor", "floor", "floor", "floor", "floor", "floor", "floor", "floor", "floor", "floor", "floor", "floor", "floor", "floor", "floor", "floor", "floor", "floor", "floor", "floor"],
    ["floor", "dirt", "dirt", "dirt", "dirt", "dirt", "dirt", "dirt", "dirt", "dirt", "dirt", "dirt", "dirt", "dirt", "dirt", "dirt", "dirt", "dirt", "dirt", "dirt", "dirt", "dirt", "dirt", "dirt", "dirt", "dirt", "dirt", "dirt", "dirt", "dirt", "dirt", "dirt", "dirt", "floor"],
    ["floor", "dirt", "dirt", "dirt", "dirt", "dirt", "dirt", "dirt", "dirt", "dirt", "dirt", "dirt", "dirt", "dirt", "dirt", "dirt", "dirt", "dirt", "dirt", "dirt", "dirt", "dirt", "dirt", "dirt", "dirt", "dirt", "dirt", "dirt", "dirt", "dirt", "dirt", "dirt", "dirt", "floor"],
    ["floor", "dirt", "dirt", "dirt", "dirt", "dirt", "dirt", "dirt", "dirt", "dirt", "dirt", "dirt", "dirt", "dirt", "dirt", "dirt", "dirt", "dirt", "dirt", "dirt", "dirt", "dirt", "dirt", "dirt", "dirt", "dirt", "dirt", "dirt", "dirt", "dirt", "dirt", "dirt", "dirt", "floor"],
    ["floor", "floor", "floor", "floor", "floor", "floor", "floor", "floor", "dirt", "dirt", "floor", "floor", "floor", "floor", "floor", "floor", "floor", "floor", "floor", "floor", "floor", "floor", "floor", "floor", "floor", "floor", "floor", "floor", "floor", "floor", "floor", "floor", "floor", "floor"],
    ["floor", "floor", "floor", "floor", "floor", "floor", "floor", "floor", "dirt", "dirt", "floor", "floor", "floor", "floor", "floor", "floor", "floor", "floor", "floor", "floor", "floor", "floor", "floor", "floor", "floor", "floor", "floor", "floor", "floor", "floor", "floor", "floor", "floor", "floor"],
    ["floor", "floor", "floor", "floor", "floor", "floor", "floor", "floor", "dirt", "dirt", "floor", "floor", "floor", "floor", "floor", "floor", "floor", "floor", "floor", "floor", "floor", "floor", "floor", "floor", "floor", "floor", "floor", "floor", "floor", "floor", "floor", "floor", "floor", "floor"],
    ["floor", "floor", "floor", "floor", "floor", "floor", "floor", "floor", "dirt", "dirt", "floor", "floor", "floor", "floor", "floor", "floor", "floor", "floor", "floor", "floor", "floor", "floor", "floor", "floor", "floor", "floor", "floor", "floor", "floor", "floor", "floor", "floor", "floor", "floor"],
    ["floor", "floor", "floor", "floor", "floor", "floor", "floor", "floor", "dirt", "dirt", "floor", "floor", "floor", "floor", "floor", "floor", "floor", "floor", "floor", "floor", "floor", "floor", "floor", "floor", "floor", "floor", "floor", "floor", "floor", "floor", "floor", "floor", "floor", "floor"],
    ["floor", "floor", "floor", "floor", "floor", "floor", "floor", "floor", "dirt", "dirt", "floor", "floor", "floor", "floor", "floor", "floor", "floor", "floor", "floor", "floor", "floor", "floor", "floor", "floor", "floor", "floor", "floor", "floor", "floor", "floor", "floor", "floor", "floor", "floor"],
    ["floor", "floor", "floor", "floor", "floor", "floor", "floor", "floor", "dirt", "dirt", "floor", "floor", "floor", "floor", "floor", "floor", "floor", "floor", "floor", "floor", "floor", "floor", "floor", "floor", "floor", "floor", "floor", "floor", "floor", "floor", "floor", "floor", "floor", "floor"],
    ["floor", "floor", "floor", "floor", "floor", "floor", "floor", "floor", "floor", "floor", "floor", "floor", "floor", "floor", "floor", "floor", "floor", "floor", "floor", "floor", "floor", "floor", "floor", "floor", "floor", "floor", "floor", "floor", "floor", "floor", "floor", "floor", "floor", "floor"]]⟩

/-- Stage 5a: border rows forced -/
def vgLit4a : Grid :=
  ⟨34, 22, [
    ["wall", "wall", "wall", "wall", "wall", "wall", "wall", "wall", "wall", "wall", "wall", "wall", "wall", "wall", "wall", "wall", "wall", "wall", "wall", "wall", "wall", "wall", "wall", "wall", "wall", "wall", "wall", "wall", "wall", "wall", "wall", "wall", "wall", "wall"],
    ["floor", "floor", "floor", "floor", "floor", "floor", "floor", "floor", "dirt", "dirt", "floor", "floor", "floor", "floor", "floor", "floor", "floor", "floor", "floor", "floor", "floor", "floor", "floor", "floor", "floor", "floor", "floor", "floor", "floor", "floor", "floor", "floor", "floor", "floor"],
    ["floor", "floor", "floor", "floor", "floor", "floor", "floor", "floor", "dirt", "dirt", "floor", "floor", "floor", "floor", "floor", "floor", "floor", "floor", "floor", "floor", "floor", "floor", "floor", "floor", "floor", "floor", "floor", "floor", "floor", "floor", "floor", "floor", "floor", "floor"],
    ["floor", "floor", "floor", "floor", "floor", "floor", "floor", "floor", "dirt", "dirt", "floor", "floor", "floor", "floor", "floor", "floor", "floor", "floor", "floor", "floor", "floor", "floor", "floor", "floor", "floor", "floor", "floor", "floor", "floor", "floor", "floor", "floor", "floor", "floor"],
    ["floor", "floor", "floor", "floor", "floor", "floor", "floor", "floor", "dirt", "dirt", "floor", "floor", "floor", "floor", "floor", "floor", "floor", "floor", "floor", "floor", "floor", "floor", "floor", "floor", "floor", "floor", "floor", "floor", "floor", "floor", "floor", "floor", "floor", "floor"],
    ["floor", "floor", "floor", "floor", "floor", "floor", "floor", "floor", "dirt", "dirt", "floor", "floor", "floor", "floor", "floor", "floor", "floor", "floor", "floor", "floor", "floor", "floor", "floor", "floor", "wall", "wall", "wall", "wall", "wall", "floor", "floor", "floor", "floor", "floor"],
    ["floor", "floor", "floor", "floor", "floor", "floor", "floor", "floor", "dirt", "dirt", "floor", "floor", "floor", "floor", "floor", "floor", "floor", "floor", "floor", "floor", "floor", "floor", "floor", "floor", "wall", "floor", "floor", "floor", "wall", "floor", "floor", "floor", "floor", "floor"],
    ["floor", "floor", "floor", "floor", "floor", "floor", "floor", "floor", "dirt", "dirt", "floor", "floor", "floor", "floor", "floor", "floor", "floor", "floor", "floor", "floor", "floor", "floor", "floor", "floor", "wall", "floor", "floor", "floor", "wall", "floor", "floor", "floor", "floor", "floor"],
    ["floor", "floor", "floor", "floor", "floor", "floor", "floor", "floor", "dirt", "dirt", "floor", "floor", "floor", "floor", "floor", "floor", "floor", "floor", "floor", "floor", "floor", "floor", "floor", "floor", "wall", "floor", "floor", "floor", "wall", "floor", "floor", "floor", "floor", "floor"],
    ["floor", "floor", "floor", "floor", "floor", "floor", "floor", "floor", "dirt", "dirt", "floor", "floor", "floor", "floor", "floor", "floor", "floor", "floor", "floor", "floor", "floor", "floor", "floor", "floor", "wall", "wall", "wall", "wall", "wall", "floor", "floor", "floor", "floor", "floor"],
    ["floor", "floor", "floor", "floor", "floor", "floor", "floor", "floor", "dirt", "dirt", "floor", "floor", "floor", "floor", "floor", "floor", "floor", "floor", "floor", "floor", "floor", "floor", "floor", "floor", "floor", "floor", "floor", "floor", "floor", "floor", "floor", "floor", "floor", "floor"],
    ["floor", "dirt", "dirt", "dirt", "dirt", "dirt", "dirt", "dirt", "dirt", "dirt", "dirt", "dirt", "dirt", "dirt", "dirt", "dirt", "dirt", "dirt", "dirt", "dirt", "dirt", "dirt", "dirt", "dirt", "dirt", "dirt", "dirt", "dirt", "dirt", "dirt", "dirt", "dirt", "dirt", "floor"],
    ["floor", "dirt", "dirt", "dirt", "dirt", "dirt", "dirt", "dirt", "dirt", "dirt", "dirt", "dirt", "dirt", "dirt", "dirt", "dirt", "dirt", "dirt", "dirt", "dirt", "dirt", "dirt", "dirt", "dirt", "dirt", "dirt", "dirt", "dirt", "dirt", "dirt", "dirt", "dirt", "dirt", "floor"],
    ["floor", "dirt", "dirt", "dirt", "dirt", "dirt", "dirt", "dirt", "dirt", "dirt", "dirt", "dirt", "dirt", "dirt", "dirt", "dirt", "dirt", "dirt", "dirt", "dirt", "dirt", "dirt", "dirt", "dirt", "dirt", "dirt", "dirt", "dirt", "dirt", "dirt", "dirt", "dirt", "dirt", "floor"],
    ["floor", "floor", "floor", "floor", "floor", "floor", "floor", "floor", "dirt", "dirt", "floor", "floor", "floor", "floor", "floor", "floor", "floor", "floor", "floor", "floor", "floor", "floor", "floor", "floor", "floor", "floor", "floor", "floor", "floor", "floor", "floor", "floor", "floor", "floor"],
    ["floor", "floor", "floor", "floor", "floor", "floor", "floor", "floor", "dirt", "dirt", "floor", "floor", "floor", "floor", "floor", "floor", "floor", "floor", "floor", "floor", "floor", "floor", "floor", "floor", "floor", "floor", "floor", "floor", "floor", "floor", "floor", "floor", "floor", "floor"],
    ["floor", "floor", "floor", "floor", "floor", "floor", "floor", "floor", "dirt", "dirt", "floor", "floor", "floor", "floor", "floor", "floor", "floor", "floor", "floor", "floor", "floor", "floor", "floor", "floor", "floor", "floor", "floor", "floor", "floor", "floor", "floor", "floor", "floor", "floor"],
    ["floor", "floor", "floor", "floor", "floor", "floor", "floor", "floor", "dirt", "dirt", "floor", "floor", "floor", "floor", "floor", "floor", "floor", "floor", "floor", "floor", "floor", "floor", "floor", "floor", "floor", "floor", "floor", "floor", "floor", "floor", "floor", "floor", "floor", "floor"],
    ["floor", "floor", "floor", "floor", "floor", "floor", "floor", "floor", "dirt", "dirt", "floor", "floor", "floor", "floor", "floor", "floor", "floor", "floor", "floor", "floor", "floor", "floor", "floor", "floor", "floor", "floor", "floor", "floor", "floor", "floor", "floor", "floor", "floor", "floor"],
    ["floor", "floor", "floor", "floor", "floor", "floor", "floor", "floor", "dirt", "dirt", "floor", "floor", "floor", "floor", "floor", "floor", "floor", "floor", "floor", "floor", "floor", "floor", "floor", "floor", "floor", "floor", "floor", "floor", "floor", "floor", "floor", "floor", "floor", "floor"],
    ["floor", "floor", "floor", "floor", "floor", "floor", "floor", "floor", "dirt", "dirt", "floor", "floor", "floor", "floor", "floor", "floor", "floor", "floor", "floor", "floor", "floor", "floor", "floor", "floor", "floor", "floor", "floor", "floor", "floor", "floor", "floor", "floor", "floor", "floor"],
    ["wall", "wall", "wall", "wall", "wall", "wall", "wall", "wall", "wall", "wall", "wall", "wall", "wall", "wall", "wall", "wall", "wall", "wall", "wall", "wall", "wall", "wall", "wall", "wall", "wall", "wall", "wall", "wall", "wall", "wall", "wall", "wall", "wall", "wall"]]⟩

/-- The terrain grid of the village counterexample run -/
def villageCExGrid : Grid :=
  ⟨34, 22, [
    ["wall", "wall", "wall", "wall", "wall", "wall", "wall", "wall", "wall", "wall", "wall", "wall", "wall", "wall", "wall", "wall", "wall", "wall", "wall", "wall", "wall", "wall", "wall", "wall", "wall", "wall", "wall", "wall", "wall", "wall", "wall", "wall", "wall", "wall"],
    ["wall", "floor", "floor", "floor", "floor", "floor", "floor", "floor", "dirt", "dirt", "floor", "floor", "floor", "floor", "floor", "floor", "floor", "floor", "floor", "floor", "floor", "floor", "floor", "floor", "floor", "floor", "floor", "floor", "floor", "floor", "floor", "floor", "floor", "wall"],
    ["wall", "floor", "floor", "floor", "floor", "floor", "floor", "floor", "dirt", "dirt", "floor", "floor", "floor", "floor", "floor", "floor", "floor", "floor", "floor", "floor", "floor", "floor", "floor", "floor", "floor", "floor", "floor", "floor", "floor", "floor", "floor", "floor", "floor", "wall"],
    ["wall", "floor", "floor", "floor", "floor", "floor", "floor", "floor", "dirt", "dirt", "floor", "floor", "floor", "floor", "floor", "floor", "floor", "floor", "floor", "floor", "floor", "floor", "floor", "floor", "floor", "floor", "floor", "floor", "floor", "floor", "floor", "floor", "floor", "wall"],
    ["wall", "floor", "floor", "floor", "floor", "floor", "floor", "floor", "dirt", "dirt", "floor", "floor", "floor", "floor", "floor", "floor", "floor", "floor", "floor", "floor", "floor", "floor", "floor", "floor", "floor", "floor", "floor", "floor", "floor", "floor", "floor", "floor", "floor", "wall"],
    ["wall", "floor", "floor", "floor", "floor", "floor", "floor", "floor", "dirt", "dirt", "floor", "floor", "floor", "floor", "floor", "floor", "floor", "floor", "floor", "floor", "floor", "floor", "floor", "floor", "wall", "wall", "wall", "wall", "wall", "floor", "floor", "floor", "floor", "wall"],
    ["wall", "floor", "floor", "floor", "floor", "floor", "floor", "floor", "dirt", "dirt", "floor", "floor", "floor", "floor", "floor", "floor", "floor", "floor", "floor", "floor", "floor", "floor", "floor", "floor", "wall", "floor", "floor", "floor", "wall", "floor", "floor", "floor", "floor", "wall"],
    ["wall", "floor", "floor", "floor", "floor", "floor", "floor", "floor", "dirt", "dirt", "floor", "floor", "floor", "floor", "floor", "floor", "floor", "floor", "floor", "floor", "floor", "floor", "floor", "floor", "wall", "floor", "floor", "floor", "wall", "floor", "floor", "floor", "floor", "wall"],
    ["wall", "floor", "floor", "floor", "floor", "floor", "floor", "floor", "dirt", "dirt", "floor", "floor", "floor", "floor", "floor", "floor", "floor", "floor", "floor", "floor", "floor", "floor", "floor", "floor", "wall", "floor", "floor", "floor", "wall", "floor", "floor", "floor", "floor", "wall"],
    ["wall", "floor", "floor", "floor", "floor", "floor", "floor", "floor", "dirt", "dirt", "floor", "floor", "floor", "floor", "floor", "floor", "floor", "floor", "floor", "floor", "floor", "floor", "floor", "floor", "wall", "wall", "wall", "wall", "wall", "floor", "floor", "floor", "floor", "wall"],
    ["wall", "floor", "floor", "floor", "floor", "floor", "floor", "floor", "dirt", "dirt", "floor", "floor", "floor", "floor", "floor", "floor", "floor", "floor", "floor", "floor", "floor", "floor", "floor", "floor", "floor", "floor", "floor", "floor", "floor", "floor", "floor", "floor", "floor", "wall"],
    ["wall", "dirt", "dirt", "dirt", "dirt", "dirt", "dirt", "dirt", "dirt", "dirt", "dirt", "dirt", "dirt", "dirt", "dirt", "dirt", "dirt", "dirt", "dirt", "dirt", "dirt", "dirt", "dirt", "dirt", "dirt", "dirt", "dirt", "dirt", "dirt", "dirt", "dirt", "dirt", "dirt", "wall"],
    ["wall", "dirt", "dirt", "dirt", "dirt", "dirt", "dirt", "dirt", "dirt", "dirt", "dirt", "dirt", "dirt", "dirt", "dirt", "dirt", "dirt", "dirt", "dirt", "dirt", "dirt", "dirt", "dirt", "dirt", "dirt", "dirt", "dirt", "dirt", "dirt", "dirt", "dirt", "dirt", "dirt", "wall"],
    ["wall", "dirt", "dirt", "dirt", "dirt", "dirt", "dirt", "dirt", "dirt", "dirt", "dirt", "dirt", "dirt", "dirt", "dirt", "dirt", "dirt", "dirt", "dirt", "dirt", "dirt", "dirt", "dirt", "dirt", "dirt", "dirt", "dirt", "dirt", "dirt", "dirt", "dirt", "dirt", "dirt", "wall"],
    ["wall", "floor", "floor", "floor", "floor", "floor", "floor", "floor", "dirt", "dirt", "floor", "floor", "floor", "floor", "floor", "floor", "floor", "floor", "floor", "floor", "floor", "floor", "floor", "floor", "floor", "floor", "floor", "floor", "floor", "floor", "floor", "floor", "floor", "wall"],
    ["wall", "floor", "floor", "floor", "floor", "floor", "floor", "floor", "dirt", "dirt", "floor", "floor", "floor", "floor", "floor", "floor", "floor", "floor", "floor", "floor", "floor", "floor", "floor", "floor", "floor", "floor", "floor", "floor", "floor", "floor", "floor", "floor", "floor", "wall"],
    ["wall", "floor", "floor", "floor", "floor", "floor", "floor", "floor", "dirt", "dirt", "floor", "floor", "floor", "floor", "floor", "floor", "floor", "floor", "floor", "floor", "floor", "floor", "floor", "floor", "floor", "floor", "floor", "floor", "floor", "floor", "floor", "floor", "floor", "wall"],
    ["wall", "floor", "floor", "floor", "floor", "floor", "floor", "floor", "dirt", "dirt", "floor", "floor", "floor", "floor", "floor", "floor", "floor", "floor", "floor", "floor", "floor", "floor", "floor", "floor", "floor", "floor", "floor", "floor", "floor", "floor", "floor", "floor", "floor", "wall"],
    ["wall", "floor", "floor", "floor", "floor", "floor", "floor", "floor", "dirt", "dirt", "floor", "floor", "floor", "floor", "floor", "floor", "floor", "floor", "floor", "floor", "floor", "floor", "floor", "floor", "floor", "floor", "floor", "floor", "floor", "floor", "floor", "floor", "floor", "wall"],
    ["wall", "floor", "floor", "floor", "floor", "floor", "floor", "floor", "dirt", "dirt", "floor", "floor", "floor", "floor", "floor", "floor", "floor", "floor", "floor", "floor", "floor", "floor", "floor", "floor", "floor", "floor", "floor", "floor", "floor", "floor", "floor", "floor", "floor", "wall"],
    ["wall", "floor", "floor", "floor", "floor", "floor", "floor", "floor", "dirt", "dirt", "floor", "floor", "floor", "floor", "floor", "floor", "floor", "floor", "floor", "floor", "floor", "floor", "floor", "floor", "floor", "floor", "floor", "floor", "floor", "floor", "floor", "floor", "floor", "wall"],
    ["wall", "wall", "wall", "wall", "wall", "wall", "wall", "wall", "wall", "wall", "wall", "wall", "wall", "wall", "wall", "wall", "wall", "wall", "wall", "wall", "wall", "wall", "wall", "wall", "wall", "wall", "wall", "wall", "wall", "wall", "wall", "wall", "wall", "wall"]]⟩

set_option maxRecDepth 8000 in
theorem vgRoad_eval :
    (if villageCExOracle.mainHoriz then
      createRoad 34 22 (Grid.init 34 22) 1 (((22 : Nat) : Int) / 2)
        (((34 : Nat) : Int) - 2) (((22 : Nat) : Int) / 2) 3 false
    else
      createRoad 34 22 (Grid.init 34 22) (((34 : Nat) : Int) / 2) 1
        (((34 : Nat) : Int) / 2) (((22 : Nat) : Int) - 2) 3 true) = vgLit1 := by
  decide

set_option maxRecDepth 8000 in
theorem vgCross_eval :
    (List.range (randint 2 3 villageCExOracle.numCrossD).toNat).foldl (fun gr k =>
      if villageCExOracle.mainHoriz then
        createRoad 34 22 gr
          (randint (((34 : Nat) : Int) / 4) (3 * ((34 : Nat) : Int) / 4)
            (villageCExOracle.crossPos k)) 1
          (randint (((34 : Nat) : Int) / 4) (3 * ((34 : Nat) : Int) / 4)
            (villageCExOracle.crossPos k))
          (((22 : Nat) : Int) - 2) 2 true
      else
        createRoad 34 22 gr 1
          (randint (((22 : Nat) : Int) / 4) (3 * ((22 : Nat) : Int) / 4)
            (villageCExOracle.crossPos k))
          (((34 : Nat) : Int) - 2)
          (randint (((22 : Nat) : Int) / 4) (3 * ((22 : Nat) : Int) / 4)
            (villageCExOracle.crossPos k)) 2 false) vgLit1
      = vgLit2 := by
  decide

set_option maxRecDepth 8000 in
theorem vgSquareA_eval :
    ([5, 6, 7, 8, 9, 10] : List Int).foldl (fun gr y =>
      (intRange 11 (11 + 12)).foldl (fun g2 x =>
        if 1 ≤ x ∧ x < ((34 : Nat) : Int) - 1 ∧ 1 ≤ y ∧ y < ((22 : Nat) : Int) - 1 then
          (if g2.getTile x y ≠ "dirt" then g2.setTile x y "floor" else g2)
        else g2) gr) vgLit2 = vgLit3a := by
  decide

set_option maxRecDepth 8000 in
theorem vgSquareB_eval :
    ([11, 12, 13, 14, 15, 16] : List Int).foldl (fun gr y =>
      (intRange 11 (11 + 12)).foldl (fun g2 x =>
        if 1 ≤ x ∧ x < ((34 : Nat) : Int) - 1 ∧ 1 ≤ y ∧ y < ((22 : Nat) : Int) - 1 then
          (if g2.getTile x y ≠ "dirt" then g2.setTile x y "floor" else g2)
        else g2) gr) vgLit3a = vgLit3 := by
  decide

set_option maxRecDepth 8000 in
theorem vgSquare_eval : createTownSquare 34 22 vgLit2 11 5 12 = vgLit3 := by
  unfold createTownSquare
  rw [show intRange 5 (5 + 12)
      = ([5, 6, 7, 8, 9, 10] : List Int) ++ [11, 12, 13, 14, 15, 16] from by decide]
  rw [List.foldl_append]
  rw [vgSquareA_eval]
  exact vgSquareB_eval

set_option maxRecDepth 8000 in
theorem vgBuild_eval :
    villageBuildLoop 34 22 vgLit3 8 11 5 12 villageCExOracle = vgLit4 := by
  decide

set_option maxRecDepth 8000 in
theorem vgSquareS_eval :
    createTownSquare 34 22 vgLit2
      (Int.fdiv (((34 : Nat) : Int) - randint 12 18 villageCExOracle.squareSizeD) 2)
      (Int.fdiv (((22 : Nat) : Int) - randint 12 18 villageCExOracle.squareSizeD) 2)
      (randint 12 18 villageCExOracle.squareSizeD) = vgLit3 := by
  rw [show randint 12 18 villageCExOracle.squareSizeD = 12 from by decide]
  rw [show Int.fdiv (((34 : Nat) : Int) - 12) 2 = 11 from by decide]
  rw [show Int.fdiv (((22 : Nat) : Int) - 12) 2 = 5 from by decide]
  exact vgSquare_eval

set_option maxRecDepth 8000 in
theorem vgBuildS_eval :
    villageBuildLoop 34 22 vgLit3
      (randint 8 12 villageCExOracle.numBuildingsD).toNat
      (Int.fdiv (((34 : Nat) : Int) - randint 12 18 villageCExOracle.squareSizeD) 2)
      (Int.fdiv (((22 : Nat) : Int) - randint 12 18 villageCExOracle.squareSizeD) 2)
      (randint 12 18 villageCExOracle.squareSizeD) villageCExOracle = vgLit4 := by
  rw [show randint 12 18 villageCExOracle.squareSizeD = 12 from by decide]
  rw [show Int.fdiv (((34 : Nat) : Int) - 12) 2 = 11 from by decide]
  rw [show Int.fdiv (((22 : Nat) : Int) - 12) 2 = 5 from by decide]
  rw [show (randint 8 12 villageCExOracle.numBuildingsD).toNat = 8 from by decide]
  exact vgBuild_eval

theorem vgVeg_eval :
    addVegetation vgLit4 villageCExOracle.vegSeedBit villageCExOracle.vegSpreadBit
      villageCExOracle.vegGrassBit = vgLit4 := by
  show addVegetation vgLit4 (fun _ => false) villageCExOracle.vegSpreadBit
    (fun _ => false) = vgLit4
  exact addVegetation_noop vgLit4 villageCExOracle.vegSpreadBit

set_option maxRecDepth 8000 in
theorem vgBorderRows_eval :
    (intRange 0 vgLit4.width).foldl
      (fun gr x => (gr.setTile x 0 "wall").setTile x ((vgLit4.height : Int) - 1) "wall")
      vgLit4 = vgLit4a := by
  decide

set_option maxRecDepth 8000 in
theorem vgBorderCols_eval :
    (intRange 0 vgLit4.height).foldl
      (fun gr y => (gr.setTile 0 y "wall").setTile ((vgLit4.width : Int) - 1) y "wall")
      vgLit4a = villageCExGrid := by
  decide

set_option maxRecDepth 8000 in
set_option maxHeartbeats 1000000 in
/-- The counterexample run of the village pipeline evaluates to the
literal grid `villageCExGrid`. -/
theorem villageCEx_grid :
    generateVillageGrid 34 22 villageCExOracle = villageCExGrid := by
  show (addVegetation (villageBuildLoop 34 22 (createTownSquare 34 22
      ((List.range (randint 2 3 villageCExOracle.numCrossD).toNat).foldl (fun gr k =>
        if villageCExOracle.mainHoriz then
          createRoad 34 22 gr
            (randint (((34 : Nat) : Int) / 4) (3 * ((34 : Nat) : Int) / 4)
              (villageCExOracle.crossPos k)) 1
            (randint (((34 : Nat) : Int) / 4) (3 * ((34 : Nat) : Int) / 4)
              (villageCExOracle.crossPos k))
            (((22 : Nat) : Int) - 2) 2 true
        else
          createRoad 34 22 gr 1
            (randint (((22 : Nat) : Int) / 4) (3 * ((22 : Nat) : Int) / 4)
              (villageCExOracle.crossPos k))
            (((34 : Nat) : Int) - 2)
            (randint (((22 : Nat) : Int) / 4) (3 * ((22 : Nat) : Int) / 4)
              (villageCExOracle.crossPos k)) 2 false)
        (if villageCExOracle.mainHoriz then
          createRoad 34 22 (Grid.init 34 22) 1 (((22 : Nat) : Int) / 2)
            (((34 : Nat) : Int) - 2) (((22 : Nat) : Int) / 2) 3 false
        else
          createRoad 34 22 (Grid.init 34 22) (((34 : Nat) : Int) / 2) 1
            (((34 : Nat) : Int) / 2) (((22 : Nat) : Int) - 2) 3 true))
      (Int.fdiv (((34 : Nat) : Int) - randint 12 18 villageCExOracle.squareSizeD) 2)
      (Int.fdiv (((22 : Nat) : Int) - randint 12 18 villageCExOracle.squareSizeD) 2)
      (randint 12 18 villageCExOracle.squareSizeD))
      (randint 8 12 villageCExOracle.numBuildingsD).toNat
      (Int.fdiv (((34 : Nat) : Int) - randint 12 18 villageCExOracle.squareSizeD) 2)
      (Int.fdiv (((22 : Nat) : Int) - randint 12 18 villageCExOracle.squareSizeD) 2)
      (randint 12 18 villageCExOracle.squareSizeD) villageCExOracle)
      villageCExOracle.vegSeedBit villageCExOracle.vegSpreadBit
      villageCExOracle.vegGrassBit).addBorderWalls = villageCExGrid
  rw [vgRoad_eval, vgCross_eval, vgSquareS_eval, vgBuildS_eval, vgVeg_eval]
  show (intRange 0 vgLit4.height).foldl
      (fun gr y => (gr.setTile 0 y "wall").setTile ((vgLit4.width : Int) - 1) y "wall")
      ((intRange 0 vgLit4.width).foldl
        (fun gr x => (gr.setTile x 0 "wall").setTile x ((vgLit4.height : Int) - 1) "wall")
        vgLit4) = villageCExGrid
  rw [vgBorderRows_eval]
  exact vgBorderCols_eval

/-- Oracle for a concrete cellular run: every wall seed draw fails,
`randint(4, 5)` draws 4 iterations, and leg-order draws are irrelevant. -/
def czOracle : CellularOracle where
  wallBit := fun _ _ => false
  iterDraw := 0
  legOrder := fun _ => false

/-- Cellular witness, stage 0: 7x7 filled with walls -/
def czLit0 : Grid :=
  ⟨7, 7, [
    ["wall", "wall", "wall", "wall", "wall", "wall", "wall"],
    ["wall", "wall", "wall", "wall", "wall", "wall", "wall"],
    ["wall", "wall", "wall", "wall", "wall", "wall", "wall"],
    ["wall", "wall", "wall", "wall", "wall", "wall", "wall"],
    ["wall", "wall", "wall", "wall", "wall", "wall", "wall"],
    ["wall", "wall", "wall", "wall", "wall", "wall", "wall"],
    ["wall", "wall", "wall", "wall", "wall", "wall", "wall"]]⟩

/-- Stage 1: interior seeded all floor (every wall draw false) -/
def czLit1 : Grid :=
  ⟨7, 7, [
    ["wall", "wall", "wall", "wall", "wall", "wall", "wall"],
    ["wall", "floor", "floor", "floor", "floor", "floor", "wall"],
    ["wall", "floor", "floor", "floor", "floor", "floor", "wall"],
    ["wall", "floor", "floor", "floor", "floor", "floor", "wall"],
    ["wall", "floor", "floor", "floor", "floor", "floor", "wall"],
    ["wall", "floor", "floor", "floor", "floor", "floor", "wall"],
    ["wall", "wall", "wall", "wall", "wall", "wall", "wall"]]⟩

/-- Stage 2: one CA iteration (a fixed point of the 4-5 rule) -/
def czLit2 : Grid :=
  ⟨7, 7, [
    ["wall", "wall", "wall", "wall", "wall", "wall", "wall"],
    ["wall", "wall", "floor", "floor", "floor", "wall", "wall"],
    ["wall", "floor", "floor", "floor", "floor", "floor", "wall"],
    ["wall", "floor", "floor", "floor", "floor", "floor", "wall"],
    ["wall", "floor", "floor", "floor", "floor", "floor", "wall"],
    ["wall", "wall", "floor", "floor", "floor", "wall", "wall"],
    ["wall", "wall", "wall", "wall", "wall", "wall", "wall"]]⟩

set_option maxRecDepth 8000 in
theorem czFill_eval : (Grid.init 7 7).fillWalls = czLit0 := by decide

set_option maxRecDepth 8000 in
theorem czInit_eval : czLit0.initializeRandom czOracle.wallBit = czLit1 := by decide

set_option maxRecDepth 8000 in
theorem czCA_eval : czLit1.caIteration = czLit2 := by decide

set_option maxRecDepth 8000 in
theorem czCA2_eval : czLit2.caIteration = czLit2 := by decide

/-- The grid reaching `ensure_connectivity` in the concrete cellular run:
the 4-5 rule reaches the fixed point `czLit2` after one iteration. -/
theorem czPre_eval :
    (List.range (4 + czOracle.iterDraw % 2)).foldl (fun gr _ => gr.caIteration)
      (((Grid.init 7 7).fillWalls).initializeRandom czOracle.wallBit) = czLit2 := by
  rw [czFill_eval, czInit_eval]
  show List.foldl (fun gr _ => gr.caIteration) czLit1 [0, 1, 2, 3] = czLit2
  simp only [List.foldl_cons, List.foldl_nil]
  rw [czCA_eval, czCA2_eval, czCA2_eval, czCA2_eval]

/-- Cell (3, 3) of the concrete cellular run is non-blocked in the final
generated grid: it is non-blocked before `ensure_connectivity`, which
never blocks a non-blocked cell, and `add_border_walls` leaves the strict
interior unchanged. -/
theorem czFinal_nonblocked :
    ¬ (generateCellularGrid 7 7 czOracle).isBlocked 3 3 := by
  obtain ⟨hinv, -⟩ := cellularPre_spec 7 7 czOracle
  obtain ⟨hinv2, hpres, -⟩ :=
    Grid.ensureConnectivity_spec hinv (cellularPre_interior 7 7 czOracle) czOracle.legOrder
  have hn : ¬ ((List.range (4 + czOracle.iterDraw % 2)).foldl (fun gr _ => gr.caIteration)
      (((Grid.init 7 7).fillWalls).initializeRandom czOracle.wallBit)).isBlocked 3 3 := by
    rw [czPre_eval]
    decide
  have hq := hpres 3 3 hn
  show ¬ (Grid.addBorderWalls _).isBlocked 3 3
  unfold Grid.isBlocked
  have hc : Interior 7 7 ((3 : Int), (3 : Int)) := by
    refine ⟨by decide, by decide, by decide, by decide⟩
  rw [Grid.getTile_addBorderWalls_interior hinv2 hc]
  exact hq

/-- A 3x3 grid whose center is "floor" and every other cell "wall". -/
def ffCenterGrid : Grid :=
  ⟨3, 3, [["wall", "wall", "wall"], ["wall", "floor", "wall"], ["wall", "wall", "wall"]]⟩

/-- `flood_fill` from the center of `ffCenterGrid` visits exactly the
center: the start is popped and recorded, and its four neighbours are
popped and discarded as blocked. -/
theorem ffCenterGrid_floodFill : ffCenterGrid.floodFill 1 1 = [(1, 1)] := by
  unfold Grid.floodFill
  rw [Grid.floodFillAux,
    dif_neg (List.not_mem_nil (((1 : Int), (1 : Int)))),
    dif_neg (by decide : ¬ ffCenterGrid.isBlocked ((1 : Int), (1 : Int)).1 ((1 : Int), (1 : Int)).2),
    dif_neg (by decide : ¬ ¬ ffCenterGrid.inBounds ((1 : Int), (1 : Int)).1 ((1 : Int), (1 : Int)).2)]
  show ffCenterGrid.floodFillAux [(1, 2), (1, 0), (2, 1), (0, 1)] [(1, 1)] = [(1, 1)]
  rw [Grid.floodFillAux,
    dif_neg (by decide : ¬ (((1 : Int), (2 : Int)) : Int × Int) ∈ [(((1 : Int), (1 : Int)) : Int × Int)]),
    dif_pos (by decide : ffCenterGrid.isBlocked ((1 : Int), (2 : Int)).1 ((1 : Int), (2 : Int)).2)]
  rw [Grid.floodFillAux,
    dif_neg (by decide : ¬ (((1 : Int), (0 : Int)) : Int × Int) ∈ [(((1 : Int), (1 : Int)) : Int × Int)]),
    dif_pos (by decide : ffCenterGrid.isBlocked ((1 : Int), (0 : Int)).1 ((1 : Int), (0 : Int)).2)]
  rw [Grid.floodFillAux,
    dif_neg (by decide : ¬ (((2 : Int), (1 : Int)) : Int × Int) ∈ [(((1 : Int), (1 : Int)) : Int × Int)]),
    dif_pos (by decide : ffCenterGrid.isBlocked ((2 : Int), (1 : Int)).1 ((2 : Int), (1 : Int)).2)]
  rw [Grid.floodFillAux,
    dif_neg (by decide : ¬ (((0 : Int), (1 : Int)) : Int × Int) ∈ [(((1 : Int), (1 : Int)) : Int × Int)]),
    dif_pos (by decide : ffCenterGrid.isBlocked ((0 : Int), (1 : Int)).1 ((0 : Int), (1 : Int)).2)]
  rw [Grid.floodFillAux]

instance (g : Grid) : Decidable g.WF := by
  unfold Grid.WF
  infer_instance

instance (w h : Nat) (g : Grid) : Decidable (g.Inv w h) := by
  unfold Grid.Inv
  infer_instance

instance {e a : Type} [DecidableEq e] [DecidableEq a] : DecidableEq (Except e a) :=
  fun x y =>
    match x, y with
    | .error e1, .error e2 => decidable_of_iff (e1 = e2) (by simp)
    | .ok v1, .ok v2 => decidable_of_iff (v1 = v2) (by simp)
    | .error _, .ok _ => isFalse (fun hc => nomatch hc)
    | .ok _, .error _ => isFalse (fun hc => nomatch hc)

theorem ring_wall_of_pre {w h : Nat} {G gpre : Grid} (heq : G = gpre.addBorderWalls)
    (hg : gpre.Inv w h) {x y : Int}
    (hin : 0 ≤ x ∧ x < (w : Int) ∧ 0 ≤ y ∧ y < (h : Int))
    (hring : x = 0 ∨ x = (w : Int) - 1 ∨ y = 0 ∨ y = (h : Int) - 1) :
    G.getTile x y = "wall" := by
  subst heq
  rw [Grid.getTile_addBorderWalls hg.1]
  rw [if_pos]
  refine ⟨?_, ?_⟩
  · show 0 ≤ x ∧ x < (gpre.width : Int) ∧ 0 ≤ y ∧ y < (gpre.height : Int)
    rw [hg.2.1, hg.2.2]
    exact hin
  · rw [hg.2.1, hg.2.2]
    exact hring

/-- C1: every generated level of every environment type — rooms-and-
corridors, cellular, and BSP dungeons, forest, and village — has "wall"
at every in-bounds cell of the outer ring (x = 0, x = width-1, y = 0, or
y = height-1) of its final terrain grid. -/
theorem C1_outer_ring_wall (w h : Nat) (x y : Int)
    (hin : 0 ≤ x ∧ x < (w : Int) ∧ 0 ≤ y ∧ y < (h : Int))
    (hring : x = 0 ∨ x = (w : Int) - 1 ∨ y = 0 ∨ y = (h : Int) - 1) :
    (∀ o : RoomsOracle, (generateRoomsGrid w h o).getTile x y = "wall") ∧
    (∀ o : CellularOracle, (generateCellularGrid w h o).getTile x y = "wall") ∧
    (∀ o : BSPOracle, (generateBSPGrid w h o).getTile x y = "wall") ∧
    (∀ o : ForestOracle, (generateForestGrid w h o).getTile x y = "wall") ∧
    (∀ o : VillageOracle, (generateVillageGrid w h o).getTile x y = "wall") := by
  refine ⟨fun o => ?_, fun o => ?_, fun o => ?_, fun o => ?_, fun o => ?_⟩
  · obtain ⟨gpre, heq, hg⟩ := generateRoomsGrid_pre w h o
    exact ring_wall_of_pre heq hg hin hring
  · obtain ⟨gpre, heq, hg⟩ := generateCellularGrid_pre w h o
    exact ring_wall_of_pre heq hg hin hring
  · obtain ⟨gpre, heq, hg⟩ := generateBSPGrid_pre w h o
    exact ring_wall_of_pre heq hg hin hring
  · obtain ⟨gpre, heq, hg⟩ := generateForestGrid_pre w h o
    exact ring_wall_of_pre heq hg hin hring
  · obtain ⟨gpre, heq, hg⟩ := generateVillageGrid_pre w h o
    exact ring_wall_of_pre heq hg hin hring

theorem C1_outer_ring_wall_witness :
    ((0 : Int) ≤ 0 ∧ (0 : Int) < ((3 : Nat) : Int) ∧ (0 : Int) ≤ 1 ∧ (1 : Int) < ((3 : Nat) : Int)) ∧
    ((0 : Int) = 0 ∨ (0 : Int) = ((3 : Nat) : Int) - 1 ∨ (1 : Int) = 0 ∨
      (1 : Int) = ((3 : Nat) : Int) - 1) ∧
    (∀ o : CellularOracle, (generateCellularGrid 3 3 o).getTile 0 1 = "wall") :=
  ⟨by decide, by decide, (C1_outer_ring_wall 3 3 0 1 (by decide) (by decide)).2.1⟩

/-- C3 (amended): with upstairs, downstairs, and player all requested and
at least three valid cells available (and a preferred player cell that is
interior whenever it is non-blocked), `place_stairs_and_player` succeeds
and the three placed positions are pairwise distinct, non-blocked, and
strictly interior.  With fewer valid cells the placements can coincide
(see the counterexample). -/
theorem C3_placement_distinct_amended {w h : Nat} {g : Grid} (hg : g.Inv w h)
    (playerX playerY : Int) (o : PlaceOracle)
    (hcard : 3 ≤ g.validPositions.length)
    (hpref : ¬ g.isBlocked playerX playerY → Interior w h (playerX, playerY)) :
    ∃ up down pp : Int × Int,
      placeStairsAndPlayer g playerX playerY true true true o =
        Except.ok ⟨[("upstairs", up.1, up.2), ("downstairs", down.1, down.2),
          ("player", pp.1, pp.2)], [up, down, pp]⟩ ∧
      up ≠ down ∧ up ≠ pp ∧ down ≠ pp ∧
      ¬ g.isBlocked up.1 up.2 ∧ ¬ g.isBlocked down.1 down.2 ∧ ¬ g.isBlocked pp.1 pp.2 ∧
      Interior w h up ∧ Interior w h down ∧ Interior w h pp :=
  placeStairs_distinct hg playerX playerY o hcard hpref

theorem C3_placement_distinct_amended_witness :
    (Grid.init 5 5).Inv 5 5 ∧ 3 ≤ (Grid.init 5 5).validPositions.length ∧
    (¬ (Grid.init 5 5).isBlocked 2 2 → Interior 5 5 (2, 2)) ∧
    (∃ up down pp : Int × Int,
      placeStairsAndPlayer (Grid.init 5 5) 2 2 true true true ⟨0, 0, 0, 0⟩ =
        Except.ok ⟨[("upstairs", up.1, up.2), ("downstairs", down.1, down.2),
          ("player", pp.1, pp.2)], [up, down, pp]⟩ ∧
      up ≠ down ∧ up ≠ pp ∧ down ≠ pp ∧
      ¬ (Grid.init 5 5).isBlocked up.1 up.2 ∧ ¬ (Grid.init 5 5).isBlocked down.1 down.2 ∧
      ¬ (Grid.init 5 5).isBlocked pp.1 pp.2 ∧
      Interior 5 5 up ∧ Interior 5 5 down ∧ Interior 5 5 pp) :=
  ⟨by decide, by decide, by decide,
   C3_placement_distinct_amended (by decide) 2 2 ⟨0, 0, 0, 0⟩ (by decide) (by decide)⟩

/-- C3 counterexample: on a 3x3 grid with a single valid cell, all three
placements succeed yet land on the same cell (1, 1), so the placed
positions are not pairwise distinct. -/
theorem C3_coincident_counterexample :
    placeStairsAndPlayer ffCenterGrid 1 1 true true true ⟨0, 0, 0, 0⟩ =
      Except.ok ⟨[("upstairs", 1, 1), ("downstairs", 1, 1), ("player", 1, 1)],
        [(1, 1), (1, 1), (1, 1)]⟩ := by
  decide

/-- C4: when an upstairs was reserved and an unreserved valid cell
exists, the downstairs pick is an unreserved valid cell of maximal
Manhattan distance from the upstairs (ties broken by the stable
descending sort, first taken); in particular with upstairs (1, 1) and
valid cells [(1, 1), (5, 5), (2, 2)] the pick is (5, 5). -/
theorem C4_downstairs_farthest (valid : List (Int × Int)) (up : Int × Int) (downIdx : Nat)
    (hcand : valid.filter (fun p => decide (p ∉ [up])) ≠ []) :
    (downChoice valid [up] downIdx ∈ valid.filter (fun p => decide (p ∉ [up])) ∧
     ∀ c ∈ valid.filter (fun p => decide (p ∉ [up])),
       manhattan c up ≤ manhattan (downChoice valid [up] downIdx) up) ∧
    downChoice [((1 : Int), (1 : Int)), (5, 5), (2, 2)] [(1, 1)] 0 = (5, 5) :=
  ⟨downChoice_mem_max valid up downIdx hcand, by decide⟩

theorem C4_downstairs_farthest_witness :
    ([((1 : Int), (1 : Int)), (5, 5), (2, 2)].filter
      (fun p => decide (p ∉ [(((1 : Int), (1 : Int)) : Int × Int)])) ≠ []) ∧
    downChoice [((1 : Int), (1 : Int)), (5, 5), (2, 2)] [(1, 1)] 0 = (5, 5) :=
  ⟨by decide,
   (C4_downstairs_farthest [((1 : Int), (1 : Int)), (5, 5), (2, 2)] (1, 1) 0 (by decide)).2⟩

/-- C5: `get_tile` returns the sentinel "wall" at every out-of-bounds
coordinate and `set_tile` is a no-op there; `is_blocked` holds exactly
when the tile kind is one of wall, water, trees. -/
theorem C5_tile_contract (g : Grid) (x y : Int) :
    (¬ g.inBounds x y → g.getTile x y = "wall" ∧ ∀ t : String, g.setTile x y t = g) ∧
    (g.isBlocked x y ↔ g.getTile x y ∈ ["wall", "water", "trees"]) := by
  refine ⟨fun hn => ⟨?_, fun t => ?_⟩, Iff.rfl⟩
  · unfold Grid.getTile
    rw [if_neg hn]
  · unfold Grid.setTile
    rw [if_neg hn]

theorem C5_tile_contract_witness :
    ¬ (Grid.init 2 2).inBounds 5 0 ∧
    ((Grid.init 2 2).getTile 5 0 = "wall" ∧
      ∀ t : String, (Grid.init 2 2).setTile 5 0 t = Grid.init 2 2) :=
  ⟨by decide, (C5_tile_contract (Grid.init 2 2) 5 0).1 (by decide)⟩

/-- C6: `flood_fill` from a non-blocked start returns exactly the cells
reachable by 4-directional steps through non-blocked cells (all of them
non-blocked and in bounds); a blocked start yields the empty set; and on
a 3x3 grid whose center is floor amid walls, flood fill from the center
returns exactly the center. -/
theorem C6_flood_fill_spec (g : Grid) (sx sy : Int) :
    (¬ g.isBlocked sx sy → ∀ c : Int × Int,
      (c ∈ g.floodFill sx sy ↔ g.Reaches (sx, sy) c)) ∧
    (∀ c ∈ g.floodFill sx sy, ¬ g.isBlocked c.1 c.2 ∧ g.inBounds c.1 c.2) ∧
    (g.isBlocked sx sy → g.floodFill sx sy = []) ∧
    ffCenterGrid.floodFill 1 1 = [(1, 1)] :=
  ⟨fun hs c => Grid.floodFill_mem_iff g sx sy hs c,
   fun c hc => ⟨(Grid.floodFill_sound g sx sy c hc).1,
     Grid.inBounds_of_not_blocked (Grid.floodFill_sound g sx sy c hc).1⟩,
   fun hs => Grid.floodFill_blocked g sx sy hs,
   ffCenterGrid_floodFill⟩

theorem C6_flood_fill_spec_witness :
    ¬ ffCenterGrid.isBlocked 1 1 ∧
    (((1, 1) : Int × Int) ∈ ffCenterGrid.floodFill 1 1 ↔ ffCenterGrid.Reaches (1, 1) (1, 1)) :=
  ⟨by decide, (C6_flood_fill_spec ffCenterGrid 1 1).1 (by decide) (1, 1)⟩

/-- C7 (amended): after the MST corridors, the rooms-and-corridors
generator makes `max(1, floor(MST_edges / 5))` extra-loop attempts; each
attempt draws two uniform room indices and carves only when they differ,
so at most that many extra corridors are carved, each between two
distinct room indices. -/
theorem C7_extra_loops_amended (connections : List (Nat × Nat)) (nRooms : Nat)
    (oI oJ : Nat → Nat) :
    numExtraLoops connections = max 1 (connections.length / 5) ∧
    (extraLoopPairs nRooms (numExtraLoops connections) oI oJ).length ≤
      numExtraLoops connections ∧
    ∀ p ∈ extraLoopPairs nRooms (numExtraLoops connections) oI oJ, p.1 ≠ p.2 :=
  ⟨rfl, (extraLoopPairs_spec nRooms (numExtraLoops connections) oI oJ).1,
   (extraLoopPairs_spec nRooms (numExtraLoops connections) oI oJ).2⟩

/-- C7 counterexample: with 6 MST edges the code computes
`max(1, 6 // 5) = 1` extra attempt, not the claimed ceiling
`⌈6 / 5⌉ = 2`; and an attempt drawing equal indices carves nothing, so
even the attempt count is not always achieved. -/
theorem C7_ceiling_counterexample :
    numExtraLoops [(0, 1), (1, 2), (2, 3), (3, 4), (4, 5), (5, 6)] = 1 ∧
    ([(0, 1), (1, 2), (2, 3), (3, 4), (4, 5), (5, 6)] : List (Nat × Nat)).length = 6 ∧
    (6 + 5 - 1) / 5 = 2 ∧
    extraLoopPairs 3 (numExtraLoops [(0, 1), (1, 2), (2, 3), (3, 4), (4, 5), (5, 6)])
      (fun _ => 0) (fun _ => 0) = [] := by
  decide

/-- C8: one `ca_iteration` is a synchronous update: every interior cell
becomes "wall" exactly when at least 5 of the 9 cells of its 3x3
neighborhood were "wall" in the pre-iteration grid and "floor" otherwise,
while cells outside the strict interior are unchanged. -/
theorem C8_ca_iteration_rule {w h : Nat} {g : Grid} (hg : g.Inv w h) (x y : Int) :
    ((1 ≤ x ∧ x ≤ (w : Int) - 2 ∧ 1 ≤ y ∧ y ≤ (h : Int) - 2) →
      g.caIteration.getTile x y =
        (if 5 ≤ g.wallCount x y then "wall" else "floor")) ∧
    (¬ (1 ≤ x ∧ x ≤ (w : Int) - 2 ∧ 1 ≤ y ∧ y ≤ (h : Int) - 2) →
      g.caIteration.getTile x y = g.getTile x y) := by
  constructor
  · intro hint
    rw [Grid.getTile_caIteration hg x y, if_pos hint]
  · intro hint
    rw [Grid.getTile_caIteration hg x y, if_neg hint]

theorem C8_ca_iteration_rule_witness :
    (Grid.init 4 4).Inv 4 4 ∧
    (((1 : Int) ≤ 1 ∧ (1 : Int) ≤ ((4 : Nat) : Int) - 2 ∧ (1 : Int) ≤ 1 ∧
        (1 : Int) ≤ ((4 : Nat) : Int) - 2) →
      (Grid.init 4 4).caIteration.getTile 1 1 =
        (if 5 ≤ (Grid.init 4 4).wallCount 1 1 then "wall" else "floor")) :=
  ⟨by decide, (C8_ca_iteration_rule (show (Grid.init 4 4).Inv 4 4 by decide) 1 1).1⟩

/-- C9 (amended): `split_tree` keeps every node within depth
`max_depth - depth` of the root, and every leaf keeps each dimension at
least `min(min_size, root dimension)`: a dimension produced by a split is
at least `min_size`, but a dimension inherited from a thin root can stay
below `min_size` even though the tree was split along the other axis
(see the counterexample). -/
theorem C9_bsp_tree_amended (fuel : Nat) (x y wd ht minSize : Int) (path : List Bool)
    (o : BSPOracle) :
    (splitTree fuel x y wd ht minSize path o).depth ≤ fuel ∧
    ∀ c ∈ (splitTree fuel x y wd ht minSize path o).leaves,
      min minSize wd ≤ c.2.2.1 ∧ min minSize ht ≤ c.2.2.2 :=
  ⟨splitTree_depth_le fuel x y wd ht minSize path o,
   splitTree_leaf_dims fuel x y wd ht minSize path o⟩

/-- Zero-draw oracle for the BSP counterexample. -/
def zeroBSPOracle : BSPOracle :=
  ⟨fun _ => false, fun _ => 0, fun _ => 0, fun _ => 0, fun _ => 0, fun _ => false⟩

/-- C9 counterexample: a 5x100 root with `min_size = 8` is split (its
height admits a split), yet the leaf (1, 1, 5, 8) of the resulting tree
has width 5 < 8 = min_size — the claim's "every leaf has width >=
min_size unless the tree was never split" fails. -/
theorem C9_thin_leaf_counterexample :
    (splitTree 4 1 1 5 100 8 [] zeroBSPOracle).isSplit ∧
    ((1, 1, 5, 8) : Int × Int × Int × Int) ∈ (splitTree 4 1 1 5 100 8 [] zeroBSPOracle).leaves ∧
    ¬ ((8 : Int) ≤ 5) := by
  decide

/-- C10: when no strictly interior non-blocked cell exists,
`place_stairs_and_player` fails with the ValueError message before any
entity-creation request is issued — the result carries no created
entities, whatever was requested. -/
theorem C10_error_atomic (g : Grid) (playerX playerY : Int)
    (hasUp hasDown createPlayer : Bool) (o : PlaceOracle)
    (hempty : g.validPositions = []) :
    placeStairsAndPlayer g playerX playerY hasUp hasDown createPlayer o =
      Except.error "No valid floor positions for stair/player placement" :=
  placeStairsAndPlayer_error g playerX playerY hasUp hasDown createPlayer o hempty

theorem C10_error_atomic_witness :
    ((Grid.init 3 3).fillWalls).validPositions = [] ∧
    placeStairsAndPlayer ((Grid.init 3 3).fillWalls) 1 1 true true true ⟨0, 0, 0, 0⟩ =
      Except.error "No valid floor positions for stair/player placement" :=
  ⟨by decide, C10_error_atomic ((Grid.init 3 3).fillWalls) 1 1 true true true ⟨0, 0, 0, 0⟩
    (by decide)⟩

set_option maxHeartbeats 1600000 in
/-- `carve_corridor` with any positive width: every carved cell that is
strictly interior reaches the first endpoint through interior cells
(off-axis cells first step onto the base leg, then walk it). -/
theorem carveSet_connects_any {w h : Nat} {gr : Grid} (hg : gr.Inv w h)
    {q1 q2 : Int × Int} (hi1 : Interior w h q1) (hi2 : Interior w h q2)
    {cw : Nat} (hcw : 1 ≤ cw) (b : Bool)
    {c : Int × Int} (hic : Interior w h c)
    (hcs : carveSet q1.1 q1.2 q2.1 q2.2 cw b c) :
    (gr.carveCorridor q1.1 q1.2 q2.1 q2.2 cw b).ReachesI w h c q1 := by
  obtain ⟨x1, y1⟩ := q1
  obtain ⟨x2, y2⟩ := q2
  obtain ⟨cx, cy⟩ := c
  obtain ⟨i1a, i1b, i1c, i1d⟩ := hi1
  obtain ⟨i2a, i2b, i2c, i2d⟩ := hi2
  obtain ⟨ica, icb, icc, icd⟩ := hic
  simp only at i1a i1b i1c i1d i2a i2b i2c i2d ica icb icc icd
  set g' := gr.carveCorridor x1 y1 x2 y2 cw b with hg'
  have hfloor : ∀ x y, carveSet x1 y1 x2 y2 cw b (x, y) → Interior w h (x, y) →
      ¬ g'.isBlocked x y := by
    intro x y hcsx hintx
    apply Grid.not_blocked_of_floor
    rw [hg', Grid.getTile_carveCorridor hg, if_pos ⟨hcsx, hintx.inBounds hg.2.1 hg.2.2⟩]
  have hq1q2 : g'.ReachesI w h (x1, y1) (x2, y2) := by
    rw [hg']
    exact @Grid.reachesI_carveCorridor w h gr hg (x1, y1) (x2, y2) cw hcw b
      ⟨i1a, i1b, i1c, i1d⟩ ⟨i2a, i2b, i2c, i2d⟩
  have hq1nb : ¬ g'.isBlocked x1 y1 := by
    apply hfloor
    · unfold carveSet
      cases b with
      | true =>
        rw [if_pos rfl]
        left
        unfold legH
        dsimp only
        omega
      | false =>
        rw [if_neg (by decide : ¬ (false = true))]
        left
        unfold legV
        dsimp only
        omega
    · exact ⟨i1a, i1b, i1c, i1d⟩
  have hq2q1 : g'.ReachesI w h (x2, y2) (x1, y1) :=
    @Grid.reachesI_symm g' w h (x1, y1) (x2, y2) hq1nb ⟨i1a, i1b, i1c, i1d⟩ hq1q2
  unfold carveSet at hcs
  cases b with
  | true =>
    rw [if_pos rfl] at hcs
    rcases hcs with ⟨ha, hb', hc1, hc2⟩ | ⟨ha, hb', hc1, hc2⟩
    · simp only at ha hb' hc1 hc2
      have hcol : g'.ReachesI w h (cx, cy) (cx, y1) := by
        apply Grid.reachesI_col
        intro y hy1 hy2
        have hint : Interior w h (cx, y) := ⟨ica, icb, by simp only; omega, by simp only; omega⟩
        refine ⟨hfloor cx y ?_ hint, hint⟩
        unfold carveSet
        rw [if_pos rfl]
        left
        unfold legH
        dsimp only
        omega
      have hrow : g'.ReachesI w h (cx, y1) (x1, y1) := by
        apply Grid.reachesI_row
        intro x hx1 hx2
        have hint : Interior w h (x, y1) := ⟨by simp only; omega, by simp only; omega, i1c, i1d⟩
        refine ⟨hfloor x y1 ?_ hint, hint⟩
        unfold carveSet
        rw [if_pos rfl]
        left
        unfold legH
        dsimp only
        omega
      exact hcol.trans hrow
    · simp only at ha hb' hc1 hc2
      have hrow : g'.ReachesI w h (cx, cy) (x2, cy) := by
        apply Grid.reachesI_row
        intro x hx1 hx2
        have hint : Interior w h (x, cy) := ⟨by simp only; omega, by simp only; omega, icc, icd⟩
        refine ⟨hfloor x cy ?_ hint, hint⟩
        unfold carveSet
        rw [if_pos rfl]
        right
        unfold legV
        dsimp only
        omega
      have hcol : g'.ReachesI w h (x2, cy) (x2, y2) := by
        apply Grid.reachesI_col
        intro y hy1 hy2
        have hint : Interior w h (x2, y) := ⟨i2a, i2b, by simp only; omega, by simp only; omega⟩
        refine ⟨hfloor x2 y ?_ hint, hint⟩
        unfold carveSet
        rw [if_pos rfl]
        right
        unfold legV
        dsimp only
        omega
      exact (hrow.trans hcol).trans hq2q1
  | false =>
    rw [if_neg (by decide : ¬ (false = true))] at hcs
    rcases hcs with ⟨ha, hb', hc1, hc2⟩ | ⟨ha, hb', hc1, hc2⟩
    · simp only at ha hb' hc1 hc2
      have hrow : g'.ReachesI w h (cx, cy) (x1, cy) := by
        apply Grid.reachesI_row
        intro x hx1 hx2
        have hint : Interior w h (x, cy) := ⟨by simp only; omega, by simp only; omega, icc, icd⟩
        refine ⟨hfloor x cy ?_ hint, hint⟩
        unfold carveSet
        rw [if_neg (by decide : ¬ (false = true))]
        left
        unfold legV
        dsimp only
        omega
      have hcol : g'.ReachesI w h (x1, cy) (x1, y1) := by
        apply Grid.reachesI_col
        intro y hy1 hy2
        have hint : Interior w h (x1, y) := ⟨i1a, i1b, by simp only; omega, by simp only; omega⟩
        refine ⟨hfloor x1 y ?_ hint, hint⟩
        unfold carveSet
        rw [if_neg (by decide : ¬ (false = true))]
        left
        unfold legV
        dsimp only
        omega
      exact hrow.trans hcol
    · simp only at ha hb' hc1 hc2
      have hcol : g'.ReachesI w h (cx, cy) (cx, y2) := by
        apply Grid.reachesI_col
        intro y hy1 hy2
        have hint : Interior w h (cx, y) := ⟨ica, icb, by simp only; omega, by simp only; omega⟩
        refine ⟨hfloor cx y ?_ hint, hint⟩
        unfold carveSet
        rw [if_neg (by decide : ¬ (false = true))]
        right
        unfold legH
        dsimp only
        omega
      have hrow : g'.ReachesI w h (cx, y2) (x2, y2) := by
        apply Grid.reachesI_row
        intro x hx1 hx2
        have hint : Interior w h (x, y2) := ⟨by simp only; omega, by simp only; omega, i2c, i2d⟩
        refine ⟨hfloor x y2 ?_ hint, hint⟩
        unfold carveSet
        rw [if_neg (by decide : ¬ (false = true))]
        right
        unfold legH
        dsimp only
        omega
      exact (hcol.trans hrow).trans hq2q1

/-- A nodup list of naturals below `n` with length at least `n` contains
every value below `n`. -/
theorem covers_of_nodup_length {l : List Nat} {n : Nat} (hn : l.Nodup)
    (hb : ∀ i ∈ l, i < n) (hlen : n ≤ l.length) : ∀ j < n, j ∈ l := by
  intro j hj
  by_contra hnot
  have hsub : l.toFinset ⊆ (Finset.range n).erase j := by
    intro a ha
    rw [List.mem_toFinset] at ha
    rw [Finset.mem_erase, Finset.mem_range]
    exact ⟨fun hx => hnot (hx ▸ ha), hb a ha⟩
  have h1 : l.toFinset.card = l.length := List.toFinset_card_of_nodup hn
  have h2 := Finset.card_le_card hsub
  have h3 : ((Finset.range n).erase j).card = n - 1 := by
    rw [Finset.card_erase_of_mem (Finset.mem_range.mpr hj), Finset.card_range]
  omega

/-- Membership of a cell in a `Room`'s rectangle. -/
def inRoom (r : Room) (c : Int × Int) : Prop :=
  r.x ≤ c.1 ∧ c.1 < r.x + r.width ∧ r.y ≤ c.2 ∧ c.2 < r.y + r.height

instance (r : Room) (c : Int × Int) : Decidable (inRoom r c) := by
  unfold inRoom; infer_instance

/-- The cells of a room, in the write order of `create_room`. -/
def roomCellsList (r : Room) : List (Int × Int) :=
  (intRange r.y (r.y + r.height)).flatMap
    (fun yy => (intRange r.x (r.x + r.width)).map (fun xx => (xx, yy)))

theorem mem_roomCellsList {r : Room} {c : Int × Int} :
    c ∈ roomCellsList r ↔ inRoom r c := by
  unfold roomCellsList inRoom
  rw [List.mem_flatMap]
  constructor
  · rintro ⟨yv, hyv, hc⟩
    rw [List.mem_map] at hc
    obtain ⟨xv, hxv, heq⟩ := hc
    rw [mem_intRange] at hyv hxv
    obtain ⟨rfl, rfl⟩ := Prod.mk.injEq .. ▸ heq
    exact ⟨hxv.1, hxv.2, hyv.1, hyv.2⟩
  · rintro ⟨h1, h2, h3, h4⟩
    refine ⟨c.2, mem_intRange.mpr ⟨h3, h4⟩, ?_⟩
    rw [List.mem_map]
    exact ⟨c.1, mem_intRange.mpr ⟨h1, h2⟩, rfl⟩

/-- Full characterization of `create_room`: room cells in bounds become
"floor", everything else is unchanged. -/
theorem getTile_createRoom {w h : Nat} {g : Grid} (hg : g.Inv w h) (r : Room) (x y : Int) :
    (g.createRoom r).getTile x y =
      if inRoom r (x, y) ∧ g.inBounds x y then "floor" else g.getTile x y := by
  unfold Grid.createRoom
  rw [nested_fold_as_cells (fun _ => "floor") (intRange r.y (r.y + r.height))
    (intRange r.x (r.x + r.width)) (fun yy xx => (xx, yy)) g]
  obtain ⟨hget, -⟩ := getTile_foldl_setByFun (fun _ => "floor")
    ((intRange r.y (r.y + r.height)).flatMap
      (fun yy => (intRange r.x (r.x + r.width)).map (fun xx => (xx, yy)))) g hg x y
  rw [hget]
  have hmem : ((x, y) ∈ (intRange r.y (r.y + r.height)).flatMap
      (fun yy => (intRange r.x (r.x + r.width)).map (fun xx => (xx, yy))))
      ↔ inRoom r (x, y) := mem_roomCellsList
  by_cases hc : inRoom r (x, y) ∧ g.inBounds x y
  · rw [if_pos ⟨hmem.mpr hc.1, hc.2⟩, if_pos hc]
  · rw [if_neg (fun hx => hc ⟨hmem.mp hx.1, hx.2⟩), if_neg hc]

/-- A room rectangle lying in the strict interior of a `w`-by-`h` grid. -/
def RoomIn (w h : Nat) (r : Room) : Prop :=
  1 ≤ r.x ∧ r.x + r.width ≤ (w : Int) - 1 ∧ 1 ≤ r.y ∧ r.y + r.height ≤ (h : Int) - 1 ∧
    0 ≤ r.width ∧ 0 ≤ r.height

theorem RoomIn.cell_interior {w h : Nat} {r : Room} (hr : RoomIn w h r) {c : Int × Int}
    (hc : inRoom r c) : Interior w h c := by
  obtain ⟨h1, h2, h3, h4, h5, h6⟩ := hr
  obtain ⟨c1, c2, c3, c4⟩ := hc
  exact ⟨by omega, by omega, by omega, by omega⟩

theorem ediv2_facts (n : Int) : 2 * (n / 2) ≤ n ∧ n < 2 * (n / 2) + 2 ∧
    (0 ≤ n → 0 ≤ n / 2) := by
  have h := Int.ediv_add_emod n 2
  have h2 := Int.emod_nonneg n (by norm_num : (2 : Int) ≠ 0)
  have h3 := Int.emod_lt_of_pos n (by norm_num : (0 : Int) < 2)
  refine ⟨by omega, by omega, fun hn => Int.ediv_nonneg hn (by norm_num)⟩

theorem RoomIn.center_inRoom {w h : Nat} {r : Room} (hr : RoomIn w h r)
    (hw1 : 1 ≤ r.width) (hh1 : 1 ≤ r.height) : inRoom r r.center := by
  obtain ⟨hwa, hwb, hwc⟩ := ediv2_facts r.width
  obtain ⟨hha, hhb, hhc⟩ := ediv2_facts r.height
  have hw0 := hwc (by omega)
  have hh0 := hhc (by omega)
  obtain ⟨h1, h2, h3, h4, h5, h6⟩ := hr
  unfold Room.center inRoom
  simp only
  omega

theorem RoomIn.center_interior {w h : Nat} {r : Room} (hr : RoomIn w h r)
    (hw1 : 1 ≤ r.width) (hh1 : 1 ≤ r.height) : Interior w h r.center :=
  hr.cell_interior (hr.center_inRoom hw1 hh1)

/-- Inside a room whose cells are all non-blocked, every cell reaches the
room's center through interior cells (row walk, then column walk). -/
theorem room_connect {w h : Nat} {g : Grid} {r : Room} (hr : RoomIn w h r)
    (hw1 : 1 ≤ r.width) (hh1 : 1 ≤ r.height)
    (hcells : ∀ c : Int × Int, inRoom r c → ¬ g.isBlocked c.1 c.2)
    {c : Int × Int} (hc : inRoom r c) : g.ReachesI w h c r.center := by
  obtain ⟨c1, c2, c3, c4⟩ := hc
  obtain ⟨m1, m2, m3, m4⟩ := hr.center_inRoom hw1 hh1
  have hrow : g.ReachesI w h (c.1, c.2) (r.center.1, c.2) := by
    apply Grid.reachesI_row
    intro x hx1 hx2
    have hin : inRoom r (x, c.2) := ⟨by omega, by omega, c3, c4⟩
    exact ⟨hcells _ hin, hr.cell_interior hin⟩
  have hcol : g.ReachesI w h (r.center.1, c.2) (r.center.1, r.center.2) := by
    apply Grid.reachesI_col
    intro y hy1 hy2
    have hin : inRoom r (r.center.1, y) := ⟨m1, m2, by omega, by omega⟩
    exact ⟨hcells _ hin, hr.cell_interior hin⟩
  have := hrow.trans hcol
  simpa using this

/-- Invariant of the room-placement loop of `generate_dungeon`
(rooms_corridors): the grid stays well-formed, every accepted room lies
strictly inside the border with positive dimensions, all room cells are
non-blocked, and every non-blocked cell lies in an accepted room. -/
def PlacementInv (w h : Nat) (st : Grid × List Room) : Prop :=
  st.1.Inv w h ∧
  (∀ r ∈ st.2, RoomIn w h r ∧ 1 ≤ r.width ∧ 1 ≤ r.height) ∧
  (∀ r ∈ st.2, ∀ c : Int × Int, inRoom r c → ¬ st.1.isBlocked c.1 c.2) ∧
  (∀ x y : Int, ¬ st.1.isBlocked x y → ∃ r ∈ st.2, inRoom r (x, y))

theorem not_blocked_createRoom_mono {w h : Nat} {g : Grid} (hg : g.Inv w h) (r : Room)
    {x y : Int} (hnb : ¬ g.isBlocked x y) : ¬ (g.createRoom r).isBlocked x y := by
  intro hbl
  unfold Grid.isBlocked at hbl
  rw [getTile_createRoom hg r x y] at hbl
  split at hbl
  · simp at hbl
  · exact hnb hbl

theorem placementInv_accept {w h : Nat} {g : Grid} {rooms : List Room}
    (hst : PlacementInv w h (g, rooms)) {r : Room}
    (hr : RoomIn w h r) (hw1 : 1 ≤ r.width) (hh1 : 1 ≤ r.height) :
    PlacementInv w h (g.createRoom r, rooms ++ [r]) := by
  unfold PlacementInv at hst ⊢
  dsimp only at hst ⊢
  obtain ⟨hg, hrooms, hcells, hcov⟩ := hst
  refine ⟨Grid.Inv_createRoom hg r, ?_, ?_, ?_⟩
  · intro r' hr'
    rcases List.mem_append.mp hr' with hmem | hmem
    · exact hrooms r' hmem
    · rw [List.mem_singleton] at hmem
      subst r'
      exact ⟨hr, hw1, hh1⟩
  · intro r' hr' c hc
    rcases List.mem_append.mp hr' with hmem | hmem
    · exact not_blocked_createRoom_mono hg r (hcells r' hmem c hc)
    · rw [List.mem_singleton] at hmem
      subst r'
      obtain ⟨cx, cy⟩ := c
      apply Grid.not_blocked_of_floor
      rw [getTile_createRoom hg r cx cy]
      rw [if_pos]
      exact ⟨hc, Interior.inBounds hg.2.1 hg.2.2 (hr.cell_interior hc)⟩
  · intro x y hnb
    unfold Grid.isBlocked at hnb
    rw [getTile_createRoom hg r x y] at hnb
    by_cases hcase : inRoom r (x, y) ∧ g.inBounds x y
    · exact ⟨r, List.mem_append_right _ (List.mem_singleton.mpr rfl), hcase.1⟩
    · rw [if_neg hcase] at hnb
      obtain ⟨r', hmem, hin⟩ := hcov x y hnb
      exact ⟨r', List.mem_append_left _ hmem, hin⟩

theorem placementInv_tryPlaceRoom {w h : Nat} (hw : 15 ≤ w) (hh : 13 ≤ h)
    {st : Grid × List Room} (hst : PlacementInv w h st) (k : Nat) (o : RoomsOracle) :
    PlacementInv w h (tryPlaceRoom st.1 st.2 k o) := by
  obtain ⟨g, rooms⟩ := st
  have hg : g.Inv w h := hst.1
  have hgw : g.width = w := hg.2.1
  have hgh : g.height = h := hg.2.2
  unfold tryPlaceRoom
  dsimp only
  have hwd := randint_mem (by norm_num : (4 : Int) ≤ 12) (o.sizeW k)
  have hht := randint_mem (by norm_num : (4 : Int) ≤ 12 - 2) (o.sizeH k)
  have hrx : (1 : Int) ≤ (g.width : Int) - randint 4 12 (o.sizeW k) - 2 := by
    have : ((w : Nat) : Int) = (w : Int) := rfl
    omega
  have hry : (1 : Int) ≤ (g.height : Int) - randint 4 (12 - 2) (o.sizeH k) - 2 := by
    omega
  have hpx := randint_mem hrx (o.posX k)
  have hpy := randint_mem hry (o.posY k)
  split
  · exact hst
  · apply placementInv_accept hst
    · unfold RoomIn
      dsimp only
      omega
    · dsimp only
      omega
    · dsimp only
      omega

theorem placement_fold_inv (w h : Nat) (o : RoomsOracle) (hw : 15 ≤ w) (hh : 13 ≤ h) :
    PlacementInv w h ((List.range (3 * (15 + o.targetDraw % 11))).foldl
      (fun (st : Grid × List Room) k =>
        if st.2.length < (15 + o.targetDraw % 11) then tryPlaceRoom st.1 st.2 k o else st)
      ((Grid.init w h).fillWalls, [])) := by
  apply foldl_preserves' (PlacementInv w h)
  · intro st a hst
    split
    · exact placementInv_tryPlaceRoom hw hh hst a o
    · exact hst
  · refine ⟨Grid.Inv_fillWalls (Grid.Inv_init w h), ?_, ?_, ?_⟩
    · intro r hr
      exact absurd hr (List.not_mem_nil r)
    · intro r hr
      exact absurd hr (List.not_mem_nil r)
    · intro x y hnb
      exfalso
      apply hnb
      unfold Grid.isBlocked
      rw [Grid.getTile_fillWalls (Grid.Inv_init w h) x y]
      simp

/-- One inner step of the `mstScan` nested fold, named for reasoning. -/
def mstInner (rooms : List Room) (connected : List Nat) (i : Nat)
    (acc2 : Option (Nat × Nat × Nat)) (j : Nat) : Option (Nat × Nat × Nat) :=
  if j ∈ connected then acc2
  else
    let d := manhattan (rooms.getD i default).center (rooms.getD j default).center
    match acc2 with
    | none => some (i, j, d)
    | some (i0, j0, bd) => if d < bd then some (i, j, d) else some (i0, j0, bd)

theorem mstScan_eq (rooms : List Room) (connected : List Nat) :
    mstScan rooms connected =
      (connected.foldl (fun acc i =>
        (List.range rooms.length).foldl (mstInner rooms connected i) acc) none).map
        (fun t => (t.1, t.2.1)) := rfl

theorem mstInner_isSome {rooms : List Room} {connected : List Nat} {i : Nat}
    {acc : Option (Nat × Nat × Nat)} (j : Nat) (hacc : acc.isSome) :
    (mstInner rooms connected i acc j).isSome := by
  unfold mstInner
  split
  · exact hacc
  · cases acc with
    | none => simp at hacc
    | some p =>
      obtain ⟨i0, j0, bd⟩ := p
      dsimp only
      split <;> simp

theorem mstInner_hit {rooms : List Room} {connected : List Nat} {i : Nat}
    (acc : Option (Nat × Nat × Nat)) {j : Nat} (hj : j ∉ connected) :
    (mstInner rooms connected i acc j).isSome := by
  unfold mstInner
  rw [if_neg hj]
  cases acc with
  | none => simp
  | some p =>
    obtain ⟨i0, j0, bd⟩ := p
    dsimp only
    split <;> simp

theorem mstInner_sound {rooms : List Room} {connected : List Nat} {i : Nat}
    (hi : i ∈ connected) {acc : Option (Nat × Nat × Nat)}
    (hacc : ∀ i' j' d', acc = some (i', j', d') →
      i' ∈ connected ∧ j' < rooms.length ∧ j' ∉ connected)
    {j : Nat} (hj : j < rooms.length) :
    ∀ i' j' d', mstInner rooms connected i acc j = some (i', j', d') →
      i' ∈ connected ∧ j' < rooms.length ∧ j' ∉ connected := by
  intro i' j' d' heq
  unfold mstInner at heq
  by_cases hmem : j ∈ connected
  · rw [if_pos hmem] at heq
    exact hacc i' j' d' heq
  · rw [if_neg hmem] at heq
    cases acc with
    | none =>
      dsimp only at heq
      simp only [Option.some_inj, Prod.mk.injEq] at heq
      obtain ⟨rfl, rfl, -⟩ := heq
      exact ⟨hi, hj, hmem⟩
    | some p =>
      obtain ⟨i0, j0, bd⟩ := p
      dsimp only at heq
      split at heq
      · simp only [Option.some_inj, Prod.mk.injEq] at heq
        obtain ⟨rfl, rfl, -⟩ := heq
        exact ⟨hi, hj, hmem⟩
      · simp only [Option.some_inj, Prod.mk.injEq] at heq
        obtain ⟨rfl, rfl, -⟩ := heq
        exact hacc i0 j0 bd rfl

theorem mstInnerFold_isSome {rooms : List Room} {connected : List Nat} {i : Nat}
    (l : List Nat) (acc : Option (Nat × Nat × Nat)) (hacc : acc.isSome) :
    (l.foldl (mstInner rooms connected i) acc).isSome := by
  induction l generalizing acc with
  | nil => exact hacc
  | cons a t ih => exact ih _ (mstInner_isSome a hacc)

theorem mstInnerFold_hit {rooms : List Room} {connected : List Nat} {i : Nat}
    (l : List Nat) {j : Nat} (hj : j ∉ connected) :
    ∀ acc, j ∈ l → (l.foldl (mstInner rooms connected i) acc).isSome := by
  induction l with
  | nil =>
    intro acc hjl
    exact absurd hjl (List.not_mem_nil j)
  | cons a t ih =>
    intro acc hjl
    rw [List.foldl_cons]
    rcases List.mem_cons.mp hjl with rfl | hmem
    · exact mstInnerFold_isSome t _ (mstInner_hit acc hj)
    · exact ih _ hmem

theorem mstInnerFold_sound {rooms : List Room} {connected : List Nat} {i : Nat}
    (hi : i ∈ connected) :
    ∀ (l : List Nat), (∀ j ∈ l, j < rooms.length) →
    ∀ acc, (∀ i' j' d', acc = some (i', j', d') →
      i' ∈ connected ∧ j' < rooms.length ∧ j' ∉ connected) →
    ∀ i' j' d', l.foldl (mstInner rooms connected i) acc = some (i', j', d') →
      i' ∈ connected ∧ j' < rooms.length ∧ j' ∉ connected := by
  intro l
  induction l with
  | nil =>
    intro _ acc hacc
    exact hacc
  | cons a t ih =>
    intro hl acc hacc
    rw [List.foldl_cons]
    exact ih (fun j hj => hl j (List.mem_cons_of_mem a hj)) _
      (fun i' j' d' => mstInner_sound hi hacc (hl a (List.mem_cons_self a t)) i' j' d')

theorem mstOuterFold_isSome (rooms : List Room) (connected : List Nat) :
    ∀ (l : List Nat) (acc : Option (Nat × Nat × Nat)), acc.isSome →
    (l.foldl (fun acc i =>
      (List.range rooms.length).foldl (mstInner rooms connected i) acc) acc).isSome := by
  intro l
  induction l with
  | nil =>
    intro acc hacc
    exact hacc
  | cons a t ih =>
    intro acc hacc
    rw [List.foldl_cons]
    exact ih _ (mstInnerFold_isSome _ _ hacc)

theorem mstOuterFold_sound (rooms : List Room) (connected : List Nat) :
    ∀ (l : List Nat), (∀ i ∈ l, i ∈ connected) →
    ∀ acc, (∀ i' j' d', acc = some (i', j', d') →
      i' ∈ connected ∧ j' < rooms.length ∧ j' ∉ connected) →
    ∀ i' j' d', l.foldl (fun acc i =>
      (List.range rooms.length).foldl (mstInner rooms connected i) acc) acc
        = some (i', j', d') →
      i' ∈ connected ∧ j' < rooms.length ∧ j' ∉ connected := by
  intro l
  induction l with
  | nil =>
    intro _ acc hacc
    exact hacc
  | cons a t ih =>
    intro hl acc hacc
    rw [List.foldl_cons]
    exact ih (fun i hi => hl i (List.mem_cons_of_mem a hi)) _
      (mstInnerFold_sound (hl a (List.mem_cons_self a t)) (List.range rooms.length)
        (fun j hj => List.mem_range.mp hj) acc hacc)

theorem mstScan_sound {rooms : List Room} {connected : List Nat} {i j : Nat}
    (hs : mstScan rooms connected = some (i, j)) :
    i ∈ connected ∧ j < rooms.length ∧ j ∉ connected := by
  rw [mstScan_eq] at hs
  rw [Option.map_eq_some'] at hs
  obtain ⟨t, ht, hft⟩ := hs
  obtain ⟨t1, t2, t3⟩ := t
  have hfacts := mstOuterFold_sound rooms connected connected (fun x hx => hx) none
    (fun i' j' d' heq => absurd heq (by simp)) t1 t2 t3 ht
  simp only [Prod.mk.injEq] at hft
  obtain ⟨rfl, rfl⟩ := hft
  exact hfacts

theorem mstScan_none_covers {rooms : List Room} {connected : List Nat}
    (hne : connected ≠ []) (hnone : mstScan rooms connected = none) :
    ∀ j < rooms.length, j ∈ connected := by
  intro j hj
  by_contra hnot
  rw [mstScan_eq, Option.map_eq_none'] at hnone
  obtain ⟨c0, rest, rfl⟩ : ∃ c0 rest, connected = c0 :: rest := by
    cases connected with
    | nil => exact absurd rfl hne
    | cons c0 rest => exact ⟨c0, rest, rfl⟩
  have h1 : ((List.range rooms.length).foldl (mstInner rooms (c0 :: rest) c0) none).isSome :=
    mstInnerFold_hit (List.range rooms.length) hnot none (List.mem_range.mpr hj)
  have h2 : (((c0 :: rest).foldl (fun acc i =>
      (List.range rooms.length).foldl (mstInner rooms (c0 :: rest) i) acc) none)).isSome := by
    rw [List.foldl_cons]
    exact mstOuterFold_isSome rooms (c0 :: rest) rest _ h1
  rw [hnone] at h2
  simp at h2

/-- Prefix-closedness of the connection list built by the spanning loop:
reading the connections in order with a starting index set `base`, each
connection's source index is already in the set when the connection is
added, both endpoints are in range, and the target joins the set. -/
def ChainFrom (n : Nat) : List Nat → List (Nat × Nat) → Prop
  | _, [] => True
  | base, p :: rest => (p.1 ∈ base ∧ p.1 < n ∧ p.2 < n) ∧ ChainFrom n (base ++ [p.2]) rest

theorem chainFrom_append_one {n : Nat} {base : List Nat} {conns : List (Nat × Nat)}
    (hch : ChainFrom n base conns) {p : Nat × Nat}
    (hp : p.1 ∈ base ++ conns.map (fun q => q.2)) (h1 : p.1 < n) (h2 : p.2 < n) :
    ChainFrom n base (conns ++ [p]) := by
  induction conns generalizing base with
  | nil =>
    exact ⟨⟨by simpa using hp, h1, h2⟩, trivial⟩
  | cons q rest ih =>
    refine ⟨hch.1, ih hch.2 ?_⟩
    simpa [List.append_assoc] using hp

theorem chainFrom_of_covers {n : Nat} :
    ∀ (conns : List (Nat × Nat)) (base : List Nat), (∀ j < n, j ∈ base) →
    (∀ p ∈ conns, p.1 < n ∧ p.2 < n) → ChainFrom n base conns := by
  intro conns
  induction conns with
  | nil =>
    intro base _ _
    trivial
  | cons p rest ih =>
    intro base hcov hp
    refine ⟨⟨hcov p.1 (hp p (List.mem_cons_self p rest)).1,
      (hp p (List.mem_cons_self p rest)).1, (hp p (List.mem_cons_self p rest)).2⟩, ?_⟩
    exact ih _ (fun j hj => List.mem_append_left _ (hcov j hj))
      (fun q hq => hp q (List.mem_cons_of_mem p hq))

/-- One round of the `build_minimum_spanning_tree` loop. -/
def mstStep (rooms : List Room) (st : List Nat × List (Nat × Nat)) (k : Nat) :
    List Nat × List (Nat × Nat) :=
  if st.1.length < rooms.length then
    match mstScan rooms st.1 with
    | none => st
    | some (i, j) => (st.1 ++ [j], st.2 ++ [(i, j)])
  else st

theorem buildMST_eq (rooms : List Room) :
    buildMST rooms = if rooms.length < 2 then []
      else ((List.range rooms.length).foldl (mstStep rooms) ([0], [])).2 := rfl

theorem mstStep_some {rooms : List Room} {st : List Nat × List (Nat × Nat)} {i j : Nat}
    (k : Nat) (hlen : st.1.length < rooms.length)
    (hscan : mstScan rooms st.1 = some (i, j)) :
    mstStep rooms st k = (st.1 ++ [j], st.2 ++ [(i, j)]) := by
  unfold mstStep
  rw [if_pos hlen, hscan]

/-- State invariant of the spanning-tree loop: the connected set is index
`0` followed by the targets of the connections in order, without
duplicates, all in range, and the connection list is prefix-closed. -/
def MSTState (n : Nat) (st : List Nat × List (Nat × Nat)) : Prop :=
  st.1 = 0 :: st.2.map (fun p => p.2) ∧ st.1.Nodup ∧ (∀ i ∈ st.1, i < n) ∧
  ChainFrom n [0] st.2

theorem mstState_step {rooms : List Room} {st : List Nat × List (Nat × Nat)} {i j : Nat}
    (hst : MSTState rooms.length st) (hscan : mstScan rooms st.1 = some (i, j)) :
    MSTState rooms.length (st.1 ++ [j], st.2 ++ [(i, j)]) := by
  obtain ⟨heq, hnd, hbd, hch⟩ := hst
  obtain ⟨hi, hjn, hjc⟩ := mstScan_sound hscan
  refine ⟨?_, ?_, ?_, ?_⟩
  · dsimp only
    rw [heq]
    simp
  · dsimp only
    rw [List.nodup_append]
    exact ⟨hnd, List.nodup_singleton j,
      fun a ha hb => hjc (by rwa [List.mem_singleton.mp hb] at ha)⟩
  · dsimp only
    intro x hx
    rcases List.mem_append.mp hx with hx | hx
    · exact hbd x hx
    · rw [List.mem_singleton.mp hx]
      exact hjn
  · dsimp only
    apply chainFrom_append_one hch
    · show i ∈ [0] ++ st.2.map (fun q => q.2)
      rw [List.singleton_append, ← heq]
      exact hi
    · exact hbd i hi
    · exact hjn

theorem mstFold_spec {rooms : List Room} :
    ∀ (l : List Nat) (st : List Nat × List (Nat × Nat)),
      MSTState rooms.length st →
      MSTState rooms.length (l.foldl (mstStep rooms) st) ∧
      min rooms.length (st.1.length + l.length) ≤
        (l.foldl (mstStep rooms) st).1.length := by
  intro l
  induction l with
  | nil =>
    intro st hst
    exact ⟨hst, by simp⟩
  | cons a t ih =>
    intro st hst
    rw [List.foldl_cons]
    by_cases hlen : st.1.length < rooms.length
    · cases hscan : mstScan rooms st.1 with
      | none =>
        exfalso
        have hne : st.1 ≠ [] := by
          rw [hst.1]
          simp
        have hcov := mstScan_none_covers hne hscan
        have hsub : Finset.range rooms.length ⊆ st.1.toFinset := fun x hx =>
          List.mem_toFinset.mpr (hcov x (Finset.mem_range.mp hx))
        have hcard := Finset.card_le_card hsub
        rw [Finset.card_range] at hcard
        have hfin := st.1.toFinset_card_le
        omega
      | some p =>
        obtain ⟨i, j⟩ := p
        have hSt : mstStep rooms st a = (st.1 ++ [j], st.2 ++ [(i, j)]) :=
          mstStep_some a hlen hscan
        rw [hSt]
        have hst' := mstState_step hst hscan
        obtain ⟨ih1, ih2⟩ := ih _ hst'
        refine ⟨ih1, ?_⟩
        simp only [List.length_append, List.length_singleton, List.length_cons] at ih2 ⊢
        omega
    · have hSt : mstStep rooms st a = st := by
        unfold mstStep
        rw [if_neg hlen]
      rw [hSt]
      obtain ⟨ih1, ih2⟩ := ih _ hst
      refine ⟨ih1, ?_⟩
      simp only [List.length_cons] at ih2 ⊢
      omega

theorem buildMST_spec {rooms : List Room} (hn : 2 ≤ rooms.length) :
    ChainFrom rooms.length [0] (buildMST rooms) ∧
    ∀ j < rooms.length, j ∈ 0 :: (buildMST rooms).map (fun p => p.2) := by
  rw [buildMST_eq, if_neg (by omega)]
  have hbase : MSTState rooms.length ([0], []) :=
    ⟨rfl, List.nodup_singleton 0,
      by
        intro i hi
        rw [List.mem_singleton.mp hi]
        omega,
      trivial⟩
  obtain ⟨⟨heq, hnd, hbd, hch⟩, hlen⟩ := mstFold_spec (List.range rooms.length) ([0], []) hbase
  refine ⟨hch, ?_⟩
  intro j hj
  rw [← heq]
  apply covers_of_nodup_length hnd hbd _ j hj
  simp only [List.length_range] at hlen
  have h1len : (([0], ([] : List (Nat × Nat))) : List Nat × List (Nat × Nat)).1.length = 1 := rfl
  omega

theorem extraLoopPairs_lt {n m : Nat} (hn : 0 < n) (oI oJ : Nat → Nat) :
    ∀ p ∈ extraLoopPairs n m oI oJ, p.1 < n ∧ p.2 < n := by
  intro p hp
  unfold extraLoopPairs at hp
  rw [List.mem_filterMap] at hp
  obtain ⟨k, hk, heq⟩ := hp
  dsimp only at heq
  split at heq
  · rw [Option.some_inj] at heq
    subst heq
    exact ⟨Nat.mod_lt _ hn, Nat.mod_lt _ hn⟩
  · exact absurd heq (by simp)

/-- One corridor-carving step of `generate_dungeon`: carve between the
rooms indexed by the connection, bumping the leg-order draw counter. -/
def carveStep (rooms : List Room) (o : RoomsOracle) (st : Grid × Nat) (c : Nat × Nat) :
    Grid × Nat :=
  (st.1.connectRooms (rooms.getD c.1 default) (rooms.getD c.2 default) (o.legOrder st.2),
   st.2 + 1)

theorem carveFold_step {w h : Nat} {rooms : List Room} {c₀ : Int × Int}
    (hrooms : ∀ r ∈ rooms, RoomIn w h r ∧ 1 ≤ r.width ∧ 1 ≤ r.height)
    {g g' : Grid} (hg : g.Inv w h) {base : List Nat} {i j : Nat} (b : Bool)
    (hG : g' = g.connectRooms (rooms.getD i default) (rooms.getD j default) b)
    (hibase : i ∈ base) (hin : i < rooms.length) (hjn : j < rooms.length)
    (hcells : ∀ r ∈ rooms, ∀ c : Int × Int, inRoom r c → ¬ g.isBlocked c.1 c.2)
    (hconn : ∀ i' ∈ base, i' < rooms.length ∧
      g.ReachesI w h (rooms.getD i' default).center c₀)
    (hcov : ∀ x y : Int, ¬ g.isBlocked x y → Interior w h (x, y) →
      g.ReachesI w h (x, y) c₀ ∨
      ∃ jj, jj < rooms.length ∧ jj ∉ base ∧ inRoom (rooms.getD jj default) (x, y)) :
    g'.Inv w h ∧
    (∀ r ∈ rooms, ∀ c : Int × Int, inRoom r c → ¬ g'.isBlocked c.1 c.2) ∧
    (∀ i' ∈ base ++ [j], i' < rooms.length ∧
      g'.ReachesI w h (rooms.getD i' default).center c₀) ∧
    (∀ x y : Int, ¬ g'.isBlocked x y → Interior w h (x, y) →
      g'.ReachesI w h (x, y) c₀ ∨
      ∃ jj, jj < rooms.length ∧ jj ∉ base ++ [j] ∧
        inRoom (rooms.getD jj default) (x, y)) := by
  have hmi : rooms.getD i default ∈ rooms := getD_mem_of_lt _ _ _ hin
  have hmj : rooms.getD j default ∈ rooms := getD_mem_of_lt _ _ _ hjn
  obtain ⟨hRi, hwi, hhi⟩ := hrooms _ hmi
  obtain ⟨hRj, hwj, hhj⟩ := hrooms _ hmj
  have hci : Interior w h (rooms.getD i default).center := hRi.center_interior hwi hhi
  have hcj : Interior w h (rooms.getD j default).center := hRj.center_interior hwj hhj
  have hof : OnlyFloorWrites g g' := by
    rw [hG]
    exact Grid.onlyFloorWrites_carveCorridor hg _ _ _ _ 1 b
  have hmono1 : ∀ x y : Int, ¬ g.isBlocked x y → ¬ g'.isBlocked x y :=
    fun x y => Grid.not_blocked_of_onlyFloorWrites hof x y
  have hg' : g'.Inv w h := by
    rw [hG]
    exact Grid.Inv_connectRooms hg _ _ _
  have hcells' : ∀ r ∈ rooms, ∀ c : Int × Int, inRoom r c → ¬ g'.isBlocked c.1 c.2 :=
    fun r hr c hc => hmono1 _ _ (hcells r hr c hc)
  have hcorr : g'.ReachesI w h (rooms.getD i default).center
      (rooms.getD j default).center := by
    rw [hG]
    exact @Grid.reachesI_carveCorridor w h g hg (rooms.getD i default).center
      (rooms.getD j default).center 1 (le_refl 1) b hci hcj
  have hcnbi : ¬ g'.isBlocked (rooms.getD i default).center.1
      (rooms.getD i default).center.2 :=
    hmono1 _ _ (hcells _ hmi _ (hRi.center_inRoom hwi hhi))
  have hcorr' : g'.ReachesI w h (rooms.getD j default).center
      (rooms.getD i default).center :=
    Grid.reachesI_symm hcnbi hci hcorr
  obtain ⟨-, hpathi⟩ := hconn i hibase
  have hpathi1 : g'.ReachesI w h (rooms.getD i default).center c₀ :=
    Grid.reachesI_mono hmono1 hpathi
  have hpathj1 : g'.ReachesI w h (rooms.getD j default).center c₀ :=
    hcorr'.trans hpathi1
  refine ⟨hg', hcells', ?_, ?_⟩
  · intro i' hi'
    rcases List.mem_append.mp hi' with hmem | hmem
    · obtain ⟨hb1, hb2⟩ := hconn i' hmem
      exact ⟨hb1, Grid.reachesI_mono hmono1 hb2⟩
    · rw [List.mem_singleton.mp hmem]
      exact ⟨hjn, hpathj1⟩
  · intro x y hnb hint
    by_cases hcs : carveSet (rooms.getD i default).center.1
        (rooms.getD i default).center.2 (rooms.getD j default).center.1
        (rooms.getD j default).center.2 1 b (x, y)
    · left
      have hreach : g'.ReachesI w h (x, y) (rooms.getD i default).center := by
        rw [hG]
        exact @carveSet_connects_any w h g hg (rooms.getD i default).center
          (rooms.getD j default).center hci hcj 1 (le_refl 1) b (x, y) hint hcs
      exact hreach.trans hpathi1
    · have hnbg : ¬ g.isBlocked x y := by
        intro hbl
        apply hnb
        unfold Grid.isBlocked at hbl ⊢
        rw [hG]
        unfold Grid.connectRooms
        rw [Grid.getTile_carveCorridor hg _ _ _ _ 1 b x y,
          if_neg (fun hcc => hcs hcc.1)]
        exact hbl
      rcases hcov x y hnbg hint with hl | ⟨jj, h1, h2, h3⟩
      · exact Or.inl (Grid.reachesI_mono hmono1 hl)
      · by_cases hjj : jj = j
        · subst hjj
          left
          have hr := room_connect hRj hwj hhj (fun c hc => hcells' _ hmj c hc) h3
          exact hr.trans hpathj1
        · right
          refine ⟨jj, h1, ?_, h3⟩
          intro hmem
          rcases List.mem_append.mp hmem with hm | hm
          · exact h2 hm
          · exact hjj (List.mem_singleton.mp hm)

theorem carveFold_inv {w h : Nat} {rooms : List Room} (o : RoomsOracle) (c₀ : Int × Int)
    (hrooms : ∀ r ∈ rooms, RoomIn w h r ∧ 1 ≤ r.width ∧ 1 ≤ r.height) :
    ∀ (conns : List (Nat × Nat)) (base : List Nat) (g : Grid) (k : Nat),
      g.Inv w h →
      ChainFrom rooms.length base conns →
      (∀ r ∈ rooms, ∀ c : Int × Int, inRoom r c → ¬ g.isBlocked c.1 c.2) →
      (∀ i ∈ base, i < rooms.length ∧
        g.ReachesI w h (rooms.getD i default).center c₀) →
      (∀ x y : Int, ¬ g.isBlocked x y → Interior w h (x, y) →
        g.ReachesI w h (x, y) c₀ ∨
        ∃ jj, jj < rooms.length ∧ jj ∉ base ∧ inRoom (rooms.getD jj default) (x, y)) →
      (conns.foldl (carveStep rooms o) (g, k)).1.Inv w h ∧
      (∀ r ∈ rooms, ∀ c : Int × Int, inRoom r c →
        ¬ (conns.foldl (carveStep rooms o) (g, k)).1.isBlocked c.1 c.2) ∧
      (∀ i ∈ base ++ conns.map (fun p => p.2), i < rooms.length ∧
        (conns.foldl (carveStep rooms o) (g, k)).1.ReachesI w h
          (rooms.getD i default).center c₀) ∧
      (∀ x y : Int, ¬ (conns.foldl (carveStep rooms o) (g, k)).1.isBlocked x y →
        Interior w h (x, y) →
        (conns.foldl (carveStep rooms o) (g, k)).1.ReachesI w h (x, y) c₀ ∨
        ∃ jj, jj < rooms.length ∧ jj ∉ base ++ conns.map (fun p => p.2) ∧
          inRoom (rooms.getD jj default) (x, y)) := by
  intro conns
  induction conns with
  | nil =>
    intro base g k hg hch hcells hconn hcov
    refine ⟨hg, hcells, ?_, ?_⟩
    · intro i hi
      exact hconn i (by simpa using hi)
    · intro x y hnb hint
      rcases hcov x y hnb hint with hl | ⟨jj, h1, h2, h3⟩
      · exact Or.inl hl
      · exact Or.inr ⟨jj, h1, by simpa using h2, h3⟩
  | cons p rest ih =>
    intro base g k hg hch hcells hconn hcov
    obtain ⟨i, j⟩ := p
    obtain ⟨⟨hibase, hin, hjn⟩, hch'⟩ := hch
    obtain ⟨hg1, hcells1, hconn1, hcov1⟩ :=
      carveFold_step hrooms hg (o.legOrder k) rfl hibase hin hjn hcells hconn hcov
    simp only [List.foldl_cons]
    have hstep : carveStep rooms o (g, k) (i, j) =
        (g.connectRooms (rooms.getD i default) (rooms.getD j default) (o.legOrder k),
          k + 1) := rfl
    rw [hstep]
    obtain ⟨ihInv, ihcells, ihconn, ihcov⟩ :=
      ih (base ++ [j]) _ (k + 1) hg1 hch' hcells1 hconn1 hcov1
    refine ⟨ihInv, ihcells, ?_, ?_⟩
    · intro i' hi'
      apply ihconn
      simp only [List.mem_append, List.map_cons, List.mem_cons, List.mem_singleton] at hi' ⊢
      tauto
    · intro x y hnb hint
      rcases ihcov x y hnb hint with hl | ⟨jj, h1, h2, h3⟩
      · exact Or.inl hl
      · refine Or.inr ⟨jj, h1, ?_, h3⟩
        intro hmem
        apply h2
        simp only [List.mem_append, List.map_cons, List.mem_cons, List.mem_singleton]
          at hmem ⊢
        tauto

set_option maxHeartbeats 1600000 in
/-- Connectivity of the rooms-and-corridors dungeon terrain: when the map
is at least 15 wide and 13 high (so every `randint` range of the placement
loop is non-degenerate), any two non-blocked cells of the finished grid
are mutually reachable through non-blocked cells. -/
theorem generateRoomsGrid_connected (w h : Nat) (o : RoomsOracle) (hw : 15 ≤ w)
    (hh : 13 ≤ h) (a b : Int × Int)
    (ha : ¬ (generateRoomsGrid w h o).isBlocked a.1 a.2)
    (hb : ¬ (generateRoomsGrid w h o).isBlocked b.1 b.2) :
    (generateRoomsGrid w h o).Reaches a b := by
  have hPA := placement_fold_inv w h o hw hh
  set st1 := (List.range (3 * (15 + o.targetDraw % 11))).foldl
      (fun (st : Grid × List Room) k =>
        if st.2.length < (15 + o.targetDraw % 11) then tryPlaceRoom st.1 st.2 k o else st)
      ((Grid.init w h).fillWalls, []) with hst1
  obtain ⟨hInv, hrooms, hcells, hcov⟩ := hPA
  have hEq : generateRoomsGrid w h o =
      (if 2 ≤ st1.2.length then
        ((extraLoopPairs st1.2.length (numExtraLoops (buildMST st1.2)) o.loopI o.loopJ).foldl
          (carveStep st1.2 o) ((buildMST st1.2).foldl (carveStep st1.2 o) (st1.1, 0))).1
      else st1.1).addBorderWalls := by
    rw [hst1]
    rfl
  rw [hEq] at ha hb ⊢
  by_cases hn2 : 2 ≤ st1.2.length
  · rw [if_pos hn2] at ha hb ⊢
    have hchain := (buildMST_spec hn2).1
    have hspan := (buildMST_spec hn2).2
    have hconn0 : ∀ i ∈ [0], i < st1.2.length ∧
        st1.1.ReachesI w h (st1.2.getD i default).center
          (st1.2.getD 0 default).center := by
      intro i hi
      rw [List.mem_singleton.mp hi]
      exact ⟨by omega, Relation.ReflTransGen.refl⟩
    have hcov0 : ∀ x y : Int, ¬ st1.1.isBlocked x y → Interior w h (x, y) →
        st1.1.ReachesI w h (x, y) (st1.2.getD 0 default).center ∨
        ∃ jj, jj < st1.2.length ∧ jj ∉ [0] ∧
          inRoom (st1.2.getD jj default) (x, y) := by
      intro x y hnb hint
      obtain ⟨r, hmem, hin⟩ := hcov x y hnb
      obtain ⟨jj, hjj, hget⟩ := List.getElem_of_mem hmem
      have hgetD : st1.2.getD jj default = r := by
        rw [List.getD_eq_getElem st1.2 default hjj]
        exact hget
      by_cases hjj0 : jj = 0
      · left
        subst hjj0
        obtain ⟨hR, hw1, hh1⟩ := hrooms r hmem
        rw [hgetD]
        exact room_connect hR hw1 hh1 (fun c hc => hcells r hmem c hc) hin
      · right
        refine ⟨jj, hjj, by simp [hjj0], ?_⟩
        rw [hgetD]
        exact hin
    obtain ⟨hMInv, hMcells, hMconn, hMcov⟩ :=
      carveFold_inv o (st1.2.getD 0 default).center hrooms (buildMST st1.2) [0] st1.1 0
        hInv hchain hcells hconn0 hcov0
    have hMcovAll : ∀ x y : Int,
        ¬ ((buildMST st1.2).foldl (carveStep st1.2 o) (st1.1, 0)).1.isBlocked x y →
        Interior w h (x, y) →
        ((buildMST st1.2).foldl (carveStep st1.2 o) (st1.1, 0)).1.ReachesI w h (x, y)
          (st1.2.getD 0 default).center := by
      intro x y hnb hint
      rcases hMcov x y hnb hint with hl | ⟨jj, h1, h2, h3⟩
      · exact hl
      · exfalso
        apply h2
        simpa using hspan jj h1
    have hspan' : ∀ jj, jj < st1.2.length →
        jj ∈ [0] ++ (buildMST st1.2).map (fun p => p.2) := by
      intro jj hjj
      simpa using hspan jj hjj
    have hchain2 : ChainFrom st1.2.length ([0] ++ (buildMST st1.2).map (fun p => p.2))
        (extraLoopPairs st1.2.length (numExtraLoops (buildMST st1.2)) o.loopI o.loopJ) :=
      chainFrom_of_covers _ _ hspan' (extraLoopPairs_lt (by omega) o.loopI o.loopJ)
    have hcov2 : ∀ x y : Int,
        ¬ ((buildMST st1.2).foldl (carveStep st1.2 o) (st1.1, 0)).1.isBlocked x y →
        Interior w h (x, y) →
        ((buildMST st1.2).foldl (carveStep st1.2 o) (st1.1, 0)).1.ReachesI w h (x, y)
          (st1.2.getD 0 default).center ∨
        ∃ jj, jj < st1.2.length ∧
          jj ∉ [0] ++ (buildMST st1.2).map (fun p => p.2) ∧
          inRoom (st1.2.getD jj default) (x, y) :=
      fun x y hnb hint => Or.inl (hMcovAll x y hnb hint)
    obtain ⟨hEInv, hEcells, hEconn, hEcov⟩ :=
      carveFold_inv o (st1.2.getD 0 default).center hrooms
        (extraLoopPairs st1.2.length (numExtraLoops (buildMST st1.2)) o.loopI o.loopJ)
        ([0] ++ (buildMST st1.2).map (fun p => p.2))
        ((buildMST st1.2).foldl (carveStep st1.2 o) (st1.1, 0)).1
        ((buildMST st1.2).foldl (carveStep st1.2 o) (st1.1, 0)).2
        hMInv hchain2 hMcells hMconn hcov2
    rw [Prod.mk.eta] at hEInv hEcells hEconn hEcov
    have hEcovAll : ∀ x y : Int,
        ¬ ((extraLoopPairs st1.2.length (numExtraLoops (buildMST st1.2)) o.loopI
            o.loopJ).foldl (carveStep st1.2 o)
          ((buildMST st1.2).foldl (carveStep st1.2 o) (st1.1, 0))).1.isBlocked x y →
        Interior w h (x, y) →
        ((extraLoopPairs st1.2.length (numExtraLoops (buildMST st1.2)) o.loopI
            o.loopJ).foldl (carveStep st1.2 o)
          ((buildMST st1.2).foldl (carveStep st1.2 o) (st1.1, 0))).1.ReachesI w h (x, y)
          (st1.2.getD 0 default).center := by
      intro x y hnb hint
      rcases hEcov x y hnb hint with hl | ⟨jj, h1, h2, h3⟩
      · exact hl
      · exact absurd (List.mem_append_left _ (hspan' jj h1)) h2
    obtain ⟨hia, hnba⟩ := Grid.addBorderWalls_nonblocked hEInv ha
    obtain ⟨hib, hnbb⟩ := Grid.addBorderWalls_nonblocked hEInv hb
    have hpa := hEcovAll a.1 a.2 hnba hia
    have hpb := hEcovAll b.1 b.2 hnbb hib
    have hpb' := Grid.reachesI_symm hnbb hib hpb
    have hpath := hpa.trans hpb'
    have hpath2 := Grid.reachesI_addBorderWalls hEInv hpath
    have hfin := Grid.reachesI_to_reaches hpath2
    simpa using hfin
  · rw [if_neg hn2] at ha hb ⊢
    obtain ⟨hia, hnba⟩ := Grid.addBorderWalls_nonblocked hInv ha
    obtain ⟨hib, hnbb⟩ := Grid.addBorderWalls_nonblocked hInv hb
    obtain ⟨ra, hmema, hina⟩ := hcov a.1 a.2 hnba
    obtain ⟨rb, hmemb, hinb⟩ := hcov b.1 b.2 hnbb
    have hrarb : ra = rb := length_le_one_mem_eq (by omega) ra hmema rb hmemb
    obtain ⟨hRa, hwa, hha⟩ := hrooms ra hmema
    obtain ⟨hRb, hwb, hhb⟩ := hrooms rb hmemb
    have hpa : st1.1.ReachesI w h (a.1, a.2) ra.center :=
      room_connect hRa hwa hha (fun c hc => hcells ra hmema c hc) hina
    have hpb : st1.1.ReachesI w h (b.1, b.2) rb.center :=
      room_connect hRb hwb hhb (fun c hc => hcells rb hmemb c hc) hinb
    have hpb' : st1.1.ReachesI w h rb.center (b.1, b.2) :=
      Grid.reachesI_symm hnbb hib hpb
    have hpath : st1.1.ReachesI w h (a.1, a.2) (b.1, b.2) := by
      rw [hrarb] at hpa
      exact hpa.trans hpb'
    have hpath2 := Grid.reachesI_addBorderWalls hInv hpath
    have hfin := Grid.reachesI_to_reaches hpath2
    simpa using hfin

/-- The leaves of a BSP tree paired with their oracle paths, in left-to-
right order (the traversal order of `create_rooms_in_leaves`). -/
def BSPTree.leavesP : BSPTree → List Bool → List ((Int × Int × Int × Int) × List Bool)
  | .leaf x y wd ht, path => [((x, y, wd, ht), path)]
  | .node _ _ _ _ l r, path => l.leavesP (path ++ [false]) ++ r.leavesP (path ++ [true])

/-- The room carved for one leaf entry. -/
def leafEntryRoom (o : BSPOracle) (e : (Int × Int × Int × Int) × List Bool) : Room :=
  leafRoom e.1.1 e.1.2.1 e.1.2.2.1 e.1.2.2.2 e.2 o

/-- Containment and size bounds for the leaf rectangles of `split_tree`:
every leaf stays in the root rectangle and keeps each dimension at least
`min(min_size, root dimension)`. -/
theorem splitTree_leavesP_sub (fuel : Nat) :
    ∀ (x y wd ht minSize : Int) (path : List Bool) (o : BSPOracle), 0 < minSize →
      ∀ e ∈ (splitTree fuel x y wd ht minSize path o).leavesP path,
        x ≤ e.1.1 ∧ y ≤ e.1.2.1 ∧
        e.1.1 + e.1.2.2.1 ≤ x + wd ∧ e.1.2.1 + e.1.2.2.2 ≤ y + ht ∧
        min minSize wd ≤ e.1.2.2.1 ∧ min minSize ht ≤ e.1.2.2.2 := by
  induction fuel with
  | zero =>
    intro x y wd ht m p o hm e he
    unfold splitTree BSPTree.leavesP at he
    rw [List.mem_singleton] at he
    rw [he]
    refine ⟨le_refl x, le_refl y, le_refl _, le_refl _, min_le_right _ _, min_le_right _ _⟩
  | succ n ih =>
    intro x y wd ht m p o hm e he
    unfold splitTree at he
    rcases hguard : decide (wd < m * 2 ∧ ht < m * 2) with hd | hd
    all_goals rw [splitNode] at he
    · rw [if_neg (of_decide_eq_false hguard)] at he
      have hnand := of_decide_eq_false hguard
      by_cases hdir : (if wd < m * 2 then true
          else if ht < m * 2 then false else o.dirChoice p) = true
      · rw [if_pos hdir] at he
        have hh2m : m * 2 ≤ ht := by
          by_cases hw2 : wd < m * 2
          · omega
          · by_cases hh2 : ht < m * 2
            · rw [if_neg hw2, if_pos hh2] at hdir
              exact absurd hdir (by simp)
            · omega
        have hpos := randint_mem (show m ≤ ht - m by omega) (o.splitDraw p)
        unfold BSPTree.leavesP at he
        rcases List.mem_append.mp he with hcl | hcr
        · obtain ⟨p1, p2, p3, p4, p5, p6⟩ := ih x y wd (randint m (ht - m) (o.splitDraw p))
            m (p ++ [false]) o hm e hcl
          refine ⟨p1, p2, p3, by omega, p5, by omega⟩
        · obtain ⟨p1, p2, p3, p4, p5, p6⟩ := ih x (y + randint m (ht - m) (o.splitDraw p))
            wd (ht - randint m (ht - m) (o.splitDraw p)) m (p ++ [true]) o hm e hcr
          refine ⟨p1, by omega, p3, by omega, p5, by omega⟩
      · rw [if_neg hdir] at he
        have hw2m : m * 2 ≤ wd := by
          by_cases hw2 : wd < m * 2
          · rw [if_pos hw2] at hdir
            exact absurd rfl hdir
          · omega
        have hpos := randint_mem (show m ≤ wd - m by omega) (o.splitDraw p)
        unfold BSPTree.leavesP at he
        rcases List.mem_append.mp he with hcl | hcr
        · obtain ⟨p1, p2, p3, p4, p5, p6⟩ := ih x y (randint m (wd - m) (o.splitDraw p)) ht
            m (p ++ [false]) o hm e hcl
          refine ⟨p1, p2, by omega, p4, by omega, p6⟩
        · obtain ⟨p1, p2, p3, p4, p5, p6⟩ := ih (x + randint m (wd - m) (o.splitDraw p)) y
            (wd - randint m (wd - m) (o.splitDraw p)) ht m (p ++ [true]) o hm e hcr
          refine ⟨by omega, p2, by omega, p4, by omega, p6⟩
    · rw [if_pos (of_decide_eq_true hguard)] at he
      unfold BSPTree.leavesP at he
      rw [List.mem_singleton] at he
      rw [he]
      refine ⟨le_refl x, le_refl y, le_refl _, le_refl _, min_le_right _ _, min_le_right _ _⟩

/-- Interiority of a leaf's room and of its center: the room fits in the
leaf rectangle shrunk by one cell on the right and bottom, and the center
is strictly interior even when the drawn room dimensions are zero. -/
theorem leafRoom_in {w h : Nat} {lx ly lw lh : Int} (path : List Bool) (o : BSPOracle)
    (h1 : 1 ≤ lx) (h2 : 1 ≤ ly) (h3 : lx + lw ≤ (w : Int) - 1)
    (h4 : ly + lh ≤ (h : Int) - 1) (h5 : 1 ≤ lw) (h6 : 1 ≤ lh) :
    RoomIn w h (leafRoom lx ly lw lh path o) ∧
    Interior w h (leafRoom lx ly lw lh path o).center := by
  have e1 := Int.ediv_add_emod (lw * 6) 10
  have e1a := Int.emod_nonneg (lw * 6) (by norm_num : (10 : Int) ≠ 0)
  have e1b := Int.emod_lt_of_pos (lw * 6) (by norm_num : (0 : Int) < 10)
  have e2 := Int.ediv_add_emod (lw * 9) 10
  have e2a := Int.emod_nonneg (lw * 9) (by norm_num : (10 : Int) ≠ 0)
  have e2b := Int.emod_lt_of_pos (lw * 9) (by norm_num : (0 : Int) < 10)
  have f1 := Int.ediv_add_emod (lh * 6) 10
  have f1a := Int.emod_nonneg (lh * 6) (by norm_num : (10 : Int) ≠ 0)
  have f1b := Int.emod_lt_of_pos (lh * 6) (by norm_num : (0 : Int) < 10)
  have f2 := Int.ediv_add_emod (lh * 9) 10
  have f2a := Int.emod_nonneg (lh * 9) (by norm_num : (10 : Int) ≠ 0)
  have f2b := Int.emod_lt_of_pos (lh * 9) (by norm_num : (0 : Int) < 10)
  have hA : int06 lw ≤ int09 lw := by
    unfold int06 int09
    omega
  have hA' : int06 lh ≤ int09 lh := by
    unfold int06 int09
    omega
  have hrw := randint_mem hA (o.roomW path)
  have hrh := randint_mem hA' (o.roomH path)
  unfold int06 int09 at hrw hrh
  unfold leafRoom int06 int09
  dsimp only
  rw [Int.fdiv_eq_ediv _ (by norm_num), Int.fdiv_eq_ediv _ (by norm_num)]
  obtain ⟨d1a, d1b, -⟩ := ediv2_facts (lw - randint (lw * 6 / 10) (lw * 9 / 10) (o.roomW path))
  obtain ⟨d2a, d2b, -⟩ := ediv2_facts (lh - randint (lh * 6 / 10) (lh * 9 / 10) (o.roomH path))
  obtain ⟨d3a, d3b, -⟩ := ediv2_facts (randint (lw * 6 / 10) (lw * 9 / 10) (o.roomW path))
  obtain ⟨d4a, d4b, -⟩ := ediv2_facts (randint (lh * 6 / 10) (lh * 9 / 10) (o.roomH path))
  constructor
  · unfold RoomIn
    dsimp only
    refine ⟨by omega, by omega, by omega, by omega, by omega, by omega⟩
  · unfold Interior Room.center
    dsimp only
    refine ⟨by omega, by omega, by omega, by omega⟩

theorem carveSet_endpoints {x1 y1 x2 y2 : Int} {cw : Nat} (hcw : 1 ≤ cw) (b : Bool) :
    carveSet x1 y1 x2 y2 cw b (x1, y1) ∧ carveSet x1 y1 x2 y2 cw b (x2, y2) := by
  unfold carveSet legH legV
  cases b with
  | false =>
    refine ⟨Or.inl ?_, Or.inr ?_⟩ <;> dsimp only <;> omega
  | true =>
    refine ⟨Or.inl ?_, Or.inr ?_⟩ <;> dsimp only <;> omega

theorem getRoomFromTree_mem (o : BSPOracle) (t : BSPTree) :
    ∀ (path : List Bool), ∃ e ∈ t.leavesP path,
      getRoomFromTree t path o = leafEntryRoom o e := by
  induction t with
  | leaf x y wd ht =>
    intro path
    exact ⟨((x, y, wd, ht), path), List.mem_singleton.mpr rfl, rfl⟩
  | node x y wd ht l r ihl ihr =>
    intro path
    obtain ⟨e, he, heq⟩ := ihl (path ++ [false])
    exact ⟨e, List.mem_append_left _ he, heq⟩

theorem guarded_setTile_eq {w h : Nat} {g2 : Grid} (hg : g2.Inv w h) (xx yy : Int) :
    (if 0 ≤ xx ∧ xx < (w : Int) ∧ 0 ≤ yy ∧ yy < (h : Int)
      then g2.setTile xx yy "floor" else g2) = g2.setTile xx yy "floor" := by
  split
  · rfl
  · rename_i hng
    have hnin : ¬ g2.inBounds xx yy := by
      unfold Grid.inBounds
      rw [hg.2.1, hg.2.2]
      exact hng
    unfold Grid.setTile
    rw [if_neg hnin]

theorem guardedRows_eq {w h : Nat} :
    ∀ (ys : List Int) (xs : List Int) (g : Grid), g.Inv w h →
      ys.foldl (fun gr yy => xs.foldl (fun g2 xx =>
        if 0 ≤ xx ∧ xx < (w : Int) ∧ 0 ≤ yy ∧ yy < (h : Int)
        then g2.setTile xx yy "floor" else g2) gr) g =
      ys.foldl (fun gr yy => xs.foldl (fun g2 xx => g2.setTile xx yy "floor") gr) g := by
  intro ys
  induction ys with
  | nil =>
    intro xs g hg
    rfl
  | cons yy yt ihy =>
    intro xs g hg
    simp only [List.foldl_cons]
    have hrow : ∀ (xs' : List Int) (g2 : Grid), g2.Inv w h →
        xs'.foldl (fun g2 xx => if 0 ≤ xx ∧ xx < (w : Int) ∧ 0 ≤ yy ∧ yy < (h : Int)
          then g2.setTile xx yy "floor" else g2) g2 =
        xs'.foldl (fun g2 xx => g2.setTile xx yy "floor") g2 ∧
        (xs'.foldl (fun g2 xx => g2.setTile xx yy "floor") g2).Inv w h := by
      intro xs'
      induction xs' with
      | nil =>
        intro g2 hg2
        exact ⟨rfl, hg2⟩
      | cons xx xt ihx =>
        intro g2 hg2
        simp only [List.foldl_cons]
        rw [guarded_setTile_eq hg2 xx yy]
        exact ihx _ (hg2.setTile _ _ _)
    obtain ⟨hrow1, hrow2⟩ := hrow xs g hg
    rw [hrow1]
    exact ihy xs _ hrow2

theorem cRIL_leaf_eq_createRoom {w h : Nat} {g : Grid} (hg : g.Inv w h)
    (x y wd ht : Int) (path : List Bool) (o : BSPOracle) :
    createRoomsInLeaves w h g (.leaf x y wd ht) path o =
      g.createRoom (leafRoom x y wd ht path o) := by
  unfold createRoomsInLeaves Grid.createRoom
  exact guardedRows_eq _ _ g hg

theorem cRIL_spec {w h : Nat} (o : BSPOracle) (t : BSPTree) :
    ∀ (g : Grid) (path : List Bool), g.Inv w h →
      (createRoomsInLeaves w h g t path o).Inv w h ∧
      OnlyFloorWrites g (createRoomsInLeaves w h g t path o) ∧
      (∀ x y : Int, ¬ (createRoomsInLeaves w h g t path o).isBlocked x y →
        ¬ g.isBlocked x y ∨
        ∃ e ∈ t.leavesP path, inRoom (leafEntryRoom o e) (x, y)) ∧
      (∀ e ∈ t.leavesP path, ∀ c : Int × Int, inRoom (leafEntryRoom o e) c →
        0 ≤ c.1 ∧ c.1 < (w : Int) ∧ 0 ≤ c.2 ∧ c.2 < (h : Int) →
        ¬ (createRoomsInLeaves w h g t path o).isBlocked c.1 c.2) := by
  induction t with
  | leaf x y wd ht =>
    intro g path hg
    rw [cRIL_leaf_eq_createRoom hg x y wd ht path o]
    have hchar := getTile_createRoom hg (leafRoom x y wd ht path o)
    refine ⟨Grid.Inv_createRoom hg _, ?_, ?_, ?_⟩
    · intro xx yy
      rw [hchar xx yy]
      split
      · exact Or.inl rfl
      · exact Or.inr rfl
    · intro xx yy hnb
      unfold Grid.isBlocked at hnb
      rw [hchar xx yy] at hnb
      by_cases hcase : inRoom (leafRoom x y wd ht path o) (xx, yy) ∧ g.inBounds xx yy
      · exact Or.inr ⟨((x, y, wd, ht), path), List.mem_singleton.mpr rfl, hcase.1⟩
      · rw [if_neg hcase] at hnb
        exact Or.inl hnb
    · intro e he c hc hbounds
      have he' : e = ((x, y, wd, ht), path) := List.mem_singleton.mp he
      subst he'
      apply Grid.not_blocked_of_floor
      obtain ⟨cx, cy⟩ := c
      rw [hchar cx cy]
      rw [if_pos]
      refine ⟨hc, ?_⟩
      unfold Grid.inBounds
      rw [hg.2.1, hg.2.2]
      exact hbounds
  | node x y wd ht l r ihl ihr =>
    intro g path hg
    obtain ⟨hInvL, hofwL, hcovL, hcellsL⟩ := ihl g (path ++ [false]) hg
    obtain ⟨hInvR, hofwR, hcovR, hcellsR⟩ :=
      ihr (createRoomsInLeaves w h g l (path ++ [false]) o) (path ++ [true]) hInvL
    refine ⟨hInvR, OnlyFloorWrites.comp hofwL hofwR, ?_, ?_⟩
    · intro xx yy hnb
      rcases hcovR xx yy hnb with hnb1 | ⟨e, he, hin⟩
      · rcases hcovL xx yy hnb1 with hnb0 | ⟨e, he, hin⟩
        · exact Or.inl hnb0
        · exact Or.inr ⟨e, List.mem_append_left _ he, hin⟩
      · exact Or.inr ⟨e, List.mem_append_right _ he, hin⟩
    · intro e he c hc hbounds
      rcases List.mem_append.mp he with hel | her
      · exact Grid.not_blocked_of_onlyFloorWrites hofwR _ _ (hcellsL e hel c hc hbounds)
      · exact hcellsR e her c hc hbounds

theorem connectSiblings_node (g : Grid) (x y wd ht : Int) (l r : BSPTree)
    (path : List Bool) (o : BSPOracle) :
    connectSiblings g (.node x y wd ht l r) path o =
      connectSiblings (connectSiblings
        (g.carveCorridor (getRoomFromTree l (path ++ [false]) o).center.1
          (getRoomFromTree l (path ++ [false]) o).center.2
          (getRoomFromTree r (path ++ [true]) o).center.1
          (getRoomFromTree r (path ++ [true]) o).center.2
          (randint 1 2 (o.corrW path)).toNat (o.legOrder path))
        l (path ++ [false]) o) r (path ++ [true]) o := rfl

theorem getRoomFromTree_node (x y wd ht : Int) (l r : BSPTree) (path : List Bool)
    (o : BSPOracle) :
    getRoomFromTree (.node x y wd ht l r) path o =
      getRoomFromTree l (path ++ [false]) o := rfl

theorem siblingCarve_step {w h : Nat} {g g' : Grid} (hg : g.Inv w h)
    {p q : Int × Int} {cw : Nat} (hcw : 1 ≤ cw) (b : Bool)
    (hG : g' = g.carveCorridor p.1 p.2 q.1 q.2 cw b)
    (hip : Interior w h p) (hiq : Interior w h q) :
    g'.Inv w h ∧
    (∀ x y : Int, ¬ g.isBlocked x y → ¬ g'.isBlocked x y) ∧
    g'.ReachesI w h p q ∧
    ¬ g'.isBlocked p.1 p.2 ∧ ¬ g'.isBlocked q.1 q.2 ∧
    (∀ x y : Int, ¬ g'.isBlocked x y → Interior w h (x, y) →
      ¬ g.isBlocked x y ∨ g'.ReachesI w h (x, y) p) := by
  subst hG
  have hof := Grid.onlyFloorWrites_carveCorridor hg p.1 p.2 q.1 q.2 cw b
  have hmono : ∀ x y : Int, ¬ g.isBlocked x y →
      ¬ (g.carveCorridor p.1 p.2 q.1 q.2 cw b).isBlocked x y :=
    fun x y => Grid.not_blocked_of_onlyFloorWrites hof x y
  have hInv : (g.carveCorridor p.1 p.2 q.1 q.2 cw b).Inv w h :=
    Grid.Inv_carveCorridor hg _ _ _ _ _ _
  have hends := @carveSet_endpoints p.1 p.2 q.1 q.2 cw hcw b
  have hnip : ¬ (g.carveCorridor p.1 p.2 q.1 q.2 cw b).isBlocked p.1 p.2 := by
    apply Grid.not_blocked_of_floor
    rw [Grid.getTile_carveCorridor hg p.1 p.2 q.1 q.2 cw b p.1 p.2]
    rw [if_pos ⟨hends.1, Interior.inBounds hg.2.1 hg.2.2 hip⟩]
  have hniq : ¬ (g.carveCorridor p.1 p.2 q.1 q.2 cw b).isBlocked q.1 q.2 := by
    apply Grid.not_blocked_of_floor
    rw [Grid.getTile_carveCorridor hg p.1 p.2 q.1 q.2 cw b q.1 q.2]
    rw [if_pos ⟨hends.2, Interior.inBounds hg.2.1 hg.2.2 hiq⟩]
  have hcorr : (g.carveCorridor p.1 p.2 q.1 q.2 cw b).ReachesI w h p q :=
    @Grid.reachesI_carveCorridor w h g hg p q cw hcw b hip hiq
  refine ⟨hInv, hmono, hcorr, hnip, hniq, ?_⟩
  intro xx yy hnb hint
  by_cases hcs : carveSet p.1 p.2 q.1 q.2 cw b (xx, yy)
  · exact Or.inr (@carveSet_connects_any w h g hg p q hip hiq cw hcw b (xx, yy) hint hcs)
  · left
    intro hbl
    apply hnb
    unfold Grid.isBlocked at hbl ⊢
    rw [Grid.getTile_carveCorridor hg p.1 p.2 q.1 q.2 cw b xx yy,
      if_neg (fun hcc => hcs hcc.1)]
    exact hbl

theorem connectSiblings_spec {w h : Nat} (o : BSPOracle) (t : BSPTree) :
    ∀ (g : Grid) (path : List Bool),
      g.Inv w h →
      (∀ e ∈ t.leavesP path, RoomIn w h (leafEntryRoom o e) ∧
        Interior w h (leafEntryRoom o e).center) →
      (∀ e ∈ t.leavesP path, ∀ c : Int × Int, inRoom (leafEntryRoom o e) c →
        ¬ g.isBlocked c.1 c.2) →
      (connectSiblings g t path o).Inv w h ∧
      (∀ x y : Int, ¬ g.isBlocked x y → ¬ (connectSiblings g t path o).isBlocked x y) ∧
      (∀ x y : Int, ¬ (connectSiblings g t path o).isBlocked x y → Interior w h (x, y) →
        ¬ g.isBlocked x y ∨ (connectSiblings g t path o).ReachesI w h (x, y)
          (getRoomFromTree t path o).center) ∧
      (∀ e ∈ t.leavesP path, ∀ c : Int × Int, inRoom (leafEntryRoom o e) c →
        (connectSiblings g t path o).ReachesI w h c
          (getRoomFromTree t path o).center) := by
  induction t with
  | leaf x y wd ht =>
    intro g path hg hleaf hcells
    refine ⟨hg, fun xx yy hnb => hnb, fun xx yy hnb _ => Or.inl hnb, ?_⟩
    intro e he c hc
    obtain ⟨hR, hcint⟩ := hleaf e he
    have he' : e = ((x, y, wd, ht), path) := List.mem_singleton.mp he
    subst he'
    by_cases hw1 : 1 ≤ (leafEntryRoom o ((x, y, wd, ht), path)).width
    · by_cases hh1 : 1 ≤ (leafEntryRoom o ((x, y, wd, ht), path)).height
      · exact room_connect hR hw1 hh1
          (fun c' hc' => hcells _ (List.mem_singleton.mpr rfl) c' hc') hc
      · exfalso
        obtain ⟨q1, q2, q3, q4⟩ := hc
        have h6 := hR.2.2.2.2.2
        omega
    · exfalso
      obtain ⟨q1, q2, q3, q4⟩ := hc
      have h5 := hR.2.2.2.2.1
      omega
  | node x y wd ht l r ihl ihr =>
    intro g path hg hleaf hcells
    rw [connectSiblings_node, getRoomFromTree_node]
    have hcw : 1 ≤ (randint 1 2 (o.corrW path)).toNat := by
      have hr12 := randint_mem (by norm_num : (1 : Int) ≤ 2) (o.corrW path)
      omega
    obtain ⟨el, hel, heql⟩ := getRoomFromTree_mem o l (path ++ [false])
    obtain ⟨er, her, heqr⟩ := getRoomFromTree_mem o r (path ++ [true])
    obtain ⟨hRl, hcintl⟩ := hleaf el (List.mem_append_left _ hel)
    obtain ⟨hRr, hcintr⟩ := hleaf er (List.mem_append_right _ her)
    have hcintL : Interior w h (getRoomFromTree l (path ++ [false]) o).center := by
      rw [heql]
      exact hcintl
    have hcintR : Interior w h (getRoomFromTree r (path ++ [true]) o).center := by
      rw [heqr]
      exact hcintr
    obtain ⟨hI1, hm1, hcorr1, hnbl1, hnbr1, hcov1⟩ :=
      siblingCarve_step hg hcw (o.legOrder path) rfl hcintL hcintR
    obtain ⟨hI2, hm2, hnew2, hreach2⟩ :=
      ihl _ (path ++ [false]) hI1
        (fun e he => hleaf e (List.mem_append_left _ he))
        (fun e he c hc => hm1 _ _ (hcells e (List.mem_append_left _ he) c hc))
    obtain ⟨hI3, hm3, hnew3, hreach3⟩ :=
      ihr _ (path ++ [true]) hI2
        (fun e he => hleaf e (List.mem_append_right _ he))
        (fun e he c hc =>
          hm2 _ _ (hm1 _ _ (hcells e (List.mem_append_right _ he) c hc)))
    have hsym1 := Grid.reachesI_symm hnbl1 hcintL hcorr1
    have hlink := Grid.reachesI_mono hm3 (Grid.reachesI_mono hm2 hsym1)
    refine ⟨hI3, ?_, ?_, ?_⟩
    · intro xx yy hnb
      exact hm3 _ _ (hm2 _ _ (hm1 _ _ hnb))
    · intro xx yy hnbF hint
      rcases hnew3 xx yy hnbF hint with hnb2 | hreachR
      · rcases hnew2 xx yy hnb2 hint with hnb1 | hreachL
        · rcases hcov1 xx yy hnb1 hint with hnbg | hreachC
          · exact Or.inl hnbg
          · exact Or.inr (Grid.reachesI_mono hm3 (Grid.reachesI_mono hm2 hreachC))
        · exact Or.inr (Grid.reachesI_mono hm3 hreachL)
      · exact Or.inr (hreachR.trans hlink)
    · intro e he c hc
      rcases List.mem_append.mp he with helm | herm
      · exact Grid.reachesI_mono hm3 (hreach2 e helm c hc)
      · exact (hreach3 e herm c hc).trans hlink

set_option maxHeartbeats 800000 in
/-- Connectivity of the BSP dungeon terrain: when the map is at least 3
wide and 3 high (so every leaf room center is strictly interior), any two
non-blocked cells of the finished grid are mutually reachable through
non-blocked cells. -/
theorem generateBSPGrid_connected (w h : Nat) (o : BSPOracle) (hw : 3 ≤ w) (hh : 3 ≤ h)
    (a b : Int × Int)
    (ha : ¬ (generateBSPGrid w h o).isBlocked a.1 a.2)
    (hb : ¬ (generateBSPGrid w h o).isBlocked b.1 b.2) :
    (generateBSPGrid w h o).Reaches a b := by
  have hg0 : ((Grid.init w h).fillWalls).Inv w h := Grid.Inv_fillWalls (Grid.Inv_init w h)
  have hEq : generateBSPGrid w h o =
      (connectSiblings
        (createRoomsInLeaves w h ((Grid.init w h).fillWalls)
          (splitTree 4 1 1 ((w : Int) - 2) ((h : Int) - 2) 8 [] o) [] o)
        (splitTree 4 1 1 ((w : Int) - 2) ((h : Int) - 2) 8 [] o) [] o).addBorderWalls := rfl
  rw [hEq] at ha hb ⊢
  have hleaf : ∀ e ∈ (splitTree 4 1 1 ((w : Int) - 2) ((h : Int) - 2) 8 [] o).leavesP [],
      RoomIn w h (leafEntryRoom o e) ∧ Interior w h (leafEntryRoom o e).center := by
    intro e he
    obtain ⟨p1, p2, p3, p4, p5, p6⟩ :=
      splitTree_leavesP_sub 4 1 1 ((w : Int) - 2) ((h : Int) - 2) 8 [] o (by norm_num) e he
    exact leafRoom_in e.2 o p1 p2 (by omega) (by omega) (by omega) (by omega)
  obtain ⟨hInv1, hofw1, hcov1, hcells1⟩ :=
    cRIL_spec o (splitTree 4 1 1 ((w : Int) - 2) ((h : Int) - 2) 8 [] o)
      ((Grid.init w h).fillWalls) [] hg0
  have hcells1' : ∀ e ∈ (splitTree 4 1 1 ((w : Int) - 2) ((h : Int) - 2) 8 [] o).leavesP [],
      ∀ c : Int × Int, inRoom (leafEntryRoom o e) c →
      ¬ (createRoomsInLeaves w h ((Grid.init w h).fillWalls)
        (splitTree 4 1 1 ((w : Int) - 2) ((h : Int) - 2) 8 [] o) [] o).isBlocked c.1 c.2 := by
    intro e he c hc
    obtain ⟨hR, -⟩ := hleaf e he
    obtain ⟨i1, i2, i3, i4⟩ := hR.cell_interior hc
    exact hcells1 e he c hc ⟨by omega, by omega, by omega, by omega⟩
  obtain ⟨hInv2, hmono2, hnew2, hcreach2⟩ :=
    connectSiblings_spec o (splitTree 4 1 1 ((w : Int) - 2) ((h : Int) - 2) 8 [] o)
      (createRoomsInLeaves w h ((Grid.init w h).fillWalls)
        (splitTree 4 1 1 ((w : Int) - 2) ((h : Int) - 2) 8 [] o) [] o) []
      hInv1 hleaf hcells1'
  have hcovAll : ∀ x y : Int,
      ¬ (connectSiblings
        (createRoomsInLeaves w h ((Grid.init w h).fillWalls)
          (splitTree 4 1 1 ((w : Int) - 2) ((h : Int) - 2) 8 [] o) [] o)
        (splitTree 4 1 1 ((w : Int) - 2) ((h : Int) - 2) 8 [] o) [] o).isBlocked x y →
      Interior w h (x, y) →
      (connectSiblings
        (createRoomsInLeaves w h ((Grid.init w h).fillWalls)
          (splitTree 4 1 1 ((w : Int) - 2) ((h : Int) - 2) 8 [] o) [] o)
        (splitTree 4 1 1 ((w : Int) - 2) ((h : Int) - 2) 8 [] o) [] o).ReachesI w h (x, y)
        (getRoomFromTree (splitTree 4 1 1 ((w : Int) - 2) ((h : Int) - 2) 8 [] o)
          [] o).center := by
    intro x y hnb hint
    rcases hnew2 x y hnb hint with hnb1 | hreach
    · rcases hcov1 x y hnb1 with hnb0 | ⟨e, he, hin⟩
      · exfalso
        apply hnb0
        unfold Grid.isBlocked
        rw [Grid.getTile_fillWalls (Grid.Inv_init w h) x y]
        simp
      · exact hcreach2 e he (x, y) hin
    · exact hreach
  obtain ⟨hia, hnba⟩ := Grid.addBorderWalls_nonblocked hInv2 ha
  obtain ⟨hib, hnbb⟩ := Grid.addBorderWalls_nonblocked hInv2 hb
  have hpa := hcovAll a.1 a.2 hnba hia
  have hpb := hcovAll b.1 b.2 hnbb hib
  have hpb' := Grid.reachesI_symm hnbb hib hpb
  have hpath := hpa.trans hpb'
  have hpath2 := Grid.reachesI_addBorderWalls hInv2 hpath
  have hfin := Grid.reachesI_to_reaches hpath2
  simpa using hfin

/-- With every grass draw failing, `add_grass_patches` leaves the grid
unchanged. -/
theorem addGrassPatches_noop (g : Grid) :
    addGrassPatches g (fun _ => false) (fun _ => false) = g := by
  unfold addGrassPatches
  apply foldl_fixed
  intro gr y
  apply foldl_fixed
  intro g2 x
  dsimp only
  split
  · split
    · simp
    · simp
  · rfl

/-- Oracle draws realizing the forest counterexample run on a 30x30 map:
eight clusters that never spread, the first four placing single trees at
(6, 7), (8, 7), (7, 6) and (7, 8) around the floor cell (7, 7), the last
four never placing; two identical radius-2 ponds at (15, 15); no stream;
two identical radius-5 clearings at (15, 15) that rewrite only floor
cells; no grass. -/
def forestCExOracle : ForestOracle where
  numClustersD := 0
  clusterSeedX := fun k => if k = 0 then 1 else if k = 1 then 3 else 2
  clusterSeedY := fun k => if k = 0 then 2 else if k = 1 then 2
    else if k = 2 then 1 else 3
  clusterItersD := fun _ => 0
  spreadBit := fun _ _ _ _ => false
  placeBit := fun k _ => decide (k < 4)
  numPondsD := 0
  pondCX := fun _ => 5
  pondCY := fun _ => 5
  pondR := fun _ => 0
  pondVar := fun _ _ => 0
  streamBit := false
  streamHoriz := false
  streamD1 := 0
  streamD2 := 0
  streamD3 := 0
  streamD4 := 0
  streamBias := fun _ => false
  streamAxis := fun _ => false
  streamRX := fun _ => 0
  streamRY := fun _ => 0
  streamWiden := fun _ => false
  streamWidenDir := fun _ _ => false
  numClearingsD := 0
  clearCX := fun _ => 0
  clearCY := fun _ => 0
  clearR := fun _ => 0
  grassTreeBit := fun _ => false
  grassOpenBit := fun _ => false

/-- Forest counterexample, stage 1: four tree cells enclosing (7, 7) -/
def ftLit1 : Grid :=
  ⟨30, 30, [
    ["floor", "floor", "floor", "floor", "floor", "floor", "floor", "floor", "floor", "floor", "floor", "floor", "floor", "floor", "floor", "floor", "floor", "floor", "floor", "floor", "floor", "floor", "floor", "floor", "floor", "floor", "floor", "floor", "floor", "floor"],
    ["floor", "floor", "floor", "floor", "floor", "floor", "floor", "floor", "floor", "floor", "floor", "floor", "floor", "floor", "floor", "floor", "floor", "floor", "floor", "floor", "floor", "floor", "floor", "floor", "floor", "floor", "floor", "floor", "floor", "floor"],
    ["floor", "floor", "floor", "floor", "floor", "floor", "floor", "floor", "floor", "floor", "floor", "floor", "floor", "floor", "floor", "floor", "floor", "floor", "floor", "floor", "floor", "floor", "floor", "floor", "floor", "floor", "floor", "floor", "floor", "floor"],
    ["floor", "floor", "floor", "floor", "floor", "floor", "floor", "floor", "floor", "floor", "floor", "floor", "floor", "floor", "floor", "floor", "floor", "floor", "floor", "floor", "floor", "floor", "floor", "floor", "floor", "floor", "floor", "floor", "floor", "floor"],
    ["floor", "floor", "floor", "floor", "floor", "floor", "floor", "floor", "floor", "floor", "floor", "floor", "floor", "floor", "floor", "floor", "floor", "floor", "floor", "floor", "floor", "floor", "floor", "floor", "floor", "floor", "floor", "floor", "floor", "floor"],
    ["floor", "floor", "floor", "floor", "floor", "floor", "floor", "floor", "floor", "floor", "floor", "floor", "floor", "floor", "floor", "floor", "floor", "floor", "floor", "floor", "floor", "floor", "floor", "floor", "floor", "floor", "floor", "floor", "floor", "floor"],
    ["floor", "floor", "floor", "floor", "floor", "floor", "floor", "trees", "floor", "floor", "floor", "floor", "floor", "floor", "floor", "floor", "floor", "floor", "floor", "floor", "floor", "floor", "floor", "floor", "floor", "floor", "floor", "floor", "floor", "floor"],
    ["floor", "floor", "floor", "floor", "floor", "floor", "trees", "floor", "trees", "floor", "floor", "floor", "floor", "floor", "floor", "floor", "floor", "floor", "floor", "floor", "floor", "floor", "floor", "floor", "floor", "floor", "floor", "floor", "floor", "floor"],
    ["floor", "floor", "floor", "floor", "floor", "floor", "floor", "trees", "floor", "floor", "floor", "floor", "floor", "floor", "floor", "floor", "floor", "floor", "floor", "floor", "floor", "floor", "floor", "floor", "floor", "floor", "floor", "floor", "floor", "floor"],
    ["floor", "floor", "floor", "floor", "floor", "floor", "floor", "floor", "floor", "floor", "floor", "floor", "floor", "floor", "floor", "floor", "floor", "floor", "floor", "floor", "floor", "floor", "floor", "floor", "floor", "floor", "floor", "floor", "floor", "floor"],
    ["floor", "floor", "floor", "floor", "floor", "floor", "floor", "floor", "floor", "floor", "floor", "floor", "floor", "floor", "floor", "floor", "floor", "floor", "floor", "floor", "floor", "floor", "floor", "floor", "floor", "floor", "floor", "floor", "floor", "floor"],
    ["floor", "floor", "floor", "floor", "floor", "floor", "floor", "floor", "floor", "floor", "floor", "floor", "floor", "floor", "floor", "floor", "floor", "floor", "floor", "floor", "floor", "floor", "floor", "floor", "floor", "floor", "floor", "floor", "floor", "floor"],
    ["floor", "floor", "floor", "floor", "floor", "floor", "floor", "floor", "floor", "floor", "floor", "floor", "floor", "floor", "floor", "floor", "floor", "floor", "floor", "floor", "floor", "floor", "floor", "floor", "floor", "floor", "floor", "floor", "floor", "floor"],
    ["floor", "floor", "floor", "floor", "floor", "floor", "floor", "floor", "floor", "floor", "floor", "floor", "floor", "floor", "floor", "floor", "floor", "floor", "floor", "floor", "floor", "floor", "floor", "floor", "floor", "floor", "floor", "floor", "floor", "floor"],
    ["floor", "floor", "floor", "floor", "floor", "floor", "floor", "floor", "floor", "floor", "floor", "floor", "floor", "floor", "floor", "floor", "floor", "floor", "floor", "floor", "floor", "floor", "floor", "floor", "floor", "floor", "floor", "floor", "floor", "floor"],
    ["floor", "floor", "floor", "floor", "floor", "floor", "floor", "floor", "floor", "floor", "floor", "floor", "floor", "floor", "floor", "floor", "floor", "floor", "floor", "floor", "floor", "floor", "floor", "floor", "floor", "floor", "floor", "floor", "floor", "floor"],
    ["floor", "floor", "floor", "floor", "floor", "floor", "floor", "floor", "floor", "floor", "floor", "floor", "floor", "floor", "floor", "floor", "floor", "floor", "floor", "floor", "floor", "floor", "floor", "floor", "floor", "floor", "floor", "floor", "floor", "floor"],
    ["floor", "floor", "floor", "floor", "floor", "floor", "floor", "floor", "floor", "floor", "floor", "floor", "floor", "floor", "floor", "floor", "floor", "floor", "floor", "floor", "floor", "floor", "floor", "floor", "floor", "floor", "floor", "floor", "floor", "floor"],
    ["floor", "floor", "floor", "floor", "floor", "floor", "floor", "floor", "floor", "floor", "floor", "floor", "floor", "floor", "floor", "floor", "floor", "floor", "floor", "floor", "floor", "floor", "floor", "floor", "floor", "floor", "floor", "floor", "floor", "floor"],
    ["floor", "floor", "floor", "floor", "floor", "floor", "floor", "floor", "floor", "floor", "floor", "floor", "floor", "floor", "floor", "floor", "floor", "floor", "floor", "floor", "floor", "floor", "floor", "floor", "floor", "floor", "floor", "floor", "floor", "floor"],
    ["floor", "floor", "floor", "floor", "floor", "floor", "floor", "floor", "floor", "floor", "floor", "floor", "floor", "floor", "floor", "floor", "floor", "floor", "floor", "floor", "floor", "floor", "floor", "floor", "floor", "floor", "floor", "floor", "floor", "floor"],
    ["floor", "floor", "floor", "floor", "floor", "floor", "floor", "floor", "floor", "floor", "floor", "floor", "floor", "floor", "floor", "floor", "floor", "floor", "floor", "floor", "floor", "floor", "floor", "floor", "floor", "floor", "floor", "floor", "floor", "floor"],
    ["floor", "floor", "floor", "floor", "floor", "floor", "floor", "floor", "floor", "floor", "floor", "floor", "floor", "floor", "floor", "floor", "floor", "floor", "floor", "floor", "floor", "floor", "floor", "floor", "floor", "floor", "floor", "floor", "floor", "floor"],
    ["floor", "floor", "floor", "floor", "floor", "floor", "floor", "floor", "floor", "floor", "floor", "floor", "floor", "floor", "floor", "floor", "floor", "floor", "floor", "floor", "floor", "floor", "floor", "floor", "floor", "floor", "floor", "floor", "floor", "floor"],
    ["floor", "floor", "floor", "floor", "floor", "floor", "floor", "floor", "floor", "floor", "floor", "floor", "floor", "floor", "floor", "floor", "floor", "floor", "floor", "floor", "floor", "floor", "floor", "floor", "floor", "floor", "floor", "floor", "floor", "floor"],
    ["floor", "floor", "floor", "floor", "floor", "floor", "floor", "floor", "floor", "floor", "floor", "floor", "floor", "floor", "floor", "floor", "floor", "floor", "floor", "floor", "floor", "floor", "floor", "floor", "floor", "floor", "floor", "floor", "floor", "floor"],
    ["floor", "floor", "floor", "floor", "floor", "floor", "floor", "floor", "floor", "floor", "floor", "floor", "floor", "floor", "floor", "floor", "floor", "floor", "floor", "floor", "floor", "floor", "floor", "floor", "floor", "floor", "floor", "floor", "floor", "floor"],
    ["floor", "floor", "floor", "floor", "floor", "floor", "floor", "floor", "floor", "floor", "floor", "floor", "floor", "floor", "floor", "floor", "floor", "floor", "floor", "floor", "floor", "floor", "floor", "floor", "floor", "floor", "floor", "floor", "floor", "floor"],
    ["floor", "floor", "floor", "floor", "floor", "floor", "floor", "floor", "floor", "floor", "floor", "floor", "floor", "floor", "floor", "floor", "floor", "floor", "floor", "floor", "floor", "floor", "floor", "floor", "floor", "floor", "floor", "floor", "floor", "floor"],
    ["floor", "floor", "floor", "floor", "floor", "floor", "floor", "floor", "floor", "floor", "floor", "floor", "floor", "floor", "floor", "floor", "floor", "floor", "floor", "floor", "floor", "floor", "floor", "floor", "floor", "floor", "floor", "floor", "floor", "floor"]]⟩

/-- Stage 2: the radius-2 pond at (15, 15) added (clearings and grass leave this grid unchanged) -/
def ftLit2 : Grid :=
  ⟨30, 30, [
    ["floor", "floor", "floor", "floor", "floor", "floor", "floor", "floor", "floor", "floor", "floor", "floor", "floor", "floor", "floor", "floor", "floor", "floor", "floor", "floor", "floor", "floor", "floor", "floor", "floor", "floor", "floor", "floor", "floor", "floor"],
    ["floor", "floor", "floor", "floor", "floor", "floor", "floor", "floor", "floor", "floor", "floor", "floor", "floor", "floor", "floor", "floor", "floor", "floor", "floor", "floor", "floor", "floor", "floor", "floor", "floor", "floor", "floor", "floor", "floor", "floor"],
    ["floor", "floor", "floor", "floor", "floor", "floor", "floor", "floor", "floor", "floor", "floor", "floor", "floor", "floor", "floor", "floor", "floor", "floor", "floor", "floor", "floor", "floor", "floor", "floor", "floor", "floor", "floor", "floor", "floor", "floor"],
    ["floor", "floor", "floor", "floor", "floor", "floor", "floor", "floor", "floor", "floor", "floor", "floor", "floor", "floor", "floor", "floor", "floor", "floor", "floor", "floor", "floor", "floor", "floor", "floor", "floor", "floor", "floor", "floor", "floor", "floor"],
    ["floor", "floor", "floor", "floor", "floor", "floor", "floor", "floor", "floor", "floor", "floor", "floor", "floor", "floor", "floor", "floor", "floor", "floor", "floor", "floor", "floor", "floor", "floor", "floor", "floor", "floor", "floor", "floor", "floor", "floor"],
    ["floor", "floor", "floor", "floor", "floor", "floor", "floor", "floor", "floor", "floor", "floor", "floor", "floor", "floor", "floor", "floor", "floor", "floor", "floor", "floor", "floor", "floor", "floor", "floor", "floor", "floor", "floor", "floor", "floor", "floor"],
    ["floor", "floor", "floor", "floor", "floor", "floor", "floor", "trees", "floor", "floor", "floor", "floor", "floor", "floor", "floor", "floor", "floor", "floor", "floor", "floor", "floor", "floor", "floor", "floor", "floor", "floor", "floor", "floor", "floor", "floor"],
    ["floor", "floor", "floor", "floor", "floor", "floor", "trees", "floor", "trees", "floor", "floor", "floor", "floor", "floor", "floor", "floor", "floor", "floor", "floor", "floor", "floor", "floor", "floor", "floor", "floor", "floor", "floor", "floor", "floor", "floor"],
    ["floor", "floor", "floor", "floor", "floor", "floor", "floor", "trees", "floor", "floor", "floor", "floor", "floor", "floor", "floor", "floor", "floor", "floor", "floor", "floor", "floor", "floor", "floor", "floor", "floor", "floor", "floor", "floor", "floor", "floor"],
    ["floor", "floor", "floor", "floor", "floor", "floor", "floor", "floor", "floor", "floor", "floor", "floor", "floor", "floor", "floor", "floor", "floor", "floor", "floor", "floor", "floor", "floor", "floor", "floor", "floor", "floor", "floor", "floor", "floor", "floor"],
    ["floor", "floor", "floor", "floor", "floor", "floor", "floor", "floor", "floor", "floor", "floor", "floor", "floor", "floor", "floor", "floor", "floor", "floor", "floor", "floor", "floor", "floor", "floor", "floor", "floor", "floor", "floor", "floor", "floor", "floor"],
    ["floor", "floor", "floor", "floor", "floor", "floor", "floor", "floor", "floor", "floor", "floor", "floor", "floor", "floor", "floor", "floor", "floor", "floor", "floor", "floor", "floor", "floor", "floor", "floor", "floor", "floor", "floor", "floor", "floor", "floor"],
    ["floor", "floor", "floor", "floor", "floor", "floor", "floor", "floor", "floor", "floor", "floor", "floor", "floor", "floor", "floor", "floor", "floor", "floor", "floor", "floor", "floor", "floor", "floor", "floor", "floor", "floor", "floor", "floor", "floor", "floor"],
    ["floor", "floor", "floor", "floor", "floor", "floor", "floor", "floor", "floor", "floor", "floor", "floor", "floor", "floor", "floor", "water", "floor", "floor", "floor", "floor", "floor", "floor", "floor", "floor", "floor", "floor", "floor", "floor", "floor", "floor"],
    ["floor", "floor", "floor", "floor", "floor", "floor", "floor", "floor", "floor", "floor", "floor", "floor", "floor", "floor", "water", "water", "water", "floor", "floor", "floor", "floor", "floor", "floor", "floor", "floor", "floor", "floor", "floor", "floor", "floor"],
    ["floor", "floor", "floor", "floor", "floor", "floor", "floor", "floor", "floor", "floor", "floor", "floor", "floor", "water", "water", "water", "water", "water", "floor", "floor", "floor", "floor", "floor", "floor", "floor", "floor", "floor", "floor", "floor", "floor"],
    ["floor", "floor", "floor", "floor", "floor", "floor", "floor", "floor", "floor", "floor", "floor", "floor", "floor", "floor", "water", "water", "water", "floor", "floor", "floor", "floor", "floor", "floor", "floor", "floor", "floor", "floor", "floor", "floor", "floor"],
    ["floor", "floor", "floor", "floor", "floor", "floor", "floor", "floor", "floor", "floor", "floor", "floor", "floor", "floor", "floor", "water", "floor", "floor", "floor", "floor", "floor", "floor", "floor", "floor", "floor", "floor", "floor", "floor", "floor", "floor"],
    ["floor", "floor", "floor", "floor", "floor", "floor", "floor", "floor", "floor", "floor", "floor", "floor", "floor", "floor", "floor", "floor", "floor", "floor", "floor", "floor", "floor", "floor", "floor", "floor", "floor", "floor", "floor", "floor", "floor", "floor"],
    ["floor", "floor", "floor", "floor", "floor", "floor", "floor", "floor", "floor", "floor", "floor", "floor", "floor", "floor", "floor", "floor", "floor", "floor", "floor", "floor", "floor", "floor", "floor", "floor", "floor", "floor", "floor", "floor", "floor", "floor"],
    ["floor", "floor", "floor", "floor", "floor", "floor", "floor", "floor", "floor", "floor", "floor", "floor", "floor", "floor", "floor", "floor", "floor", "floor", "floor", "floor", "floor", "floor", "floor", "floor", "floor", "floor", "floor", "floor", "floor", "floor"],
    ["floor", "floor", "floor", "floor", "floor", "floor", "floor", "floor", "floor", "floor", "floor", "floor", "floor", "floor", "floor", "floor", "floor", "floor", "floor", "floor", "floor", "floor", "floor", "floor", "floor", "floor", "floor", "floor", "floor", "floor"],
    ["floor", "floor", "floor", "floor", "floor", "floor", "floor", "floor", "floor", "floor", "floor", "floor", "floor", "floor", "floor", "floor", "floor", "floor", "floor", "floor", "floor", "floor", "floor", "floor", "floor", "floor", "floor", "floor", "floor", "floor"],
    ["floor", "floor", "floor", "floor", "floor", "floor", "floor", "floor", "floor", "floor", "floor", "floor", "floor", "floor", "floor", "floor", "floor", "floor", "floor", "floor", "floor", "floor", "floor", "floor", "floor", "floor", "floor", "floor", "floor", "floor"],
    ["floor", "floor", "floor", "floor", "floor", "floor", "floor", "floor", "floor", "floor", "floor", "floor", "floor", "floor", "floor", "floor", "floor", "floor", "floor", "floor", "floor", "floor", "floor", "floor", "floor", "floor", "floor", "floor", "floor", "floor"],
    ["floor", "floor", "floor", "floor", "floor", "floor", "floor", "floor", "floor", "floor", "floor", "floor", "floor", "floor", "floor", "floor", "floor", "floor", "floor", "floor", "floor", "floor", "floor", "floor", "floor", "floor", "floor", "floor", "floor", "floor"],
    ["floor", "floor", "floor", "floor", "floor", "floor", "floor", "floor", "floor", "floor", "floor", "floor", "floor", "floor", "floor", "floor", "floor", "floor", "floor", "floor", "floor", "floor", "floor", "floor", "floor", "floor", "floor", "floor", "floor", "floor"],
    ["floor", "floor", "floor", "floor", "floor", "floor", "floor", "floor", "floor", "floor", "floor", "floor", "floor", "floor", "floor", "floor", "floor", "floor", "floor", "floor", "floor", "floor", "floor", "floor", "floor", "floor", "floor", "floor", "floor", "floor"],
    ["floor", "floor", "floor", "floor", "floor", "floor", "floor", "floor", "floor", "floor", "floor", "floor", "floor", "floor", "floor", "floor", "floor", "floor", "floor", "floor", "floor", "floor", "floor", "floor", "floor", "floor", "floor", "floor", "floor", "floor"],
    ["floor", "floor", "floor", "floor", "floor", "floor", "floor", "floor", "floor", "floor", "floor", "floor", "floor", "floor", "floor", "floor", "floor", "floor", "floor", "floor", "floor", "floor", "floor", "floor", "floor", "floor", "floor", "floor", "floor", "floor"]]⟩

/-- Stage 3: top and bottom border rows walled -/
def ftLitB : Grid :=
  ⟨30, 30, [
    ["wall", "wall", "wall", "wall", "wall", "wall", "wall", "wall", "wall", "wall", "wall", "wall", "wall", "wall", "wall", "wall", "wall", "wall", "wall", "wall", "wall", "wall", "wall", "wall", "wall", "wall", "wall", "wall", "wall", "wall"],
    ["floor", "floor", "floor", "floor", "floor", "floor", "floor", "floor", "floor", "floor", "floor", "floor", "floor", "floor", "floor", "floor", "floor", "floor", "floor", "floor", "floor", "floor", "floor", "floor", "floor", "floor", "floor", "floor", "floor", "floor"],
    ["floor", "floor", "floor", "floor", "floor", "floor", "floor", "floor", "floor", "floor", "floor", "floor", "floor", "floor", "floor", "floor", "floor", "floor", "floor", "floor", "floor", "floor", "floor", "floor", "floor", "floor", "floor", "floor", "floor", "floor"],
    ["floor", "floor", "floor", "floor", "floor", "floor", "floor", "floor", "floor", "floor", "floor", "floor", "floor", "floor", "floor", "floor", "floor", "floor", "floor", "floor", "floor", "floor", "floor", "floor", "floor", "floor", "floor", "floor", "floor", "floor"],
    ["floor", "floor", "floor", "floor", "floor", "floor", "floor", "floor", "floor", "floor", "floor", "floor", "floor", "floor", "floor", "floor", "floor", "floor", "floor", "floor", "floor", "floor", "floor", "floor", "floor", "floor", "floor", "floor", "floor", "floor"],
    ["floor", "floor", "floor", "floor", "floor", "floor", "floor", "floor", "floor", "floor", "floor", "floor", "floor", "floor", "floor", "floor", "floor", "floor", "floor", "floor", "floor", "floor", "floor", "floor", "floor", "floor", "floor", "floor", "floor", "floor"],
    ["floor", "floor", "floor", "floor", "floor", "floor", "floor", "trees", "floor", "floor", "floor", "floor", "floor", "floor", "floor", "floor", "floor", "floor", "floor", "floor", "floor", "floor", "floor", "floor", "floor", "floor", "floor", "floor", "floor", "floor"],
    ["floor", "floor", "floor", "floor", "floor", "floor", "trees", "floor", "trees", "floor", "floor", "floor", "floor", "floor", "floor", "floor", "floor", "floor", "floor", "floor", "floor", "floor", "floor", "floor", "floor", "floor", "floor", "floor", "floor", "floor"],
    ["floor", "floor", "floor", "floor", "floor", "floor", "floor", "trees", "floor", "floor", "floor", "floor", "floor", "floor", "floor", "floor", "floor", "floor", "floor", "floor", "floor", "floor", "floor", "floor", "floor", "floor", "floor", "floor", "floor", "floor"],
    ["floor", "floor", "floor", "floor", "floor", "floor", "floor", "floor", "floor", "floor", "floor", "floor", "floor", "floor", "floor", "floor", "floor", "floor", "floor", "floor", "floor", "floor", "floor", "floor", "floor", "floor", "floor", "floor", "floor", "floor"],
    ["floor", "floor", "floor", "floor", "floor", "floor", "floor", "floor", "floor", "floor", "floor", "floor", "floor", "floor", "floor", "floor", "floor", "floor", "floor", "floor", "floor", "floor", "floor", "floor", "floor", "floor", "floor", "floor", "floor", "floor"],
    ["floor", "floor", "floor", "floor", "floor", "floor", "floor", "floor", "floor", "floor", "floor", "floor", "floor", "floor", "floor", "floor", "floor", "floor", "floor", "floor", "floor", "floor", "floor", "floor", "floor", "floor", "floor", "floor", "floor", "floor"],
    ["floor", "floor", "floor", "floor", "floor", "floor", "floor", "floor", "floor", "floor", "floor", "floor", "floor", "floor", "floor", "floor", "floor", "floor", "floor", "floor", "floor", "floor", "floor", "floor", "floor", "floor", "floor", "floor", "floor", "floor"],
    ["floor", "floor", "floor", "floor", "floor", "floor", "floor", "floor", "floor", "floor", "floor", "floor", "floor", "floor", "floor", "water", "floor", "floor", "floor", "floor", "floor", "floor", "floor", "floor", "floor", "floor", "floor", "floor", "floor", "floor"],
    ["floor", "floor", "floor", "floor", "floor", "floor", "floor", "floor", "floor", "floor", "floor", "floor", "floor", "floor", "water", "water", "water", "floor", "floor", "floor", "floor", "floor", "floor", "floor", "floor", "floor", "floor", "floor", "floor", "floor"],
    ["floor", "floor", "floor", "floor", "floor", "floor", "floor", "floor", "floor", "floor", "floor", "floor", "floor", "water", "water", "water", "water", "water", "floor", "floor", "floor", "floor", "floor", "floor", "floor", "floor", "floor", "floor", "floor", "floor"],
    ["floor", "floor", "floor", "floor", "floor", "floor", "floor", "floor", "floor", "floor", "floor", "floor", "floor", "floor", "water", "water", "water", "floor", "floor", "floor", "floor", "floor", "floor", "floor", "floor", "floor", "floor", "floor", "floor", "floor"],
    ["floor", "floor", "floor", "floor", "floor", "floor", "floor", "floor", "floor", "floor", "floor", "floor", "floor", "floor", "floor", "water", "floor", "floor", "floor", "floor", "floor", "floor", "floor", "floor", "floor", "floor", "floor", "floor", "floor", "floor"],
    ["floor", "floor", "floor", "floor", "floor", "floor", "floor", "floor", "floor", "floor", "floor", "floor", "floor", "floor", "floor", "floor", "floor", "floor", "floor", "floor", "floor", "floor", "floor", "floor", "floor", "floor", "floor", "floor", "floor", "floor"],
    ["floor", "floor", "floor", "floor", "floor", "floor", "floor", "floor", "floor", "floor", "floor", "floor", "floor", "floor", "floor", "floor", "floor", "floor", "floor", "floor", "floor", "floor", "floor", "floor", "floor", "floor", "floor", "floor", "floor", "floor"],
    ["floor", "floor", "floor", "floor", "floor", "floor", "floor", "floor", "floor", "floor", "floor", "floor", "floor", "floor", "floor", "floor", "floor", "floor", "floor", "floor", "floor", "floor", "floor", "floor", "floor", "floor", "floor", "floor", "floor", "floor"],
    ["floor", "floor", "floor", "floor", "floor", "floor", "floor", "floor", "floor", "floor", "floor", "floor", "floor", "floor", "floor", "floor", "floor", "floor", "floor", "floor", "floor", "floor", "floor", "floor", "floor", "floor", "floor", "floor", "floor", "floor"],
    ["floor", "floor", "floor", "floor", "floor", "floor", "floor", "floor", "floor", "floor", "floor", "floor", "floor", "floor", "floor", "floor", "floor", "floor", "floor", "floor", "floor", "floor", "floor", "floor", "floor", "floor", "floor", "floor", "floor", "floor"],
    ["floor", "floor", "floor", "floor", "floor", "floor", "floor", "floor", "floor", "floor", "floor", "floor", "floor", "floor", "floor", "floor", "floor", "floor", "floor", "floor", "floor", "floor", "floor", "floor", "floor", "floor", "floor", "floor", "floor", "floor"],
    ["floor", "floor", "floor", "floor", "floor", "floor", "floor", "floor", "floor", "floor", "floor", "floor", "floor", "floor", "floor", "floor", "floor", "floor", "floor", "floor", "floor", "floor", "floor", "floor", "floor", "floor", "floor", "floor", "floor", "floor"],
    ["floor", "floor", "floor", "floor", "floor", "floor", "floor", "floor", "floor", "floor", "floor", "floor", "floor", "floor", "floor", "floor", "floor", "floor", "floor", "floor", "floor", "floor", "floor", "floor", "floor", "floor", "floor", "floor", "floor", "floor"],
    ["floor", "floor", "floor", "floor", "floor", "floor", "floor", "floor", "floor", "floor", "floor", "floor", "floor", "floor", "floor", "floor", "floor", "floor", "floor", "floor", "floor", "floor", "floor", "floor", "floor", "floor", "floor", "floor", "floor", "floor"],
    ["floor", "floor", "floor", "floor", "floor", "floor", "floor", "floor", "floor", "floor", "floor", "floor", "floor", "floor", "floor", "floor", "floor", "floor", "floor", "floor", "floor", "floor", "floor", "floor", "floor", "floor", "floor", "floor", "floor", "floor"],
    ["floor", "floor", "floor", "floor", "floor", "floor", "floor", "floor", "floor", "floor", "floor", "floor", "floor", "floor", "floor", "floor", "floor", "floor", "floor", "floor", "floor", "floor", "floor", "floor", "floor", "floor", "floor", "floor", "floor", "floor"],
    ["wall", "wall", "wall", "wall", "wall", "wall", "wall", "wall", "wall", "wall", "wall", "wall", "wall", "wall", "wall", "wall", "wall", "wall", "wall", "wall", "wall", "wall", "wall", "wall", "wall", "wall", "wall", "wall", "wall", "wall"]]⟩

/-- The final terrain grid of the forest counterexample run -/
def forestCExGrid : Grid :=
  ⟨30, 30, [
    ["wall", "wall", "wall", "wall", "wall", "wall", "wall", "wall", "wall", "wall", "wall", "wall", "wall", "wall", "wall", "wall", "wall", "wall", "wall", "wall", "wall", "wall", "wall", "wall", "wall", "wall", "wall", "wall", "wall", "wall"],
    ["wall", "floor", "floor", "floor", "floor", "floor", "floor", "floor", "floor", "floor", "floor", "floor", "floor", "floor", "floor", "floor", "floor", "floor", "floor", "floor", "floor", "floor", "floor", "floor", "floor", "floor", "floor", "floor", "floor", "wall"],
    ["wall", "floor", "floor", "floor", "floor", "floor", "floor", "floor", "floor", "floor", "floor", "floor", "floor", "floor", "floor", "floor", "floor", "floor", "floor", "floor", "floor", "floor", "floor", "floor", "floor", "floor", "floor", "floor", "floor", "wall"],
    ["wall", "floor", "floor", "floor", "floor", "floor", "floor", "floor", "floor", "floor", "floor", "floor", "floor", "floor", "floor", "floor", "floor", "floor", "floor", "floor", "floor", "floor", "floor", "floor", "floor", "floor", "floor", "floor", "floor", "wall"],
    ["wall", "floor", "floor", "floor", "floor", "floor", "floor", "floor", "floor", "floor", "floor", "floor", "floor", "floor", "floor", "floor", "floor", "floor", "floor", "floor", "floor", "floor", "floor", "floor", "floor", "floor", "floor", "floor", "floor", "wall"],
    ["wall", "floor", "floor", "floor", "floor", "floor", "floor", "floor", "floor", "floor", "floor", "floor", "floor", "floor", "floor", "floor", "floor", "floor", "floor", "floor", "floor", "floor", "floor", "floor", "floor", "floor", "floor", "floor", "floor", "wall"],
    ["wall", "floor", "floor", "floor", "floor", "floor", "floor", "trees", "floor", "floor", "floor", "floor", "floor", "floor", "floor", "floor", "floor", "floor", "floor", "floor", "floor", "floor", "floor", "floor", "floor", "floor", "floor", "floor", "floor", "wall"],
    ["wall", "floor", "floor", "floor", "floor", "floor", "trees", "floor", "trees", "floor", "floor", "floor", "floor", "floor", "floor", "floor", "floor", "floor", "floor", "floor", "floor", "floor", "floor", "floor", "floor", "floor", "floor", "floor", "floor", "wall"],
    ["wall", "floor", "floor", "floor", "floor", "floor", "floor", "trees", "floor", "floor", "floor", "floor", "floor", "floor", "floor", "floor", "floor", "floor", "floor", "floor", "floor", "floor", "floor", "floor", "floor", "floor", "floor", "floor", "floor", "wall"],
    ["wall", "floor", "floor", "floor", "floor", "floor", "floor", "floor", "floor", "floor", "floor", "floor", "floor", "floor", "floor", "floor", "floor", "floor", "floor", "floor", "floor", "floor", "floor", "floor", "floor", "floor", "floor", "floor", "floor", "wall"],
    ["wall", "floor", "floor", "floor", "floor", "floor", "floor", "floor", "floor", "floor", "floor", "floor", "floor", "floor", "floor", "floor", "floor", "floor", "floor", "floor", "floor", "floor", "floor", "floor", "floor", "floor", "floor", "floor", "floor", "wall"],
    ["wall", "floor", "floor", "floor", "floor", "floor", "floor", "floor", "floor", "floor", "floor", "floor", "floor", "floor", "floor", "floor", "floor", "floor", "floor", "floor", "floor", "floor", "floor", "floor", "floor", "floor", "floor", "floor", "floor", "wall"],
    ["wall", "floor", "floor", "floor", "floor", "floor", "floor", "floor", "floor", "floor", "floor", "floor", "floor", "floor", "floor", "floor", "floor", "floor", "floor", "floor", "floor", "floor", "floor", "floor", "floor", "floor", "floor", "floor", "floor", "wall"],
    ["wall", "floor", "floor", "floor", "floor", "floor", "floor", "floor", "floor", "floor", "floor", "floor", "floor", "floor", "floor", "water", "floor", "floor", "floor", "floor", "floor", "floor", "floor", "floor", "floor", "floor", "floor", "floor", "floor", "wall"],
    ["wall", "floor", "floor", "floor", "floor", "floor", "floor", "floor", "floor", "floor", "floor", "floor", "floor", "floor", "water", "water", "water", "floor", "floor", "floor", "floor", "floor", "floor", "floor", "floor", "floor", "floor", "floor", "floor", "wall"],
    ["wall", "floor", "floor", "floor", "floor", "floor", "floor", "floor", "floor", "floor", "floor", "floor", "floor", "water", "water", "water", "water", "water", "floor", "floor", "floor", "floor", "floor", "floor", "floor", "floor", "floor", "floor", "floor", "wall"],
    ["wall", "floor", "floor", "floor", "floor", "floor", "floor", "floor", "floor", "floor", "floor", "floor", "floor", "floor", "water", "water", "water", "floor", "floor", "floor", "floor", "floor", "floor", "floor", "floor", "floor", "floor", "floor", "floor", "wall"],
    ["wall", "floor", "floor", "floor", "floor", "floor", "floor", "floor", "floor", "floor", "floor", "floor", "floor", "floor", "floor", "water", "floor", "floor", "floor", "floor", "floor", "floor", "floor", "floor", "floor", "floor", "floor", "floor", "floor", "wall"],
    ["wall", "floor", "floor", "floor", "floor", "floor", "floor", "floor", "floor", "floor", "floor", "floor", "floor", "floor", "floor", "floor", "floor", "floor", "floor", "floor", "floor", "floor", "floor", "floor", "floor", "floor", "floor", "floor", "floor", "wall"],
    ["wall", "floor", "floor", "floor", "floor", "floor", "floor", "floor", "floor", "floor", "floor", "floor", "floor", "floor", "floor", "floor", "floor", "floor", "floor", "floor", "floor", "floor", "floor", "floor", "floor", "floor", "floor", "floor", "floor", "wall"],
    ["wall", "floor", "floor", "floor", "floor", "floor", "floor", "floor", "floor", "floor", "floor", "floor", "floor", "floor", "floor", "floor", "floor", "floor", "floor", "floor", "floor", "floor", "floor", "floor", "floor", "floor", "floor", "floor", "floor", "wall"],
    ["wall", "floor", "floor", "floor", "floor", "floor", "floor", "floor", "floor", "floor", "floor", "floor", "floor", "floor", "floor", "floor", "floor", "floor", "floor", "floor", "floor", "floor", "floor", "floor", "floor", "floor", "floor", "floor", "floor", "wall"],
    ["wall", "floor", "floor", "floor", "floor", "floor", "floor", "floor", "floor", "floor", "floor", "floor", "floor", "floor", "floor", "floor", "floor", "floor", "floor", "floor", "floor", "floor", "floor", "floor", "floor", "floor", "floor", "floor", "floor", "wall"],
    ["wall", "floor", "floor", "floor", "floor", "floor", "floor", "floor", "floor", "floor", "floor", "floor", "floor", "floor", "floor", "floor", "floor", "floor", "floor", "floor", "floor", "floor", "floor", "floor", "floor", "floor", "floor", "floor", "floor", "wall"],
    ["wall", "floor", "floor", "floor", "floor", "floor", "floor", "floor", "floor", "floor", "floor", "floor", "floor", "floor", "floor", "floor", "floor", "floor", "floor", "floor", "floor", "floor", "floor", "floor", "floor", "floor", "floor", "floor", "floor", "wall"],
    ["wall", "floor", "floor", "floor", "floor", "floor", "floor", "floor", "floor", "floor", "floor", "floor", "floor", "floor", "floor", "floor", "floor", "floor", "floor", "floor", "floor", "floor", "floor", "floor", "floor", "floor", "floor", "floor", "floor", "wall"],
    ["wall", "floor", "floor", "floor", "floor", "floor", "floor", "floor", "floor", "floor", "floor", "floor", "floor", "floor", "floor", "floor", "floor", "floor", "floor", "floor", "floor", "floor", "floor", "floor", "floor", "floor", "floor", "floor", "floor", "wall"],
    ["wall", "floor", "floor", "floor", "floor", "floor", "floor", "floor", "floor", "floor", "floor", "floor", "floor", "floor", "floor", "floor", "floor", "floor", "floor", "floor", "floor", "floor", "floor", "floor", "floor", "floor", "floor", "floor", "floor", "wall"],
    ["wall", "floor", "floor", "floor", "floor", "floor", "floor", "floor", "floor", "floor", "floor", "floor", "floor", "floor", "floor", "floor", "floor", "floor", "floor", "floor", "floor", "floor", "floor", "floor", "floor", "floor", "floor", "floor", "floor", "wall"],
    ["wall", "wall", "wall", "wall", "wall", "wall", "wall", "wall", "wall", "wall", "wall", "wall", "wall", "wall", "wall", "wall", "wall", "wall", "wall", "wall", "wall", "wall", "wall", "wall", "wall", "wall", "wall", "wall", "wall", "wall"]]⟩

set_option maxRecDepth 8000 in
theorem ftClusters_eval :
    (List.range (randint 8 15 forestCExOracle.numClustersD).toNat).foldl (fun gr k =>
      placeCluster gr
        (growCluster 30 30
          (randint 5 (((30 : Nat) : Int) - 5) (forestCExOracle.clusterSeedX k),
           randint 5 (((30 : Nat) : Int) - 5) (forestCExOracle.clusterSeedY k))
          (randint 3 6 (forestCExOracle.clusterItersD k)).toNat
          (forestCExOracle.spreadBit k))
        (forestCExOracle.placeBit k)) (Grid.init 30 30) = ftLit1 := by
  decide

/-- With a zero variation draw and a nonnegative radius, `generate_pond`
is the exact integer disk `dx^2 + dy^2 <= radius^2`. -/
theorem generatePond_zeroVar (g : Grid) (cx cy radius : Int) (hr : 0 ≤ radius) :
    generatePond g cx cy radius (fun _ => (0 : ℚ)) =
      (intRange (cy - radius) (cy + radius + 1)).foldl (fun gr y =>
        (intRange (cx - radius) (cx + radius + 1)).foldl (fun g2 x =>
          if (x - cx)^2 + (y - cy)^2 ≤ radius^2 then
            (if 1 ≤ x ∧ x < (g.width : Int) - 1 ∧ 1 ≤ y ∧ y < (g.height : Int) - 1
             then g2.setTile x y "water" else g2)
          else g2) gr) g := by
  unfold generatePond
  apply List.foldl_ext
  intro gr y hy
  apply List.foldl_ext
  intro g2 x hx
  dsimp only
  have hv : max (-(1 : ℚ)/2) (min ((1 : ℚ)/2) (0 : ℚ)) = 0 := by norm_num
  rw [hv, add_zero]
  have hsq : ((radius : ℚ))^2 = ((radius^2 : Int) : ℚ) := by
    push_cast
    ring
  have hcond : ((((x - cx)^2 + (y - cy)^2 : Int) : ℚ) ≤ ((radius : ℚ))^2 ∧
      0 ≤ (radius : ℚ)) ↔ (x - cx)^2 + (y - cy)^2 ≤ radius^2 := by
    constructor
    · rintro ⟨h1, -⟩
      rw [hsq] at h1
      exact_mod_cast h1
    · intro hle
      refine ⟨?_, by exact_mod_cast hr⟩
      rw [hsq]
      exact_mod_cast hle
  exact if_congr hcond rfl rfl

set_option maxRecDepth 8000 in
theorem ftPond0_eval : generatePond ftLit1 15 15 2 (fun _ => (0 : ℚ)) = ftLit2 := by
  rw [generatePond_zeroVar ftLit1 15 15 2 (by norm_num)]
  decide

set_option maxRecDepth 8000 in
theorem ftPond1_eval : generatePond ftLit2 15 15 2 (fun _ => (0 : ℚ)) = ftLit2 := by
  rw [generatePond_zeroVar ftLit2 15 15 2 (by norm_num)]
  decide

theorem ftPonds_eval :
    (List.range (randint 2 4 forestCExOracle.numPondsD).toNat).foldl (fun gr k =>
      generatePond gr (randint 10 (((30 : Nat) : Int) - 10) (forestCExOracle.pondCX k))
        (randint 10 (((30 : Nat) : Int) - 10) (forestCExOracle.pondCY k))
        (randint 2 4 (forestCExOracle.pondR k))
        (forestCExOracle.pondVar k)) ftLit1 = ftLit2 := by
  rw [show (randint 2 4 forestCExOracle.numPondsD).toNat = 2 from by decide]
  rw [show List.range 2 = [0, 1] from by decide]
  simp only [List.foldl_cons, List.foldl_nil]
  show generatePond (generatePond ftLit1 15 15 2 (fun _ => (0 : ℚ))) 15 15 2
    (fun _ => (0 : ℚ)) = ftLit2
  rw [ftPond0_eval]
  exact ftPond1_eval

set_option maxRecDepth 8000 in
theorem ftClear1_eval :
    createClearing ftLit2
      (randint 15 (((30 : Nat) : Int) - 15) (forestCExOracle.clearCX 0))
      (randint 15 (((30 : Nat) : Int) - 15) (forestCExOracle.clearCY 0))
      (randint 5 8 (forestCExOracle.clearR 0)) = ftLit2 := by
  decide

set_option maxRecDepth 8000 in
theorem ftClear2_eval :
    createClearing ftLit2
      (randint 15 (((30 : Nat) : Int) - 15) (forestCExOracle.clearCX 1))
      (randint 15 (((30 : Nat) : Int) - 15) (forestCExOracle.clearCY 1))
      (randint 5 8 (forestCExOracle.clearR 1)) = ftLit2 := by
  decide

theorem ftClear_eval :
    (List.range (randint 2 3 forestCExOracle.numClearingsD).toNat).foldl (fun gr k =>
      createClearing gr
        (randint 15 (((30 : Nat) : Int) - 15) (forestCExOracle.clearCX k))
        (randint 15 (((30 : Nat) : Int) - 15) (forestCExOracle.clearCY k))
        (randint 5 8 (forestCExOracle.clearR k))) ftLit2 = ftLit2 := by
  rw [show (randint 2 3 forestCExOracle.numClearingsD).toNat = 2 from by decide]
  rw [show List.range 2 = [0, 1] from by decide]
  simp only [List.foldl_cons, List.foldl_nil]
  rw [ftClear1_eval, ftClear2_eval]

theorem ftGrass_eval :
    addGrassPatches ftLit2 forestCExOracle.grassTreeBit forestCExOracle.grassOpenBit
      = ftLit2 := by
  show addGrassPatches ftLit2 (fun _ => false) (fun _ => false) = ftLit2
  exact addGrassPatches_noop ftLit2

set_option maxRecDepth 8000 in
theorem ftBorderRows_eval :
    (intRange 0 ftLit2.width).foldl
      (fun gr x => (gr.setTile x 0 "wall").setTile x ((ftLit2.height : Int) - 1) "wall")
      ftLit2 = ftLitB := by
  decide

set_option maxRecDepth 8000 in
theorem ftBorderCols_eval :
    (intRange 0 ftLit2.height).foldl
      (fun gr y => (gr.setTile 0 y "wall").setTile ((ftLit2.width : Int) - 1) y "wall")
      ftLitB = forestCExGrid := by
  decide

set_option maxRecDepth 8000 in
set_option maxHeartbeats 1000000 in
/-- The counterexample run of the forest pipeline evaluates to the
literal grid `forestCExGrid`. -/
theorem forestCEx_grid :
    generateForestGrid 30 30 forestCExOracle = forestCExGrid := by
  show (addGrassPatches
      ((List.range (randint 2 3 forestCExOracle.numClearingsD).toNat).foldl (fun gr k =>
        createClearing gr
          (randint 15 (((30 : Nat) : Int) - 15) (forestCExOracle.clearCX k))
          (randint 15 (((30 : Nat) : Int) - 15) (forestCExOracle.clearCY k))
          (randint 5 8 (forestCExOracle.clearR k)))
        ((List.range (randint 2 4 forestCExOracle.numPondsD).toNat).foldl (fun gr k =>
          generatePond gr
            (randint 10 (((30 : Nat) : Int) - 10) (forestCExOracle.pondCX k))
            (randint 10 (((30 : Nat) : Int) - 10) (forestCExOracle.pondCY k))
            (randint 2 4 (forestCExOracle.pondR k))
            (forestCExOracle.pondVar k))
          ((List.range (randint 8 15 forestCExOracle.numClustersD).toNat).foldl (fun gr k =>
            placeCluster gr
              (growCluster 30 30
                (randint 5 (((30 : Nat) : Int) - 5) (forestCExOracle.clusterSeedX k),
                 randint 5 (((30 : Nat) : Int) - 5) (forestCExOracle.clusterSeedY k))
                (randint 3 6 (forestCExOracle.clusterItersD k)).toNat
                (forestCExOracle.spreadBit k))
              (forestCExOracle.placeBit k)) (Grid.init 30 30))))
      forestCExOracle.grassTreeBit forestCExOracle.grassOpenBit).addBorderWalls
    = forestCExGrid
  rw [ftClusters_eval, ftPonds_eval, ftClear_eval, ftGrass_eval]
  show (intRange 0 ftLit2.height).foldl
      (fun gr y => (gr.setTile 0 y "wall").setTile ((ftLit2.width : Int) - 1) y "wall")
      ((intRange 0 ftLit2.width).foldl
        (fun gr x => (gr.setTile x 0 "wall").setTile x ((ftLit2.height : Int) - 1) "wall")
        ftLit2) = forestCExGrid
  rw [ftBorderRows_eval]
  exact ftBorderCols_eval

/-- C2 (amended): every dungeon generator guarantees at most one connected
component of non-blocked cells under 4-directional adjacency.  In the
cellular-automata dungeon, after `ensure_connectivity` and border walls,
any two non-blocked cells of the final terrain grid are mutually
reachable through non-blocked cells; the same holds by construction for
the rooms-and-corridors dungeon on maps at least 15 wide and 13 high and
for the BSP dungeon on maps at least 3 by 3 (the sizes on which the
generators' `randint` ranges are non-degenerate).  The forest and village
generators run no connectivity pass and give no such guarantee (see the
counterexample). -/
theorem C2_connectivity_amended :
    (∀ (w h : Nat) (o : CellularOracle) (a b : Int × Int),
      ¬ (generateCellularGrid w h o).isBlocked a.1 a.2 →
      ¬ (generateCellularGrid w h o).isBlocked b.1 b.2 →
      (generateCellularGrid w h o).Reaches a b) ∧
    (∀ (w h : Nat), 15 ≤ w → 13 ≤ h → ∀ (o : RoomsOracle) (a b : Int × Int),
      ¬ (generateRoomsGrid w h o).isBlocked a.1 a.2 →
      ¬ (generateRoomsGrid w h o).isBlocked b.1 b.2 →
      (generateRoomsGrid w h o).Reaches a b) ∧
    (∀ (w h : Nat), 3 ≤ w → 3 ≤ h → ∀ (o : BSPOracle) (a b : Int × Int),
      ¬ (generateBSPGrid w h o).isBlocked a.1 a.2 →
      ¬ (generateBSPGrid w h o).isBlocked b.1 b.2 →
      (generateBSPGrid w h o).Reaches a b) :=
  ⟨fun w h o a b ha hb => generateCellular_connected w h o a b ha hb,
   fun w h hw hh o a b ha hb => generateRoomsGrid_connected w h o hw hh a b ha hb,
   fun w h hw hh o a b ha hb => generateBSPGrid_connected w h o hw hh a b ha hb⟩

theorem C2_connectivity_amended_witness :
    ¬ (generateCellularGrid 7 7 czOracle).isBlocked 3 3 ∧
    (generateCellularGrid 7 7 czOracle).Reaches (3, 3) (3, 3) :=
  ⟨czFinal_nonblocked,
   C2_connectivity_amended.1 7 7 czOracle (3, 3) (3, 3) czFinal_nonblocked
     czFinal_nonblocked⟩

/-- C2 counterexample: the forest and village generators can produce
disconnected terrain.  A realizable village run (34x22, horizontal main
road, one accepted doorless 5x5 building) leaves the building interior
(26, 7) non-blocked but with no 4-directional non-blocked path to the
open cell (2, 2); a realizable forest run (30x30, four single-tree
clusters around the floor cell (7, 7)) leaves (7, 7) non-blocked but
sealed off from the open cell (3, 3).  In both runs the non-blocked
cells do not form a single connected component. -/
theorem C2_village_forest_counterexample :
    (¬ (generateVillageGrid 34 22 villageCExOracle).isBlocked 26 7 ∧
     ¬ (generateVillageGrid 34 22 villageCExOracle).isBlocked 2 2 ∧
     ¬ (generateVillageGrid 34 22 villageCExOracle).Reaches (26, 7) (2, 2)) ∧
    (¬ (generateForestGrid 30 30 forestCExOracle).isBlocked 7 7 ∧
     ¬ (generateForestGrid 30 30 forestCExOracle).isBlocked 3 3 ∧
     ¬ (generateForestGrid 30 30 forestCExOracle).Reaches (7, 7) (3, 3)) := by
  constructor
  · rw [villageCEx_grid]
    refine ⟨by decide, by decide, ?_⟩
    exact not_reaches_of_closed villageCExGrid
      [(25, 6), (26, 6), (27, 6), (25, 7), (26, 7), (27, 7), (25, 8), (26, 8), (27, 8)]
      (26, 7) (2, 2) (by decide) (by decide) (by decide)
  · rw [forestCEx_grid]
    refine ⟨by decide, by decide, ?_⟩
    exact not_reaches_of_closed forestCExGrid [(7, 7)] (7, 7) (3, 3)
      (by decide) (by decide) (by decide)

end Roguelike
